import Mathlib

/-! # Core Provenance Library: the ODBC backend (`backends/cpl-odbc/cpl-odbc.cpp`)

A shallow embedding of the relational backend.  The backend talks to a database through
ODBC; the database is represented by a `Store` (five tables, rows in insertion order), each
prepared statement by the meaning of the SQL text passed to `PREPARE` in `cpl_odbc_connect`,
and the ODBC driver by a handful of calls (`SQLExecute`, `SQLFetch`, `SQLGetData`,
`SQLCloseCursor`) that consult a script of injected failures before they act.

Every backend operation is a function from the backend state `cpl_odbc_t` to a return code,
its outputs and the next backend state.

Three helpers of the RDF backend (`backends/cpl-rdf/cpl-connection.cpp`) are embedded as
well: the parser of the value of a `<binding>` element and the two string encoders, over
strings as lists of bytes and buffers whose bytes may be indeterminate.
-/

namespace CPL

/-! ## Identifier and value types -/

/-- Return codes of `cpl.h` that the backend sources mention. -/
inductive cpl_return_t where
  | CPL_OK
  | CPL_S_NO_DATA
  | CPL_E_INVALID_ARGUMENT
  | CPL_E_INSUFFICIENT_RESOURCES
  | CPL_E_NOT_FOUND
  | CPL_E_ALREADY_EXISTS
  | CPL_E_DB_NULL
  | CPL_E_DB_KEY_NOT_FOUND
  | CPL_E_DB_INVALID_TYPE
  | CPL_E_STATEMENT_ERROR
  | CPL_E_PREPARE_STATEMENT_ERROR
  | CPL_E_DB_CONNECTION_ERROR
  | CPL_E_BACKEND_INTERNAL_ERROR
  | CPL_E_NOT_IMPLEMENTED
  | CPL_E_INTERNAL_ERROR
  deriving DecidableEq, Repr

open cpl_return_t

/-- Modelled from the spec: the macro `CPL_IS_OK` of the absent header `cpl.h`.  The success
kinds of the error taxonomy are `Ok` and `NoData` ("operation valid, empty result"); every
other kind is an error. -/
def CPL_IS_OK (r : cpl_return_t) : Bool :=
  match r with
  | CPL_OK => true
  | CPL_S_NO_DATA => true
  | _ => false

/-- Modelled from the spec: the macro `CPL_IS_SUCCESS` of the absent header `cpl.h`, the
same test as `CPL_IS_OK`. -/
def CPL_IS_SUCCESS (r : cpl_return_t) : Bool := CPL_IS_OK r

/-- The 128-bit identifier of objects and sessions: two 64-bit halves. -/
structure cpl_id_t where
  hi : Nat
  lo : Nat
  deriving DecidableEq, Repr

/-- Sessions are identified by the same 128-bit type. -/
abbrev cpl_session_t := cpl_id_t

/-- Modelled from the spec: `CPL_NONE` of the absent header `cpl.h`, the 128-bit zero. -/
def CPL_NONE : cpl_id_t := ⟨0, 0⟩

/-- Version numbers (`cpl_version_t`) are 32-bit signed integers, carried as `Int`. -/
abbrev cpl_version_t := Int

/-- Modelled from the spec: `CPL_VERSION_NONE` of the absent header `cpl.h`, the sentinel
version -1. -/
def CPL_VERSION_NONE : cpl_version_t := -1

/-- The C conversion of a wider integer to a 32-bit signed integer (`(int) l`,
`(cpl_version_t) l`): reduction modulo 2^32 into the range -2^31 .. 2^31 - 1. -/
def c_int (l : Int) : Int := (l + 2147483648) % 4294967296 - 2147483648

/-- Constants and macros of the absent header `cpl.h` that the ancestry and enumeration
operations refer to; they are parameters of the operations that use them. -/
structure cpl_h where
  CPL_D_ANCESTORS : Int
  CPL_A_NO_DATA_DEPENDENCIES : Int
  CPL_A_NO_CONTROL_DEPENDENCIES : Int
  CPL_DEPENDENCY_CATEGORY_DATA : Int
  CPL_DEPENDENCY_CATEGORY_CONTROL : Int
  CPL_GET_DEPENDENCY_CATEGORY : Int → Int
  CPL_I_NO_CREATION_SESSION : Int
  CPL_I_NO_VERSION : Int

/-- Modelled from the spec: `CPL_ODBC_A_SUPPORTED_FLAGS` of the absent header
`cpl-odbc-private.h`.  The relational backend honours `NO_DATA_DEPENDENCIES` and
`NO_CONTROL_DEPENDENCIES`; any other bit is unsupported. -/
def CPL_ODBC_A_SUPPORTED_FLAGS (H : cpl_h) : Int :=
  Int.lor H.CPL_A_NO_DATA_DEPENDENCIES H.CPL_A_NO_CONTROL_DEPENDENCIES

/-! ## The database: tables, cells, parameters -/

/-- One row of `cpl_sessions`. -/
structure SessionRow where
  id : cpl_id_t
  mac_address : Option String
  username : Option String
  pid : Int
  program : Option String
  cmdline : Option String
  initialization_time : Nat
  deriving DecidableEq, Repr

/-- One row of `cpl_objects`; the three container columns are nullable. -/
structure ObjectRow where
  id : cpl_id_t
  originator : Option String
  name : Option String
  type : Option String
  creation_time : Nat
  container_id_hi : Option Int
  container_id_lo : Option Int
  container_ver : Option Int
  deriving DecidableEq, Repr

/-- One row of `cpl_versions`. -/
structure VersionRow where
  id : cpl_id_t
  version : Int
  session_id : cpl_id_t
  creation_time : Nat
  deriving DecidableEq, Repr

/-- One row of `cpl_ancestry`; the dependency type is nullable. -/
structure AncestryRow where
  from_id : cpl_id_t
  from_version : Int
  to_id : cpl_id_t
  to_version : Int
  type : Option Int
  deriving DecidableEq, Repr

/-- One row of `cpl_properties`. -/
structure PropertyRow where
  id : cpl_id_t
  version : Int
  name : Option String
  value : Option String
  deriving DecidableEq, Repr

/-- The persistent store: the five tables, each in insertion order. -/
structure Store where
  sessions : List SessionRow
  objects : List ObjectRow
  versions : List VersionRow
  ancestry : List AncestryRow
  properties : List PropertyRow
  deriving DecidableEq, Repr

/-- The empty database. -/
def Store.empty : Store := ⟨[], [], [], [], []⟩

/-- One cell of a result set. -/
inductive Cell where
  | null
  | int (v : Int)
  | str (s : String)
  | ts (t : Nat)
  deriving DecidableEq, Repr

/-- A bound statement parameter: `SQL_BIND_INTEGER` binds the value converted to
`long long`, `SQL_BIND_VARCHAR` binds a column size and a string, or NULL for a null
pointer. -/
inductive Param where
  | integer (value : Int)
  | varchar (size : Nat) (value : Option String)
  deriving DecidableEq, Repr

/-- One diagnostic record of the driver (`cpl_odbc_error_record_t`). -/
structure cpl_odbc_error_record_t where
  state : String
  native : Int
  text : String
  deriving DecidableEq, Repr

/-- The prepared statements of `cpl_odbc_t`, named as the statement handles. -/
inductive Stmt where
  | create_session_insert_stmt
  | create_object_insert_stmt
  | create_object_insert_container_stmt
  | create_object_insert_version_stmt
  | lookup_object_stmt
  | lookup_object_ext_stmt
  | create_version_stmt
  | get_version_stmt
  | add_ancestry_edge_stmt
  | has_immediate_ancestor_stmt
  | has_immediate_ancestor_with_ver_stmt
  | add_property_stmt
  | get_session_info_stmt
  | get_all_objects_stmt
  | get_all_objects_with_session_stmt
  | get_object_info_stmt
  | get_version_info_stmt
  | get_object_ancestors_stmt
  | get_object_ancestors_with_ver_stmt
  | get_object_descendants_stmt
  | get_object_descendants_with_ver_stmt
  | get_properties_stmt
  | get_properties_with_ver_stmt
  | get_properties_with_key_stmt
  | get_properties_with_key_ver_stmt
  | lookup_by_property_stmt
  deriving DecidableEq, Repr

/-! ## The meaning of the prepared statements

The schema (the table definitions) is not part of the backend sources; the SQL text of each
statement is (`PREPARE` in `cpl_odbc_connect`).  The inserts are modelled with the
constraints that the specification gives for the five tables: the primary keys, the column
widths, and the references of its data model (the container of an object exists, a version
belongs to an object, both ends of an edge and the owner of a property are versions). -/

/-- A diagnostic chain of one record with the given SQLSTATE. -/
def diag (state : String) : List cpl_odbc_error_record_t := [⟨state, 0, ""⟩]

/-- The id made of two BIGINT columns. -/
def mk_id (hi lo : Int) : cpl_id_t := ⟨hi.toNat, lo.toNat⟩

/-- The cell of a nullable integer column. -/
def Cell.ofInt? : Option Int → Cell
  | none => Cell.null
  | some v => Cell.int v

/-- The cell of a nullable character column. -/
def Cell.ofStr? : Option String → Cell
  | none => Cell.null
  | some s => Cell.str s

/-- SQL equality of a character column with a parameter: NULL equals nothing. -/
def sql_eq (col p : Option String) : Bool :=
  match col, p with
  | some a, some b => a == b
  | _, _ => false

/-- The aggregate `MAX`: NULL over no rows. -/
def sql_max : List Int → Option Int
  | [] => none
  | x :: xs =>
    match sql_max xs with
    | none => some x
    | some m => some (max x m)

/-- Modelled from the spec: the column widths of the schema, which is not part of the
backend sources (originator 255, name 255, type 100, mac 18, user 255, program 4095,
cmdline 4095, property key 255, property value 4095).  They are the sizes the code passes
to `SQL_BIND_VARCHAR`; a value longer than its column is rejected by the insert. -/
def fits : Param → Bool
  | Param.integer _ => true
  | Param.varchar _ none => true
  | Param.varchar size (some s) => decide (s.length ≤ size)

/-- Places a row into a list ordered by decreasing creation time, ahead of the rows that
are not newer. -/
def insert_by_creation_time_desc (x : ObjectRow) : List ObjectRow → List ObjectRow
  | [] => [x]
  | y :: ys =>
    if y.creation_time ≤ x.creation_time then x :: y :: ys
    else y :: insert_by_creation_time_desc x ys

/-- The clause `ORDER BY creation_time DESC`. -/
def order_by_creation_time_desc : List ObjectRow → List ObjectRow
  | [] => []
  | x :: xs => insert_by_creation_time_desc x (order_by_creation_time_desc xs)

/-- Modelled from the spec: `PK (id_hi, id_lo)` of `cpl_sessions`. -/
def Store.has_session (db : Store) (id : cpl_id_t) : Bool :=
  db.sessions.any (fun r => decide (r.id = id))

/-- Modelled from the spec: `PK (id_hi, id_lo)` of `cpl_objects`. -/
def Store.has_object (db : Store) (id : cpl_id_t) : Bool :=
  db.objects.any (fun r => decide (r.id = id))

/-- Modelled from the spec: `PK (id_hi, id_lo, version)` of `cpl_versions`. -/
def Store.has_version (db : Store) (id : cpl_id_t) (version : Int) : Bool :=
  db.versions.any (fun r => decide (r.id = id) && decide (r.version = version))

/-- The outcome of a statement: a diagnostic chain, or the next store with the result set. -/
abbrev SqlResult := Except (List cpl_odbc_error_record_t) (Store × List (List Cell))

/-- Modelled from the spec: whether the container that an object row names is an object of
the database; a row without container names none. -/
def Store.has_container_of (db : Store) (row : ObjectRow) : Bool :=
  match row.container_id_hi, row.container_id_lo with
  | some hi, some lo => db.has_object (mk_id hi lo)
  | _, _ => true

/-- Modelled from the spec: the insert of a row into `cpl_objects` (both insert statements
of `create_object`) under the constraints of the schema, which is not part of the backend
sources: the column widths, the primary key `(id_hi, id_lo)`, and the reference of an
object to its container (if a container is set, it must exist).  A value longer than its
column is SQLSTATE 22001; a duplicate id and a container that does not exist are integrity
constraint violations, SQLSTATE 23000. -/
def sql_insert_object (db : Store) (row : ObjectRow) (ps : List Param) : SqlResult :=
  if !ps.all fits then Except.error (diag "22001")
  else if db.has_object row.id then Except.error (diag "23000")
  else if !db.has_container_of row then Except.error (diag "23000")
  else Except.ok ({ db with objects := db.objects ++ [row] }, [])

/-- Modelled from the spec: the insert of a row into `cpl_versions`
(`create_object_insert_version_stmt`, `create_version_stmt`) under the constraints of the
schema, which is not part of the backend sources: the primary key `(id_hi, id_lo, version)`
and the reference of a version to its object (version 0 is created with the object, later
versions belong to an object).  A duplicate `(id, version)` and a version of an id without
an Object row are integrity constraint violations, SQLSTATE 23000. -/
def sql_insert_version (db : Store) (row : VersionRow) : SqlResult :=
  if db.has_version row.id row.version then Except.error (diag "23000")
  else if !db.has_object row.id then Except.error (diag "23000")
  else Except.ok ({ db with versions := db.versions ++ [row] }, [])

/-- `INSERT INTO cpl_sessions (id_hi, id_lo, mac_address, username, pid, program, cmdline)
VALUES (?, ?, ?, ?, ?, ?, ?)`. -/
def sql_create_session_insert (db : Store) (now : Nat) (ps : List Param) : SqlResult :=
  match ps with
  | [Param.integer hi, Param.integer lo, Param.varchar _ mac, Param.varchar _ user,
      Param.integer pid, Param.varchar _ program, Param.varchar _ cmdline] =>
    if !ps.all fits then Except.error (diag "22001")
    else if db.has_session (mk_id hi lo) then Except.error (diag "23000")
    else Except.ok ({ db with sessions := db.sessions ++
      [⟨mk_id hi lo, mac, user, pid, program, cmdline, now⟩] }, [])
  | _ => Except.error (diag "07002")

/-- `INSERT INTO cpl_objects (id_hi, id_lo, originator, name, type) VALUES (?, ?, ?, ?, ?)`. -/
def sql_create_object_insert (db : Store) (now : Nat) (ps : List Param) : SqlResult :=
  match ps with
  | [Param.integer hi, Param.integer lo, Param.varchar _ originator, Param.varchar _ name,
      Param.varchar _ type] =>
    sql_insert_object db ⟨mk_id hi lo, originator, name, type, now, none, none, none⟩ ps
  | _ => Except.error (diag "07002")

/-- `INSERT INTO cpl_objects (id_hi, id_lo, originator, name, type, container_id_hi,
container_id_lo, container_ver) VALUES (?, ?, ?, ?, ?, ?, ?, ?)`. -/
def sql_create_object_insert_container (db : Store) (now : Nat) (ps : List Param) :
    SqlResult :=
  match ps with
  | [Param.integer hi, Param.integer lo, Param.varchar _ originator, Param.varchar _ name,
      Param.varchar _ type, Param.integer chi, Param.integer clo, Param.integer cver] =>
    sql_insert_object db
      ⟨mk_id hi lo, originator, name, type, now, some chi, some clo, some cver⟩ ps
  | _ => Except.error (diag "07002")

/-- `INSERT INTO cpl_versions (id_hi, id_lo, version, session_id_hi, session_id_lo)
VALUES (?, ?, 0, ?, ?)`. -/
def sql_create_object_insert_version (db : Store) (now : Nat) (ps : List Param) :
    SqlResult :=
  match ps with
  | [Param.integer hi, Param.integer lo, Param.integer shi, Param.integer slo] =>
    sql_insert_version db ⟨mk_id hi lo, 0, mk_id shi slo, now⟩
  | _ => Except.error (diag "07002")

/-- `INSERT INTO cpl_versions (id_hi, id_lo, version, session_id_hi, session_id_lo)
VALUES (?, ?, ?, ?, ?)`. -/
def sql_create_version (db : Store) (now : Nat) (ps : List Param) : SqlResult :=
  match ps with
  | [Param.integer hi, Param.integer lo, Param.integer version, Param.integer shi,
      Param.integer slo] =>
    sql_insert_version db ⟨mk_id hi lo, version, mk_id shi slo, now⟩
  | _ => Except.error (diag "07002")

/-- The rows of `cpl_objects` with `originator = ? AND name = ? AND type = ?`. -/
def Store.objects_named (db : Store) (originator name type : Option String) :
    List ObjectRow :=
  db.objects.filter
    (fun r => sql_eq r.originator originator && sql_eq r.name name && sql_eq r.type type)

/-- `SELECT id_hi, id_lo FROM cpl_objects WHERE originator = ? AND name = ? AND type = ?
ORDER BY creation_time DESC LIMIT 1`. -/
def sql_lookup_object (db : Store) (ps : List Param) : SqlResult :=
  match ps with
  | [Param.varchar _ originator, Param.varchar _ name, Param.varchar _ type] =>
    Except.ok (db, ((order_by_creation_time_desc (db.objects_named originator name type)).take
      1).map (fun r => [Cell.int r.id.hi, Cell.int r.id.lo]))
  | _ => Except.error (diag "07002")

/-- `SELECT id_hi, id_lo, creation_time FROM cpl_objects WHERE originator = ? AND name = ?
AND type = ?`. -/
def sql_lookup_object_ext (db : Store) (ps : List Param) : SqlResult :=
  match ps with
  | [Param.varchar _ originator, Param.varchar _ name, Param.varchar _ type] =>
    Except.ok (db, (db.objects_named originator name type).map
      (fun r => [Cell.int r.id.hi, Cell.int r.id.lo, Cell.ts r.creation_time]))
  | _ => Except.error (diag "07002")

/-- The versions recorded for an object, in table order. -/
def Store.versions_of (db : Store) (id : cpl_id_t) : List Int :=
  (db.versions.filter (fun r => decide (r.id = id))).map (fun r => r.version)

/-- `SELECT MAX(version) FROM cpl_versions WHERE id_hi = ? AND id_lo = ?`: always one row. -/
def sql_get_version (db : Store) (ps : List Param) : SqlResult :=
  match ps with
  | [Param.integer hi, Param.integer lo] =>
    Except.ok (db, [[Cell.ofInt? (sql_max (db.versions_of (mk_id hi lo)))]])
  | _ => Except.error (diag "07002")

/-- Modelled from the spec: `INSERT INTO cpl_ancestry (from_id_hi, from_id_lo, from_version,
to_id_hi, to_id_lo, to_version, type) VALUES (?, ?, ?, ?, ?, ?, ?)` under the constraint of
the schema, which is not part of the backend sources: both node references of an edge,
`(from_id, from_version)` and `(to_id, to_version)`, must be rows of `cpl_versions`.  An
edge with a reference that is not is an integrity constraint violation, SQLSTATE 23000. -/
def sql_add_ancestry_edge (db : Store) (ps : List Param) : SqlResult :=
  match ps with
  | [Param.integer fhi, Param.integer flo, Param.integer fver, Param.integer thi,
      Param.integer tlo, Param.integer tver, Param.integer type] =>
    if !db.has_version (mk_id fhi flo) fver || !db.has_version (mk_id thi tlo) tver then
      Except.error (diag "23000")
    else Except.ok ({ db with ancestry := db.ancestry ++
      [⟨mk_id fhi flo, fver, mk_id thi tlo, tver, some type⟩] }, [])
  | _ => Except.error (diag "07002")

/-- `SELECT to_version FROM cpl_ancestry WHERE to_id_hi = ? AND to_id_lo = ? AND
to_version <= ? AND from_id_hi = ? AND from_id_lo = ? LIMIT 1`. -/
def sql_has_immediate_ancestor (db : Store) (ps : List Param) : SqlResult :=
  match ps with
  | [Param.integer thi, Param.integer tlo, Param.integer tver, Param.integer fhi,
      Param.integer flo] =>
    Except.ok (db, ((db.ancestry.filter (fun e =>
      decide (e.to_id = mk_id thi tlo) && decide (e.to_version ≤ tver)
        && decide (e.from_id = mk_id fhi flo))).take 1).map
      (fun e => [Cell.int e.to_version]))
  | _ => Except.error (diag "07002")

/-- `SELECT to_version FROM cpl_ancestry WHERE to_id_hi = ? AND to_id_lo = ? AND
to_version <= ? AND from_id_hi = ? AND from_id_lo = ? AND from_version <= ? LIMIT 1`. -/
def sql_has_immediate_ancestor_with_ver (db : Store) (ps : List Param) : SqlResult :=
  match ps with
  | [Param.integer thi, Param.integer tlo, Param.integer tver, Param.integer fhi,
      Param.integer flo, Param.integer fver] =>
    Except.ok (db, ((db.ancestry.filter (fun e =>
      decide (e.to_id = mk_id thi tlo) && decide (e.to_version ≤ tver)
        && decide (e.from_id = mk_id fhi flo) && decide (e.from_version ≤ fver))).take 1).map
      (fun e => [Cell.int e.to_version]))
  | _ => Except.error (diag "07002")

/-- Modelled from the spec: `INSERT INTO cpl_properties (id_hi, id_lo, version, name, value)
VALUES (?, ?, ?, ?, ?)` under the constraints of the schema, which is not part of the
backend sources: the column widths, and the reference of a property to its version
(`(id, version)` must be a row of `cpl_versions`).  A value longer than its column is
SQLSTATE 22001; a property of a version that does not exist is an integrity constraint
violation, SQLSTATE 23000. -/
def sql_add_property (db : Store) (ps : List Param) : SqlResult :=
  match ps with
  | [Param.integer hi, Param.integer lo, Param.integer version, Param.varchar _ name,
      Param.varchar _ value] =>
    if !ps.all fits then Except.error (diag "22001")
    else if !db.has_version (mk_id hi lo) version then Except.error (diag "23000")
    else Except.ok ({ db with properties := db.properties ++
      [⟨mk_id hi lo, version, name, value⟩] }, [])
  | _ => Except.error (diag "07002")

/-- The nine object columns that `get_all_objects` selects. -/
def ObjectRow.cells (o : ObjectRow) : List Cell :=
  [Cell.int o.id.hi, Cell.int o.id.lo, Cell.ts o.creation_time, Cell.ofStr? o.originator,
    Cell.ofStr? o.name, Cell.ofStr? o.type, Cell.ofInt? o.container_id_hi,
    Cell.ofInt? o.container_id_lo, Cell.ofInt? o.container_ver]

/-- `SELECT id_hi, id_lo, creation_time, originator, name, type, container_id_hi,
container_id_lo, container_ver FROM cpl_objects`. -/
def sql_get_all_objects (db : Store) (ps : List Param) : SqlResult :=
  match ps with
  | [] => Except.ok (db, db.objects.map ObjectRow.cells)
  | _ => Except.error (diag "07002")

/-- The rows of `cpl_versions` with the id of the object and `version = 0`. -/
def Store.version0_of (db : Store) (id : cpl_id_t) : List VersionRow :=
  db.versions.filter (fun v => decide (v.id = id) && decide (v.version = 0))

/-- `SELECT cpl_objects.id_hi, cpl_objects.id_lo, cpl_objects.creation_time, originator,
name, type, container_id_hi, container_id_lo, container_ver, session_id_hi, session_id_lo
FROM cpl_objects, cpl_versions WHERE cpl_objects.id_hi = cpl_versions.id_hi AND
cpl_objects.id_lo = cpl_versions.id_lo AND version = 0`. -/
def sql_get_all_objects_with_session (db : Store) (ps : List Param) : SqlResult :=
  match ps with
  | [] => Except.ok (db, db.objects.flatMap (fun o => (db.version0_of o.id).map
      (fun v => o.cells ++ [Cell.int v.session_id.hi, Cell.int v.session_id.lo])))
  | _ => Except.error (diag "07002")

/-- `SELECT session_id_hi, session_id_lo, cpl_objects.creation_time, originator, name,
type, container_id_hi, container_id_lo, container_ver FROM cpl_objects, cpl_versions
WHERE cpl_objects.id_hi = ? AND cpl_objects.id_lo = ? AND cpl_objects.id_hi =
cpl_versions.id_hi AND cpl_objects.id_lo = cpl_versions.id_lo AND version = 0 LIMIT 1`. -/
def sql_get_object_info (db : Store) (ps : List Param) : SqlResult :=
  match ps with
  | [Param.integer hi, Param.integer lo] =>
    Except.ok (db, (((db.objects.filter (fun o => decide (o.id = mk_id hi lo))).flatMap
      (fun o => (db.version0_of o.id).map (fun v =>
        [Cell.int v.session_id.hi, Cell.int v.session_id.lo, Cell.ts o.creation_time,
          Cell.ofStr? o.originator, Cell.ofStr? o.name, Cell.ofStr? o.type,
          Cell.ofInt? o.container_id_hi, Cell.ofInt? o.container_id_lo,
          Cell.ofInt? o.container_ver]))).take 1))
  | _ => Except.error (diag "07002")

/-- `SELECT mac_address, username, pid, program, cmdline, initialization_time
FROM cpl_sessions WHERE id_hi = ? AND id_lo = ? LIMIT 1`. -/
def sql_get_session_info (db : Store) (ps : List Param) : SqlResult :=
  match ps with
  | [Param.integer hi, Param.integer lo] =>
    Except.ok (db, ((db.sessions.filter (fun r => decide (r.id = mk_id hi lo))).take 1).map
      (fun r => [Cell.ofStr? r.mac_address, Cell.ofStr? r.username, Cell.int r.pid,
        Cell.ofStr? r.program, Cell.ofStr? r.cmdline, Cell.ts r.initialization_time]))
  | _ => Except.error (diag "07002")

/-- `SELECT session_id_hi, session_id_lo, creation_time FROM cpl_versions
WHERE id_hi = ? AND id_lo = ? AND version = ? LIMIT 1`. -/
def sql_get_version_info (db : Store) (ps : List Param) : SqlResult :=
  match ps with
  | [Param.integer hi, Param.integer lo, Param.integer version] =>
    Except.ok (db, ((db.versions.filter (fun r =>
      decide (r.id = mk_id hi lo) && decide (r.version = version))).take 1).map
      (fun r => [Cell.int r.session_id.hi, Cell.int r.session_id.lo,
        Cell.ts r.creation_time]))
  | _ => Except.error (diag "07002")

/-- The columns `to_id_hi, to_id_lo, to_version, from_version, type` of an edge. -/
def AncestryRow.ancestor_cells (e : AncestryRow) : List Cell :=
  [Cell.int e.to_id.hi, Cell.int e.to_id.lo, Cell.int e.to_version,
    Cell.int e.from_version, Cell.ofInt? e.type]

/-- The columns `from_id_hi, from_id_lo, from_version, to_version, type` of an edge. -/
def AncestryRow.descendant_cells (e : AncestryRow) : List Cell :=
  [Cell.int e.from_id.hi, Cell.int e.from_id.lo, Cell.int e.from_version,
    Cell.int e.to_version, Cell.ofInt? e.type]

/-- `SELECT to_id_hi, to_id_lo, to_version, from_version, type FROM cpl_ancestry
WHERE from_id_hi = ? AND from_id_lo = ?`. -/
def sql_get_object_ancestors (db : Store) (ps : List Param) : SqlResult :=
  match ps with
  | [Param.integer hi, Param.integer lo] =>
    Except.ok (db, (db.ancestry.filter (fun e => decide (e.from_id = mk_id hi lo))).map
      AncestryRow.ancestor_cells)
  | _ => Except.error (diag "07002")

/-- `SELECT to_id_hi, to_id_lo, to_version, from_version, type FROM cpl_ancestry
WHERE from_id_hi = ? AND from_id_lo = ? AND from_version = ?`. -/
def sql_get_object_ancestors_with_ver (db : Store) (ps : List Param) : SqlResult :=
  match ps with
  | [Param.integer hi, Param.integer lo, Param.integer version] =>
    Except.ok (db, (db.ancestry.filter (fun e =>
      decide (e.from_id = mk_id hi lo) && decide (e.from_version = version))).map
      AncestryRow.ancestor_cells)
  | _ => Except.error (diag "07002")

/-- `SELECT from_id_hi, from_id_lo, from_version, to_version, type FROM cpl_ancestry
WHERE to_id_hi = ? AND to_id_lo = ?`. -/
def sql_get_object_descendants (db : Store) (ps : List Param) : SqlResult :=
  match ps with
  | [Param.integer hi, Param.integer lo] =>
    Except.ok (db, (db.ancestry.filter (fun e => decide (e.to_id = mk_id hi lo))).map
      AncestryRow.descendant_cells)
  | _ => Except.error (diag "07002")

/-- `SELECT from_id_hi, from_id_lo, from_version, to_version, type FROM cpl_ancestry
WHERE to_id_hi = ? AND to_id_lo = ? AND to_version = ?`. -/
def sql_get_object_descendants_with_ver (db : Store) (ps : List Param) : SqlResult :=
  match ps with
  | [Param.integer hi, Param.integer lo, Param.integer version] =>
    Except.ok (db, (db.ancestry.filter (fun e =>
      decide (e.to_id = mk_id hi lo) && decide (e.to_version = version))).map
      AncestryRow.descendant_cells)
  | _ => Except.error (diag "07002")

/-- The columns `id_hi, id_lo, version, name, value` of a property. -/
def PropertyRow.cells (r : PropertyRow) : List Cell :=
  [Cell.int r.id.hi, Cell.int r.id.lo, Cell.int r.version, Cell.ofStr? r.name,
    Cell.ofStr? r.value]

/-- `SELECT id_hi, id_lo, version, name, value FROM cpl_properties
WHERE id_hi = ? AND id_lo = ?`. -/
def sql_get_properties (db : Store) (ps : List Param) : SqlResult :=
  match ps with
  | [Param.integer hi, Param.integer lo] =>
    Except.ok (db, (db.properties.filter (fun r => decide (r.id = mk_id hi lo))).map
      PropertyRow.cells)
  | _ => Except.error (diag "07002")

/-- `SELECT id_hi, id_lo, version, name, value FROM cpl_properties
WHERE id_hi = ? AND id_lo = ? AND version = ?`. -/
def sql_get_properties_with_ver (db : Store) (ps : List Param) : SqlResult :=
  match ps with
  | [Param.integer hi, Param.integer lo, Param.integer version] =>
    Except.ok (db, (db.properties.filter (fun r =>
      decide (r.id = mk_id hi lo) && decide (r.version = version))).map PropertyRow.cells)
  | _ => Except.error (diag "07002")

/-- `SELECT id_hi, id_lo, version, name, value FROM cpl_properties
WHERE id_hi = ? AND id_lo = ? AND name = ?`. -/
def sql_get_properties_with_key (db : Store) (ps : List Param) : SqlResult :=
  match ps with
  | [Param.integer hi, Param.integer lo, Param.varchar _ key] =>
    Except.ok (db, (db.properties.filter (fun r =>
      decide (r.id = mk_id hi lo) && sql_eq r.name key)).map PropertyRow.cells)
  | _ => Except.error (diag "07002")

/-- `SELECT id_hi, id_lo, version, name, value FROM cpl_properties
WHERE id_hi = ? AND id_lo = ? AND name = ? AND version = ?`. -/
def sql_get_properties_with_key_ver (db : Store) (ps : List Param) : SqlResult :=
  match ps with
  | [Param.integer hi, Param.integer lo, Param.varchar _ key, Param.integer version] =>
    Except.ok (db, (db.properties.filter (fun r =>
      decide (r.id = mk_id hi lo) && sql_eq r.name key && decide (r.version = version))).map
      PropertyRow.cells)
  | _ => Except.error (diag "07002")

/-- `SELECT id_hi, id_lo, version FROM cpl_properties WHERE name = ? AND value = ?`. -/
def sql_lookup_by_property (db : Store) (ps : List Param) : SqlResult :=
  match ps with
  | [Param.varchar _ key, Param.varchar _ value] =>
    Except.ok (db, (db.properties.filter (fun r =>
      sql_eq r.name key && sql_eq r.value value)).map
      (fun r => [Cell.int r.id.hi, Cell.int r.id.lo, Cell.int r.version]))
  | _ => Except.error (diag "07002")

/-- The database executes a prepared statement with its bound parameters at time `now`
(the value of `DEFAULT now` columns). -/
def Store.execute (db : Store) (now : Nat) (s : Stmt) (ps : List Param) : SqlResult :=
  match s with
  | Stmt.create_session_insert_stmt => sql_create_session_insert db now ps
  | Stmt.create_object_insert_stmt => sql_create_object_insert db now ps
  | Stmt.create_object_insert_container_stmt => sql_create_object_insert_container db now ps
  | Stmt.create_object_insert_version_stmt => sql_create_object_insert_version db now ps
  | Stmt.lookup_object_stmt => sql_lookup_object db ps
  | Stmt.lookup_object_ext_stmt => sql_lookup_object_ext db ps
  | Stmt.create_version_stmt => sql_create_version db now ps
  | Stmt.get_version_stmt => sql_get_version db ps
  | Stmt.add_ancestry_edge_stmt => sql_add_ancestry_edge db ps
  | Stmt.has_immediate_ancestor_stmt => sql_has_immediate_ancestor db ps
  | Stmt.has_immediate_ancestor_with_ver_stmt => sql_has_immediate_ancestor_with_ver db ps
  | Stmt.add_property_stmt => sql_add_property db ps
  | Stmt.get_session_info_stmt => sql_get_session_info db ps
  | Stmt.get_all_objects_stmt => sql_get_all_objects db ps
  | Stmt.get_all_objects_with_session_stmt => sql_get_all_objects_with_session db ps
  | Stmt.get_object_info_stmt => sql_get_object_info db ps
  | Stmt.get_version_info_stmt => sql_get_version_info db ps
  | Stmt.get_object_ancestors_stmt => sql_get_object_ancestors db ps
  | Stmt.get_object_ancestors_with_ver_stmt => sql_get_object_ancestors_with_ver db ps
  | Stmt.get_object_descendants_stmt => sql_get_object_descendants db ps
  | Stmt.get_object_descendants_with_ver_stmt => sql_get_object_descendants_with_ver db ps
  | Stmt.get_properties_stmt => sql_get_properties db ps
  | Stmt.get_properties_with_ver_stmt => sql_get_properties_with_ver db ps
  | Stmt.get_properties_with_key_stmt => sql_get_properties_with_key db ps
  | Stmt.get_properties_with_key_ver_stmt => sql_get_properties_with_key_ver db ps
  | Stmt.lookup_by_property_stmt => sql_lookup_by_property db ps

/-! ## The driver -/

/-- The per-operation mutexes of `cpl_odbc_t`. -/
inductive Mutex where
  | create_session_lock
  | create_object_lock
  | lookup_object_lock
  | lookup_object_ext_lock
  | create_version_lock
  | get_version_lock
  | add_ancestry_edge_lock
  | has_immediate_ancestor_lock
  | add_property_lock
  | get_session_info_lock
  | get_all_objects_lock
  | get_object_info_lock
  | get_version_info_lock
  | get_object_ancestry_lock
  | get_properties_lock
  | lookup_by_property_lock
  deriving DecidableEq, Repr

/-- What the backend does to its mutexes and its connection, in program order. -/
inductive Event where
  | lock (m : Mutex)
  | unlock (m : Mutex)
  | execute (s : Stmt)
  | reconnect
  deriving DecidableEq, Repr

/-- The backend structure: the database behind the connection, the database clock, the
failures the driver is going to report (one entry per driver call: `none` lets the call
through, `some d` makes it fail with the diagnostic chain `d`; an exhausted script lets
every call through), the log of lock and connection events, and the two libc conversions
that `cpl_sql_timestamp_to_unix_time` relies on. -/
structure cpl_odbc_t where
  db : Store
  now : Nat
  script : List (Option (List cpl_odbc_error_record_t))
  trace : List Event
  mktime : Nat → Nat
  localtime_isdst : Nat → Bool

/-- Return codes of the driver. -/
inductive SQLRETURN where
  | SQL_SUCCESS
  | SQL_SUCCESS_WITH_INFO
  | SQL_NO_DATA
  | SQL_ERROR
  | SQL_INVALID_HANDLE
  deriving DecidableEq, Repr

open SQLRETURN

/-- The macro `SQL_SUCCEEDED` of the ODBC headers. -/
def SQL_SUCCEEDED (ret : SQLRETURN) : Bool :=
  match ret with
  | SQL_SUCCESS => true
  | SQL_SUCCESS_WITH_INFO => true
  | _ => false

/-- The next entry of the failure script, consumed by one driver call. -/
def driver_next (odbc : cpl_odbc_t) : Option (List cpl_odbc_error_record_t) × cpl_odbc_t :=
  match odbc.script with
  | [] => (none, odbc)
  | x :: rest => (x, { odbc with script := rest })

/-- Appends an event to the log. -/
def log (odbc : cpl_odbc_t) (e : Event) : cpl_odbc_t :=
  { odbc with trace := odbc.trace ++ [e] }

/-- Takes a per-operation mutex. -/
def mutex_lock (odbc : cpl_odbc_t) (m : Mutex) : cpl_odbc_t := log odbc (Event.lock m)

/-- Releases a per-operation mutex. -/
def mutex_unlock (odbc : cpl_odbc_t) (m : Mutex) : cpl_odbc_t := log odbc (Event.unlock m)

/-- A statement handle after `SQLExecute`: the rows still to be fetched, the row the cursor
is on, and whether the cursor is open. -/
structure SQLHSTMT where
  pending : List (List Cell)
  current : List Cell
  cursor_open : Bool
  deriving DecidableEq, Repr

/-- `SQLExecute` on a prepared statement with its bound parameters: the driver fails with
the injected diagnostics, or the database runs the statement. -/
def SQLExecute (odbc : cpl_odbc_t) (s : Stmt) (ps : List Param) :
    Except (List cpl_odbc_error_record_t) SQLHSTMT × cpl_odbc_t :=
  match driver_next (log odbc (Event.execute s)) with
  | (some d, o) => (Except.error d, o)
  | (none, o) =>
    match o.db.execute o.now s ps with
    | Except.error d => (Except.error d, o)
    | Except.ok (db, rows) => (Except.ok ⟨rows, [], true⟩, { o with db := db })

/-- `SQLFetch`: advances the cursor to the next row. -/
def SQLFetch (odbc : cpl_odbc_t) (stmt : SQLHSTMT) : SQLRETURN × SQLHSTMT × cpl_odbc_t :=
  match driver_next odbc with
  | (some _, o) => (SQL_ERROR, stmt, o)
  | (none, o) =>
    match stmt.pending with
    | [] => (SQL_NO_DATA, stmt, o)
    | row :: rest => (SQL_SUCCESS, { stmt with pending := rest, current := row }, o)

/-- The length indicator the driver reports for a cell: `SQL_NULL_DATA` (-1) for NULL, the
byte length otherwise. -/
def Cell.indicator : Cell → Int
  | Cell.null => -1
  | Cell.int _ => 8
  | Cell.str s => s.length
  | Cell.ts _ => 16

/-- What lands in a buffer of `buffer_length` bytes: character data is cut to leave room
for the terminator; `buffer_length` 0 stands for a fixed-size C type. -/
def Cell.truncate (buffer_length : Nat) : Cell → Cell
  | Cell.str s => Cell.str (String.mk (s.data.take (buffer_length - 1)))
  | c => c

/-- `SQLGetData` on a column of the current row: the return code, the data and the length
indicator. -/
def SQLGetData (odbc : cpl_odbc_t) (stmt : SQLHSTMT) (column : Nat) (buffer_length : Nat) :
    SQLRETURN × Cell × Int × cpl_odbc_t :=
  match driver_next odbc with
  | (some _, o) => (SQL_ERROR, Cell.null, 0, o)
  | (none, o) =>
    match stmt.current.get? (column - 1) with
    | none => (SQL_ERROR, Cell.null, 0, o)
    | some c => (SQL_SUCCESS, c.truncate buffer_length, c.indicator, o)

/-- `SQLCloseCursor`: closes the cursor and discards the pending rows. -/
def SQLCloseCursor (odbc : cpl_odbc_t) (stmt : SQLHSTMT) : SQLRETURN × SQLHSTMT × cpl_odbc_t :=
  match driver_next odbc with
  | (some _, o) => (SQL_ERROR, stmt, o)
  | (none, o) =>
    (if stmt.cursor_open then SQL_SUCCESS else SQL_ERROR,
      { stmt with pending := [], cursor_open := false }, o)

/-- A backend connected to the given database at the given database time, with a driver
that reports no failure and an empty event log. -/
def connected (db : Store) (now : Nat) : cpl_odbc_t :=
  ⟨db, now, [], [], fun t => t, fun _ => false⟩

/-! ## Private API of `cpl-odbc.cpp` -/

/-- `fetch_odbc_error`: collects the diagnostic records of the failed handle. -/
def fetch_odbc_error (d : List cpl_odbc_error_record_t) : List cpl_odbc_error_record_t := d

/-- `should_reconnect_due_to_odbc_error`. -/
def should_reconnect_due_to_odbc_error (errors : List cpl_odbc_error_record_t) : Bool :=
  if errors.isEmpty then false
  else if errors.length ≠ 1 then false
  else
    match errors.head? with
    | some r => if r.state = "08S01" then true else false
    | none => false

/-- `cpl_odbc_reconnect`: disconnects and connects again; the database itself is the same
after the reconnect.  The connect fails when the driver reports a failure. -/
def cpl_odbc_reconnect (odbc : cpl_odbc_t) : cpl_return_t × cpl_odbc_t :=
  match driver_next (log odbc Event.reconnect) with
  | (some _, o) => (CPL_E_DB_CONNECTION_ERROR, o)
  | (none, o) => (CPL_OK, o)

/-- The macro `SQL_EXECUTE_EXT` together with the statements between its `retry` label and
itself (binding the parameters, which does not depend on the retry): executes the
statement and, on a failure that calls for a reconnect, reconnects and retries while
`retries_left` is positive.  `none` stands for the jump to the error label. -/
def SQL_EXECUTE_EXT (s : Stmt) (ps : List Param) :
    Nat → cpl_odbc_t → Option SQLHSTMT × Nat × cpl_odbc_t
  | retries_left, odbc =>
    match SQLExecute odbc s ps with
    | (Except.ok stmt, o) => (some stmt, retries_left, o)
    | (Except.error d, o) =>
      if should_reconnect_due_to_odbc_error (fetch_odbc_error d) then
        match retries_left with
        | 0 => (none, 0, o)
        | n + 1 =>
          match cpl_odbc_reconnect o with
          | (r, o2) => if CPL_IS_OK r then SQL_EXECUTE_EXT s ps n o2 else (none, n, o2)
      else (none, retries_left, o)

/-- The label `err` of `cpl_sql_fetch_single_value`: closes the cursor and returns
`CPL_E_STATEMENT_ERROR`. -/
def cpl_sql_fetch_single_value.err (odbc : cpl_odbc_t) (stmt : SQLHSTMT) :
    cpl_return_t × Cell × SQLHSTMT × cpl_odbc_t :=
  match SQLCloseCursor odbc stmt with
  | (_, st, o) => (CPL_E_STATEMENT_ERROR, Cell.null, st, o)

/-- The label `err_nf` of `cpl_sql_fetch_single_value`: closes the cursor and returns
`CPL_E_NOT_FOUND`. -/
def cpl_sql_fetch_single_value.err_nf (odbc : cpl_odbc_t) (stmt : SQLHSTMT) :
    cpl_return_t × Cell × SQLHSTMT × cpl_odbc_t :=
  match SQLCloseCursor odbc stmt with
  | (_, st, o) => (CPL_E_NOT_FOUND, Cell.null, st, o)

/-- The label `err_null` of `cpl_sql_fetch_single_value`: closes the cursor unless nulls
are handled, and returns `CPL_E_DB_NULL` or `CPL_E_NOT_FOUND`. -/
def cpl_sql_fetch_single_value.err_null (odbc : cpl_odbc_t) (stmt : SQLHSTMT)
    (handle_nulls : Bool) : cpl_return_t × Cell × SQLHSTMT × cpl_odbc_t :=
  if !handle_nulls then
    match SQLCloseCursor odbc stmt with
    | (_, st, o) => (CPL_E_NOT_FOUND, Cell.null, st, o)
  else (CPL_E_DB_NULL, Cell.null, stmt, odbc)

/-- The part of `cpl_sql_fetch_single_value` from the call of `SQLGetData` on. -/
def cpl_sql_fetch_single_value.get_data (odbc : cpl_odbc_t) (stmt : SQLHSTMT)
    (buffer_length : Nat) (column : Nat) (close_if_ok handle_nulls : Bool) :
    cpl_return_t × Cell × SQLHSTMT × cpl_odbc_t :=
  match SQLGetData odbc stmt column buffer_length with
  | (ret, data, cb, o) =>
    if ret = SQL_NO_DATA then cpl_sql_fetch_single_value.err_null o stmt handle_nulls
    else if !SQL_SUCCEEDED ret then cpl_sql_fetch_single_value.err o stmt
    else if cb ≤ 0 then cpl_sql_fetch_single_value.err_null o stmt handle_nulls
    else if close_if_ok then
      match SQLCloseCursor o stmt with
      | (ret2, st2, o2) =>
        if !SQL_SUCCEEDED ret2 then cpl_sql_fetch_single_value.err o2 st2
        else (CPL_OK, data, st2, o2)
    else (CPL_OK, data, stmt, o)

/-- `cpl_sql_fetch_single_value`: reads one cell of the result set; closes the cursor on
error and, if `close_if_ok`, on success.  Returns the code, the data read, the statement
handle and the backend. -/
def cpl_sql_fetch_single_value (odbc : cpl_odbc_t) (stmt : SQLHSTMT) (buffer_length : Nat)
    (column : Nat) (fetch close_if_ok handle_nulls : Bool) :
    cpl_return_t × Cell × SQLHSTMT × cpl_odbc_t :=
  if fetch then
    match SQLFetch odbc stmt with
    | (ret, st, o) =>
      if ret = SQL_NO_DATA then cpl_sql_fetch_single_value.err_nf o st
      else if !SQL_SUCCEEDED ret then cpl_sql_fetch_single_value.err o st
      else cpl_sql_fetch_single_value.get_data o st buffer_length column close_if_ok
        handle_nulls
  else
    cpl_sql_fetch_single_value.get_data odbc stmt buffer_length column close_if_ok handle_nulls

/-- The data of a cell read as `SQL_C_SBIGINT`; the local stays 0 when the driver wrote
no integer. -/
def Cell.as_llong : Cell → Int
  | Cell.int l => l
  | _ => 0

/-- The data of a cell read as `SQL_C_TYPE_TIMESTAMP`. -/
def Cell.as_timestamp : Cell → Nat
  | Cell.ts t => t
  | _ => 0

/-- The data of a cell read as `SQL_C_CHAR`. -/
def Cell.as_string : Cell → String
  | Cell.str v => v
  | _ => ""

/-- `cpl_sql_fetch_single_llong`: the cell as a 64-bit integer. -/
def cpl_sql_fetch_single_llong (odbc : cpl_odbc_t) (stmt : SQLHSTMT) (column : Nat)
    (fetch close_if_ok handle_nulls : Bool) : cpl_return_t × Int × SQLHSTMT × cpl_odbc_t :=
  match cpl_sql_fetch_single_value odbc stmt 0 column fetch close_if_ok handle_nulls with
  | (r, data, st, o) =>
    if !CPL_IS_OK r then (r, 0, st, o) else (CPL_OK, data.as_llong, st, o)

/-- `cpl_sql_timestamp_to_unix_time`: the wall-clock timestamp is converted with `mktime`
and one hour is subtracted when the resulting local time is in daylight-saving time. -/
def cpl_sql_timestamp_to_unix_time (odbc : cpl_odbc_t) (t : Nat) : Nat :=
  if odbc.localtime_isdst (odbc.mktime t) then odbc.mktime t - 3600 else odbc.mktime t

/-- `cpl_sql_fetch_single_timestamp_as_unix_time`. -/
def cpl_sql_fetch_single_timestamp_as_unix_time (odbc : cpl_odbc_t) (stmt : SQLHSTMT)
    (column : Nat) (fetch close_if_ok handle_nulls : Bool) :
    cpl_return_t × Nat × SQLHSTMT × cpl_odbc_t :=
  match cpl_sql_fetch_single_value odbc stmt 16 column fetch close_if_ok handle_nulls with
  | (r, data, st, o) =>
    if !CPL_IS_OK r then (r, 0, st, o)
    else (CPL_OK, cpl_sql_timestamp_to_unix_time o data.as_timestamp, st, o)

/-- `cpl_sql_fetch_single_dynamically_allocated_string` once `malloc` has returned its
buffer: the cell as a freshly allocated string of at most `max_length` characters; `none`
is the null pointer.  The failure of `malloc` is in
`cpl_sql_fetch_single_dynamically_allocated_string.with_malloc`. -/
def cpl_sql_fetch_single_dynamically_allocated_string (odbc : cpl_odbc_t) (stmt : SQLHSTMT)
    (column : Nat) (fetch close_if_ok handle_nulls : Bool) (max_length : Nat) :
    cpl_return_t × Option String × SQLHSTMT × cpl_odbc_t :=
  match cpl_sql_fetch_single_value odbc stmt (max_length + 1) column fetch close_if_ok
      handle_nulls with
  | (r, data, st, o) =>
    if !CPL_IS_OK r then (r, none, st, o) else (CPL_OK, some data.as_string, st, o)

/-- The macro `CPL_SQL_SIMPLE_FETCH_EXT`: reads one column of the current row with the
given fetch primitive (fetching the row first when the column is 1, never closing the
cursor on success); any code other than success and `CPL_E_DB_NULL` jumps to `err_r`, the
statements after the macro are `next`. -/
def CPL_SQL_SIMPLE_FETCH_EXT {α β : Type}
    (fetch_single : cpl_odbc_t → SQLHSTMT → Nat → Bool → Bool → Bool →
      cpl_return_t × α × SQLHSTMT × cpl_odbc_t)
    (odbc : cpl_odbc_t) (stmt : SQLHSTMT) (column : Nat) (handle_nulls : Bool)
    (err_r : cpl_return_t → cpl_odbc_t → β)
    (next : cpl_return_t → α → SQLHSTMT → cpl_odbc_t → β) : β :=
  match fetch_single odbc stmt column (column == 1) false handle_nulls with
  | (r, out, st, o) =>
    if r ≠ CPL_E_DB_NULL ∧ !CPL_IS_OK r then err_r r o else next r out st o

/-! ## Public API of `cpl-odbc.cpp` -/

/-- `cpl_odbc_create_object`: inserts the object row, then its version 0. -/
def cpl_odbc_create_object (odbc : cpl_odbc_t) (id : cpl_id_t)
    (originator name type : String) (container : cpl_id_t)
    (container_version : cpl_version_t) (session : cpl_session_t) :
    cpl_return_t × cpl_odbc_t :=
  let o1 := mutex_lock odbc Mutex.create_object_lock
  let stmt := if container = CPL_NONE then Stmt.create_object_insert_stmt
    else Stmt.create_object_insert_container_stmt
  let ps := [Param.integer id.hi, Param.integer id.lo, Param.varchar 255 (some originator),
      Param.varchar 255 (some name), Param.varchar 100 (some type)] ++
    (if container ≠ CPL_NONE then
      [Param.integer container.hi, Param.integer container.lo,
        Param.integer container_version]
     else [])
  match SQL_EXECUTE_EXT stmt ps 3 o1 with
  | (none, _, o2) => (CPL_E_STATEMENT_ERROR, mutex_unlock o2 Mutex.create_object_lock)
  | (some _, retries_left, o2) =>
    match SQL_EXECUTE_EXT Stmt.create_object_insert_version_stmt
        [Param.integer id.hi, Param.integer id.lo, Param.integer session.hi,
          Param.integer session.lo] retries_left o2 with
    | (none, _, o3) => (CPL_E_STATEMENT_ERROR, mutex_unlock o3 Mutex.create_object_lock)
    | (some _, _, o3) => (CPL_OK, mutex_unlock o3 Mutex.create_object_lock)

/-- `cpl_odbc_lookup_object`: the latest object with the given originator, name and type. -/
def cpl_odbc_lookup_object (odbc : cpl_odbc_t) (originator name type : Option String) :
    cpl_return_t × cpl_id_t × cpl_odbc_t :=
  let o1 := mutex_lock odbc Mutex.lookup_object_lock
  match SQL_EXECUTE_EXT Stmt.lookup_object_stmt
      [Param.varchar 255 originator, Param.varchar 255 name, Param.varchar 100 type] 3 o1 with
  | (none, _, o2) => (CPL_E_STATEMENT_ERROR, CPL_NONE, mutex_unlock o2 Mutex.lookup_object_lock)
  | (some stmt, _, o2) =>
    match cpl_sql_fetch_single_llong o2 stmt 1 true false false with
    | (r, hi, st3, o3) =>
      if !CPL_IS_OK r then (r, CPL_NONE, mutex_unlock o3 Mutex.lookup_object_lock)
      else
        match cpl_sql_fetch_single_llong o3 st3 2 false true false with
        | (r2, lo, _, o4) =>
          if !CPL_IS_OK r2 then (r2, CPL_NONE, mutex_unlock o4 Mutex.lookup_object_lock)
          else (CPL_OK, ⟨hi.toNat, lo.toNat⟩, mutex_unlock o4 Mutex.lookup_object_lock)

/-- `cpl_odbc_create_version`: inserts a version row; SQLSTATE 23000 in the first
diagnostic record means that the version already exists. -/
def cpl_odbc_create_version (odbc : cpl_odbc_t) (object_id : cpl_id_t)
    (version : cpl_version_t) (session : cpl_session_t) : cpl_return_t × cpl_odbc_t :=
  let o1 := mutex_lock odbc Mutex.create_version_lock
  match SQLExecute o1 Stmt.create_version_stmt
      [Param.integer object_id.hi, Param.integer object_id.lo, Param.integer version,
        Param.integer session.hi, Param.integer session.lo] with
  | (Except.ok _, o2) => (CPL_OK, mutex_unlock o2 Mutex.create_version_lock)
  | (Except.error d, o2) =>
    match d.head? with
    | some r =>
      if r.state = "23000" then
        (CPL_E_ALREADY_EXISTS, mutex_unlock o2 Mutex.create_version_lock)
      else (CPL_E_STATEMENT_ERROR, mutex_unlock o2 Mutex.create_version_lock)
    | none => (CPL_E_STATEMENT_ERROR, mutex_unlock o2 Mutex.create_version_lock)

/-- `cpl_odbc_get_version`: the greatest version recorded for the object. -/
def cpl_odbc_get_version (odbc : cpl_odbc_t) (id : cpl_id_t) :
    cpl_return_t × Option cpl_version_t × cpl_odbc_t :=
  let o1 := mutex_lock odbc Mutex.get_version_lock
  match SQL_EXECUTE_EXT Stmt.get_version_stmt [Param.integer id.hi, Param.integer id.lo]
      3 o1 with
  | (none, _, o2) => (CPL_E_STATEMENT_ERROR, none, mutex_unlock o2 Mutex.get_version_lock)
  | (some stmt, _, o2) =>
    match cpl_sql_fetch_single_llong o2 stmt 1 true true false with
    | (r, l, _, o3) =>
      if !CPL_IS_OK r then (r, none, mutex_unlock o3 Mutex.get_version_lock)
      else (CPL_OK, some (c_int l), mutex_unlock o3 Mutex.get_version_lock)

/-- `cpl_odbc_add_ancestry_edge`. -/
def cpl_odbc_add_ancestry_edge (odbc : cpl_odbc_t) (from_id : cpl_id_t)
    (from_ver : cpl_version_t) (to_id : cpl_id_t) (to_ver : cpl_version_t) (type : Int) :
    cpl_return_t × cpl_odbc_t :=
  let o1 := mutex_lock odbc Mutex.add_ancestry_edge_lock
  match SQL_EXECUTE_EXT Stmt.add_ancestry_edge_stmt
      [Param.integer from_id.hi, Param.integer from_id.lo, Param.integer from_ver,
        Param.integer to_id.hi, Param.integer to_id.lo, Param.integer to_ver,
        Param.integer type] 3 o1 with
  | (none, _, o2) => (CPL_E_STATEMENT_ERROR, mutex_unlock o2 Mutex.add_ancestry_edge_lock)
  | (some _, _, o2) => (CPL_OK, mutex_unlock o2 Mutex.add_ancestry_edge_lock)

/-- `cpl_odbc_has_immediate_ancestor`: the second component is what is stored to `out`. -/
def cpl_odbc_has_immediate_ancestor (odbc : cpl_odbc_t) (object_id : cpl_id_t)
    (version_hint : cpl_version_t) (query_object_id : cpl_id_t)
    (query_object_max_version : cpl_version_t) : cpl_return_t × Option Int × cpl_odbc_t :=
  let o1 := mutex_lock odbc Mutex.has_immediate_ancestor_lock
  let stmt := if version_hint = CPL_VERSION_NONE then Stmt.has_immediate_ancestor_stmt
    else Stmt.has_immediate_ancestor_with_ver_stmt
  let ps := [Param.integer query_object_id.hi, Param.integer query_object_id.lo,
      Param.integer query_object_max_version, Param.integer object_id.hi,
      Param.integer object_id.lo] ++
    (if version_hint ≠ CPL_VERSION_NONE then [Param.integer version_hint] else [])
  match SQL_EXECUTE_EXT stmt ps 3 o1 with
  | (none, _, o2) =>
    (CPL_E_STATEMENT_ERROR, none, mutex_unlock o2 Mutex.has_immediate_ancestor_lock)
  | (some st, _, o2) =>
    match cpl_sql_fetch_single_llong o2 st 1 true true false with
    | (r, _, _, o3) =>
      if r = CPL_E_NOT_FOUND then
        (CPL_OK, some 0, mutex_unlock o3 Mutex.has_immediate_ancestor_lock)
      else if !CPL_IS_OK r then
        (r, none, mutex_unlock o3 Mutex.has_immediate_ancestor_lock)
      else (CPL_OK, some 1, mutex_unlock o3 Mutex.has_immediate_ancestor_lock)

/-- `cpl_odbc_add_property`. -/
def cpl_odbc_add_property (odbc : cpl_odbc_t) (id : cpl_id_t) (version : cpl_version_t)
    (key value : Option String) : cpl_return_t × cpl_odbc_t :=
  let o1 := mutex_lock odbc Mutex.add_property_lock
  match SQL_EXECUTE_EXT Stmt.add_property_stmt
      [Param.integer id.hi, Param.integer id.lo, Param.integer version,
        Param.varchar 255 key, Param.varchar 4095 value] 3 o1 with
  | (none, _, o2) => (CPL_E_STATEMENT_ERROR, mutex_unlock o2 Mutex.add_property_lock)
  | (some _, _, o2) => (CPL_OK, mutex_unlock o2 Mutex.add_property_lock)

/-- The record `cpl_object_info_t`; a null string pointer is `none`. -/
structure cpl_object_info_t where
  id : cpl_id_t
  version : cpl_version_t
  creation_session : cpl_session_t
  creation_time : Nat
  originator : Option String
  name : Option String
  type : Option String
  container_id : cpl_id_t
  container_version : cpl_version_t
  deriving DecidableEq, Repr

/-- The part of `cpl_odbc_get_object_info` from `mutex_lock` on, with the version already
stored in the record: executes the query and reads the nine columns of its row; null
strings become empty and null container columns become `CPL_NONE` and
`CPL_VERSION_NONE`. -/
def cpl_odbc_get_object_info.read (odbc : cpl_odbc_t) (id : cpl_id_t)
    (version : cpl_version_t) : cpl_return_t × Option cpl_object_info_t × cpl_odbc_t :=
  let o1 := mutex_lock odbc Mutex.get_object_info_lock
  match SQL_EXECUTE_EXT Stmt.get_object_info_stmt
      [Param.integer id.hi, Param.integer id.lo] 3 o1 with
  | (none, _, o2) =>
    (CPL_E_STATEMENT_ERROR, none, mutex_unlock o2 Mutex.get_object_info_lock)
  | (some stmt, _, o2) =>
    let err_r := fun (r : cpl_return_t) (o : cpl_odbc_t) =>
      (r, (none : Option cpl_object_info_t), mutex_unlock o Mutex.get_object_info_lock)
    CPL_SQL_SIMPLE_FETCH_EXT cpl_sql_fetch_single_llong o2 stmt 1 false err_r
      fun _ session_hi st o =>
    CPL_SQL_SIMPLE_FETCH_EXT cpl_sql_fetch_single_llong o st 2 false err_r
      fun _ session_lo st o =>
    CPL_SQL_SIMPLE_FETCH_EXT cpl_sql_fetch_single_timestamp_as_unix_time o st 3 false err_r
      fun _ creation_time st o =>
    CPL_SQL_SIMPLE_FETCH_EXT
      (fun o st c f cl hn => cpl_sql_fetch_single_dynamically_allocated_string o st c f cl
        hn 4095) o st 4 true err_r
      fun r4 originator st o =>
    CPL_SQL_SIMPLE_FETCH_EXT
      (fun o st c f cl hn => cpl_sql_fetch_single_dynamically_allocated_string o st c f cl
        hn 4095) o st 5 true err_r
      fun r5 name st o =>
    CPL_SQL_SIMPLE_FETCH_EXT
      (fun o st c f cl hn => cpl_sql_fetch_single_dynamically_allocated_string o st c f cl
        hn 4095) o st 6 true err_r
      fun r6 type st o =>
    CPL_SQL_SIMPLE_FETCH_EXT cpl_sql_fetch_single_llong o st 7 true err_r
      fun r7 container_hi st o =>
    CPL_SQL_SIMPLE_FETCH_EXT cpl_sql_fetch_single_llong o st 8 true err_r
      fun r8 container_lo st o =>
    CPL_SQL_SIMPLE_FETCH_EXT cpl_sql_fetch_single_llong o st 9 true err_r
      fun r9 l st o =>
    match SQLCloseCursor o st with
    | (ret, _, o3) =>
      if !SQL_SUCCEEDED ret then
        (CPL_E_STATEMENT_ERROR, none, mutex_unlock o3 Mutex.get_object_info_lock)
      else
        (CPL_OK,
          some {
            id := id
            version := version
            creation_session := ⟨session_hi.toNat, session_lo.toNat⟩
            creation_time := creation_time
            originator := if r4 = CPL_E_DB_NULL then some "" else originator
            name := if r5 = CPL_E_DB_NULL then some "" else name
            type := if r6 = CPL_E_DB_NULL then some "" else type
            container_id :=
              if r8 = CPL_E_DB_NULL then CPL_NONE
              else ⟨(if r7 = CPL_E_DB_NULL then CPL_NONE else ⟨container_hi.toNat, 0⟩).hi,
                container_lo.toNat⟩
            container_version :=
              c_int (if r9 = CPL_E_DB_NULL then CPL_VERSION_NONE else l) },
          mutex_unlock o3 Mutex.get_object_info_lock)

/-- `cpl_odbc_get_object_info`: the record is zeroed, its version is the hint or, without
a hint, the result of `cpl_odbc_get_version`; the other fields are read from the one row
of the query. -/
def cpl_odbc_get_object_info (odbc : cpl_odbc_t) (id : cpl_id_t)
    (version_hint : cpl_version_t) : cpl_return_t × Option cpl_object_info_t × cpl_odbc_t :=
  if version_hint = CPL_VERSION_NONE then
    match cpl_odbc_get_version odbc id with
    | (r, version, o) =>
      if !CPL_IS_OK r then (r, none, o)
      else cpl_odbc_get_object_info.read o id (version.getD 0)
  else cpl_odbc_get_object_info.read odbc id version_hint

/-- Calls the iterator on the buffered rows in order and stops at the first code that is
not OK.  Returns the code, the rows the iterator was called with, and the backend (which
the iterator may have used). -/
def iterate {α : Type} (iterator : α → cpl_odbc_t → cpl_return_t × cpl_odbc_t) :
    List α → cpl_odbc_t → cpl_return_t × List α × cpl_odbc_t
  | [], odbc => (CPL_OK, [], odbc)
  | e :: es, odbc =>
    match iterator e odbc with
    | (r, o) =>
      if !CPL_IS_OK r then (r, [e], o)
      else
        match iterate iterator es o with
        | (r2, calls, o2) => (r2, e :: calls, o2)

/-- The arguments of one call of a `cpl_ancestry_iterator_t`. -/
structure ancestry_call where
  query_object_id : cpl_id_t
  query_object_version : cpl_version_t
  other_object_id : cpl_id_t
  other_object_version : cpl_version_t
  type : Int
  deriving DecidableEq, Repr

/-- An ancestry iterator with its context: it may call back into the backend. -/
abbrev cpl_ancestry_iterator_t := ancestry_call → cpl_odbc_t → cpl_return_t × cpl_odbc_t

/-- The buffered row `__get_object_ancestry__entry_t`. -/
structure get_object_ancestry_entry where
  id : cpl_id_t
  version : Int
  query_version : Int
  type : Int
  deriving DecidableEq, Repr

/-- The body of the fetch loop of `cpl_odbc_get_object_ancestry` after a row was fetched:
a row with a NULL type is skipped, so is a row whose dependency category is excluded by
the flags; any other row is appended to the buffer. -/
def cpl_odbc_get_object_ancestry.keep (H : cpl_h) (flags : Int) (row : List Cell)
    (entries : List get_object_ancestry_entry) : List get_object_ancestry_entry :=
  let entry : get_object_ancestry_entry :=
    ⟨⟨(row.getD 0 Cell.null).as_llong.toNat, (row.getD 1 Cell.null).as_llong.toNat⟩,
      (row.getD 2 Cell.null).as_llong, (row.getD 3 Cell.null).as_llong,
      (row.getD 4 Cell.null).as_llong⟩
  if (row.getD 4 Cell.null).indicator = -1 then entries
  else
    let type_category := H.CPL_GET_DEPENDENCY_CATEGORY (c_int entry.type)
    if type_category = H.CPL_DEPENDENCY_CATEGORY_DATA
        ∧ Int.land flags H.CPL_A_NO_DATA_DEPENDENCIES ≠ 0 then entries
    else if type_category = H.CPL_DEPENDENCY_CATEGORY_CONTROL
        ∧ Int.land flags H.CPL_A_NO_CONTROL_DEPENDENCIES ≠ 0 then entries
    else entries ++ [entry]

/-- The fetch loop of `cpl_odbc_get_object_ancestry` on a cursor with the given pending
rows: `none` is the jump to `err_close`, otherwise the flag `found` and the buffer. -/
def cpl_odbc_get_object_ancestry.fetch (H : cpl_h) (flags : Int) :
    List (List Cell) → List Cell → cpl_odbc_t → Bool → List get_object_ancestry_entry →
    Option (Bool × List get_object_ancestry_entry) × SQLHSTMT × cpl_odbc_t
  | [], current, odbc, found, entries =>
    match SQLFetch odbc ⟨[], current, true⟩ with
    | (ret, st, o) =>
      if !SQL_SUCCEEDED ret then
        if ret ≠ SQL_NO_DATA then (none, st, o) else (some (found, entries), st, o)
      else (some (true, cpl_odbc_get_object_ancestry.keep H flags st.current entries), st, o)
  | row :: rest, current, odbc, found, entries =>
    match SQLFetch odbc ⟨row :: rest, current, true⟩ with
    | (ret, st, o) =>
      if !SQL_SUCCEEDED ret then
        if ret ≠ SQL_NO_DATA then (none, st, o) else (some (found, entries), st, o)
      else
        cpl_odbc_get_object_ancestry.fetch H flags rest row o true
          (cpl_odbc_get_object_ancestry.keep H flags row entries)

/-- The statement `cpl_odbc_get_object_ancestry` selects at its label `retry`. -/
def cpl_odbc_get_object_ancestry.statement (H : cpl_h) (version : cpl_version_t)
    (direction : Int) : Stmt :=
  if direction = H.CPL_D_ANCESTORS then
    (if version = CPL_VERSION_NONE then Stmt.get_object_ancestors_stmt
      else Stmt.get_object_ancestors_with_ver_stmt)
  else
    (if version = CPL_VERSION_NONE then Stmt.get_object_descendants_stmt
      else Stmt.get_object_descendants_with_ver_stmt)

/-- The parameters `cpl_odbc_get_object_ancestry` binds: the id and, when one is given,
the version. -/
def cpl_odbc_get_object_ancestry.params (id : cpl_id_t) (version : cpl_version_t) :
    List Param :=
  [Param.integer id.hi, Param.integer id.lo] ++
    (if version ≠ CPL_VERSION_NONE then [Param.integer version] else [])

/-- The calls of the iterator for the buffered rows of `cpl_odbc_get_object_ancestry`. -/
def cpl_odbc_get_object_ancestry.calls (id : cpl_id_t)
    (entries : List get_object_ancestry_entry) : List ancestry_call :=
  entries.map fun e => ⟨id, c_int e.query_version, e.id, c_int e.version, c_int e.type⟩

/-- `cpl_odbc_get_object_ancestry`: the second component lists the calls of the iterator. -/
def cpl_odbc_get_object_ancestry (H : cpl_h) (odbc : cpl_odbc_t) (id : cpl_id_t)
    (version : cpl_version_t) (direction : Int) (flags : Int)
    (iterator : Option cpl_ancestry_iterator_t) :
    cpl_return_t × List ancestry_call × cpl_odbc_t :=
  if Int.land flags (Int.lnot (CPL_ODBC_A_SUPPORTED_FLAGS H)) ≠ 0 then
    (CPL_E_NOT_IMPLEMENTED, [], odbc)
  else
    let o1 := mutex_lock odbc Mutex.get_object_ancestry_lock
    match SQL_EXECUTE_EXT (cpl_odbc_get_object_ancestry.statement H version direction)
        (cpl_odbc_get_object_ancestry.params id version) 3 o1 with
    | (none, _, o2) =>
      (CPL_E_STATEMENT_ERROR, [], mutex_unlock o2 Mutex.get_object_ancestry_lock)
    | (some st, _, o2) =>
      match cpl_odbc_get_object_ancestry.fetch H flags st.pending st.current o2 false [] with
      | (none, st3, o3) =>
        match SQLCloseCursor o3 st3 with
        | (_, _, o4) =>
          (CPL_E_STATEMENT_ERROR, [], mutex_unlock o4 Mutex.get_object_ancestry_lock)
      | (some (found, entries), st3, o3) =>
        match SQLCloseCursor o3 st3 with
        | (ret, _, o4) =>
          if !SQL_SUCCEEDED ret then
            (CPL_E_STATEMENT_ERROR, [], mutex_unlock o4 Mutex.get_object_ancestry_lock)
          else
            let o5 := mutex_unlock o4 Mutex.get_object_ancestry_lock
            match (if !found ∧ version ≠ CPL_VERSION_NONE then
                match cpl_odbc_get_version o5 id with
                | (r, _, o) => (r, o)
              else (CPL_OK, o5)) with
            | (r, o6) =>
              if !CPL_IS_SUCCESS r then (r, [], o6)
              else if entries.isEmpty then (CPL_S_NO_DATA, [], o6)
              else
                match iterator with
                | none => (CPL_OK, [], o6)
                | some it => iterate it (cpl_odbc_get_object_ancestry.calls id entries) o6

/-- The arguments of one call of a `cpl_property_iterator_t`. -/
structure property_call where
  id : cpl_id_t
  version : cpl_version_t
  key : String
  value : String
  deriving DecidableEq, Repr

/-- A property iterator with its context: it may call back into the backend. -/
abbrev cpl_property_iterator_t := property_call → cpl_odbc_t → cpl_return_t × cpl_odbc_t

/-- The buffered row `__get_properties__entry_t`. -/
structure get_properties_entry where
  id : cpl_id_t
  version : Int
  key : String
  value : String
  deriving DecidableEq, Repr

/-- The body of the fetch loop of `cpl_odbc_get_properties` after a row was fetched: a row
with a NULL key or value is skipped, any other row is copied to the buffer (the key into
256 bytes, the value into 4096 bytes). -/
def cpl_odbc_get_properties.keep (row : List Cell) (entries : List get_properties_entry) :
    List get_properties_entry :=
  if (row.getD 3 Cell.null).indicator = -1 ∨ (row.getD 4 Cell.null).indicator = -1 then
    entries
  else
    entries ++
      [⟨⟨(row.getD 0 Cell.null).as_llong.toNat, (row.getD 1 Cell.null).as_llong.toNat⟩,
        (row.getD 2 Cell.null).as_llong, ((row.getD 3 Cell.null).truncate 256).as_string,
        ((row.getD 4 Cell.null).truncate 4096).as_string⟩]

/-- The fetch loop of `cpl_odbc_get_properties`: `none` is the jump to `err_close`,
otherwise the flag `found` and the buffer. -/
def cpl_odbc_get_properties.fetch :
    List (List Cell) → List Cell → cpl_odbc_t → Bool → List get_properties_entry →
    Option (Bool × List get_properties_entry) × SQLHSTMT × cpl_odbc_t
  | [], current, odbc, found, entries =>
    match SQLFetch odbc ⟨[], current, true⟩ with
    | (ret, st, o) =>
      if !SQL_SUCCEEDED ret then
        if ret ≠ SQL_NO_DATA then (none, st, o) else (some (found, entries), st, o)
      else (some (true, cpl_odbc_get_properties.keep st.current entries), st, o)
  | row :: rest, current, odbc, found, entries =>
    match SQLFetch odbc ⟨row :: rest, current, true⟩ with
    | (ret, st, o) =>
      if !SQL_SUCCEEDED ret then
        if ret ≠ SQL_NO_DATA then (none, st, o) else (some (found, entries), st, o)
      else
        cpl_odbc_get_properties.fetch rest row o true
          (cpl_odbc_get_properties.keep row entries)

/-- The statement `cpl_odbc_get_properties` selects at its label `retry`. -/
def cpl_odbc_get_properties.statement (version : cpl_version_t) (key : Option String) :
    Stmt :=
  if key = none then
    (if version = CPL_VERSION_NONE then Stmt.get_properties_stmt
      else Stmt.get_properties_with_ver_stmt)
  else
    (if version = CPL_VERSION_NONE then Stmt.get_properties_with_key_stmt
      else Stmt.get_properties_with_key_ver_stmt)

/-- The parameters `cpl_odbc_get_properties` binds: the id, then the key when one is
given, then the version when one is given. -/
def cpl_odbc_get_properties.params (id : cpl_id_t) (version : cpl_version_t)
    (key : Option String) : List Param :=
  [Param.integer id.hi, Param.integer id.lo] ++
    (if key ≠ none then [Param.varchar 255 key] else []) ++
    (if version ≠ CPL_VERSION_NONE then [Param.integer version] else [])

/-- The calls of the iterator for the buffered rows of `cpl_odbc_get_properties`. -/
def cpl_odbc_get_properties.calls (id : cpl_id_t) (entries : List get_properties_entry) :
    List property_call :=
  entries.map fun e => ⟨id, c_int e.version, e.key, e.value⟩

/-- `cpl_odbc_get_properties`: the second component lists the calls of the iterator; a
null `key` selects all properties. -/
def cpl_odbc_get_properties (odbc : cpl_odbc_t) (id : cpl_id_t) (version : cpl_version_t)
    (key : Option String) (iterator : Option cpl_property_iterator_t) :
    cpl_return_t × List property_call × cpl_odbc_t :=
  let o1 := mutex_lock odbc Mutex.get_properties_lock
  match SQL_EXECUTE_EXT (cpl_odbc_get_properties.statement version key)
      (cpl_odbc_get_properties.params id version key) 3 o1 with
  | (none, _, o2) => (CPL_E_STATEMENT_ERROR, [], mutex_unlock o2 Mutex.get_properties_lock)
  | (some st, _, o2) =>
    match cpl_odbc_get_properties.fetch st.pending st.current o2 false [] with
    | (none, st3, o3) =>
      match SQLCloseCursor o3 st3 with
      | (_, _, o4) => (CPL_E_STATEMENT_ERROR, [], mutex_unlock o4 Mutex.get_properties_lock)
    | (some (found, entries), st3, o3) =>
      match SQLCloseCursor o3 st3 with
      | (ret, _, o4) =>
        if !SQL_SUCCEEDED ret then
          (CPL_E_STATEMENT_ERROR, [], mutex_unlock o4 Mutex.get_properties_lock)
        else
          let o5 := mutex_unlock o4 Mutex.get_properties_lock
          match (if !found ∧ version ≠ CPL_VERSION_NONE then
              match cpl_odbc_get_version o5 id with
              | (r, _, o) => (r, o)
            else (CPL_OK, o5)) with
          | (r, o6) =>
            if !CPL_IS_SUCCESS r then (r, [], o6)
            else if entries.isEmpty then (CPL_S_NO_DATA, [], o6)
            else
              match iterator with
              | none => (CPL_OK, [], o6)
              | some it => iterate it (cpl_odbc_get_properties.calls id entries) o6

/-- Sample values for the constants of `cpl.h`, used to run the operations on concrete
inputs: the dependency category is the type shifted right by eight bits. -/
def sample_header : cpl_h where
  CPL_D_ANCESTORS := 0
  CPL_A_NO_DATA_DEPENDENCIES := 2
  CPL_A_NO_CONTROL_DEPENDENCIES := 4
  CPL_DEPENDENCY_CATEGORY_DATA := 1
  CPL_DEPENDENCY_CATEGORY_CONTROL := 2
  CPL_GET_DEPENDENCY_CATEGORY := fun d => d / 256
  CPL_I_NO_CREATION_SESSION := 1
  CPL_I_NO_VERSION := 2

/-! ## Notions used to state what the operations do -/

/-- Only the failure script and the event log of the backend have moved. -/
def Advances (o o2 : cpl_odbc_t) : Prop :=
  o2.db = o.db ∧ o2.now = o.now ∧ o2.mktime = o.mktime ∧ o2.localtime_isdst = o.localtime_isdst

/-- The cursor after `SQLCloseCursor`. -/
def SQLHSTMT.closed (stmt : SQLHSTMT) : SQLHSTMT :=
  { stmt with pending := [], cursor_open := false }

/-- The cursor after a successful `SQLFetch`. -/
def SQLHSTMT.next (stmt : SQLHSTMT) : Option SQLHSTMT :=
  match stmt.pending with
  | [] => none
  | row :: rest => some { stmt with pending := rest, current := row }

/-- The cursor from which a fetch primitive reads its cell. -/
def SQLHSTMT.position (stmt : SQLHSTMT) (fetch : Bool) : Option SQLHSTMT :=
  if fetch then stmt.next else some stmt

/-- What a fetch primitive returns when no driver call fails: not found past the last row,
the null outcome for a cell without data, the converted cell otherwise. -/
def Fetched {α : Type} (conv : Cell → α) (stmt : SQLHSTMT) (col : Nat)
    (fetch close hn : Bool) (R : cpl_return_t × α × SQLHSTMT × cpl_odbc_t) : Prop :=
  match stmt.position fetch with
  | none => R.1 = CPL_E_NOT_FOUND
  | some st =>
    ∃ c, st.current.get? (col - 1) = some c
      ∧ if c.indicator ≤ 0 then
          (if hn then R.1 = CPL_E_DB_NULL ∧ R.2.2.1 = st else R.1 = CPL_E_NOT_FOUND)
        else R.1 = CPL_OK ∧ R.2.1 = conv c ∧ R.2.2.1 = if close then st.closed else st

/-- The insert that `create_version` executes. -/
def create_version_insert (odbc : cpl_odbc_t) (id : cpl_id_t) (v : cpl_version_t)
    (session : cpl_session_t) : Except (List cpl_odbc_error_record_t) SQLHSTMT × cpl_odbc_t :=
  SQLExecute (mutex_lock odbc Mutex.create_version_lock) Stmt.create_version_stmt
    [Param.integer id.hi, Param.integer id.lo, Param.integer v,
      Param.integer session.hi, Param.integer session.lo]

/-- The row that `create_object` inserts into `cpl_objects`. -/
def created_object_row (id : cpl_id_t) (originator name type : String) (container : cpl_id_t)
    (container_version : cpl_version_t) (now : Nat) : ObjectRow :=
  if container = CPL_NONE then
    ⟨id, some originator, some name, some type, now, none, none, none⟩
  else
    ⟨id, some originator, some name, some type, now, some container.hi, some container.lo,
      some container_version⟩

/-- The calls `create_version (id, 1)`, ..., `create_version (id, k)` in this order, each
with its own session: whether all of them returned `CPL_OK`, and the backend after the
last. -/
def create_versions (id : cpl_id_t) (session : Nat → cpl_session_t) :
    Nat → cpl_odbc_t → Bool × cpl_odbc_t
  | 0, odbc => (true, odbc)
  | k + 1, odbc =>
    match create_versions id session k odbc with
    | (ok, o) =>
      match cpl_odbc_create_version o id ((k + 1 : Nat) : Int) (session (k + 1)) with
      | (r, o2) => (ok && decide (r = CPL_OK), o2)

/-- The row has the given originator, name and type. -/
def ObjectRow.named (r : ObjectRow) (originator name type : String) : Prop :=
  r.originator = some originator ∧ r.name = some name ∧ r.type = some type

/-- What `get_object_info` stores for a character column: the empty string for a cell
without data, the data cut to 4095 characters otherwise. -/
def string_column (c : Cell) : Option String :=
  if c.indicator ≤ 0 then some "" else some (c.truncate 4096).as_string

/-- What `get_object_info` stores as container id for the two container id columns. -/
def container_of_columns (chi clo : Option Int) : cpl_id_t :=
  match clo with
  | none => CPL_NONE
  | some l =>
    match chi with
    | none => ⟨0, l.toNat⟩
    | some h => ⟨h.toNat, l.toNat⟩

/-- The buffer `get_object_ancestry` fills from the rows of its query. -/
def ancestry_buffer (H : cpl_h) (flags : Int) (rows : List (List Cell)) :
    List get_object_ancestry_entry :=
  rows.foldl (fun acc row => cpl_odbc_get_object_ancestry.keep H flags row acc) []

/-- The rows of the query that `get_object_ancestry` executes: the edges that leave the
object (ancestors) or enter it (descendants), of the given version when there is one. -/
def ancestry_rows (H : cpl_h) (db : Store) (id : cpl_id_t) (version : cpl_version_t)
    (direction : Int) : List (List Cell) :=
  if direction = H.CPL_D_ANCESTORS then
    (db.ancestry.filter (fun e => decide (e.from_id = id)
      && (decide (version = CPL_VERSION_NONE) || decide (e.from_version = version)))).map
      AncestryRow.ancestor_cells
  else
    (db.ancestry.filter (fun e => decide (e.to_id = id)
      && (decide (version = CPL_VERSION_NONE) || decide (e.to_version = version)))).map
      AncestryRow.descendant_cells

/-- An iterator that accepts every row. -/
def accept_all : cpl_ancestry_iterator_t := fun _ o => (CPL_OK, o)

/-- The backend after the creation of the objects (0,1) and (0,2) on the empty database:
two objects, each with its version 0. -/
def two_objects : cpl_odbc_t :=
  (cpl_odbc_create_object
    (cpl_odbc_create_object (connected Store.empty 0)
      ⟨0, 1⟩ "o" "a" "t" CPL_NONE CPL_VERSION_NONE ⟨0, 5⟩).2
    ⟨0, 2⟩ "o" "b" "t" CPL_NONE CPL_VERSION_NONE ⟨0, 5⟩).2

/-- The backend with a data edge (type 256) and a control edge (type 512) from version 0 of
object (0,1) to version 0 of object (0,2). -/
def two_edges : cpl_odbc_t :=
  (cpl_odbc_add_ancestry_edge
    (cpl_odbc_add_ancestry_edge two_objects ⟨0, 1⟩ 0 ⟨0, 2⟩ 0 256).2
    ⟨0, 1⟩ 0 ⟨0, 2⟩ 0 512).2

/-- The backend after the edge from version 0 of (0,1) to version 0 of (0,2), of type 256,
was added to the database of the two objects. -/
def one_edge : cpl_odbc_t :=
  (cpl_odbc_add_ancestry_edge two_objects ⟨0, 1⟩ 0 ⟨0, 2⟩ 0 256).2

/-- The buffer `get_properties` fills from the rows of its query. -/
def properties_buffer (rows : List (List Cell)) : List get_properties_entry :=
  rows.foldl (fun acc row => cpl_odbc_get_properties.keep row acc) []

/-- The rows of the query that `get_properties` executes: the properties of the object, of
the given key when there is one, of the given version when there is one. -/
def property_rows (db : Store) (id : cpl_id_t) (version : cpl_version_t)
    (key : Option String) : List (List Cell) :=
  (db.properties.filter (fun r => decide (r.id = id)
    && (key.isNone || sql_eq r.name key)
    && (decide (version = CPL_VERSION_NONE) || decide (r.version = version)))).map
    PropertyRow.cells

/-- A property iterator that accepts every row. -/
def accept_all_properties : cpl_property_iterator_t := fun _ o => (CPL_OK, o)

/-- A property row with a key and a value that are strings within the column widths and a
version that is a `cpl_version_t`: what `add_property` stores for string arguments. -/
def PropertyRow.well_formed (r : PropertyRow) : Prop :=
  (∃ n, r.name = some n ∧ n.length ≤ 255) ∧ (∃ v, r.value = some v ∧ v.length ≤ 4095)
    ∧ -2147483648 ≤ r.version ∧ r.version < 2147483648

/-- The stored property rows of an object that match the version, when one is specified,
and the key, when one is specified, in table order. -/
def Store.properties_matching (db : Store) (id : cpl_id_t) (version : cpl_version_t)
    (key : Option String) : List PropertyRow :=
  db.properties.filter (fun r => decide (r.id = id)
    && (key.isNone || sql_eq r.name key)
    && (decide (version = CPL_VERSION_NONE) || decide (r.version = version)))

/-- The call of the property iterator that delivers a stored row. -/
def PropertyRow.call (r : PropertyRow) : property_call :=
  ⟨r.id, r.version, r.name.getD "", r.value.getD ""⟩

/-! ## Public API of `cpl-odbc.cpp`: the remaining operations -/

/-- The fetch loop `while (true) { ret = SQLFetch(stmt); ... }` of the enumeration
operations, on a cursor with the given pending rows: a failure of `SQLFetch` other than
`SQL_NO_DATA` jumps to `err_close` (`none`), `SQL_NO_DATA` leaves the loop, and a fetched
row goes through the loop body, which updates the locals `acc`. -/
def fetch_loop {β : Type} (body : List Cell → β → β) :
    List (List Cell) → List Cell → cpl_odbc_t → β → Option β × SQLHSTMT × cpl_odbc_t
  | [], current, odbc, acc =>
    match SQLFetch odbc ⟨[], current, true⟩ with
    | (ret, st, o) =>
      if !SQL_SUCCEEDED ret then
        if ret ≠ SQL_NO_DATA then (none, st, o) else (some acc, st, o)
      else (some (body st.current acc), st, o)
  | row :: rest, current, odbc, acc =>
    match SQLFetch odbc ⟨row :: rest, current, true⟩ with
    | (ret, st, o) =>
      if !SQL_SUCCEEDED ret then
        if ret ≠ SQL_NO_DATA then (none, st, o) else (some acc, st, o)
      else fetch_loop body rest row o (body row acc)

/-- The buffered row `__lookup_by_property__entry_t`. -/
structure lookup_by_property_entry where
  id : cpl_id_t
  version : Int
  deriving DecidableEq, Repr

/-- The body of the fetch loop of `cpl_odbc_lookup_by_property`: the three bound columns
of the row are copied to the buffer. -/
def cpl_odbc_lookup_by_property.keep (row : List Cell)
    (entries : List lookup_by_property_entry) : List lookup_by_property_entry :=
  entries ++
    [⟨⟨(row.getD 0 Cell.null).as_llong.toNat, (row.getD 1 Cell.null).as_llong.toNat⟩,
      (row.getD 2 Cell.null).as_llong⟩]

/-- The calls of the iterator for the buffered rows of `cpl_odbc_lookup_by_property`: the
key and the value are the arguments of the lookup. -/
def cpl_odbc_lookup_by_property.calls (key value : Option String)
    (entries : List lookup_by_property_entry) : List property_call :=
  entries.map fun e => ⟨e.id, c_int e.version, key.getD "", value.getD ""⟩

/-- `cpl_odbc_lookup_by_property`: the second component lists the calls of the iterator. -/
def cpl_odbc_lookup_by_property (odbc : cpl_odbc_t) (key value : Option String)
    (iterator : Option cpl_property_iterator_t) :
    cpl_return_t × List property_call × cpl_odbc_t :=
  let o1 := mutex_lock odbc Mutex.lookup_by_property_lock
  match SQL_EXECUTE_EXT Stmt.lookup_by_property_stmt
      [Param.varchar 255 key, Param.varchar 4095 value] 3 o1 with
  | (none, _, o2) =>
    (CPL_E_STATEMENT_ERROR, [], mutex_unlock o2 Mutex.lookup_by_property_lock)
  | (some st, _, o2) =>
    match fetch_loop cpl_odbc_lookup_by_property.keep st.pending st.current o2 [] with
    | (none, st3, o3) =>
      match SQLCloseCursor o3 st3 with
      | (_, _, o4) =>
        (CPL_E_STATEMENT_ERROR, [], mutex_unlock o4 Mutex.lookup_by_property_lock)
    | (some entries, st3, o3) =>
      match SQLCloseCursor o3 st3 with
      | (ret, _, o4) =>
        if !SQL_SUCCEEDED ret then
          (CPL_E_STATEMENT_ERROR, [], mutex_unlock o4 Mutex.lookup_by_property_lock)
        else
          let o5 := mutex_unlock o4 Mutex.lookup_by_property_lock
          if entries.isEmpty then (CPL_E_NOT_FOUND, [], o5)
          else
            match iterator with
            | none => (CPL_OK, [], o5)
            | some it =>
              iterate it (cpl_odbc_lookup_by_property.calls key value entries) o5

/-- The stored property rows with the given name and value, in table order. -/
def Store.properties_with (db : Store) (key value : Option String) : List PropertyRow :=
  db.properties.filter (fun r => sql_eq r.name key && sql_eq r.value value)

/-- The backend after the creation of the object (0,7) on the empty database. -/
def tagged_object : cpl_odbc_t :=
  (cpl_odbc_create_object (connected Store.empty 0)
    ⟨0, 7⟩ "o" "n" "t" CPL_NONE CPL_VERSION_NONE ⟨0, 5⟩).2

/-- The backend after three calls `add_property ((0,7), 0, "tag", "v1")` on the database
of the object (0,7). -/
def three_tags : cpl_odbc_t :=
  (cpl_odbc_add_property
    (cpl_odbc_add_property
      (cpl_odbc_add_property tagged_object ⟨0, 7⟩ 0 (some "tag") (some "v1")).2
      ⟨0, 7⟩ 0 (some "tag") (some "v1")).2
    ⟨0, 7⟩ 0 (some "tag") (some "v1")).2

/-- The buffered row `cpl_id_timestamp_t`, also the arguments of one call of a
`cpl_id_timestamp_iterator_t`. -/
structure cpl_id_timestamp_t where
  id : cpl_id_t
  timestamp : Nat
  deriving DecidableEq, Repr

/-- An iterator over ids and timestamps with its context. -/
abbrev cpl_id_timestamp_iterator_t :=
  cpl_id_timestamp_t → cpl_odbc_t → cpl_return_t × cpl_odbc_t

/-- The body of the fetch loop of `cpl_odbc_lookup_object_ext`: the id columns and the
converted timestamp of the row are copied to the buffer. -/
def cpl_odbc_lookup_object_ext.keep (odbc : cpl_odbc_t) (row : List Cell)
    (entries : List cpl_id_timestamp_t) : List cpl_id_timestamp_t :=
  entries ++
    [⟨⟨(row.getD 0 Cell.null).as_llong.toNat, (row.getD 1 Cell.null).as_llong.toNat⟩,
      cpl_sql_timestamp_to_unix_time odbc (row.getD 2 Cell.null).as_timestamp⟩]

/-- `cpl_odbc_lookup_object_ext`: all objects with the given originator, name and type; the
argument `flags` is not used.  The second component lists the calls of the iterator. -/
def cpl_odbc_lookup_object_ext (odbc : cpl_odbc_t) (originator name type : Option String)
    (flags : Int) (iterator : Option cpl_id_timestamp_iterator_t) :
    cpl_return_t × List cpl_id_timestamp_t × cpl_odbc_t :=
  let _ := flags
  let o1 := mutex_lock odbc Mutex.lookup_object_ext_lock
  match SQL_EXECUTE_EXT Stmt.lookup_object_ext_stmt
      [Param.varchar 255 originator, Param.varchar 255 name, Param.varchar 100 type] 3 o1 with
  | (none, _, o2) =>
    (CPL_E_STATEMENT_ERROR, [], mutex_unlock o2 Mutex.lookup_object_ext_lock)
  | (some st, _, o2) =>
    match fetch_loop (cpl_odbc_lookup_object_ext.keep odbc) st.pending st.current o2 [] with
    | (none, st3, o3) =>
      match SQLCloseCursor o3 st3 with
      | (_, _, o4) =>
        (CPL_E_STATEMENT_ERROR, [], mutex_unlock o4 Mutex.lookup_object_ext_lock)
    | (some entries, st3, o3) =>
      match SQLCloseCursor o3 st3 with
      | (ret, _, o4) =>
        if !SQL_SUCCEEDED ret then
          (CPL_E_STATEMENT_ERROR, [], mutex_unlock o4 Mutex.lookup_object_ext_lock)
        else
          let o5 := mutex_unlock o4 Mutex.lookup_object_ext_lock
          if entries.isEmpty then (CPL_E_NOT_FOUND, [], o5)
          else
            match iterator with
            | none => (CPL_OK, [], o5)
            | some it => iterate it entries o5

/-- The buffered row `cplxx_object_info_t` of `cpl_odbc_get_all_objects`. -/
structure cplxx_object_info_t where
  id : cpl_id_t
  version : cpl_version_t
  creation_session : cpl_session_t
  creation_time : Nat
  originator : String
  name : String
  type : String
  container_id : cpl_id_t
  container_version : cpl_version_t
  deriving DecidableEq, Repr

/-- An iterator over object infos with its context. -/
abbrev cpl_object_info_iterator_t :=
  cpl_object_info_t → cpl_odbc_t → cpl_return_t × cpl_odbc_t

/-- `strncpy` into a buffer of `size` bytes followed by the write of the terminator into
its last byte. -/
def strncpy (s : String) (size : Nat) : String := String.mk (s.data.take (size - 1))

/-- The body of the fetch loop of `cpl_odbc_get_all_objects`, on the local `entry` and the
buffer.  The driver writes each bound column of the fetched row into its target, in the
order of the columns; a NULL leaves the target as it was and sets the indicator bound
with the column.  Columns 7 and 10 share the indicator `cb_container_id_lo`, columns 8 and
11 share `cb_container_id_hi` (columns 10 and 11 are bound only when the creation session
is selected).  The character columns are bound without an indicator; they hold strings in
every row that `create_object` wrote, and a NULL one is read as the empty string. -/
def cpl_odbc_get_all_objects.keep (H : cpl_h) (odbc : cpl_odbc_t) (flags : Int)
    (row : List Cell) (acc : cplxx_object_info_t × List cplxx_object_info_t) :
    cplxx_object_info_t × List cplxx_object_info_t :=
  let entry := acc.1
  let c7 := row.getD 6 Cell.null
  let c8 := row.getD 7 Cell.null
  let c9 := row.getD 8 Cell.null
  let c10 := row.getD 9 Cell.null
  let c11 := row.getD 10 Cell.null
  let with_session : Bool := decide (Int.land flags H.CPL_I_NO_CREATION_SESSION = 0)
  let container_id_hi := if c7.indicator = -1 then entry.container_id.hi else c7.as_llong.toNat
  let container_id_lo := if c8.indicator = -1 then entry.container_id.lo else c8.as_llong.toNat
  let container_version :=
    if c9.indicator = -1 then entry.container_version else c_int c9.as_llong
  let creation_session : cpl_session_t :=
    if with_session then
      ⟨if c10.indicator = -1 then entry.creation_session.hi else c10.as_llong.toNat,
        if c11.indicator = -1 then entry.creation_session.lo else c11.as_llong.toNat⟩
    else entry.creation_session
  let cb_container_id_lo := if with_session then c10.indicator else c7.indicator
  let cb_container_id_hi := if with_session then c11.indicator else c8.indicator
  let cb_container_ver := c9.indicator
  let e : cplxx_object_info_t :=
    { id := ⟨(row.getD 0 Cell.null).as_llong.toNat, (row.getD 1 Cell.null).as_llong.toNat⟩
      version := entry.version
      creation_session := creation_session
      creation_time := cpl_sql_timestamp_to_unix_time odbc (row.getD 2 Cell.null).as_timestamp
      originator := ((row.getD 3 Cell.null).truncate 4096).as_string
      name := ((row.getD 4 Cell.null).truncate 4096).as_string
      type := ((row.getD 5 Cell.null).truncate 256).as_string
      container_id :=
        if cb_container_id_lo ≤ 0 then CPL_NONE
        else if cb_container_id_hi ≤ 0 then CPL_NONE
        else ⟨container_id_hi, container_id_lo⟩
      container_version :=
        if cb_container_ver ≤ 0 then CPL_VERSION_NONE else container_version }
  (e, acc.2 ++ [e])

/-- The body of the loop of `cpl_odbc_get_all_objects` over the buffer: unless
`CPL_I_NO_VERSION` is set the version of the object is looked up with
`cpl_odbc_get_version`, and a lookup that is not OK returns from the operation; then the
iterator is called with the object info.  Gives the code, the object info the iterator was
called with (if it was called) and the backend. -/
def cpl_odbc_get_all_objects.call (H : cpl_h) (flags : Int)
    (iterator : cpl_object_info_iterator_t) (i : cplxx_object_info_t) (odbc : cpl_odbc_t) :
    cpl_return_t × Option cpl_object_info_t × cpl_odbc_t :=
  match (if Int.land flags H.CPL_I_NO_VERSION = 0 then
      match cpl_odbc_get_version odbc i.id with
      | (r, version, o) => (r, version.getD CPL_VERSION_NONE, o)
    else (CPL_OK, CPL_VERSION_NONE, odbc)) with
  | (r, version, o) =>
    if !CPL_IS_OK r then (r, none, o)
    else
      let e : cpl_object_info_t :=
        { id := i.id
          version := version
          creation_session := i.creation_session
          creation_time := i.creation_time
          originator := some (strncpy i.originator 4096)
          name := some (strncpy i.name 4096)
          type := some (strncpy i.type 256)
          container_id := i.container_id
          container_version := i.container_version }
      match iterator e o with
      | (r2, o2) => (r2, some e, o2)

/-- A loop `for (i = entries.begin(); i != entries.end(); i++)` whose body returns from the
operation with any code that is not OK: `body` gives the code, the row the iterator was
called with (if it was called) and the backend.  Returns the last code, the rows the
iterator was called with, and the backend. -/
def for_each {α β : Type} (body : α → cpl_odbc_t → cpl_return_t × Option β × cpl_odbc_t) :
    List α → cpl_odbc_t → cpl_return_t × List β × cpl_odbc_t
  | [], odbc => (CPL_OK, [], odbc)
  | x :: xs, odbc =>
    match body x odbc with
    | (r, call, o) =>
      if !CPL_IS_OK r then (r, call.toList, o)
      else
        match for_each body xs o with
        | (r2, calls, o2) => (r2, call.toList ++ calls, o2)

/-- `cpl_odbc_get_all_objects`: the second component lists the calls of the iterator.
The scalar members of the local `entry` are not initialised by the code; their initial
content is the argument `entry`. -/
def cpl_odbc_get_all_objects (H : cpl_h) (odbc : cpl_odbc_t) (flags : Int)
    (iterator : Option cpl_object_info_iterator_t) (entry : cplxx_object_info_t) :
    cpl_return_t × List cpl_object_info_t × cpl_odbc_t :=
  let o1 := mutex_lock odbc Mutex.get_all_objects_lock
  let stmt := if Int.land flags H.CPL_I_NO_CREATION_SESSION ≠ 0 then Stmt.get_all_objects_stmt
    else Stmt.get_all_objects_with_session_stmt
  match SQL_EXECUTE_EXT stmt [] 3 o1 with
  | (none, _, o2) => (CPL_E_STATEMENT_ERROR, [], mutex_unlock o2 Mutex.get_all_objects_lock)
  | (some st, _, o2) =>
    let entry1 : cplxx_object_info_t :=
      { entry with
        creation_session :=
          if Int.land flags H.CPL_I_NO_CREATION_SESSION = 0 then entry.creation_session
          else CPL_NONE
        version := CPL_VERSION_NONE }
    match fetch_loop (cpl_odbc_get_all_objects.keep H odbc flags) st.pending st.current o2
        (entry1, []) with
    | (none, st3, o3) =>
      match SQLCloseCursor o3 st3 with
      | (_, _, o4) =>
        (CPL_E_STATEMENT_ERROR, [], mutex_unlock o4 Mutex.get_all_objects_lock)
    | (some (_, entries), st3, o3) =>
      match SQLCloseCursor o3 st3 with
      | (ret, _, o4) =>
        if !SQL_SUCCEEDED ret then
          (CPL_E_STATEMENT_ERROR, [], mutex_unlock o4 Mutex.get_all_objects_lock)
        else
          let o5 := mutex_unlock o4 Mutex.get_all_objects_lock
          if entries.isEmpty then (CPL_S_NO_DATA, [], o5)
          else
            match iterator with
            | none => (CPL_OK, [], o5)
            | some it => for_each (cpl_odbc_get_all_objects.call H flags it) entries o5

/-- The backend after the iterator was called on the rows in order. -/
def after_calls {α : Type} (it : α → cpl_odbc_t → cpl_return_t × cpl_odbc_t) :
    List α → cpl_odbc_t → cpl_odbc_t
  | [], o => o
  | c :: cs, o => after_calls it cs (it c o).2

/-- The result `R` of an enumeration that calls the iterator on the buffered rows in
order, starting from the backend `o`, and stops at the first code that is not OK: when
every call returns OK the result is `CPL_OK` and the iterator was called on all the rows;
when the call on the row `c` is the first that does not return OK, the result is the code
of that call and the iterator was called on the rows up to `c` and on no later one. -/
def IteratorStops {α : Type} (it : α → cpl_odbc_t → cpl_return_t × cpl_odbc_t)
    (rows : List α) (o : cpl_odbc_t) (R : cpl_return_t × List α × cpl_odbc_t) : Prop :=
  ((∀ pre c post, rows = pre ++ c :: post →
      CPL_IS_OK (it c (after_calls it pre o)).1 = true) →
    R.1 = CPL_OK ∧ R.2.1 = rows)
  ∧ ∀ pre c post, rows = pre ++ c :: post →
      (∀ pre2 c2 post2, pre = pre2 ++ c2 :: post2 →
        CPL_IS_OK (it c2 (after_calls it pre2 o)).1 = true) →
      CPL_IS_OK (it c (after_calls it pre o)).1 = false →
      R.1 = (it c (after_calls it pre o)).1 ∧ R.2.1 = pre ++ [c]

/-- The backend after the loop body ran on the rows in order. -/
def after_each {α β : Type} (body : α → cpl_odbc_t → cpl_return_t × Option β × cpl_odbc_t) :
    List α → cpl_odbc_t → cpl_odbc_t
  | [], o => o
  | x :: xs, o => after_each body xs (body x o).2.2

/-- The rows the iterator was called with while the loop body ran on the rows in order. -/
def calls_of_each {α β : Type}
    (body : α → cpl_odbc_t → cpl_return_t × Option β × cpl_odbc_t) :
    List α → cpl_odbc_t → List β
  | [], _ => []
  | x :: xs, o => (body x o).2.1.toList ++ calls_of_each body xs (body x o).2.2

/-- The result `R` of a loop that runs its body on the buffered rows in order, starting
from the backend `o`, and stops at the first code that is not OK: when the body returns OK
on every row the result is `CPL_OK`; when the row `x` is the first on which it does not,
the result is the code of the body on `x`, and the body ran on no later row. -/
def LoopStops {α β : Type} (body : α → cpl_odbc_t → cpl_return_t × Option β × cpl_odbc_t)
    (rows : List α) (o : cpl_odbc_t) (R : cpl_return_t × List β × cpl_odbc_t) : Prop :=
  ((∀ pre x post, rows = pre ++ x :: post →
      CPL_IS_OK (body x (after_each body pre o)).1 = true) →
    R.1 = CPL_OK ∧ R.2.1 = calls_of_each body rows o)
  ∧ ∀ pre x post, rows = pre ++ x :: post →
      (∀ pre2 y post2, pre = pre2 ++ y :: post2 →
        CPL_IS_OK (body y (after_each body pre2 o)).1 = true) →
      CPL_IS_OK (body x (after_each body pre o)).1 = false →
      R.1 = (body x (after_each body pre o)).1
      ∧ R.2.1 = calls_of_each body pre o ++ (body x (after_each body pre o)).2.1.toList

/-- The rows of the query that `get_all_objects` executes. -/
def get_all_objects_rows (H : cpl_h) (db : Store) (flags : Int) : List (List Cell) :=
  if Int.land flags H.CPL_I_NO_CREATION_SESSION ≠ 0 then db.objects.map ObjectRow.cells
  else db.objects.flatMap (fun o => (db.version0_of o.id).map
    (fun v => o.cells ++ [Cell.int v.session_id.hi, Cell.int v.session_id.lo]))

/-- The buffer `get_all_objects` fills from the rows of its query. -/
def get_all_objects_buffer (H : cpl_h) (odbc : cpl_odbc_t) (flags : Int)
    (entry : cplxx_object_info_t) : List cplxx_object_info_t :=
  ((get_all_objects_rows H odbc.db flags).foldl
    (fun a row => cpl_odbc_get_all_objects.keep H odbc flags row a)
    ({ entry with
        creation_session :=
          if Int.land flags H.CPL_I_NO_CREATION_SESSION = 0 then entry.creation_session
          else CPL_NONE
        version := CPL_VERSION_NONE }, [])).2

/-- The buffer `lookup_object_ext` fills from the rows of its query. -/
def lookup_object_ext_buffer (odbc : cpl_odbc_t) (originator name type : Option String) :
    List cpl_id_timestamp_t :=
  (odbc.db.objects_named originator name type).map
    (fun r => ⟨r.id, cpl_sql_timestamp_to_unix_time odbc r.creation_time⟩)

/-- An object info iterator that accepts every row. -/
def accept_all_objects : cpl_object_info_iterator_t := fun _ o => (CPL_OK, o)

/-- The backend after a `create_object` of (0,1) whose second insert the driver failed:
the object row is stored, its version 0 is not. -/
def orphan_object : cpl_odbc_t :=
  (cpl_odbc_create_object
    { connected Store.empty 0 with script := [none, some (diag "HY000")] }
    ⟨0, 1⟩ "o" "n" "t" CPL_NONE CPL_VERSION_NONE ⟨0, 5⟩).2

/-- An initial content of the local `entry` of `get_all_objects`. -/
def sample_entry : cplxx_object_info_t := ⟨⟨0, 0⟩, 0, ⟨0, 0⟩, 0, "", "", "", ⟨0, 0⟩, 0⟩

/-- The object info that `get_all_objects` passes to the iterator for a buffered row, with
the given version. -/
def cplxx_object_info_t.info (i : cplxx_object_info_t) (version : cpl_version_t) :
    cpl_object_info_t :=
  { id := i.id
    version := version
    creation_session := i.creation_session
    creation_time := i.creation_time
    originator := some (strncpy i.originator 4096)
    name := some (strncpy i.name 4096)
    type := some (strncpy i.type 256)
    container_id := i.container_id
    container_version := i.container_version }

/-- The ODBC driver manager as `cpl_odbc_connect` uses it: the outcome of
`SQLDriverConnect` for a connection string, the outcome of `SQLPrepare` for a statement on
the connection made with the string, and the backend state on the database that the
string names. -/
structure driver_manager where
  SQLDriverConnect : String → SQLRETURN
  SQLPrepare : String → Stmt → SQLRETURN
  backend : String → cpl_odbc_t

/-- The statements in the order in which `cpl_odbc_connect` prepares them. -/
def prepared_statements : List Stmt :=
  [Stmt.create_session_insert_stmt, Stmt.create_object_insert_stmt,
    Stmt.create_object_insert_container_stmt, Stmt.create_object_insert_version_stmt,
    Stmt.lookup_object_stmt, Stmt.lookup_object_ext_stmt, Stmt.create_version_stmt,
    Stmt.get_version_stmt, Stmt.add_ancestry_edge_stmt, Stmt.has_immediate_ancestor_stmt,
    Stmt.has_immediate_ancestor_with_ver_stmt, Stmt.add_property_stmt,
    Stmt.get_all_objects_stmt, Stmt.get_all_objects_with_session_stmt,
    Stmt.get_object_info_stmt, Stmt.get_session_info_stmt, Stmt.get_version_info_stmt,
    Stmt.get_object_ancestors_stmt, Stmt.get_object_ancestors_with_ver_stmt,
    Stmt.get_object_descendants_stmt, Stmt.get_object_descendants_with_ver_stmt,
    Stmt.get_properties_stmt, Stmt.get_properties_with_ver_stmt,
    Stmt.get_properties_with_key_stmt, Stmt.get_properties_with_key_ver_stmt,
    Stmt.lookup_by_property_stmt]

/-- `cpl_odbc_connect`: opens the connection with `SQLDriverConnect` and prepares the
statements.  The second component lists the connection strings passed to
`SQLDriverConnect`. -/
def cpl_odbc_connect (dm : driver_manager) (connection_string : String) :
    cpl_return_t × List String :=
  if !SQL_SUCCEEDED (dm.SQLDriverConnect connection_string) then
    (CPL_E_DB_CONNECTION_ERROR, [connection_string])
  else if prepared_statements.all
      (fun s => SQL_SUCCEEDED (dm.SQLPrepare connection_string s)) then
    (CPL_OK, [connection_string])
  else (CPL_E_PREPARE_STATEMENT_ERROR, [connection_string])

/-- What `cpl_create_odbc_backend` stores in the backend structure it allocates. -/
structure cpl_db_backend_t where
  db_type : Int
  connection_string : String
  odbc : cpl_odbc_t

/-- `cpl_create_odbc_backend`: allocates the backend structure and connects; `out` is
written only on success.  Returns the code, the content of `out` and the connection strings
passed to `SQLDriverConnect`. -/
def cpl_create_odbc_backend (dm : driver_manager) (connection_string : String)
    (db_type : Int) (out : Option cpl_db_backend_t) :
    cpl_return_t × Option cpl_db_backend_t × List String :=
  match cpl_odbc_connect dm connection_string with
  | (r, connections) =>
    if !CPL_IS_OK r then (r, out, connections)
    else (CPL_OK, some ⟨db_type, connection_string, dm.backend connection_string⟩, connections)

/-- `cpl_create_odbc_backend_dsn`: sets `out` to null, rejects a data source name with a
semicolon or a brace, and otherwise creates the backend for the connection string
`DSN=<dsn>;`. -/
def cpl_create_odbc_backend_dsn (dm : driver_manager) (dsn : String) (db_type : Int)
    (out : Option cpl_db_backend_t) :
    cpl_return_t × Option cpl_db_backend_t × List String :=
  let _ := out
  if dsn.data.contains ';' ∨ dsn.data.contains (Char.ofNat 123)
      ∨ dsn.data.contains (Char.ofNat 125) then
    (CPL_E_INVALID_ARGUMENT, none, [])
  else cpl_create_odbc_backend dm ("DSN=" ++ dsn ++ ";") db_type none

/-- A driver manager that connects to the empty database and prepares every statement. -/
def sample_driver_manager : driver_manager :=
  ⟨fun _ => SQL_SUCCESS, fun _ _ => SQL_SUCCESS, fun _ => connected Store.empty 0⟩

/-- `cpl_odbc_create_session`: a null `mac_address` is `none`. -/
def cpl_odbc_create_session (odbc : cpl_odbc_t) (session : cpl_session_t)
    (mac_address : Option String) (user : String) (pid : Int) (program cmdline : String) :
    cpl_return_t × cpl_odbc_t :=
  let o1 := mutex_lock odbc Mutex.create_session_lock
  match SQL_EXECUTE_EXT Stmt.create_session_insert_stmt
      [Param.integer session.hi, Param.integer session.lo, Param.varchar 18 mac_address,
        Param.varchar 255 (some user), Param.integer pid, Param.varchar 4095 (some program),
        Param.varchar 4095 (some cmdline)] 3 o1 with
  | (none, _, o2) => (CPL_E_STATEMENT_ERROR, mutex_unlock o2 Mutex.create_session_lock)
  | (some _, _, o2) => (CPL_OK, mutex_unlock o2 Mutex.create_session_lock)

/-- The record `cpl_session_info_t`; a null string pointer is `none`. -/
structure cpl_session_info_t where
  id : cpl_session_t
  mac_address : Option String
  user : Option String
  pid : Int
  program : Option String
  cmdline : Option String
  start_time : Nat
  deriving DecidableEq, Repr

/-- `cpl_odbc_get_session_info`: executes the query and reads the six columns of its row
with `CPL_SQL_SIMPLE_FETCH`, that is without null handling. -/
def cpl_odbc_get_session_info (odbc : cpl_odbc_t) (id : cpl_session_t) :
    cpl_return_t × Option cpl_session_info_t × cpl_odbc_t :=
  let o1 := mutex_lock odbc Mutex.get_session_info_lock
  match SQL_EXECUTE_EXT Stmt.get_session_info_stmt
      [Param.integer id.hi, Param.integer id.lo] 3 o1 with
  | (none, _, o2) =>
    (CPL_E_STATEMENT_ERROR, none, mutex_unlock o2 Mutex.get_session_info_lock)
  | (some stmt, _, o2) =>
    let err_r := fun (r : cpl_return_t) (o : cpl_odbc_t) =>
      (r, (none : Option cpl_session_info_t), mutex_unlock o Mutex.get_session_info_lock)
    CPL_SQL_SIMPLE_FETCH_EXT
      (fun o st c f cl hn => cpl_sql_fetch_single_dynamically_allocated_string o st c f cl
        hn 4095) o2 stmt 1 false err_r
      fun _ mac_address st o =>
    CPL_SQL_SIMPLE_FETCH_EXT
      (fun o st c f cl hn => cpl_sql_fetch_single_dynamically_allocated_string o st c f cl
        hn 4095) o st 2 false err_r
      fun _ user st o =>
    CPL_SQL_SIMPLE_FETCH_EXT cpl_sql_fetch_single_llong o st 3 false err_r
      fun _ l st o =>
    CPL_SQL_SIMPLE_FETCH_EXT
      (fun o st c f cl hn => cpl_sql_fetch_single_dynamically_allocated_string o st c f cl
        hn 4095) o st 4 false err_r
      fun _ program st o =>
    CPL_SQL_SIMPLE_FETCH_EXT
      (fun o st c f cl hn => cpl_sql_fetch_single_dynamically_allocated_string o st c f cl
        hn 4095) o st 5 false err_r
      fun _ cmdline st o =>
    CPL_SQL_SIMPLE_FETCH_EXT cpl_sql_fetch_single_timestamp_as_unix_time o st 6 false err_r
      fun _ start_time st o =>
    match SQLCloseCursor o st with
    | (ret, _, o3) =>
      if !SQL_SUCCEEDED ret then
        (CPL_E_STATEMENT_ERROR, none, mutex_unlock o3 Mutex.get_session_info_lock)
      else
        (CPL_OK,
          some {
            id := id
            mac_address := mac_address
            user := user
            pid := c_int l
            program := program
            cmdline := cmdline
            start_time := start_time },
          mutex_unlock o3 Mutex.get_session_info_lock)

/-- The record `cpl_version_info_t`. -/
structure cpl_version_info_t where
  id : cpl_id_t
  version : cpl_version_t
  session : cpl_session_t
  creation_time : Nat
  deriving DecidableEq, Repr

/-- `cpl_odbc_get_version_info`: executes the query and reads the three columns of its
row. -/
def cpl_odbc_get_version_info (odbc : cpl_odbc_t) (id : cpl_id_t) (version : cpl_version_t) :
    cpl_return_t × Option cpl_version_info_t × cpl_odbc_t :=
  let o1 := mutex_lock odbc Mutex.get_version_info_lock
  match SQL_EXECUTE_EXT Stmt.get_version_info_stmt
      [Param.integer id.hi, Param.integer id.lo, Param.integer version] 3 o1 with
  | (none, _, o2) =>
    (CPL_E_STATEMENT_ERROR, none, mutex_unlock o2 Mutex.get_version_info_lock)
  | (some stmt, _, o2) =>
    let err_r := fun (r : cpl_return_t) (o : cpl_odbc_t) =>
      (r, (none : Option cpl_version_info_t), mutex_unlock o Mutex.get_version_info_lock)
    CPL_SQL_SIMPLE_FETCH_EXT cpl_sql_fetch_single_llong o2 stmt 1 false err_r
      fun _ session_hi st o =>
    CPL_SQL_SIMPLE_FETCH_EXT cpl_sql_fetch_single_llong o st 2 false err_r
      fun _ session_lo st o =>
    CPL_SQL_SIMPLE_FETCH_EXT cpl_sql_fetch_single_timestamp_as_unix_time o st 3 false err_r
      fun _ creation_time st o =>
    match SQLCloseCursor o st with
    | (ret, _, o3) =>
      if !SQL_SUCCEEDED ret then
        (CPL_E_STATEMENT_ERROR, none, mutex_unlock o3 Mutex.get_version_info_lock)
      else
        (CPL_OK,
          some {
            id := id
            version := version
            session := ⟨session_hi.toNat, session_lo.toNat⟩
            creation_time := creation_time },
          mutex_unlock o3 Mutex.get_version_info_lock)

/-- The backend after `create_session ((0,1), mac, "u", 7, "p", "c")` on the empty
database. -/
def one_session (mac_address : Option String) : cpl_odbc_t :=
  (cpl_odbc_create_session (connected Store.empty 0) ⟨0, 1⟩ mac_address "u" 7 "p" "c").2

/-! ## Notions used to state how the operations retry -/

/-- The backend with another event log. -/
def cpl_odbc_t.with_trace (o : cpl_odbc_t) (t : List Event) : cpl_odbc_t :=
  { o with trace := t }

/-- The number of reconnect attempts recorded in an event log. -/
def reconnects (t : List Event) : Nat := t.count Event.reconnect

/-- The diagnostic chain of a transient link failure: SQLSTATE `08S01` as the sole
record. -/
def link_failure : List cpl_odbc_error_record_t := diag "08S01"

/-- The events of `n` failed executes of a statement, each followed by a reconnect. -/
def retry_events (s : Stmt) : Nat → List Event
  | 0 => []
  | n + 1 => Event.execute s :: Event.reconnect :: retry_events s n

/-- The driver reports no transient link failure: no entry of the script is a diagnostic
chain that calls for a reconnect. -/
def NoTransient (script : List (Option (List cpl_odbc_error_record_t))) : Prop :=
  ∀ d, some d ∈ script → should_reconnect_due_to_odbc_error d = false

/-- What the second backend logged beyond the log of the first. -/
def trace_since (a b : cpl_odbc_t) : List Event := b.trace.drop a.trace.length

/-- The driver script in which each of the next executes fails with one of the given
diagnostic chains and the reconnect that follows it succeeds. -/
def injected : List (List cpl_odbc_error_record_t) →
    List (Option (List cpl_odbc_error_record_t))
  | [] => []
  | d :: ds => some d :: none :: injected ds

/-- The backend with the given failures injected before what its driver does otherwise. -/
def cpl_odbc_t.inject (o : cpl_odbc_t) (ds : List (List cpl_odbc_error_record_t)) :
    cpl_odbc_t :=
  { o with script := injected ds ++ o.script }

/-- Whether the retrying execute with the given budget gives up on a driver script: an
execute fails with a diagnostic chain that does not call for a reconnect, or it fails with
one that does when the budget is used up, or the reconnect fails. -/
def gives_up : Nat → List (Option (List cpl_odbc_error_record_t)) → Bool
  | _, [] => false
  | _, none :: _ => false
  | 0, some _ :: _ => true
  | k + 1, some d :: rest =>
    if should_reconnect_due_to_odbc_error (fetch_odbc_error d) then
      match rest with
      | [] => false
      | some _ :: _ => true
      | none :: rest2 => gives_up k rest2
    else true

/-- An iterator that neither reads nor writes the event log of the backend. -/
def TraceBlind {α : Type} (it : α → cpl_odbc_t → cpl_return_t × cpl_odbc_t) : Prop :=
  ∀ c o t, it c (o.with_trace t) = ((it c o).1, (it c o).2.with_trace t)

/-- The backend with another driver script and another event log. -/
def cpl_odbc_t.with_driver (o : cpl_odbc_t)
    (script : List (Option (List cpl_odbc_error_record_t))) (t : List Event) : cpl_odbc_t :=
  { o with script := script, trace := t }

/-- An operation without an output, in the shape of those with one. -/
def no_output (R : cpl_return_t × cpl_odbc_t) : cpl_return_t × Unit × cpl_odbc_t :=
  (R.1, (), R.2)

/-- The first backend is the second up to the event log, in which it has `n` more
reconnects. -/
def RetriedFrom (n : Nat) (a b : cpl_odbc_t) : Prop :=
  a.with_trace [] = b.with_trace [] ∧ reconnects a.trace = reconnects b.trace + n

/-- What an operation does once its first retrying execute (of statement `s` with
parameters `ps`, under mutex `m`) is over depends only on the handle the execute gave and
on the backend it left, not on the event log, on the remaining budget, or on the driver
script and the log the operation started with; the events it logs from there on hold at
most `bound` reconnects; and it returns `CPL_E_STATEMENT_ERROR` when the execute gave
up. -/
def AfterExecute {α : Type} (op : cpl_odbc_t → cpl_return_t × α × cpl_odbc_t)
    (s : Stmt) (ps : List Param) (m : Mutex) (bound : α → Nat) : Prop :=
  ∀ (b : cpl_odbc_t) (sa : List (Option (List cpl_odbc_error_record_t)))
    (ta0 : List Event) (r : Option SQLHSTMT) (ka kb : Nat) (o2 : cpl_odbc_t)
    (ta tb : List Event),
    SQL_EXECUTE_EXT s ps 3 (mutex_lock (b.with_driver sa ta0) m) = (r, ka, o2.with_trace ta) →
    SQL_EXECUTE_EXT s ps 3 (mutex_lock b m) = (r, kb, o2.with_trace tb) →
    ∃ (c : cpl_return_t) (out : α) (S : cpl_odbc_t) (ev : List Event),
      op (b.with_driver sa ta0) = (c, out, S.with_trace (ta ++ ev)) ∧
      op b = (c, out, S.with_trace (tb ++ ev)) ∧
      reconnects ev ≤ bound out ∧
      (r = none → c = CPL_E_STATEMENT_ERROR)

/-- The operation does not look at the event log: with another log it gives the same
result and the same backend, and appends the same events. -/
def Oblivious {α : Type} (op : cpl_odbc_t → cpl_return_t × α × cpl_odbc_t) : Prop :=
  ∀ o t, op (o.with_trace t)
    = ((op o).1, (op o).2.1, (op o).2.2.with_trace (t ++ trace_since o (op o).2.2))

/-- One call of the operation makes at most `bound` reconnect attempts. -/
def BoundedRetries {α : Type} (op : cpl_odbc_t → cpl_return_t × α × cpl_odbc_t)
    (bound : α → Nat) : Prop :=
  ∀ o, reconnects (trace_since o (op o).2.2) ≤ bound (op o).2.1
    ∧ (op o).2.2.trace = o.trace ++ trace_since o (op o).2.2

/-- The operation returns `CPL_E_STATEMENT_ERROR` when its retrying execute gives up. -/
def SurfacesFailure {α : Type} (op : cpl_odbc_t → cpl_return_t × α × cpl_odbc_t) : Prop :=
  ∀ o, gives_up 3 o.script = true → (op o).1 = CPL_E_STATEMENT_ERROR

/-- The operation recovers from up to three injected transient link failures: it returns
the same code and output, and leaves the same backend up to the event log, in which there
is one more reconnect for each injected failure. -/
def Recovers {α : Type} (op : cpl_odbc_t → cpl_return_t × α × cpl_odbc_t) : Prop :=
  ∀ (o : cpl_odbc_t) (ds : List (List cpl_odbc_error_record_t)),
    ds.length ≤ 3 →
    (∀ d ∈ ds, should_reconnect_due_to_odbc_error (fetch_odbc_error d) = true) →
    NoTransient o.script →
    (op (o.inject ds)).1 = (op o).1 ∧ (op (o.inject ds)).2.1 = (op o).2.1 ∧
      RetriedFrom ds.length (op (o.inject ds)).2.2 (op o).2.2

/-- Two runs of the rest of an operation, from backends that differ only in the event
log, give the same code and output and the same backend up to the log, to which they append
the same events with at most `bound` reconnects. -/
def SameAfter {α : Type} (bound : α → Nat) (ta tb : List Event)
    (Xa Xb : cpl_return_t × α × cpl_odbc_t) : Prop :=
  ∃ (c : cpl_return_t) (out : α) (S : cpl_odbc_t) (ev : List Event),
    Xa = (c, out, S.with_trace (ta ++ ev)) ∧ Xb = (c, out, S.with_trace (tb ++ ev)) ∧
      reconnects ev ≤ bound out

/-- One call of the operation makes at most `bound` reconnect attempts, and it returns
`CPL_E_STATEMENT_ERROR` when its retrying execute gives up on the driver's answers. -/
def RetriesWithin {α : Type} (op : cpl_odbc_t → cpl_return_t × α × cpl_odbc_t)
    (bound : α → Nat) : Prop :=
  ∀ o, reconnects (op o).2.2.trace ≤ reconnects o.trace + bound (op o).2.1
    ∧ (gives_up 3 o.script = true → (op o).1 = CPL_E_STATEMENT_ERROR)

/-- A backend holding one object whose driver lets `cpl_odbc_get_version` through after
three link failures and then fails the execute of `cpl_odbc_get_object_info` once more. -/
def flapping_link : cpl_odbc_t :=
  { (cpl_odbc_create_object (connected Store.empty 0) ⟨0, 1⟩ "o" "n" "t" CPL_NONE 0
      ⟨0, 9⟩).2 with
    script := injected [link_failure, link_failure, link_failure]
      ++ [none, none, none, none] ++ injected [link_failure]
    trace := [] }

/-! ## Sample stores of the later claims -/

/-- The backend after three `create_object` calls on the empty store: the object (0,9)
without container, the object (0,1) inside version 0 of (0,9), and the object (0,2)
without container. -/
def three_objects : cpl_odbc_t :=
  (cpl_odbc_create_object
    (cpl_odbc_create_object
      (cpl_odbc_create_object (connected Store.empty 0)
        ⟨0, 9⟩ "o" "box" "t" CPL_NONE CPL_VERSION_NONE ⟨0, 5⟩).2
      ⟨0, 1⟩ "o" "inside" "t" ⟨0, 9⟩ 0 ⟨0, 5⟩).2
    ⟨0, 2⟩ "o" "outside" "t" CPL_NONE CPL_VERSION_NONE ⟨0, 5⟩).2

/-- The backend after a `create_object` of (0,1) on the empty store. -/
def one_object : cpl_odbc_t :=
  (cpl_odbc_create_object (connected Store.empty 0)
    ⟨0, 1⟩ "o" "n" "t" CPL_NONE CPL_VERSION_NONE ⟨0, 5⟩).2

/-! ## The helpers of the RDF backend (`cpl-connection.cpp`) -/

/-- The kinds of `xmlNode` (libxml2) the parser can meet. -/
inductive xmlElementType where
  | XML_ELEMENT_NODE
  | XML_TEXT_NODE
  | XML_COMMENT_NODE
  deriving DecidableEq, Repr

/-- A node of the parsed server response (`xmlNode` of libxml2), as far as the parser looks
at it: its name, its kind, its `content` pointer (`none` is NULL), its `datatype` property
(`none` when `xmlGetProp` returns NULL) and its children in document order. -/
inductive xmlNode where
  | mk (name : String) (type : xmlElementType) (content : Option String)
      (datatype : Option String) (children : List xmlNode)

/-- The field `name`. -/
def xmlNode.name : xmlNode → String
  | xmlNode.mk n _ _ _ _ => n

/-- The field `type`. -/
def xmlNode.type : xmlNode → xmlElementType
  | xmlNode.mk _ t _ _ _ => t

/-- The field `content`. -/
def xmlNode.content : xmlNode → Option String
  | xmlNode.mk _ _ c _ _ => c

/-- The result of `xmlGetProp (node, "datatype")`. -/
def xmlNode.datatype : xmlNode → Option String
  | xmlNode.mk _ _ _ d _ => d

/-- The field `children` with the chain of `next` pointers. -/
def xmlNode.children : xmlNode → List xmlNode
  | xmlNode.mk _ _ _ _ cs => cs

/-- The macro `XML_GET_CONTENT` of libxml2: NULL for an element node, the `content` pointer
otherwise. -/
def XML_GET_CONTENT (n : xmlNode) : Option String :=
  if n.type = xmlElementType.XML_ELEMENT_NODE then none else n.content

/-- The types of an `RDFValue` that the source mentions; `RDF_XSD_OTHER` stands for any
further enumerator of the header `cpl-connection.h`, which is not part of the sources. -/
inductive RDFValueType where
  | RDF_XSD_URI
  | RDF_XSD_STRING
  | RDF_XSD_INTEGER
  | RDF_XSD_OTHER
  deriving DecidableEq, Repr

/-- The fields of `RDFValue` that the source uses.  `v_uri` and `v_string` are pointers
into `raw`; they are carried as the text they point to when they are set. -/
structure RDFValue where
  type : RDFValueType
  raw : String
  v_uri : String
  v_string : String
  v_integer : Int
  deriving DecidableEq, Repr

/-- The error messages of an `RDFResultSet` (`m_errors`). -/
structure RDFResultSet where
  m_errors : List String
  deriving DecidableEq, Repr

/-- `RDFResultSet::append_error_message`: the formatted message is cut to the 255
characters that fit the local buffer. -/
def RDFResultSet.append_error_message (rs : RDFResultSet) (message : String) :
    RDFResultSet :=
  { rs with m_errors := rs.m_errors ++ [String.mk (message.data.take 255)] }

/-- The call `result_set->append_error_message (...)` under `if (result_set != NULL)`. -/
def append_error_message_if (result_set : Option RDFResultSet) (message : String) :
    Option RDFResultSet :=
  result_set.map fun rs => rs.append_error_message message

/-- `isspace` of the C library in the "C" locale. -/
def isspace (c : Char) : Bool :=
  c.toNat = 32 || (9 ≤ c.toNat && c.toNat ≤ 13)

/-- The digits `strtoll` consumes in base 10: the value read so far and the rest. -/
def strtoll.digits : List Char → Nat → Nat × List Char
  | [], acc => (acc, [])
  | c :: cs, acc =>
    if c.isDigit then strtoll.digits cs (10 * acc + (c.toNat - 48)) else (acc, c :: cs)

/-- `strtoll (str, &e, 10)` of the C library: skips white space, reads an optional sign and
the decimal digits, and clamps the value to the range of `long long`; without a digit the
value is 0 and `e` is `str`.  Returns the value and what `e` points to. -/
def strtoll (str : List Char) : Int × List Char :=
  let t := str.dropWhile isspace
  let neg := t.head? = some (Char.ofNat 45)
  let u := if t.head? = some (Char.ofNat 45) ∨ t.head? = some (Char.ofNat 43) then t.tail
    else t
  match u with
  | [] => (0, str)
  | c :: _ =>
    if c.isDigit then
      let v : Int := if neg then -((strtoll.digits u 0).1 : Int) else (strtoll.digits u 0).1
      (max (-9223372036854775808) (min 9223372036854775807 v), (strtoll.digits u 0).2)
    else (0, str)

/-- `strstr (haystack, needle) != NULL`. -/
def strstr (haystack needle : List Char) : Bool :=
  haystack.tails.any fun t => needle.isPrefixOf t

/-- The loop of `cpl_rdf_parse_xml_value` over the children of the binding, from the given
child on, with the current values of `found` and `*out`.  `none` stands for the undefined
behaviour of assigning a NULL pointer to `out->raw`. -/
def cpl_rdf_parse_xml_value.loop :
    List xmlNode → Option RDFResultSet → Bool → RDFValue →
    Option (cpl_return_t × Option RDFResultSet × RDFValue)
  | [], result_set, found, out =>
    some (if found then CPL_OK else CPL_E_BACKEND_INTERNAL_ERROR, result_set, out)
  | cur_value :: next, result_set, found, out =>
    if cur_value.name = "text" then cpl_rdf_parse_xml_value.loop next result_set found out
    else if cur_value.name = "comment" then
      cpl_rdf_parse_xml_value.loop next result_set found out
    else if cur_value.name = "uri" then
      match cur_value.children with
      | [] =>
        some (CPL_E_BACKEND_INTERNAL_ERROR, result_set,
          { out with type := RDFValueType.RDF_XSD_URI })
      | child :: _ =>
        match XML_GET_CONTENT child with
        | none => none
        | some raw =>
          cpl_rdf_parse_xml_value.loop next result_set true
            { out with type := RDFValueType.RDF_XSD_URI, raw := raw, v_uri := raw }
    else if cur_value.name = "literal" then
      match cur_value.children with
      | [] => some (CPL_E_BACKEND_INTERNAL_ERROR, result_set, out)
      | child :: _ =>
        match XML_GET_CONTENT child with
        | none => none
        | some raw =>
          match cur_value.datatype with
          | none =>
            cpl_rdf_parse_xml_value.loop next result_set true
              { out with raw := raw, type := RDFValueType.RDF_XSD_STRING, v_string := raw }
          | some type =>
            if strstr type.data "#integer".data then
              if (strtoll raw.data).2 ≠ [] then
                some (CPL_E_BACKEND_INTERNAL_ERROR,
                  append_error_message_if result_set
                    ("Could not parse an integer literal " ++ String.singleton (Char.ofNat 34)
                      ++ raw ++ String.singleton (Char.ofNat 34)),
                  { out with raw := raw, type := RDFValueType.RDF_XSD_INTEGER,
                             v_integer := (strtoll raw.data).1 })
              else
                cpl_rdf_parse_xml_value.loop next result_set true
                  { out with raw := raw, type := RDFValueType.RDF_XSD_INTEGER,
                             v_integer := (strtoll raw.data).1 }
            else
              some (CPL_E_BACKEND_INTERNAL_ERROR,
                append_error_message_if result_set
                  ("Unrecognized datatype " ++ String.singleton (Char.ofNat 34) ++ type
                    ++ String.singleton (Char.ofNat 34)),
                { out with raw := raw })
    else
      some (CPL_E_BACKEND_INTERNAL_ERROR,
        append_error_message_if result_set
          ("Invalid node " ++ String.singleton (Char.ofNat 34) ++ cur_value.name
            ++ String.singleton (Char.ofNat 34)
            ++ " in the <binding> tag of the server response"),
        out)

/-- `cpl_rdf_parse_xml_value`: parses the value of a `<binding>` element into `*out`.
Returns the code, the result set with its error messages, and `*out`.  The local `found`
starts as `true`. -/
def cpl_rdf_parse_xml_value (cur : xmlNode) (result_set : Option RDFResultSet)
    (out : RDFValue) : Option (cpl_return_t × Option RDFResultSet × RDFValue) :=
  cpl_rdf_parse_xml_value.loop cur.children result_set true out

/-- A `<binding>` element without children. -/
def empty_binding : xmlNode :=
  xmlNode.mk "binding" xmlElementType.XML_ELEMENT_NODE none none []

/-- A `<binding>` element that holds white space and a comment only. -/
def blank_binding : xmlNode :=
  xmlNode.mk "binding" xmlElementType.XML_ELEMENT_NODE none none
    [xmlNode.mk "text" xmlElementType.XML_TEXT_NODE (some " ") none [],
     xmlNode.mk "comment" xmlElementType.XML_COMMENT_NODE (some "no value") none []]

/-- A value as `new RDFValue` may leave it. -/
def sample_value : RDFValue := ⟨RDFValueType.RDF_XSD_OTHER, "", "", "", 0⟩

/-- A `char` array whose bytes may be indeterminate (`none`): a fresh `malloc` block or a
local array before it is written. -/
abbrev char_buffer := List (Option Nat)

/-- The write of `bytes` into the buffer from index `i` on; `none` is the undefined
behaviour of a write past the end of the buffer. -/
def char_buffer.store (buf : char_buffer) (i : Nat) (bytes : List Nat) :
    Option char_buffer :=
  if i + bytes.length ≤ buf.length then
    some (buf.take i ++ bytes.map some ++ buf.drop (i + bytes.length))
  else none

/-- The construction of a `std::string` from the `char*` that points to the buffer: the
bytes before the first NUL; `none` is the undefined behaviour of reading an indeterminate
byte or past the end of the buffer. -/
def char_buffer.to_string : char_buffer → Option (List Nat)
  | [] => none
  | none :: _ => none
  | some b :: rest => if b = 0 then some [] else (char_buffer.to_string rest).map (b :: ·)

/-- The lowercase hexadecimal digit of `d < 16`, as a character code. -/
def hex_digit (d : Nat) : Nat := if d < 10 then 48 + d else 87 + d

/-- The hexadecimal digits of `v`, most significant first, `fuel` digits at most. -/
def hex_digits : Nat → Nat → List Nat
  | 0, _ => []
  | fuel + 1, v =>
    if v < 16 then [hex_digit v] else hex_digits fuel (v / 16) ++ [hex_digit (v % 16)]

/-- The characters that `sprintf` writes for `"%02x"` and an `int` argument: the argument
is read as `unsigned int` (32 bits) and printed with two digits at least. -/
def sprintf_02x (v : Int) : List Nat :=
  let ds := hex_digits 8 (v % 4294967296).toNat
  List.replicate (2 - ds.length) 48 ++ ds

/-- The promotion of the `char` with the byte `b` to `int`, where `char` is signed or
unsigned as the platform has it. -/
def char_to_int (char_signed : Bool) (b : Nat) : Int :=
  if char_signed ∧ 128 ≤ b then (b : Int) - 256 else b

/-- The loop `for (p = 0; p < l; p++) sprintf (r + (2*p), "%02x", str[p])` from `p` on;
`sprintf` writes its characters and a NUL. -/
def cpl_rdf_hex_string.loop (char_signed : Bool) :
    List Nat → Nat → char_buffer → Option char_buffer
  | [], _, r => some r
  | c :: rest, p, r =>
    match r.store (2 * p) (sprintf_02x (char_to_int char_signed c) ++ [0]) with
    | none => none
    | some r2 => cpl_rdf_hex_string.loop char_signed rest (p + 1) r2

/-- `cpl_rdf_hex_string` on the bytes of a string (without its NUL); `str = none` is the
NULL pointer.  `none` as result is undefined behaviour: the construction of a string from
NULL, or a write past the end of the local array `r` of `4 + l * 2` bytes. -/
def cpl_rdf_hex_string (char_signed : Bool) (str : Option (List Nat)) :
    Option (List Nat) :=
  match str with
  | none => none
  | some s =>
    let l := s.length
    match cpl_rdf_hex_string.loop char_signed s 0 (List.replicate (4 + l * 2) none) with
    | none => none
    | some r =>
      match r.store (2 * l) [0] with
      | none => none
      | some r2 => r2.to_string

/-- The two-digit lowercase hexadecimal representation of a byte. -/
def two_hex_digits (b : Nat) : List Nat := [hex_digit (b / 16), hex_digit (b % 16)]

/-- How a call of `cpl_rdf_escape_string` ends: it returns a string, it aborts after
"Out of memory", it aborts after "Race condition", or its behaviour is undefined (the
construction of a string from NULL, a write outside the buffer). -/
inductive escape_result where
  | returned (r : List Nat)
  | out_of_memory
  | race_condition
  | undefined
  deriving DecidableEq, Repr

/-- The condition under which the first loop of `cpl_rdf_escape_string` counts a
character: tab, backspace, newline, carriage return, form feed, backslash, double quote,
single quote. -/
def to_escape_char (c : Nat) : Bool :=
  c = 9 || c = 8 || c = 10 || c = 13 || c = 12 || c = 92 || c = 34 || c = 39

/-- The value of `to_escape` after the first loop of `cpl_rdf_escape_string`. -/
def to_escape (str : List Nat) : Nat := str.countP to_escape_char

/-- The characters that the `switch` of `cpl_rdf_escape_string` writes for `c`. -/
def escape_switch (c : Nat) : List Nat :=
  if c = 9 then [92, 116]
  else if c = 8 then [92, 98]
  else if c = 10 then [92, 110]
  else if c = 13 then [92, 114]
  else if c = 12 then [92, 102]
  else if c = 92 ∨ c = 34 ∨ c = 39 then [92, c]
  else [c]

/-- The state of the second loop of `cpl_rdf_escape_string` after some iterations: the
write index `u` and the buffer, or the abort, or undefined behaviour. -/
inductive escape_loop where
  | continues (u : Nat) (escaped : char_buffer)
  | race_condition
  | undefined
  deriving DecidableEq, Repr

/-- The second loop of `cpl_rdf_escape_string` over the given characters, from the write
index `u` on; `limit` is `str_len + to_escape`. -/
def cpl_rdf_escape_string.loop (limit : Nat) : List Nat → Nat → char_buffer → escape_loop
  | [], u, escaped => escape_loop.continues u escaped
  | c :: rest, u, escaped =>
    if u ≥ limit then escape_loop.race_condition
    else
      match escaped.store u (escape_switch c) with
      | none => escape_loop.undefined
      | some e => cpl_rdf_escape_string.loop limit rest (u + (escape_switch c).length) e

/-- `cpl_rdf_escape_string` on the bytes of a string (without its NUL); `str = none` is the
NULL pointer, and `malloc n` tells whether the allocation of `n` bytes succeeds.  The sums
of `size_t` are exact: the string lies in the address space, which is less than half of
the range of `size_t`. -/
def cpl_rdf_escape_string (malloc : Nat → Bool) (str : Option (List Nat)) : escape_result :=
  match str with
  | none => escape_result.undefined
  | some s =>
    let str_len := s.length
    if to_escape s = 0 then escape_result.returned s
    else if !malloc (str_len + to_escape s + 4) then escape_result.out_of_memory
    else
      match cpl_rdf_escape_string.loop (str_len + to_escape s) s 0
          (List.replicate (str_len + to_escape s + 4) none) with
      | escape_loop.race_condition => escape_result.race_condition
      | escape_loop.undefined => escape_result.undefined
      | escape_loop.continues u escaped =>
        if u ≠ str_len + to_escape s then escape_result.race_condition
        else
          match escaped.store u [0] with
          | none => escape_result.undefined
          | some e =>
            match e.to_string with
            | none => escape_result.undefined
            | some r => escape_result.returned r

/-- A decoder of escaped strings: a backslash and the character after it stand for one
character, every other character stands for itself. -/
def cpl_rdf_unescape_string : List Nat → List Nat
  | [] => []
  | c :: rest =>
    if c = 92 then
      match rest with
      | [] => [c]
      | d :: rest2 =>
        (if d = 116 then 9 else if d = 98 then 8 else if d = 110 then 10
          else if d = 114 then 13 else if d = 102 then 12 else d)
          :: cpl_rdf_unescape_string rest2
    else c :: cpl_rdf_unescape_string rest

/-- The pieces of an escaped string: a single character outside the escaped set, or a pair
of a backslash and one more character. -/
def EscapeToken (t : List Nat) : Prop :=
  (∃ c, t = [c] ∧ to_escape_char c = false) ∨ ∃ x, t = [92, x]

/-- A C string: no byte is NUL and every byte fits a `char`. -/
def IsCString (s : List Nat) : Prop := ∀ b ∈ s, 1 ≤ b ∧ b ≤ 255

open cpl_return_t SQLRETURN

/-! ## Notions used to state the lock discipline and the integrity of edges -/

/-- The mutex held after the events, from the one held before them (`none`: no mutex is
held).  The result is `none` when an event breaks the discipline: a lock while a mutex is
held, or an unlock of a mutex that is not the one held. -/
def held_after (h : Option Mutex) (ev : List Event) : Option (Option Mutex) :=
  match ev, h with
  | [], h => some h
  | Event.lock m :: t, none => held_after (some m) t
  | Event.lock _ :: _, some _ => none
  | Event.unlock m :: t, h => if h = some m then held_after none t else none
  | Event.execute _ :: t, h => held_after h t
  | Event.reconnect :: t, h => held_after h t

/-- The events keep the lock discipline: from no mutex held, no event takes a second mutex
or releases one that is not held, and no mutex is held after the last event. -/
def Disciplined (ev : List Event) : Prop := held_after none ev = some none

/-- From the first backend to the second the event log has grown by events that keep the
lock discipline. -/
def LocksBalanced (a b : cpl_odbc_t) : Prop :=
  ∃ ev, b.trace = a.trace ++ ev ∧ Disciplined ev

/-- The backend `U` is the backend `b` after the mutex `m` was taken, the statement `s` was
executed with the parameters `ps` (with its retries) and the mutex was released: the log
has grown by the lock, executes of `s` and reconnects, and the unlock; the database is the
one of `b` or what the statement made of it. -/
def Unlocked (b : cpl_odbc_t) (s : Stmt) (ps : List Param) (m : Mutex) (U : cpl_odbc_t) :
    Prop :=
  (∃ E, (∀ e ∈ E, e = Event.execute s ∨ e = Event.reconnect)
      ∧ U.trace = b.trace ++ Event.lock m :: (E ++ [Event.unlock m]))
  ∧ (U.db = b.db ∨ ∃ rows, b.db.execute b.now s ps = Except.ok (U.db, rows))

/-- What an operation does once its retrying execute (of statement `s` with parameters
`ps`, under mutex `m`) is over: it leaves the database alone and releases the mutex, which
gives the backend `U`, and its result is related to `U` by `tail`. -/
def Finishes {α : Type} (op : cpl_odbc_t → cpl_return_t × α × cpl_odbc_t)
    (s : Stmt) (ps : List Param) (m : Mutex)
    (tail : cpl_odbc_t → cpl_return_t × α × cpl_odbc_t → Prop) : Prop :=
  ∀ (b : cpl_odbc_t) (r : Option SQLHSTMT) (k : Nat) (o2 : cpl_odbc_t) (t : List Event),
    SQL_EXECUTE_EXT s ps 3 (mutex_lock b m) = (r, k, o2.with_trace t) →
    ∃ U : cpl_odbc_t, U.db = o2.db ∧ U.trace = t ++ [Event.unlock m] ∧ tail U (op b)

/-- The operation returns with the backend `U`. -/
def ReturnsWith {α : Type} (U : cpl_odbc_t) (R : cpl_return_t × α × cpl_odbc_t) : Prop :=
  R.2.2 = U

/-- The run ends with a backend that has the database `d` and the event log `tr`. -/
def EndsWith {α : Type} (d : Store) (tr : List Event) (R : cpl_return_t × α × cpl_odbc_t) :
    Prop :=
  R.2.2.db = d ∧ R.2.2.trace = tr

/-- The operation returns with the backend `V` without a call of the iterator, or it
calls the iterator on some rows in order, starting with the backend `V`. -/
def IteratesFrom {α : Type}
    (iterator : Option (α → cpl_odbc_t → cpl_return_t × cpl_odbc_t)) (V : cpl_odbc_t)
    (R : cpl_return_t × List α × cpl_odbc_t) : Prop :=
  (R.2.1 = [] ∧ R.2.2 = V) ∨ ∃ it calls, iterator = some it ∧ R = iterate it calls V

/-- The operation iterates from the backend `U`, or from what a call of
`cpl_odbc_get_version` for `id` made of `U`. -/
def IteratesAfterVersion {α : Type}
    (iterator : Option (α → cpl_odbc_t → cpl_return_t × cpl_odbc_t)) (id : cpl_id_t)
    (U : cpl_odbc_t) (R : cpl_return_t × List α × cpl_odbc_t) : Prop :=
  IteratesFrom iterator U R ∨ IteratesFrom iterator (cpl_odbc_get_version U id).2.2 R

/-- The operation `get_all_objects` returns with the backend `V` without a call of the
iterator, or it runs the body of its loop on some buffered rows in order, starting with
the backend `V`. -/
def LoopsFrom (H : cpl_h) (flags : Int) (iterator : Option cpl_object_info_iterator_t)
    (V : cpl_odbc_t) (R : cpl_return_t × List cpl_object_info_t × cpl_odbc_t) : Prop :=
  (R.2.1 = [] ∧ R.2.2 = V)
  ∨ ∃ it buffer, iterator = some it
      ∧ R = for_each (cpl_odbc_get_all_objects.call H flags it) buffer V

/-- The operation has released its mutex before it calls the iterator: it iterates from a
backend `V` up to which the events of the call keep the lock discipline. -/
def IteratesUnlocked {α : Type} (o : cpl_odbc_t)
    (iterator : Option (α → cpl_odbc_t → cpl_return_t × cpl_odbc_t))
    (R : cpl_return_t × List α × cpl_odbc_t) : Prop :=
  ∃ V, LocksBalanced o V ∧ IteratesFrom iterator V R

/-- The operation `get_all_objects` has released its mutex before the loop that calls the
iterator: it runs the loop from a backend `V` up to which the events of the call keep the
lock discipline. -/
def LoopsUnlocked (H : cpl_h) (flags : Int) (o : cpl_odbc_t)
    (iterator : Option cpl_object_info_iterator_t)
    (R : cpl_return_t × List cpl_object_info_t × cpl_odbc_t) : Prop :=
  ∃ V, LocksBalanced o V ∧ LoopsFrom H flags iterator V R

/-- Edge integrity: both node references of every row of `cpl_ancestry` are rows of
`cpl_versions`. -/
def EdgeIntegrity (db : Store) : Prop :=
  ∀ e ∈ db.ancestry,
    db.has_version e.from_id e.from_version = true
    ∧ db.has_version e.to_id e.to_version = true

/-- The second store has the edges of the first and at least its versions. -/
def Store.Extends (a b : Store) : Prop :=
  b.ancestry = a.ancestry ∧ ∀ id v, a.has_version id v = true → b.has_version id v = true

/-- An iterator whose own events keep the lock discipline (as do calls of the backend
operations). -/
def KeepsLocks {α : Type} (it : α → cpl_odbc_t → cpl_return_t × cpl_odbc_t) : Prop :=
  ∀ c x, LocksBalanced x (it c x).2

/-- An iterator that does not break edge integrity. -/
def KeepsEdges {α : Type} (it : α → cpl_odbc_t → cpl_return_t × cpl_odbc_t) : Prop :=
  ∀ c x, EdgeIntegrity x.db → EdgeIntegrity (it c x).2.db

/-- The stores that the backend operations make of the empty store, for every behaviour
of the driver and all arguments of the operations, when the iterators do not break edge
integrity. -/
inductive Reachable (H : cpl_h) : Store → Prop where
  | empty : Reachable H Store.empty
  | create_session (o : cpl_odbc_t) (session : cpl_session_t) (mac_address : Option String)
      (user : String) (pid : Int) (program cmdline : String) :
      Reachable H o.db →
      Reachable H (cpl_odbc_create_session o session mac_address user pid program
        cmdline).2.db
  | create_object (o : cpl_odbc_t) (id : cpl_id_t) (originator name type : String)
      (container : cpl_id_t) (container_version : cpl_version_t) (session : cpl_session_t) :
      Reachable H o.db →
      Reachable H (cpl_odbc_create_object o id originator name type container
        container_version session).2.db
  | lookup_object (o : cpl_odbc_t) (originator name type : Option String) :
      Reachable H o.db → Reachable H (cpl_odbc_lookup_object o originator name type).2.2.db
  | lookup_object_ext (o : cpl_odbc_t) (originator name type : Option String) (flags : Int)
      (iterator : Option cpl_id_timestamp_iterator_t) :
      (∀ it, iterator = some it → KeepsEdges it) →
      Reachable H o.db →
      Reachable H (cpl_odbc_lookup_object_ext o originator name type flags iterator).2.2.db
  | create_version (o : cpl_odbc_t) (id : cpl_id_t) (version : cpl_version_t)
      (session : cpl_session_t) :
      Reachable H o.db → Reachable H (cpl_odbc_create_version o id version session).2.db
  | get_version (o : cpl_odbc_t) (id : cpl_id_t) :
      Reachable H o.db → Reachable H (cpl_odbc_get_version o id).2.2.db
  | add_ancestry_edge (o : cpl_odbc_t) (from_id : cpl_id_t) (from_ver : cpl_version_t)
      (to_id : cpl_id_t) (to_ver : cpl_version_t) (type : Int) :
      Reachable H o.db →
      Reachable H (cpl_odbc_add_ancestry_edge o from_id from_ver to_id to_ver type).2.db
  | has_immediate_ancestor (o : cpl_odbc_t) (object_id : cpl_id_t)
      (version_hint : cpl_version_t) (query_object_id : cpl_id_t)
      (query_object_max_version : cpl_version_t) :
      Reachable H o.db →
      Reachable H (cpl_odbc_has_immediate_ancestor o object_id version_hint query_object_id
        query_object_max_version).2.2.db
  | add_property (o : cpl_odbc_t) (id : cpl_id_t) (version : cpl_version_t)
      (key value : Option String) :
      Reachable H o.db → Reachable H (cpl_odbc_add_property o id version key value).2.db
  | get_session_info (o : cpl_odbc_t) (id : cpl_session_t) :
      Reachable H o.db → Reachable H (cpl_odbc_get_session_info o id).2.2.db
  | get_all_objects (o : cpl_odbc_t) (flags : Int)
      (iterator : Option cpl_object_info_iterator_t) (entry : cplxx_object_info_t) :
      (∀ it, iterator = some it → KeepsEdges it) →
      Reachable H o.db →
      Reachable H (cpl_odbc_get_all_objects H o flags iterator entry).2.2.db
  | get_object_info (o : cpl_odbc_t) (id : cpl_id_t) (version_hint : cpl_version_t) :
      Reachable H o.db → Reachable H (cpl_odbc_get_object_info o id version_hint).2.2.db
  | get_version_info (o : cpl_odbc_t) (id : cpl_id_t) (version : cpl_version_t) :
      Reachable H o.db → Reachable H (cpl_odbc_get_version_info o id version).2.2.db
  | get_object_ancestry (o : cpl_odbc_t) (id : cpl_id_t) (version : cpl_version_t)
      (direction flags : Int) (iterator : Option cpl_ancestry_iterator_t) :
      (∀ it, iterator = some it → KeepsEdges it) →
      Reachable H o.db →
      Reachable H
        (cpl_odbc_get_object_ancestry H o id version direction flags iterator).2.2.db
  | get_properties (o : cpl_odbc_t) (id : cpl_id_t) (version : cpl_version_t)
      (key : Option String) (iterator : Option cpl_property_iterator_t) :
      (∀ it, iterator = some it → KeepsEdges it) →
      Reachable H o.db →
      Reachable H (cpl_odbc_get_properties o id version key iterator).2.2.db
  | lookup_by_property (o : cpl_odbc_t) (key value : Option String)
      (iterator : Option cpl_property_iterator_t) :
      (∀ it, iterator = some it → KeepsEdges it) →
      Reachable H o.db →
      Reachable H (cpl_odbc_lookup_by_property o key value iterator).2.2.db

/-- The backend after the creation of the objects (0,1) and (0,2) and
`add_ancestry_edge` from version 0 of the one to version 0 of the other. -/
def two_objects_and_edge : cpl_odbc_t :=
  (cpl_odbc_add_ancestry_edge two_objects ⟨0, 1⟩ 0 ⟨0, 2⟩ 0 1).2

open cpl_return_t SQLRETURN

/-! ## Notions and sample stores for the driver that reports no failure -/

/-- The backend after an operation that took the mutex `m`, executed the statement `s`
once and released the mutex, the database being as before: what a query leaves behind on
a driver that reports no failure. -/
def cpl_odbc_t.after_query (o : cpl_odbc_t) (s : Stmt) (m : Mutex) : cpl_odbc_t :=
  mutex_unlock (log (mutex_lock o m) (Event.execute s)) m

/-- The reference of a version to its object holds in the store: every row of
`cpl_versions` has the id of a row of `cpl_objects`.  The empty store has the property
and every statement keeps it (`versions_owned_empty`, `execute_keeps_versions_owned`). -/
def VersionsOwned (db : Store) : Prop :=
  ∀ row ∈ db.versions, db.has_object row.id = true

/-- The backend after two objects with the same originator, name and type were created:
(0,1) at database time 5, then (0,2) at database time 0, so that the object created first
is the newer one. -/
def two_named : cpl_odbc_t :=
  (cpl_odbc_create_object
    { (cpl_odbc_create_object (connected Store.empty 5) ⟨0, 1⟩ "o" "n" "t" CPL_NONE
        CPL_VERSION_NONE ⟨0, 9⟩).2 with now := 0 }
    ⟨0, 2⟩ "o" "n" "t" CPL_NONE CPL_VERSION_NONE ⟨0, 9⟩).2

/-- The row has a key and a value: neither column is NULL. -/
def PropertyRow.has_key_and_value (r : PropertyRow) : Bool :=
  r.name.isSome && r.value.isSome

/-- The call of the property iterator by which `get_properties` delivers a stored row that
has a key and a value: the version as a C `int`, the key as it lands in the buffer of 256
bytes and the value as it lands in the buffer of 4096 bytes. -/
def PropertyRow.delivered (r : PropertyRow) : property_call :=
  ⟨r.id, c_int r.version, ((Cell.ofStr? r.name).truncate 256).as_string,
    ((Cell.ofStr? r.value).truncate 4096).as_string⟩

/-- The backend after `add_property ("tag", "v1")` on version 0 of the object (0,1), of
the object (0,2) and of the object (0,1) again. -/
def tags_on_two_objects : cpl_odbc_t :=
  (cpl_odbc_add_property
    (cpl_odbc_add_property
      (cpl_odbc_add_property two_objects ⟨0, 1⟩ 0 (some "tag") (some "v1")).2
      ⟨0, 2⟩ 0 (some "tag") (some "v1")).2
    ⟨0, 1⟩ 0 (some "tag") (some "v1")).2

/-- A property iterator that rejects the rows of the object (0,2) with
`CPL_E_INVALID_ARGUMENT` and accepts any other row. -/
def reject_second_object : cpl_property_iterator_t :=
  fun c o => (if c.id = ⟨0, 2⟩ then CPL_E_INVALID_ARGUMENT else CPL_OK, o)

/-- `cpl_sql_fetch_single_dynamically_allocated_string` with the allocation of its buffer:
`malloc (max_length + 1)` may fail (`malloc n = false`), and then the function returns
`CPL_E_INSUFFICIENT_RESOURCES` before any driver call; otherwise it is the function with
the buffer allocated. -/
def cpl_sql_fetch_single_dynamically_allocated_string.with_malloc (malloc : Nat → Bool)
    (odbc : cpl_odbc_t) (stmt : SQLHSTMT) (column : Nat)
    (fetch close_if_ok handle_nulls : Bool) (max_length : Nat) :
    cpl_return_t × Option String × SQLHSTMT × cpl_odbc_t :=
  if !malloc (max_length + 1) then (CPL_E_INSUFFICIENT_RESOURCES, none, stmt, odbc)
  else
    cpl_sql_fetch_single_dynamically_allocated_string odbc stmt column fetch close_if_ok
      handle_nulls max_length

/-- The handle and the backend at the points from which `cpl_sql_fetch_single_value` jumps
to one of its error labels: after `SQLFetch` (when `fetch` is set), after `SQLGetData`,
and after the `SQLCloseCursor` of the success path (when `close_if_ok` is set). -/
def cpl_sql_fetch_single_value.label_states (odbc : cpl_odbc_t) (stmt : SQLHSTMT)
    (buffer_length column : Nat) (fetch close_if_ok : Bool) : List (SQLHSTMT × cpl_odbc_t) :=
  let a : SQLHSTMT × cpl_odbc_t := if fetch then (SQLFetch odbc stmt).2 else (stmt, odbc)
  let b : SQLHSTMT × cpl_odbc_t := (a.1, (SQLGetData a.2 a.1 column buffer_length).2.2.2)
  (if fetch then [a] else []) ++ [b]
    ++ (if close_if_ok then [(SQLCloseCursor b.2 b.1).2] else [])

/-- The handle and the backend of the result `R` of a fetch primitive are those that
`SQLCloseCursor` returned when called at one of the points from which the primitive jumps
to an error label: the primitive has called `SQLCloseCursor` on the statement as its last
driver call.  The cursor is then closed and no row is pending, unless the driver fails
that very call. -/
def ClosedAtLabel {α : Type} (odbc : cpl_odbc_t) (stmt : SQLHSTMT)
    (buffer_length column : Nat) (fetch close_if_ok : Bool)
    (R : cpl_return_t × α × SQLHSTMT × cpl_odbc_t) : Prop :=
  ∃ p ∈ cpl_sql_fetch_single_value.label_states odbc stmt buffer_length column fetch
      close_if_ok,
    (R.2.2.1, R.2.2.2) = (SQLCloseCursor p.2 p.1).2
    ∧ ((driver_next p.2).1 = none → R.2.2.1.cursor_open = false ∧ R.2.2.1.pending = [])

/-- What a fetch primitive does to the cursor when it does not return OK: its code is a
statement error, not found or the null outcome; with a statement error or not found it
has called `SQLCloseCursor` last, at one of its error labels; with the null outcome, which
needs `handle_nulls`, it has not called `SQLCloseCursor` and the cursor is as open as it
was, on the row the cell was read from. -/
def ClosesCursorOnError {α : Type} (odbc : cpl_odbc_t) (stmt : SQLHSTMT)
    (buffer_length column : Nat) (fetch close_if_ok hn : Bool)
    (R : cpl_return_t × α × SQLHSTMT × cpl_odbc_t) : Prop :=
  (R.1 = CPL_OK ∨ R.1 = CPL_E_STATEMENT_ERROR ∨ R.1 = CPL_E_NOT_FOUND ∨ R.1 = CPL_E_DB_NULL)
  ∧ (R.1 = CPL_E_STATEMENT_ERROR ∨ R.1 = CPL_E_NOT_FOUND →
      ClosedAtLabel odbc stmt buffer_length column fetch close_if_ok R)
  ∧ (R.1 = CPL_E_DB_NULL →
      hn = true ∧ stmt.position fetch = some R.2.2.1
      ∧ R.2.2.1.cursor_open = stmt.cursor_open)

/-- A backend whose driver fails the next call. -/
def failing_driver : cpl_odbc_t :=
  { connected Store.empty 0 with script := [some (diag "HY000")] }

/-! ## The driver and the private API -/

@[simp]
theorem mk_id_cast (id : cpl_id_t) : mk_id (id.hi : Int) (id.lo : Int) = id := by
  cases id; simp [mk_id]

@[simp]
theorem log_db (odbc : cpl_odbc_t) (e : Event) : (log odbc e).db = odbc.db := rfl

@[simp]
theorem log_now (odbc : cpl_odbc_t) (e : Event) : (log odbc e).now = odbc.now := rfl

@[simp]
theorem log_script (odbc : cpl_odbc_t) (e : Event) : (log odbc e).script = odbc.script := rfl

@[simp]
theorem mutex_lock_db (odbc : cpl_odbc_t) (m : Mutex) : (mutex_lock odbc m).db = odbc.db := rfl

@[simp]
theorem mutex_lock_now (odbc : cpl_odbc_t) (m : Mutex) : (mutex_lock odbc m).now = odbc.now := rfl

@[simp]
theorem mutex_lock_script (odbc : cpl_odbc_t) (m : Mutex) :
    (mutex_lock odbc m).script = odbc.script := rfl

@[simp]
theorem mutex_unlock_db (odbc : cpl_odbc_t) (m : Mutex) : (mutex_unlock odbc m).db = odbc.db := rfl

@[simp]
theorem mutex_unlock_now (odbc : cpl_odbc_t) (m : Mutex) : (mutex_unlock odbc m).now = odbc.now := rfl

@[simp]
theorem mutex_unlock_script (odbc : cpl_odbc_t) (m : Mutex) :
    (mutex_unlock odbc m).script = odbc.script := rfl

theorem driver_next_db (odbc : cpl_odbc_t) : (driver_next odbc).2.db = odbc.db := by
  unfold driver_next; split <;> rfl

theorem driver_next_now (odbc : cpl_odbc_t) : (driver_next odbc).2.now = odbc.now := by
  unfold driver_next; split <;> rfl

/-- What `SQLExecute` does, by the driver's next answer and the database's verdict. -/
theorem SQLExecute_cases (odbc : cpl_odbc_t) (s : Stmt) (ps : List Param) :
    (∃ d, (driver_next (log odbc (Event.execute s))).1 = some d
        ∧ SQLExecute odbc s ps = (Except.error d, (driver_next (log odbc (Event.execute s))).2))
    ∨ (∃ d, (driver_next (log odbc (Event.execute s))).1 = none
        ∧ odbc.db.execute odbc.now s ps = Except.error d
        ∧ SQLExecute odbc s ps = (Except.error d, (driver_next (log odbc (Event.execute s))).2))
    ∨ (∃ db rows, (driver_next (log odbc (Event.execute s))).1 = none
        ∧ odbc.db.execute odbc.now s ps = Except.ok (db, rows)
        ∧ SQLExecute odbc s ps = (Except.ok ⟨rows, [], true⟩,
            { (driver_next (log odbc (Event.execute s))).2 with db := db })) := by
  unfold SQLExecute
  have hdb := driver_next_db (log odbc (Event.execute s))
  have hnow := driver_next_now (log odbc (Event.execute s))
  rcases h : driver_next (log odbc (Event.execute s)) with ⟨f, o⟩
  rw [h] at hdb hnow
  simp only [log_db, log_now] at hdb hnow
  cases f with
  | some d => exact Or.inl ⟨d, rfl, rfl⟩
  | none =>
    dsimp only
    rw [hdb, hnow]
    rcases hx : odbc.db.execute odbc.now s ps with d | ⟨db, rows⟩
    · exact Or.inr (Or.inl ⟨d, rfl, rfl, rfl⟩)
    · exact Or.inr (Or.inr ⟨db, rows, rfl, rfl, rfl⟩)

theorem Advances.refl (o : cpl_odbc_t) : Advances o o := ⟨rfl, rfl, rfl, rfl⟩

theorem Advances.trans {a b c : cpl_odbc_t} (h1 : Advances a b) (h2 : Advances b c) :
    Advances a c :=
  ⟨h2.1.trans h1.1, h2.2.1.trans h1.2.1, h2.2.2.1.trans h1.2.2.1, h2.2.2.2.trans h1.2.2.2⟩

theorem Advances.log (o : cpl_odbc_t) (e : Event) : Advances o (log o e) := ⟨rfl, rfl, rfl, rfl⟩

theorem Advances.driver_next (o : cpl_odbc_t) : Advances o (driver_next o).2 := by
  unfold CPL.driver_next; split <;> exact ⟨rfl, rfl, rfl, rfl⟩

theorem Advances.reconnect (o : cpl_odbc_t) : Advances o (cpl_odbc_reconnect o).2 := by
  unfold cpl_odbc_reconnect
  have h := (Advances.log o Event.reconnect).trans (Advances.driver_next _)
  rcases hx : CPL.driver_next (CPL.log o Event.reconnect) with ⟨f, o2⟩
  rw [hx] at h
  cases f <;> exact h

/-- The two ways `SQL_EXECUTE_EXT` ends: at the error label with the database untouched, or
with the result of the statement as the database ran it. -/
theorem SQL_EXECUTE_EXT_cases (s : Stmt) (ps : List Param) (n : Nat) (odbc : cpl_odbc_t) :
    ((SQL_EXECUTE_EXT s ps n odbc).1 = none ∧ Advances odbc (SQL_EXECUTE_EXT s ps n odbc).2.2)
    ∨ (∃ db rows, odbc.db.execute odbc.now s ps = Except.ok (db, rows)
        ∧ (SQL_EXECUTE_EXT s ps n odbc).1 = some ⟨rows, [], true⟩
        ∧ Advances { odbc with db := db } (SQL_EXECUTE_EXT s ps n odbc).2.2) := by
  induction n generalizing odbc with
  | zero =>
    unfold SQL_EXECUTE_EXT
    have hadv := (Advances.log odbc (Event.execute s)).trans (Advances.driver_next _)
    rcases SQLExecute_cases odbc s ps with ⟨d, _, h⟩ | ⟨d, _, _, h⟩ | ⟨db, rows, _, hx, h⟩
    · rw [h]; left; dsimp only; split <;> exact ⟨rfl, hadv⟩
    · rw [h]; left; dsimp only; split <;> exact ⟨rfl, hadv⟩
    · rw [h]; right; exact ⟨db, rows, hx, rfl, ⟨rfl, hadv.2.1, hadv.2.2.1, hadv.2.2.2⟩⟩
  | succ n ih =>
    unfold SQL_EXECUTE_EXT
    have hadv := (Advances.log odbc (Event.execute s)).trans (Advances.driver_next _)
    have key : ∀ d, SQLExecute odbc s ps =
        (Except.error d, (driver_next (log odbc (Event.execute s))).2) →
        ((match SQLExecute odbc s ps with
          | (Except.ok stmt, o) => (some stmt, n + 1, o)
          | (Except.error d, o) =>
            if should_reconnect_due_to_odbc_error (fetch_odbc_error d) = true then
              match cpl_odbc_reconnect o with
              | (r, o2) => if CPL_IS_OK r = true then SQL_EXECUTE_EXT s ps n o2 else (none, n, o2)
            else (none, n + 1, o)).1 = none ∧ Advances odbc (match SQLExecute odbc s ps with
          | (Except.ok stmt, o) => (some stmt, n + 1, o)
          | (Except.error d, o) =>
            if should_reconnect_due_to_odbc_error (fetch_odbc_error d) = true then
              match cpl_odbc_reconnect o with
              | (r, o2) => if CPL_IS_OK r = true then SQL_EXECUTE_EXT s ps n o2 else (none, n, o2)
            else (none, n + 1, o)).2.2)
        ∨ (∃ db rows, odbc.db.execute odbc.now s ps = Except.ok (db, rows)
          ∧ (match SQLExecute odbc s ps with
          | (Except.ok stmt, o) => (some stmt, n + 1, o)
          | (Except.error d, o) =>
            if should_reconnect_due_to_odbc_error (fetch_odbc_error d) = true then
              match cpl_odbc_reconnect o with
              | (r, o2) => if CPL_IS_OK r = true then SQL_EXECUTE_EXT s ps n o2 else (none, n, o2)
            else (none, n + 1, o)).1 = some ⟨rows, [], true⟩
          ∧ Advances { odbc with db := db } (match SQLExecute odbc s ps with
          | (Except.ok stmt, o) => (some stmt, n + 1, o)
          | (Except.error d, o) =>
            if should_reconnect_due_to_odbc_error (fetch_odbc_error d) = true then
              match cpl_odbc_reconnect o with
              | (r, o2) => if CPL_IS_OK r = true then SQL_EXECUTE_EXT s ps n o2 else (none, n, o2)
            else (none, n + 1, o)).2.2) := by
      intro d h
      rw [h]; dsimp only
      split
      · have hrec := Advances.reconnect (driver_next (log odbc (Event.execute s))).2
        rcases hr : cpl_odbc_reconnect (driver_next (log odbc (Event.execute s))).2 with ⟨r, o2⟩
        rw [hr] at hrec
        dsimp only
        split
        · have hall := hadv.trans hrec
          rcases ih o2 with ⟨h1, h2⟩ | ⟨db, rows, hx, h1, h2⟩
          · left; exact ⟨h1, hall.trans h2⟩
          · right
            refine ⟨db, rows, ?_, h1, ?_⟩
            · rw [← hall.1, ← hall.2.1]; exact hx
            · exact ⟨h2.1, h2.2.1.trans hall.2.1, h2.2.2.1.trans hall.2.2.1,
                h2.2.2.2.trans hall.2.2.2⟩
        · left; exact ⟨rfl, hadv.trans hrec⟩
      · left; exact ⟨rfl, hadv⟩
    rcases SQLExecute_cases odbc s ps with ⟨d, _, h⟩ | ⟨d, _, _, h⟩ | ⟨db, rows, _, hx, h⟩
    · exact key d h
    · exact key d h
    · rw [h]; right; exact ⟨db, rows, hx, rfl, ⟨rfl, hadv.2.1, hadv.2.2.1, hadv.2.2.2⟩⟩

theorem Advances.closeCursor (odbc : cpl_odbc_t) (stmt : SQLHSTMT) :
    Advances odbc (SQLCloseCursor odbc stmt).2.2 := by
  unfold SQLCloseCursor
  have h := Advances.driver_next odbc
  rcases hx : CPL.driver_next odbc with ⟨f, o⟩
  rw [hx] at h
  cases f <;> exact h

theorem fetch_err_spec (odbc : cpl_odbc_t) (stmt : SQLHSTMT) :
    (cpl_sql_fetch_single_value.err odbc stmt).1 = CPL_E_STATEMENT_ERROR
    ∧ Advances odbc (cpl_sql_fetch_single_value.err odbc stmt).2.2.2 :=
  ⟨rfl, Advances.closeCursor odbc stmt⟩

theorem fetch_err_nf_spec (odbc : cpl_odbc_t) (stmt : SQLHSTMT) :
    (cpl_sql_fetch_single_value.err_nf odbc stmt).1 = CPL_E_NOT_FOUND
    ∧ Advances odbc (cpl_sql_fetch_single_value.err_nf odbc stmt).2.2.2 :=
  ⟨rfl, Advances.closeCursor odbc stmt⟩

theorem fetch_err_null_spec (odbc : cpl_odbc_t) (stmt : SQLHSTMT) (hn : Bool) :
    Advances odbc (cpl_sql_fetch_single_value.err_null odbc stmt hn).2.2.2
    ∧ (if hn then (cpl_sql_fetch_single_value.err_null odbc stmt hn).1 = CPL_E_DB_NULL
          ∧ (cpl_sql_fetch_single_value.err_null odbc stmt hn).2.2.1 = stmt
        else (cpl_sql_fetch_single_value.err_null odbc stmt hn).1 = CPL_E_NOT_FOUND) := by
  cases hn
  · exact ⟨Advances.closeCursor odbc stmt, rfl⟩
  · exact ⟨Advances.refl odbc, rfl, rfl⟩

theorem fetch_get_data_spec (odbc : cpl_odbc_t) (stmt : SQLHSTMT) (bl col : Nat)
    (close hn : Bool) :
    Advances odbc (cpl_sql_fetch_single_value.get_data odbc stmt bl col close hn).2.2.2
    ∧ ((cpl_sql_fetch_single_value.get_data odbc stmt bl col close hn).1 = CPL_E_STATEMENT_ERROR
      ∨ ∃ c, stmt.current.get? (col - 1) = some c
        ∧ if c.indicator ≤ 0 then
            (if hn then
              (cpl_sql_fetch_single_value.get_data odbc stmt bl col close hn).1 = CPL_E_DB_NULL
              ∧ (cpl_sql_fetch_single_value.get_data odbc stmt bl col close hn).2.2.1 = stmt
            else
              (cpl_sql_fetch_single_value.get_data odbc stmt bl col close hn).1 = CPL_E_NOT_FOUND)
          else
            (cpl_sql_fetch_single_value.get_data odbc stmt bl col close hn).1 = CPL_OK
            ∧ (cpl_sql_fetch_single_value.get_data odbc stmt bl col close hn).2.1 = c.truncate bl
            ∧ (cpl_sql_fetch_single_value.get_data odbc stmt bl col close hn).2.2.1
                = if close then stmt.closed else stmt) := by
  generalize hR : cpl_sql_fetch_single_value.get_data odbc stmt bl col close hn = R
  unfold cpl_sql_fetch_single_value.get_data SQLGetData at hR
  have h := Advances.driver_next odbc
  rcases hx : CPL.driver_next odbc with ⟨f, o⟩
  rw [hx] at h hR
  cases f with
  | some d =>
    simp [SQL_SUCCEEDED] at hR
    subst hR
    exact ⟨h.trans (fetch_err_spec o stmt).2, Or.inl rfl⟩
  | none =>
    rcases hc : stmt.current.get? (col - 1) with _ | c
    · rw [hc] at hR
      simp [SQL_SUCCEEDED] at hR
      subst hR
      exact ⟨h.trans (fetch_err_spec o stmt).2, Or.inl rfl⟩
    · rw [hc] at hR
      by_cases hi : c.indicator ≤ 0
      · simp [SQL_SUCCEEDED, hi] at hR
        subst hR
        have hs := fetch_err_null_spec o stmt hn
        refine ⟨h.trans hs.1, Or.inr ⟨c, rfl, ?_⟩⟩
        simp only [hi, if_true]
        exact hs.2
      · cases close with
        | false =>
          simp [SQL_SUCCEEDED, hi] at hR
          subst hR
          refine ⟨h, Or.inr ⟨c, rfl, ?_⟩⟩
          simp [hi]
        | true =>
          unfold SQLCloseCursor at hR
          have h2 := Advances.driver_next o
          rcases hy : CPL.driver_next o with ⟨f2, o2⟩
          simp only [SQL_SUCCEEDED, hi, if_false, if_true, reduceCtorEq, Bool.not_true,
            Bool.false_eq_true] at hR
          rw [hy] at h2 hR
          cases f2 with
          | some d2 =>
            simp [SQL_SUCCEEDED, hi] at hR
            subst hR
            exact ⟨(h.trans h2).trans (fetch_err_spec o2 stmt).2, Or.inl rfl⟩
          | none =>
            cases hop : stmt.cursor_open with
            | false =>
              simp [SQL_SUCCEEDED, hi, hop] at hR
              subst hR
              exact ⟨(h.trans h2).trans (fetch_err_spec o2 _).2, Or.inl rfl⟩
            | true =>
              simp [SQL_SUCCEEDED, hi, hop] at hR
              subst hR
              refine ⟨h.trans h2, Or.inr ⟨c, rfl, ?_⟩⟩
              simp [hi, SQLHSTMT.closed]

theorem fetch_single_value_spec (odbc : cpl_odbc_t) (stmt : SQLHSTMT) (bl col : Nat)
    (fetch close hn : Bool) :
    Advances odbc (cpl_sql_fetch_single_value odbc stmt bl col fetch close hn).2.2.2
    ∧ ((cpl_sql_fetch_single_value odbc stmt bl col fetch close hn).1 = CPL_E_STATEMENT_ERROR
      ∨ Fetched (Cell.truncate bl) stmt col fetch close hn
          (cpl_sql_fetch_single_value odbc stmt bl col fetch close hn)) := by
  generalize hR : cpl_sql_fetch_single_value odbc stmt bl col fetch close hn = R
  unfold cpl_sql_fetch_single_value at hR
  cases fetch with
  | false =>
    simp only [Bool.false_eq_true, if_false] at hR
    subst hR
    have h := fetch_get_data_spec odbc stmt bl col close hn
    refine ⟨h.1, h.2.imp id ?_⟩
    intro hc
    simpa [Fetched, SQLHSTMT.position] using hc
  | true =>
    simp only [if_true] at hR
    unfold SQLFetch at hR
    have h := Advances.driver_next odbc
    rcases hx : CPL.driver_next odbc with ⟨f, o⟩
    rw [hx] at h hR
    cases f with
    | some d =>
      simp [SQL_SUCCEEDED] at hR
      subst hR
      exact ⟨h.trans (fetch_err_spec o stmt).2, Or.inl rfl⟩
    | none =>
      rcases hp : stmt.pending with _ | ⟨row, rest⟩
      · rw [hp] at hR
        simp at hR
        subst hR
        refine ⟨h.trans (fetch_err_nf_spec o stmt).2, Or.inr ?_⟩
        simp [Fetched, SQLHSTMT.position, SQLHSTMT.next, hp, cpl_sql_fetch_single_value.err_nf]
      · rw [hp] at hR
        simp [SQL_SUCCEEDED] at hR
        subst hR
        have h2 := fetch_get_data_spec o { stmt with pending := rest, current := row } bl col
          close hn
        refine ⟨h.trans h2.1, h2.2.imp id ?_⟩
        intro hc
        simpa [Fetched, SQLHSTMT.position, SQLHSTMT.next, hp] using hc

theorem as_llong_truncate (c : Cell) (bl : Nat) : (c.truncate bl).as_llong = c.as_llong := by
  cases c <;> rfl

theorem fetch_single_llong_spec (odbc : cpl_odbc_t) (stmt : SQLHSTMT) (col : Nat)
    (fetch close hn : Bool) :
    Advances odbc (cpl_sql_fetch_single_llong odbc stmt col fetch close hn).2.2.2
    ∧ ((cpl_sql_fetch_single_llong odbc stmt col fetch close hn).1 = CPL_E_STATEMENT_ERROR
      ∨ Fetched Cell.as_llong stmt col fetch close hn
          (cpl_sql_fetch_single_llong odbc stmt col fetch close hn)) := by
  have h := fetch_single_value_spec odbc stmt 0 col fetch close hn
  unfold cpl_sql_fetch_single_llong
  rcases hx : cpl_sql_fetch_single_value odbc stmt 0 col fetch close hn with ⟨r, data, st, o⟩
  rw [hx] at h
  dsimp only at h ⊢
  refine ⟨by split <;> exact h.1, ?_⟩
  rcases h.2 with h2 | h2
  · left; subst h2; rfl
  · right
    unfold Fetched at h2 ⊢
    split at h2
    · subst h2; rfl
    · obtain ⟨c, hc, hcase⟩ := h2
      refine ⟨c, hc, ?_⟩
      by_cases hi : c.indicator ≤ 0
      · rw [if_pos hi] at hcase ⊢
        cases hn
        · simp only [Bool.false_eq_true, if_false] at hcase ⊢
          subst hcase; rfl
        · simp only [if_true] at hcase ⊢
          obtain ⟨h3, h4⟩ := hcase
          subst h3; exact ⟨rfl, h4⟩
      · rw [if_neg hi] at hcase ⊢
        obtain ⟨h3, h4, h5⟩ := hcase
        subst h3
        dsimp only at h4 h5
        subst h4
        exact ⟨rfl, as_llong_truncate c 0, h5⟩

theorem Advances.unlock (o : cpl_odbc_t) (m : Mutex) : Advances o (mutex_unlock o m) :=
  Advances.log o _

theorem Advances.lock (o : cpl_odbc_t) (m : Mutex) : Advances o (mutex_lock o m) :=
  Advances.log o _

/-- `get_version` either fails in the driver or reports the greatest recorded version. -/
theorem get_version_spec (odbc : cpl_odbc_t) (id : cpl_id_t) :
    Advances odbc (cpl_odbc_get_version odbc id).2.2
    ∧ ((cpl_odbc_get_version odbc id).1 = CPL_E_STATEMENT_ERROR
      ∨ match sql_max (odbc.db.versions_of id) with
        | none => (cpl_odbc_get_version odbc id).1 = CPL_E_NOT_FOUND
            ∧ (cpl_odbc_get_version odbc id).2.1 = none
        | some m => (cpl_odbc_get_version odbc id).1 = CPL_OK
            ∧ (cpl_odbc_get_version odbc id).2.1 = some (c_int m)) := by
  generalize hR : cpl_odbc_get_version odbc id = R
  unfold cpl_odbc_get_version at hR
  dsimp only at hR
  have hl := Advances.lock odbc Mutex.get_version_lock
  rcases SQL_EXECUTE_EXT_cases Stmt.get_version_stmt
      [Param.integer id.hi, Param.integer id.lo] 3 (mutex_lock odbc Mutex.get_version_lock)
    with ⟨h1, h2⟩ | ⟨db, rows, hx, h1, h2⟩
  · rcases hE : SQL_EXECUTE_EXT Stmt.get_version_stmt
      [Param.integer id.hi, Param.integer id.lo] 3 (mutex_lock odbc Mutex.get_version_lock)
      with ⟨a, n, o2⟩
    rw [hE] at hR h1 h2
    dsimp only at h1
    subst h1
    dsimp only at hR
    subst hR
    exact ⟨(hl.trans h2).trans (Advances.unlock _ _), Or.inl rfl⟩
  · rcases hE : SQL_EXECUTE_EXT Stmt.get_version_stmt
      [Param.integer id.hi, Param.integer id.lo] 3 (mutex_lock odbc Mutex.get_version_lock)
      with ⟨a, n, o2⟩
    rw [hE] at hR h1 h2
    dsimp only at h1 h2
    subst h1
    dsimp only at hR
    simp only [Store.execute, sql_get_version, mutex_lock_db, mk_id_cast, Except.ok.injEq,
      Prod.mk.injEq] at hx
    obtain ⟨hdb, hrows⟩ := hx
    subst hdb hrows
    have hf := fetch_single_llong_spec o2
      ⟨[[Cell.ofInt? (sql_max (odbc.db.versions_of id))]], [], true⟩ 1 true true false
    rcases hF : cpl_sql_fetch_single_llong o2
      ⟨[[Cell.ofInt? (sql_max (odbc.db.versions_of id))]], [], true⟩ 1 true true false
      with ⟨r, l, st, o3⟩
    rw [hF] at hR hf
    have hadv : Advances odbc (mutex_unlock o3 Mutex.get_version_lock) :=
      ((hl.trans ⟨h2.1, h2.2.1, h2.2.2.1, h2.2.2.2⟩).trans hf.1).trans (Advances.unlock _ _)
    rcases hf.2 with hf2 | hf2
    · dsimp only at hf2
      subst hf2
      simp [CPL_IS_OK] at hR
      subst hR
      exact ⟨hadv, Or.inl rfl⟩
    · simp only [Fetched, SQLHSTMT.position, SQLHSTMT.next, if_true, List.get?_cons_zero,
        Option.some.injEq, exists_eq_left', Bool.false_eq_true, if_false, Nat.sub_self] at hf2
      rcases hm : sql_max (odbc.db.versions_of id) with _ | m
      · rw [hm] at hf2
        simp [Cell.ofInt?, Cell.indicator] at hf2
        subst hf2
        simp [CPL_IS_OK] at hR
        subst hR
        exact ⟨hadv, Or.inr ⟨rfl, rfl⟩⟩
      · rw [hm] at hf2
        simp [Cell.ofInt?, Cell.indicator, Cell.as_llong] at hf2
        obtain ⟨h3, h4, _⟩ := hf2
        subst h3 h4
        simp [CPL_IS_OK] at hR
        subst hR
        exact ⟨hadv, Or.inr ⟨rfl, rfl⟩⟩

/-- An accepted insert into `cpl_versions`: the row is new, its object exists, and the row
is appended. -/
theorem sql_insert_version_ok (db db2 : Store) (row : VersionRow) (rows : List (List Cell))
    (h : sql_insert_version db row = Except.ok (db2, rows)) :
    db.has_version row.id row.version = false ∧ db.has_object row.id = true
    ∧ db2 = { db with versions := db.versions ++ [row] } := by
  unfold sql_insert_version at h
  by_cases h1 : db.has_version row.id row.version = true
  · rw [if_pos h1] at h
    exact Except.noConfusion h
  · rw [if_neg h1] at h
    by_cases h2 : (!db.has_object row.id) = true
    · rw [if_pos h2] at h
      exact Except.noConfusion h
    · rw [if_neg h2] at h
      simp only [Except.ok.injEq, Prod.mk.injEq] at h
      exact ⟨by simpa using h1, by simpa using h2, h.1.symm⟩

/-- An accepted insert into `cpl_objects`: the values fit their columns, the id is new, the
container exists, and the row is appended. -/
theorem sql_insert_object_ok (db db2 : Store) (row : ObjectRow) (ps : List Param)
    (rows : List (List Cell)) (h : sql_insert_object db row ps = Except.ok (db2, rows)) :
    ps.all fits = true ∧ db.has_object row.id = false ∧ db.has_container_of row = true
    ∧ db2 = { db with objects := db.objects ++ [row] } := by
  unfold sql_insert_object at h
  by_cases h0 : (!ps.all fits) = true
  · rw [if_pos h0] at h
    exact Except.noConfusion h
  · rw [if_neg h0] at h
    by_cases h1 : db.has_object row.id = true
    · rw [if_pos h1] at h
      exact Except.noConfusion h
    · rw [if_neg h1] at h
      by_cases h2 : (!db.has_container_of row) = true
      · rw [if_pos h2] at h
        exact Except.noConfusion h
      · rw [if_neg h2] at h
        simp only [Except.ok.injEq, Prod.mk.injEq] at h
        exact ⟨by simpa using h0, by simpa using h1, by simpa using h2, h.1.symm⟩

/-- What the insert of an edge does: the edge is appended when both its node references
are rows of `cpl_versions`, and rejected with SQLSTATE 23000 otherwise. -/
theorem execute_add_ancestry_edge (db : Store) (now : Nat) (from_id : cpl_id_t)
    (from_ver : cpl_version_t) (to_id : cpl_id_t) (to_ver : cpl_version_t) (type : Int) :
    db.execute now Stmt.add_ancestry_edge_stmt
      [Param.integer from_id.hi, Param.integer from_id.lo, Param.integer from_ver,
        Param.integer to_id.hi, Param.integer to_id.lo, Param.integer to_ver,
        Param.integer type]
      = if db.has_version from_id from_ver = true ∧ db.has_version to_id to_ver = true then
          Except.ok ({ db with ancestry := db.ancestry
            ++ [⟨from_id, from_ver, to_id, to_ver, some type⟩] }, [])
        else Except.error (diag "23000") := by
  simp only [Store.execute, sql_add_ancestry_edge, mk_id_cast]
  cases db.has_version from_id from_ver <;> cases db.has_version to_id to_ver <;> simp

/-- What the insert of a property does: the row is appended when the values fit their
columns and its version is a row of `cpl_versions`. -/
theorem execute_add_property (db : Store) (now : Nat) (id : cpl_id_t) (version : cpl_version_t)
    (key value : Option String) :
    db.execute now Stmt.add_property_stmt
      [Param.integer id.hi, Param.integer id.lo, Param.integer version,
        Param.varchar 255 key, Param.varchar 4095 value]
      = if fits (Param.varchar 255 key) = true ∧ fits (Param.varchar 4095 value) = true then
          (if db.has_version id version = true then
            Except.ok ({ db with properties := db.properties
              ++ [⟨id, version, key, value⟩] }, [])
          else Except.error (diag "23000"))
        else Except.error (diag "22001") := by
  simp only [Store.execute, sql_add_property, mk_id_cast]
  by_cases h1 : fits (Param.varchar 255 key) = true <;>
    by_cases h2 : fits (Param.varchar 4095 value) = true <;>
    by_cases h3 : db.has_version id version = true <;>
    simp [List.all_cons, fits, h1, h2, h3] <;> simp_all [fits]

theorem has_version_iff (db : Store) (id : cpl_id_t) (v : Int) :
    db.has_version id v = true ↔ ∃ row ∈ db.versions, row.id = id ∧ row.version = v := by
  simp [Store.has_version]

theorem create_version_eq (odbc : cpl_odbc_t) (id : cpl_id_t) (v : cpl_version_t)
    (session : cpl_session_t) :
    cpl_odbc_create_version odbc id v session =
      match create_version_insert odbc id v session with
      | (Except.ok _, o2) => (CPL_OK, mutex_unlock o2 Mutex.create_version_lock)
      | (Except.error d, o2) =>
        match d.head? with
        | some r =>
          if r.state = "23000" then
            (CPL_E_ALREADY_EXISTS, mutex_unlock o2 Mutex.create_version_lock)
          else (CPL_E_STATEMENT_ERROR, mutex_unlock o2 Mutex.create_version_lock)
        | none => (CPL_E_STATEMENT_ERROR, mutex_unlock o2 Mutex.create_version_lock) := rfl

/-- `create_version` returns `CPL_OK` exactly when the database accepted the row, and
then the row is the last one of the versions table; otherwise the database is as before. -/
theorem create_version_spec (odbc : cpl_odbc_t) (id : cpl_id_t) (v : cpl_version_t)
    (session : cpl_session_t) :
    ((cpl_odbc_create_version odbc id v session).1 = CPL_OK
      ∧ odbc.db.has_version id v = false
      ∧ Advances { odbc with db := { odbc.db with versions := odbc.db.versions ++
            [⟨id, v, session, odbc.now⟩] } }
          (cpl_odbc_create_version odbc id v session).2)
    ∨ ((cpl_odbc_create_version odbc id v session).1 ≠ CPL_OK
      ∧ Advances odbc (cpl_odbc_create_version odbc id v session).2) := by
  have hcases := SQLExecute_cases (mutex_lock odbc Mutex.create_version_lock)
    Stmt.create_version_stmt [Param.integer id.hi, Param.integer id.lo, Param.integer v,
      Param.integer session.hi, Param.integer session.lo]
  have hadv := (((Advances.lock odbc Mutex.create_version_lock).trans
    (Advances.log _ (Event.execute Stmt.create_version_stmt))).trans
    (Advances.driver_next _)).trans (Advances.unlock _ Mutex.create_version_lock)
  generalize hR : cpl_odbc_create_version odbc id v session = R
  rw [create_version_eq] at hR
  unfold create_version_insert at hR
  have herr : ∀ d, SQLExecute (mutex_lock odbc Mutex.create_version_lock)
      Stmt.create_version_stmt [Param.integer id.hi, Param.integer id.lo, Param.integer v,
        Param.integer session.hi, Param.integer session.lo] =
      (Except.error d, (driver_next (log (mutex_lock odbc Mutex.create_version_lock)
        (Event.execute Stmt.create_version_stmt))).2) →
      R.1 ≠ CPL_OK ∧ Advances odbc R.2 := by
    intro d h
    rw [h] at hR; dsimp only at hR
    split at hR
    · split at hR
      · subst hR; exact ⟨fun hh => cpl_return_t.noConfusion hh, hadv⟩
      · subst hR; exact ⟨fun hh => cpl_return_t.noConfusion hh, hadv⟩
    · subst hR; exact ⟨fun hh => cpl_return_t.noConfusion hh, hadv⟩
  rcases hcases with ⟨d, _, h⟩ | ⟨d, _, _, h⟩ | ⟨db, rows, _, hx, h⟩
  · exact Or.inr (herr d h)
  · exact Or.inr (herr d h)
  · left
    rw [h] at hR; dsimp only at hR
    subst hR
    simp only [Store.execute, sql_create_version, mutex_lock_db, mk_id_cast,
      mutex_lock_now] at hx
    obtain ⟨hv, _, hdb⟩ := sql_insert_version_ok _ _ _ _ hx
    subst hdb
    exact ⟨rfl, hv, rfl, hadv.2.1, hadv.2.2.1, hadv.2.2.2⟩

/-- C1: `create_version` returns `CPL_E_ALREADY_EXISTS` if and only if the insert is rejected
with SQLSTATE 23000 in its first diagnostic record; the database rejects it so whenever
the driver lets the statement through and a Version row (id, v) exists; the versions table
is then unchanged; and an insert rejected with any other first record, or with none,
returns `CPL_E_STATEMENT_ERROR`. -/
theorem C1_create_version_already_exists (odbc : cpl_odbc_t) (id : cpl_id_t) (v : cpl_version_t) (session : cpl_session_t) :
    ((cpl_odbc_create_version odbc id v session).1 = CPL_E_ALREADY_EXISTS ↔
        ∃ r rest, (create_version_insert odbc id v session).1 = Except.error (r :: rest)
          ∧ r.state = "23000")
    ∧ ((driver_next odbc).1 = none → (∃ row ∈ odbc.db.versions, row.id = id ∧ row.version = v) →
        ∃ r rest, (create_version_insert odbc id v session).1 = Except.error (r :: rest)
          ∧ r.state = "23000")
    ∧ ((cpl_odbc_create_version odbc id v session).1 = CPL_E_ALREADY_EXISTS →
        (cpl_odbc_create_version odbc id v session).2.db.versions = odbc.db.versions)
    ∧ (∀ d, (create_version_insert odbc id v session).1 = Except.error d →
        (∀ r rest, d = r :: rest → r.state ≠ "23000") →
        (cpl_odbc_create_version odbc id v session).1 = CPL_E_STATEMENT_ERROR) := by
  have hcases := SQLExecute_cases (mutex_lock odbc Mutex.create_version_lock)
    Stmt.create_version_stmt [Param.integer id.hi, Param.integer id.lo, Param.integer v,
      Param.integer session.hi, Param.integer session.lo]
  have hadv := ((Advances.lock odbc Mutex.create_version_lock).trans
    (Advances.log _ (Event.execute Stmt.create_version_stmt))).trans (Advances.driver_next _)
  have h3 : (cpl_odbc_create_version odbc id v session).1 = CPL_E_ALREADY_EXISTS →
      (cpl_odbc_create_version odbc id v session).2.db.versions = odbc.db.versions := by
    intro hr
    rcases create_version_spec odbc id v session with ⟨h1, _⟩ | ⟨_, h2⟩
    · rw [hr] at h1
      exact cpl_return_t.noConfusion h1
    · rw [h2.1]
  rw [create_version_eq]
  unfold create_version_insert
  refine ⟨?_, ?_, ?_, ?_⟩
  · rcases hcases with ⟨d, _, h⟩ | ⟨d, _, _, h⟩ | ⟨db, rows, _, _, h⟩
    · rw [h]; dsimp only
      rcases d with _ | ⟨r, rest⟩
      · simp
      · by_cases hs : r.state = "23000" <;> simp [hs]
    · rw [h]; dsimp only
      rcases d with _ | ⟨r, rest⟩
      · simp
      · by_cases hs : r.state = "23000" <;> simp [hs]
    · rw [h]; simp
  · intro hnext hrow
    rcases hcases with ⟨d, hd, h⟩ | ⟨d, _, hx, h⟩ | ⟨db, rows, _, hx, h⟩
    · exfalso
      have : (driver_next (log (mutex_lock odbc Mutex.create_version_lock)
          (Event.execute Stmt.create_version_stmt))).1 = (driver_next odbc).1 := by
        simp [driver_next, log, mutex_lock]
        cases odbc.script <;> rfl
      rw [this, hnext] at hd
      exact Option.noConfusion hd
    · rw [h]
      have hv := (has_version_iff odbc.db id v).mpr hrow
      simp [Store.execute, sql_create_version, sql_insert_version, hv, diag] at hx
      subst hx
      exact ⟨_, _, rfl, rfl⟩
    · exfalso
      have hv := (has_version_iff odbc.db id v).mpr hrow
      simp [Store.execute, sql_create_version, sql_insert_version, hv] at hx
  · rw [create_version_eq] at h3
    exact h3
  · intro d hd hne
    rcases hcases with ⟨d2, _, h⟩ | ⟨d2, _, _, h⟩ | ⟨db, rows, _, _, h⟩
    · rw [h] at hd ⊢
      dsimp only at hd ⊢
      cases hd
      rcases d with _ | ⟨r, rest⟩
      · rfl
      · simp [hne r rest rfl]
    · rw [h] at hd ⊢
      dsimp only at hd ⊢
      cases hd
      rcases d with _ | ⟨r, rest⟩
      · rfl
      · simp [hne r rest rfl]
    · rw [h] at hd
      exact Except.noConfusion hd

/-- A successful `create_object` appended its object row and its version 0; the id was
new to both tables and the strings fit their columns. -/
theorem create_object_ok (odbc : cpl_odbc_t) (id : cpl_id_t) (originator name type : String)
    (container : cpl_id_t) (cv : cpl_version_t) (session : cpl_session_t)
    (h : (cpl_odbc_create_object odbc id originator name type container cv session).1
      = CPL_OK) :
    odbc.db.has_object id = false ∧ odbc.db.has_version id 0 = false
    ∧ originator.length ≤ 255 ∧ name.length ≤ 255 ∧ type.length ≤ 100
    ∧ Advances { odbc with db := { odbc.db with
          objects := odbc.db.objects ++
            [created_object_row id originator name type container cv odbc.now]
          versions := odbc.db.versions ++ [⟨id, 0, session, odbc.now⟩] } }
        (cpl_odbc_create_object odbc id originator name type container cv session).2 := by
  generalize hR : cpl_odbc_create_object odbc id originator name type container cv session
    = R at h
  unfold cpl_odbc_create_object at hR
  dsimp only at hR
  have hl := Advances.lock odbc Mutex.create_object_lock
  generalize hstmt : (if container = CPL_NONE then Stmt.create_object_insert_stmt
    else Stmt.create_object_insert_container_stmt) = stmt at hR
  generalize hps : [Param.integer id.hi, Param.integer id.lo,
      Param.varchar 255 (some originator), Param.varchar 255 (some name),
      Param.varchar 100 (some type)] ++
    (if container ≠ CPL_NONE then
      [Param.integer container.hi, Param.integer container.lo, Param.integer cv]
     else []) = ps at hR
  rcases SQL_EXECUTE_EXT_cases stmt ps 3 (mutex_lock odbc Mutex.create_object_lock)
    with ⟨h1, _⟩ | ⟨db1, rows1, hx1, h1, h2⟩
  · rcases hE : SQL_EXECUTE_EXT stmt ps 3 (mutex_lock odbc Mutex.create_object_lock)
      with ⟨a, n, o2⟩
    rw [hE] at hR h1
    dsimp only at h1
    subst h1
    dsimp only at hR
    subst hR
    exact cpl_return_t.noConfusion h
  · rcases hE : SQL_EXECUTE_EXT stmt ps 3 (mutex_lock odbc Mutex.create_object_lock)
      with ⟨a, n, o2⟩
    rw [hE] at hR h1 h2
    dsimp only at h1 h2
    subst h1
    dsimp only at hR
    rcases SQL_EXECUTE_EXT_cases Stmt.create_object_insert_version_stmt
        [Param.integer id.hi, Param.integer id.lo, Param.integer session.hi,
          Param.integer session.lo] n o2
      with ⟨h3, _⟩ | ⟨db2, rows2, hx2, h3, h4⟩
    · rcases hE2 : SQL_EXECUTE_EXT Stmt.create_object_insert_version_stmt
        [Param.integer id.hi, Param.integer id.lo, Param.integer session.hi,
          Param.integer session.lo] n o2 with ⟨a2, n2, o3⟩
      rw [hE2] at hR h3
      dsimp only at h3
      subst h3
      dsimp only at hR
      subst hR
      exact cpl_return_t.noConfusion h
    · rcases hE2 : SQL_EXECUTE_EXT Stmt.create_object_insert_version_stmt
        [Param.integer id.hi, Param.integer id.lo, Param.integer session.hi,
          Param.integer session.lo] n o2 with ⟨a2, n2, o3⟩
      rw [hE2] at hR h3 h4
      dsimp only at h3 h4
      subst h3
      dsimp only at hR
      subst hR
      have hdb2 : o2.db = db1 := h2.1
      have hnow2 : o2.now = odbc.now := h2.2.1
      rw [hdb2, hnow2] at hx2
      simp only [mutex_lock_db, mutex_lock_now] at hx1
      -- the object insert
      have hobj : odbc.db.has_object id = false ∧ originator.length ≤ 255 ∧ name.length ≤ 255
          ∧ type.length ≤ 100 ∧ db1 = { odbc.db with objects := odbc.db.objects ++
            [created_object_row id originator name type container cv odbc.now] } := by
        by_cases hc : container = CPL_NONE
        · simp only [hc, if_true, ne_eq, not_true_eq_false, if_false, List.append_nil] at hstmt hps
          subst hstmt hps
          simp only [Store.execute, sql_create_object_insert, mk_id_cast] at hx1
          obtain ⟨hfit, hobj, _, hdb⟩ := sql_insert_object_ok _ _ _ _ _ hx1
          simp [fits] at hfit
          refine ⟨hobj, hfit.1, hfit.2.1, hfit.2.2, ?_⟩
          rw [hdb]
          simp [created_object_row, hc]
        · simp only [hc, if_false, ne_eq, not_false_eq_true, if_true, List.cons_append,
            List.nil_append] at hstmt hps
          subst hstmt hps
          simp only [Store.execute, sql_create_object_insert_container, mk_id_cast] at hx1
          obtain ⟨hfit, hobj, _, hdb⟩ := sql_insert_object_ok _ _ _ _ _ hx1
          simp [fits] at hfit
          refine ⟨hobj, hfit.1, hfit.2.1, hfit.2.2, ?_⟩
          rw [hdb]
          simp [created_object_row, hc]
      obtain ⟨ho, hf1, hf2, hf3, hdb1⟩ := hobj
      simp only [Store.execute, sql_create_object_insert_version, mk_id_cast] at hx2
      obtain ⟨hv, _, hdb2x⟩ := sql_insert_version_ok _ _ _ _ hx2
      have hv0 : odbc.db.has_version id 0 = false := by
        rw [hdb1] at hv
        simpa [Store.has_version] using hv
      refine ⟨ho, hv0, hf1, hf2, hf3, ?_⟩
      have hfin := h4.trans (Advances.unlock o3 Mutex.create_object_lock)
      refine ⟨?_, ?_, ?_, ?_⟩
      · rw [hfin.1]; dsimp only; rw [hdb2x, hdb1]
      · rw [hfin.2.1]; exact hnow2
      · rw [hfin.2.2.1]; exact h2.2.2.1
      · rw [hfin.2.2.2]; exact h2.2.2.2

theorem sql_max_append (l : List Int) (x : Int) :
    sql_max (l ++ [x]) = some (match sql_max l with
      | none => x
      | some m => max m x) := by
  induction l with
  | nil => rfl
  | cons y ys ih =>
    simp only [List.cons_append, sql_max]
    rw [show ys.append [x] = ys ++ [x] from rfl, ih]
    cases h : sql_max ys with
    | none => simp [max_comm]
    | some m => simp [max_assoc]

theorem versions_of_append (db db2 : Store) (row : VersionRow) (id : cpl_id_t)
    (h : db2.versions = db.versions ++ [row]) :
    db2.versions_of id = db.versions_of id ++ (if row.id = id then [row.version] else []) := by
  unfold Store.versions_of
  rw [h]
  by_cases h : row.id = id <;> simp [List.filter_append, h, List.filter_cons]

/-- After `k` accepted versions `1 .. k` the greatest version is at least what it was and
at least `k`. -/
theorem create_versions_max (id : cpl_id_t) (session : Nat → cpl_session_t) (k : Nat)
    (odbc : cpl_odbc_t) (m : Int)
    (hm : sql_max (odbc.db.versions_of id) = some m) (hm0 : 0 ≤ m)
    (hok : (create_versions id session k odbc).1 = true) :
    sql_max ((create_versions id session k odbc).2.db.versions_of id) = some (max m k) := by
  induction k with
  | zero =>
    simp only [create_versions, hm, Option.some.injEq]
    simp [hm0]
  | succ k ih =>
    simp only [create_versions] at hok ⊢
    rcases hc : create_versions id session k odbc with ⟨ok, o⟩
    rw [hc] at hok ih
    rcases hv : cpl_odbc_create_version o id ((k + 1 : Nat) : Int) (session (k + 1)) with ⟨r, o2⟩
    have hspec := create_version_spec o id ((k + 1 : Nat) : Int) (session (k + 1))
    rw [hv] at hok hspec
    simp only [Bool.and_eq_true, decide_eq_true_eq] at hok
    obtain ⟨hok1, hr⟩ := hok
    subst hok1 hr
    rcases hspec with ⟨_, _, hadv⟩ | ⟨hne, _⟩
    · dsimp only at hadv ⊢
      rw [hadv.1]
      dsimp only
      rw [versions_of_append o.db _ _ id rfl, if_pos rfl, sql_max_append, ih rfl]
      simp only [Option.some.injEq]
      rw [max_assoc, max_eq_right (by push_cast; omega : (k : Int) ≤ ((k + 1 : Nat) : Int))]
    · exact absurd rfl hne

theorem c_int_of_range (x : Int) (h1 : -2147483648 ≤ x) (h2 : x < 2147483648) :
    c_int x = x := by
  unfold c_int; omega

theorem versions_of_eq_nil (db : Store) (id : cpl_id_t) :
    db.versions_of id = [] ↔ ∀ row ∈ db.versions, row.id ≠ id := by
  simp [Store.versions_of, List.filter_eq_nil_iff]

theorem insert_by_creation_time_desc_head (x : ObjectRow) (l : List ObjectRow) :
    ∃ h t, insert_by_creation_time_desc x l = h :: t ∧ (h = x ∨ h ∈ l)
      ∧ x.creation_time ≤ h.creation_time
      ∧ ∀ y, l.head? = some y → y.creation_time ≤ h.creation_time := by
  cases l with
  | nil => exact ⟨x, [], rfl, Or.inl rfl, le_refl _, by simp⟩
  | cons y ys =>
    unfold insert_by_creation_time_desc
    by_cases hle : y.creation_time ≤ x.creation_time
    · rw [if_pos hle]
      refine ⟨x, y :: ys, rfl, Or.inl rfl, le_refl _, ?_⟩
      intro z hz
      simp only [List.head?_cons, Option.some.injEq] at hz
      subst hz; exact hle
    · rw [if_neg hle]
      refine ⟨y, _, rfl, Or.inr (List.mem_cons_self _ _), by omega, ?_⟩
      intro z hz
      simp only [List.head?_cons, Option.some.injEq] at hz
      subst hz; exact le_refl _

theorem mem_insert_by_creation_time_desc (x y : ObjectRow) (l : List ObjectRow) :
    y ∈ insert_by_creation_time_desc x l ↔ y = x ∨ y ∈ l := by
  induction l with
  | nil => simp [insert_by_creation_time_desc]
  | cons z zs ih =>
    unfold insert_by_creation_time_desc
    split
    · simp
    · simp only [List.mem_cons, ih]
      tauto

theorem mem_order_by_creation_time_desc (y : ObjectRow) (l : List ObjectRow) :
    y ∈ order_by_creation_time_desc l ↔ y ∈ l := by
  induction l with
  | nil => simp [order_by_creation_time_desc]
  | cons x xs ih =>
    unfold order_by_creation_time_desc
    rw [mem_insert_by_creation_time_desc, ih, List.mem_cons]

/-- The first row of `ORDER BY creation_time DESC` is a row of the input and no row of the
input is newer. -/
theorem order_by_creation_time_desc_head (l : List ObjectRow) (h : ObjectRow)
    (t : List ObjectRow) (heq : order_by_creation_time_desc l = h :: t) :
    h ∈ l ∧ ∀ y ∈ l, y.creation_time ≤ h.creation_time := by
  induction l generalizing h t with
  | nil => simp [order_by_creation_time_desc] at heq
  | cons x xs ih =>
    have hmem : h ∈ x :: xs := by
      rw [← mem_order_by_creation_time_desc, heq]
      exact List.mem_cons_self _ _
    refine ⟨hmem, ?_⟩
    unfold order_by_creation_time_desc at heq
    obtain ⟨h2, t2, heq2, _, hx, hhead⟩ :=
      insert_by_creation_time_desc_head x (order_by_creation_time_desc xs)
    rw [heq] at heq2
    simp only [List.cons.injEq] at heq2
    obtain ⟨rfl, rfl⟩ := heq2
    intro y hy
    rcases List.mem_cons.mp hy with rfl | hy
    · exact hx
    · cases hs : order_by_creation_time_desc xs with
      | nil =>
        have := (mem_order_by_creation_time_desc y xs).mpr hy
        rw [hs] at this
        exact absurd this (List.not_mem_nil _)
      | cons h3 t3 =>
        have h4 := (ih h3 t3 hs).2 y hy
        have h5 := hhead h3 (by rw [hs]; rfl)
        omega

/-- `lookup_object` either fails in the driver, or finds nothing when no row has the three
fields, or returns the id of the first row in decreasing order of creation time. -/
theorem lookup_object_spec (odbc : cpl_odbc_t) (originator name type : Option String) :
    (cpl_odbc_lookup_object odbc originator name type).1 = CPL_E_STATEMENT_ERROR
    ∨ match order_by_creation_time_desc (odbc.db.objects_named originator name type) with
      | [] => (cpl_odbc_lookup_object odbc originator name type).1 = CPL_E_NOT_FOUND
      | row :: _ => (cpl_odbc_lookup_object odbc originator name type).1 = CPL_OK
          ∧ (cpl_odbc_lookup_object odbc originator name type).2.1 = row.id := by
  generalize hR : cpl_odbc_lookup_object odbc originator name type = R
  unfold cpl_odbc_lookup_object at hR
  dsimp only at hR
  rcases SQL_EXECUTE_EXT_cases Stmt.lookup_object_stmt
      [Param.varchar 255 originator, Param.varchar 255 name, Param.varchar 100 type] 3
      (mutex_lock odbc Mutex.lookup_object_lock)
    with ⟨h1, _⟩ | ⟨db, rows, hx, h1, _⟩
  · rcases hE : SQL_EXECUTE_EXT Stmt.lookup_object_stmt
      [Param.varchar 255 originator, Param.varchar 255 name, Param.varchar 100 type] 3
      (mutex_lock odbc Mutex.lookup_object_lock) with ⟨a, n, o2⟩
    rw [hE] at hR h1
    dsimp only at h1
    subst h1
    dsimp only at hR
    subst hR
    exact Or.inl rfl
  · rcases hE : SQL_EXECUTE_EXT Stmt.lookup_object_stmt
      [Param.varchar 255 originator, Param.varchar 255 name, Param.varchar 100 type] 3
      (mutex_lock odbc Mutex.lookup_object_lock) with ⟨a, n, o2⟩
    rw [hE] at hR h1
    dsimp only at h1
    subst h1
    dsimp only at hR
    simp only [Store.execute, sql_lookup_object, mutex_lock_db, Except.ok.injEq,
      Prod.mk.injEq] at hx
    obtain ⟨_, hrows⟩ := hx
    subst hrows
    generalize order_by_creation_time_desc (odbc.db.objects_named originator name type) = sorted
      at hR ⊢
    have hf := (fetch_single_llong_spec o2
      ⟨(sorted.take 1).map (fun r => [Cell.int r.id.hi, Cell.int r.id.lo]), [], true⟩
      1 true false false).2
    rcases hF : cpl_sql_fetch_single_llong o2
      ⟨(sorted.take 1).map (fun r => [Cell.int r.id.hi, Cell.int r.id.lo]), [], true⟩
      1 true false false with ⟨r, hi, st3, o3⟩
    rw [hF] at hR hf
    rcases hf with hf | hf
    · dsimp only at hf
      subst hf
      simp [CPL_IS_OK] at hR
      subst hR
      exact Or.inl rfl
    · cases sorted with
      | nil =>
        simp [Fetched, SQLHSTMT.position, SQLHSTMT.next] at hf
        subst hf
        simp [CPL_IS_OK] at hR
        subst hR
        exact Or.inr rfl
      | cons row rest =>
        simp [Fetched, SQLHSTMT.position, SQLHSTMT.next, Cell.indicator, Cell.as_llong] at hf
        obtain ⟨hr, hhi, hst⟩ := hf
        subst hr hhi hst
        simp only [CPL_IS_OK, Bool.not_true, Bool.false_eq_true, if_false] at hR
        have hf2 := (fetch_single_llong_spec o3
          ⟨[], [Cell.int row.id.hi, Cell.int row.id.lo], true⟩ 2 false true false).2
        rcases hF2 : cpl_sql_fetch_single_llong o3
          ⟨[], [Cell.int row.id.hi, Cell.int row.id.lo], true⟩ 2 false true false
          with ⟨r2, lo, st4, o4⟩
        rw [hF2] at hR hf2
        rcases hf2 with hf2 | hf2
        · dsimp only at hf2
          subst hf2
          simp [CPL_IS_OK] at hR
          subst hR
          exact Or.inl rfl
        · simp [Fetched, SQLHSTMT.position, Cell.indicator, Cell.as_llong] at hf2
          obtain ⟨hr2, hlo, _⟩ := hf2
          subst hr2 hlo
          simp [CPL_IS_OK] at hR
          subst hR
          exact Or.inr ⟨rfl, rfl⟩

theorem mem_objects_named (db : Store) (originator name type : String) (r : ObjectRow) :
    r ∈ db.objects_named (some originator) (some name) (some type)
      ↔ r ∈ db.objects ∧ r.named originator name type := by
  unfold Store.objects_named ObjectRow.named
  rw [List.mem_filter]
  rcases r with ⟨id, o, n, t, ct, c1, c2, c3⟩
  cases o <;> cases n <;> cases t <;> simp [sql_eq, and_assoc]

theorem created_object_row_named (id : cpl_id_t) (originator name type : String)
    (container : cpl_id_t) (cv : cpl_version_t) (now : Nat) :
    (created_object_row id originator name type container cv now).named originator name type
    ∧ (created_object_row id originator name type container cv now).id = id := by
  unfold created_object_row ObjectRow.named
  split <;> exact ⟨⟨rfl, rfl, rfl⟩, rfl⟩

theorem fetch_single_string_spec (odbc : cpl_odbc_t) (stmt : SQLHSTMT) (col : Nat)
    (fetch close hn : Bool) (ml : Nat) :
    Advances odbc
      (cpl_sql_fetch_single_dynamically_allocated_string odbc stmt col fetch close hn ml).2.2.2
    ∧ ((cpl_sql_fetch_single_dynamically_allocated_string odbc stmt col fetch close hn ml).1
        = CPL_E_STATEMENT_ERROR
      ∨ Fetched (fun c => some (c.truncate (ml + 1)).as_string) stmt col fetch close hn
          (cpl_sql_fetch_single_dynamically_allocated_string odbc stmt col fetch close hn ml)) := by
  have h := fetch_single_value_spec odbc stmt (ml + 1) col fetch close hn
  unfold cpl_sql_fetch_single_dynamically_allocated_string
  rcases hx : cpl_sql_fetch_single_value odbc stmt (ml + 1) col fetch close hn
    with ⟨r, data, st, o⟩
  rw [hx] at h
  dsimp only at h ⊢
  refine ⟨by split <;> exact h.1, ?_⟩
  rcases h.2 with h2 | h2
  · left; subst h2; rfl
  · right
    unfold Fetched at h2 ⊢
    split at h2
    · subst h2; rfl
    · obtain ⟨c, hc, hcase⟩ := h2
      refine ⟨c, hc, ?_⟩
      by_cases hi : c.indicator ≤ 0
      · rw [if_pos hi] at hcase ⊢
        cases hn
        · simp only [Bool.false_eq_true, if_false] at hcase ⊢
          subst hcase; rfl
        · simp only [if_true] at hcase ⊢
          obtain ⟨h3, h4⟩ := hcase
          subst h3; exact ⟨rfl, h4⟩
      · rw [if_neg hi] at hcase ⊢
        obtain ⟨h3, h4, h5⟩ := hcase
        subst h3
        dsimp only at h4 h5
        subst h4
        exact ⟨rfl, rfl, h5⟩

theorem fetch_single_timestamp_spec (odbc : cpl_odbc_t) (stmt : SQLHSTMT) (col : Nat)
    (fetch close hn : Bool) :
    Advances odbc
      (cpl_sql_fetch_single_timestamp_as_unix_time odbc stmt col fetch close hn).2.2.2
    ∧ ((cpl_sql_fetch_single_timestamp_as_unix_time odbc stmt col fetch close hn).1
        = CPL_E_STATEMENT_ERROR
      ∨ Fetched (fun c => cpl_sql_timestamp_to_unix_time odbc (c.truncate 16).as_timestamp)
          stmt col fetch close hn
          (cpl_sql_fetch_single_timestamp_as_unix_time odbc stmt col fetch close hn)) := by
  have h := fetch_single_value_spec odbc stmt 16 col fetch close hn
  unfold cpl_sql_fetch_single_timestamp_as_unix_time
  rcases hx : cpl_sql_fetch_single_value odbc stmt 16 col fetch close hn
    with ⟨r, data, st, o⟩
  rw [hx] at h
  dsimp only at h ⊢
  have hconv : ∀ t, cpl_sql_timestamp_to_unix_time o t = cpl_sql_timestamp_to_unix_time odbc t := by
    intro t
    unfold cpl_sql_timestamp_to_unix_time
    rw [h.1.2.2.1, h.1.2.2.2]
  refine ⟨by split <;> exact h.1, ?_⟩
  rcases h.2 with h2 | h2
  · left; subst h2; rfl
  · right
    unfold Fetched at h2 ⊢
    split at h2
    · subst h2; rfl
    · obtain ⟨c, hc, hcase⟩ := h2
      refine ⟨c, hc, ?_⟩
      by_cases hi : c.indicator ≤ 0
      · rw [if_pos hi] at hcase ⊢
        cases hn
        · simp only [Bool.false_eq_true, if_false] at hcase ⊢
          subst hcase; rfl
        · simp only [if_true] at hcase ⊢
          obtain ⟨h3, h4⟩ := hcase
          subst h3; exact ⟨rfl, h4⟩
      · rw [if_neg hi] at hcase ⊢
        obtain ⟨h3, h4, h5⟩ := hcase
        subst h3
        dsimp only at h4 h5
        subst h4
        exact ⟨rfl, hconv _, h5⟩

/-- The three ways the macro `CPL_SQL_SIMPLE_FETCH_EXT` continues on a cursor that has a
row to read the column from: the jump to `err_r` with a statement error, the jump to
`err_r` with not found (a cell without data, nulls not handled), or the statements after
the macro with `CPL_E_DB_NULL` or with `CPL_OK` and the converted cell. -/
theorem CPL_SQL_SIMPLE_FETCH_EXT_cases {α : Type}
    (fetch_single : cpl_odbc_t → SQLHSTMT → Nat → Bool → Bool → Bool →
      cpl_return_t × α × SQLHSTMT × cpl_odbc_t)
    (conv : Cell → α) (odbc : cpl_odbc_t) (stmt : SQLHSTMT) (col : Nat) (hn : Bool)
    (hspec : Advances odbc (fetch_single odbc stmt col (col == 1) false hn).2.2.2
      ∧ ((fetch_single odbc stmt col (col == 1) false hn).1 = CPL_E_STATEMENT_ERROR
        ∨ Fetched conv stmt col (col == 1) false hn
            (fetch_single odbc stmt col (col == 1) false hn)))
    (st : SQLHSTMT) (c : Cell) (hpos : stmt.position (col == 1) = some st)
    (hc : st.current.get? (col - 1) = some c) :
    ∃ o, Advances odbc o
      ∧ ((∀ (β : Type) (err_r : cpl_return_t → cpl_odbc_t → β)
            (next : cpl_return_t → α → SQLHSTMT → cpl_odbc_t → β),
            CPL_SQL_SIMPLE_FETCH_EXT fetch_single odbc stmt col hn err_r next
              = err_r CPL_E_STATEMENT_ERROR o)
        ∨ (c.indicator ≤ 0 ∧ hn = false
            ∧ ∀ (β : Type) (err_r : cpl_return_t → cpl_odbc_t → β)
              (next : cpl_return_t → α → SQLHSTMT → cpl_odbc_t → β),
              CPL_SQL_SIMPLE_FETCH_EXT fetch_single odbc stmt col hn err_r next
                = err_r CPL_E_NOT_FOUND o)
        ∨ ∃ r v, ((c.indicator ≤ 0 ∧ hn = true ∧ r = CPL_E_DB_NULL)
              ∨ (0 < c.indicator ∧ r = CPL_OK ∧ v = conv c))
            ∧ ∀ (β : Type) (err_r : cpl_return_t → cpl_odbc_t → β)
              (next : cpl_return_t → α → SQLHSTMT → cpl_odbc_t → β),
              CPL_SQL_SIMPLE_FETCH_EXT fetch_single odbc stmt col hn err_r next
                = next r v st o) := by
  unfold CPL_SQL_SIMPLE_FETCH_EXT
  rcases hx : fetch_single odbc stmt col (col == 1) false hn with ⟨r, v, st2, o⟩
  rw [hx] at hspec
  dsimp only at hspec ⊢
  refine ⟨o, hspec.1, ?_⟩
  rcases hspec.2 with h | h
  · left; subst h; intro β err_r next; simp [CPL_IS_OK]
  · right
    unfold Fetched at h
    rw [hpos] at h
    dsimp only at h
    obtain ⟨c2, hc2, hcase⟩ := h
    rw [hc] at hc2
    cases hc2
    by_cases hi : c.indicator ≤ 0
    · rw [if_pos hi] at hcase
      cases hn
      · simp only [Bool.false_eq_true, if_false] at hcase
        subst hcase
        left; exact ⟨hi, rfl, fun β err_r next => by simp [CPL_IS_OK]⟩
      · simp only [if_true] at hcase
        obtain ⟨h3, h4⟩ := hcase
        subst h3 h4
        right; exact ⟨CPL_E_DB_NULL, v, Or.inl ⟨hi, rfl, rfl⟩, fun β err_r next => by simp⟩
    · rw [if_neg hi] at hcase
      obtain ⟨h3, h4, h5⟩ := hcase
      simp only [Bool.false_eq_true, if_false] at h5
      subst h3 h4 h5
      right
      exact ⟨CPL_OK, conv c, Or.inr ⟨by omega, rfl, rfl⟩,
        fun β err_r next => by simp [CPL_IS_OK]⟩

/-- The query part of `get_object_info` on a database whose join has the given row: a
statement error, or the record decoded from the row. -/
theorem get_object_info_read_spec (odbc : cpl_odbc_t) (id : cpl_id_t) (version : cpl_version_t)
    (shi slo : Int) (ct : Nat) (o n t : Option String) (chi clo cver : Option Int)
    (rest : List (List Cell))
    (hx : sql_get_object_info odbc.db [Param.integer id.hi, Param.integer id.lo]
      = Except.ok (odbc.db, [Cell.int shi, Cell.int slo, Cell.ts ct, Cell.ofStr? o,
          Cell.ofStr? n, Cell.ofStr? t, Cell.ofInt? chi, Cell.ofInt? clo, Cell.ofInt? cver]
          :: rest)) :
    (cpl_odbc_get_object_info.read odbc id version).1 = CPL_E_STATEMENT_ERROR
    ∨ ∃ info, (cpl_odbc_get_object_info.read odbc id version).1 = CPL_OK
      ∧ (cpl_odbc_get_object_info.read odbc id version).2.1 = some info
      ∧ info.id = id ∧ info.version = version
      ∧ info.creation_session = ⟨shi.toNat, slo.toNat⟩
      ∧ info.originator = string_column (Cell.ofStr? o)
      ∧ info.name = string_column (Cell.ofStr? n)
      ∧ info.type = string_column (Cell.ofStr? t)
      ∧ info.container_id = container_of_columns chi clo
      ∧ info.container_version = c_int (cver.getD CPL_VERSION_NONE) := by
  generalize hR : cpl_odbc_get_object_info.read odbc id version = R
  unfold cpl_odbc_get_object_info.read at hR
  dsimp only at hR
  rcases SQL_EXECUTE_EXT_cases Stmt.get_object_info_stmt
      [Param.integer id.hi, Param.integer id.lo] 3
      (mutex_lock odbc Mutex.get_object_info_lock)
    with ⟨h1, _⟩ | ⟨db, rows, hx2, h1, _⟩
  · rcases hE : SQL_EXECUTE_EXT Stmt.get_object_info_stmt
      [Param.integer id.hi, Param.integer id.lo] 3
      (mutex_lock odbc Mutex.get_object_info_lock) with ⟨a, k, o2⟩
    rw [hE] at hR h1
    dsimp only at h1
    subst h1
    dsimp only at hR
    subst hR
    exact Or.inl rfl
  · rcases hE : SQL_EXECUTE_EXT Stmt.get_object_info_stmt
      [Param.integer id.hi, Param.integer id.lo] 3
      (mutex_lock odbc Mutex.get_object_info_lock) with ⟨a, k, o2⟩
    rw [hE] at hR h1
    dsimp only at h1
    subst h1
    dsimp only at hR
    simp only [Store.execute, mutex_lock_db, hx, Except.ok.injEq, Prod.mk.injEq] at hx2
    obtain ⟨_, hrows⟩ := hx2
    subst hrows
    generalize hrow : [Cell.int shi, Cell.int slo, Cell.ts ct, Cell.ofStr? o,
      Cell.ofStr? n, Cell.ofStr? t, Cell.ofInt? chi, Cell.ofInt? clo, Cell.ofInt? cver] = row
      at hR
    -- column 1
    obtain ⟨oA, _, hA⟩ := CPL_SQL_SIMPLE_FETCH_EXT_cases cpl_sql_fetch_single_llong
      Cell.as_llong o2 ⟨row :: rest, [], true⟩ 1 false
      (fetch_single_llong_spec _ _ _ _ _ _) ⟨rest, row, true⟩ (Cell.int shi) rfl
      (by rw [← hrow]; rfl)
    rcases hA with hA | ⟨hi, _, _⟩ | ⟨r1, v1, hf1, hA⟩
    · rw [hA] at hR; subst hR; exact Or.inl rfl
    · simp [Cell.indicator] at hi
    rw [hA] at hR; clear hA
    -- column 2
    obtain ⟨oB, _, hB⟩ := CPL_SQL_SIMPLE_FETCH_EXT_cases cpl_sql_fetch_single_llong
      Cell.as_llong oA ⟨rest, row, true⟩ 2 false
      (fetch_single_llong_spec _ _ _ _ _ _) ⟨rest, row, true⟩ (Cell.int slo) rfl
      (by rw [← hrow]; rfl)
    rcases hB with hB | ⟨hi, _, _⟩ | ⟨r2, v2, hf2, hB⟩
    · rw [hB] at hR; subst hR; exact Or.inl rfl
    · simp [Cell.indicator] at hi
    rw [hB] at hR; clear hB
    -- column 3
    obtain ⟨oC, _, hC⟩ := CPL_SQL_SIMPLE_FETCH_EXT_cases
      cpl_sql_fetch_single_timestamp_as_unix_time
      (fun c => cpl_sql_timestamp_to_unix_time oB (c.truncate 16).as_timestamp)
      oB ⟨rest, row, true⟩ 3 false
      (fetch_single_timestamp_spec _ _ _ _ _ _) ⟨rest, row, true⟩ (Cell.ts ct) rfl
      (by rw [← hrow]; rfl)
    rcases hC with hC | ⟨hi, _, _⟩ | ⟨r3, v3, hf3, hC⟩
    · rw [hC] at hR; subst hR; exact Or.inl rfl
    · simp [Cell.indicator] at hi
    rw [hC] at hR; clear hC
    -- column 4
    obtain ⟨oD, _, hD⟩ := CPL_SQL_SIMPLE_FETCH_EXT_cases
      (fun o st c f cl hn => cpl_sql_fetch_single_dynamically_allocated_string o st c f cl
        hn 4095)
      (fun c => some (c.truncate (4095 + 1)).as_string)
      oC ⟨rest, row, true⟩ 4 true
      (fetch_single_string_spec _ _ _ _ _ _ _) ⟨rest, row, true⟩ (Cell.ofStr? o) rfl
      (by rw [← hrow]; rfl)
    rcases hD with hD | ⟨_, hh, _⟩ | ⟨r4, v4, hf4, hD⟩
    · rw [hD] at hR; subst hR; exact Or.inl rfl
    · cases hh
    rw [hD] at hR; clear hD
    -- column 5
    obtain ⟨oE, _, hE5⟩ := CPL_SQL_SIMPLE_FETCH_EXT_cases
      (fun o st c f cl hn => cpl_sql_fetch_single_dynamically_allocated_string o st c f cl
        hn 4095)
      (fun c => some (c.truncate (4095 + 1)).as_string)
      oD ⟨rest, row, true⟩ 5 true
      (fetch_single_string_spec _ _ _ _ _ _ _) ⟨rest, row, true⟩ (Cell.ofStr? n) rfl
      (by rw [← hrow]; rfl)
    rcases hE5 with hE5 | ⟨_, hh, _⟩ | ⟨r5, v5, hf5, hE5⟩
    · rw [hE5] at hR; subst hR; exact Or.inl rfl
    · cases hh
    rw [hE5] at hR; clear hE5
    -- column 6
    obtain ⟨oF, _, hF⟩ := CPL_SQL_SIMPLE_FETCH_EXT_cases
      (fun o st c f cl hn => cpl_sql_fetch_single_dynamically_allocated_string o st c f cl
        hn 4095)
      (fun c => some (c.truncate (4095 + 1)).as_string)
      oE ⟨rest, row, true⟩ 6 true
      (fetch_single_string_spec _ _ _ _ _ _ _) ⟨rest, row, true⟩ (Cell.ofStr? t) rfl
      (by rw [← hrow]; rfl)
    rcases hF with hF | ⟨_, hh, _⟩ | ⟨r6, v6, hf6, hF⟩
    · rw [hF] at hR; subst hR; exact Or.inl rfl
    · cases hh
    rw [hF] at hR; clear hF
    -- column 7
    obtain ⟨oG, _, hG⟩ := CPL_SQL_SIMPLE_FETCH_EXT_cases cpl_sql_fetch_single_llong
      Cell.as_llong oF ⟨rest, row, true⟩ 7 true
      (fetch_single_llong_spec _ _ _ _ _ _) ⟨rest, row, true⟩ (Cell.ofInt? chi) rfl
      (by rw [← hrow]; rfl)
    rcases hG with hG | ⟨_, hh, _⟩ | ⟨r7, v7, hf7, hG⟩
    · rw [hG] at hR; subst hR; exact Or.inl rfl
    · cases hh
    rw [hG] at hR; clear hG
    -- column 8
    obtain ⟨oH, _, hH⟩ := CPL_SQL_SIMPLE_FETCH_EXT_cases cpl_sql_fetch_single_llong
      Cell.as_llong oG ⟨rest, row, true⟩ 8 true
      (fetch_single_llong_spec _ _ _ _ _ _) ⟨rest, row, true⟩ (Cell.ofInt? clo) rfl
      (by rw [← hrow]; rfl)
    rcases hH with hH | ⟨_, hh, _⟩ | ⟨r8, v8, hf8, hH⟩
    · rw [hH] at hR; subst hR; exact Or.inl rfl
    · cases hh
    rw [hH] at hR; clear hH
    -- column 9
    obtain ⟨oI, _, hI⟩ := CPL_SQL_SIMPLE_FETCH_EXT_cases cpl_sql_fetch_single_llong
      Cell.as_llong oH ⟨rest, row, true⟩ 9 true
      (fetch_single_llong_spec _ _ _ _ _ _) ⟨rest, row, true⟩ (Cell.ofInt? cver) rfl
      (by rw [← hrow]; rfl)
    rcases hI with hI | ⟨_, hh, _⟩ | ⟨r9, v9, hf9, hI⟩
    · rw [hI] at hR; subst hR; exact Or.inl rfl
    · cases hh
    rw [hI] at hR; clear hI
    -- closing the cursor
    rcases hcc : SQLCloseCursor oI ⟨rest, row, true⟩ with ⟨ret, st', o3⟩
    rw [hcc] at hR
    dsimp only at hR
    by_cases hs : SQL_SUCCEEDED ret = true
    · simp only [hs, Bool.not_true, Bool.false_eq_true, if_false] at hR
      subst hR
      right
      refine ⟨_, rfl, rfl, rfl, rfl, ?_, ?_, ?_, ?_, ?_, ?_⟩
      · rcases hf1 with ⟨_, hh, _⟩ | ⟨_, _, rfl⟩
        · cases hh
        rcases hf2 with ⟨_, hh, _⟩ | ⟨_, _, rfl⟩
        · cases hh
        rfl
      · rcases hf4 with ⟨hi, _, rfl⟩ | ⟨hi, rfl, rfl⟩
        · simp [string_column, hi]
        · simp [string_column, not_le.mpr hi]
      · rcases hf5 with ⟨hi, _, rfl⟩ | ⟨hi, rfl, rfl⟩
        · simp [string_column, hi]
        · simp [string_column, not_le.mpr hi]
      · rcases hf6 with ⟨hi, _, rfl⟩ | ⟨hi, rfl, rfl⟩
        · simp [string_column, hi]
        · simp [string_column, not_le.mpr hi]
      · cases chi <;> cases clo <;>
          rcases hf7 with ⟨hi7, _, rfl⟩ | ⟨hi7, rfl, rfl⟩ <;>
          rcases hf8 with ⟨hi8, _, rfl⟩ | ⟨hi8, rfl, rfl⟩ <;>
          simp [Cell.ofInt?, Cell.indicator] at hi7 hi8 <;>
          simp [container_of_columns, Cell.ofInt?, Cell.as_llong, CPL_NONE]
      · cases cver <;>
          rcases hf9 with ⟨hi9, _, rfl⟩ | ⟨hi9, rfl, rfl⟩ <;>
          simp [Cell.ofInt?, Cell.indicator] at hi9 <;>
          simp [Cell.ofInt?, Cell.as_llong]
    · simp only [hs, Bool.not_false, if_true] at hR
      subst hR
      exact Or.inl rfl

theorem string_column_of_short (s : String) (h : s.length ≤ 4095) :
    string_column (Cell.ofStr? (some s)) = some s := by
  unfold string_column
  simp only [Cell.ofStr?, Cell.indicator, Cell.truncate, Cell.as_string]
  have hl : s.data.length = s.length := rfl
  split
  · rename_i h0
    have : s.data = [] := List.eq_nil_of_length_eq_zero (by omega)
    congr 1
    exact (String.ext this).symm
  · congr 1
    apply String.ext
    show List.take (4096 - 1) s.data = s.data
    exact List.take_of_length_le (by omega)

/-- The one row of the `get_object_info` query for an object whose row and version 0 are
the last rows of their tables and the only ones with its id. -/
theorem sql_get_object_info_last (db : Store) (objs : List ObjectRow) (r : ObjectRow)
    (vers : List VersionRow) (v : VersionRow) (id : cpl_id_t)
    (hobjs : db.objects = objs ++ [r]) (hvers : db.versions = vers ++ [v])
    (hr : r.id = id) (hv : v.id = id) (hv0 : v.version = 0)
    (hnew : ∀ x ∈ objs, x.id ≠ id) (hnewv : ∀ x ∈ vers, ¬(x.id = id ∧ x.version = 0)) :
    sql_get_object_info db [Param.integer id.hi, Param.integer id.lo]
      = Except.ok (db, [[Cell.int v.session_id.hi, Cell.int v.session_id.lo,
          Cell.ts r.creation_time, Cell.ofStr? r.originator, Cell.ofStr? r.name,
          Cell.ofStr? r.type, Cell.ofInt? r.container_id_hi, Cell.ofInt? r.container_id_lo,
          Cell.ofInt? r.container_ver]]) := by
  unfold sql_get_object_info
  simp only [mk_id_cast, Except.ok.injEq, Prod.mk.injEq, true_and]
  have h1 : db.objects.filter (fun o => decide (o.id = id)) = [r] := by
    rw [hobjs, List.filter_append]
    have : objs.filter (fun o => decide (o.id = id)) = [] := by
      rw [List.filter_eq_nil_iff]
      intro x hx
      simpa using hnew x hx
    rw [this]
    simp [List.filter_cons, hr]
  have h2 : db.version0_of id = [v] := by
    unfold Store.version0_of
    rw [hvers, List.filter_append]
    have : vers.filter (fun x => decide (x.id = id) && decide (x.version = 0)) = [] := by
      rw [List.filter_eq_nil_iff]
      intro x hx
      simpa using hnewv x hx
    rw [this]
    simp [List.filter_cons, hv, hv0]
  rw [h1]
  simp [List.flatMap, hr, h2]

/-- `get_object_info` on a database whose join has the given row: a statement error, not
found when no version is recorded and none was given, or the record decoded from the row. -/
theorem get_object_info_spec (odbc : cpl_odbc_t) (id : cpl_id_t) (hint : cpl_version_t)
    (shi slo : Int) (ct : Nat) (o n t : Option String) (chi clo cver : Option Int)
    (rest : List (List Cell))
    (hx : sql_get_object_info odbc.db [Param.integer id.hi, Param.integer id.lo]
      = Except.ok (odbc.db, [Cell.int shi, Cell.int slo, Cell.ts ct, Cell.ofStr? o,
          Cell.ofStr? n, Cell.ofStr? t, Cell.ofInt? chi, Cell.ofInt? clo, Cell.ofInt? cver]
          :: rest)) :
    (cpl_odbc_get_object_info odbc id hint).1 = CPL_E_STATEMENT_ERROR
    ∨ (hint = CPL_VERSION_NONE ∧ sql_max (odbc.db.versions_of id) = none
      ∧ (cpl_odbc_get_object_info odbc id hint).1 = CPL_E_NOT_FOUND)
    ∨ ∃ info, (cpl_odbc_get_object_info odbc id hint).1 = CPL_OK
      ∧ (cpl_odbc_get_object_info odbc id hint).2.1 = some info
      ∧ info.id = id
      ∧ (if hint = CPL_VERSION_NONE then
          ∃ m, sql_max (odbc.db.versions_of id) = some m ∧ info.version = c_int m
        else info.version = hint)
      ∧ info.creation_session = ⟨shi.toNat, slo.toNat⟩
      ∧ info.originator = string_column (Cell.ofStr? o)
      ∧ info.name = string_column (Cell.ofStr? n)
      ∧ info.type = string_column (Cell.ofStr? t)
      ∧ info.container_id = container_of_columns chi clo
      ∧ info.container_version = c_int (cver.getD CPL_VERSION_NONE) := by
  unfold cpl_odbc_get_object_info
  by_cases hh : hint = CPL_VERSION_NONE
  · rw [if_pos hh]
    have hg := get_version_spec odbc id
    rcases hG : cpl_odbc_get_version odbc id with ⟨r, version, o1⟩
    rw [hG] at hg
    dsimp only at hg ⊢
    rcases hg.2 with h | h
    · subst h; left; rfl
    · cases hm : sql_max (odbc.db.versions_of id) with
      | none =>
        rw [hm] at h
        dsimp only at h
        obtain ⟨h1, _⟩ := h
        subst h1
        right; left
        exact ⟨hh, rfl, rfl⟩
      | some m =>
        rw [hm] at h
        dsimp only at h
        obtain ⟨h1, h2⟩ := h
        subst h1 h2
        simp only [CPL_IS_OK, Bool.not_true, Bool.false_eq_true, if_false, Option.getD_some]
        have hx1 : sql_get_object_info o1.db [Param.integer id.hi, Param.integer id.lo]
            = Except.ok (o1.db, [Cell.int shi, Cell.int slo, Cell.ts ct, Cell.ofStr? o,
              Cell.ofStr? n, Cell.ofStr? t, Cell.ofInt? chi, Cell.ofInt? clo,
              Cell.ofInt? cver] :: rest) := by
          rw [hg.1.1]; exact hx
        rcases get_object_info_read_spec o1 id (c_int m) shi slo ct o n t chi clo cver rest hx1
          with h | ⟨info, h1, h2, h3, h4, h5⟩
        · left; exact h
        · right; right
          refine ⟨info, h1, h2, h3, ?_, h5⟩
          rw [if_pos hh]
          exact ⟨m, rfl, h4⟩
  · rw [if_neg hh]
    rcases get_object_info_read_spec odbc id hint shi slo ct o n t chi clo cver rest hx
      with h | ⟨info, h1, h2, h3, h4, h5⟩
    · left; exact h
    · right; right
      refine ⟨info, h1, h2, h3, ?_, h5⟩
      rw [if_neg hh]
      exact h4

theorem has_object_false_iff (db : Store) (id : cpl_id_t) :
    db.has_object id = false ↔ ∀ x ∈ db.objects, x.id ≠ id := by
  simp [Store.has_object]

theorem has_version_false_iff (db : Store) (id : cpl_id_t) (v : Int) :
    db.has_version id v = false ↔ ∀ x ∈ db.versions, ¬(x.id = id ∧ x.version = v) := by
  simp [Store.has_version]

theorem created_object_row_columns (id : cpl_id_t) (originator name type : String)
    (container : cpl_id_t) (cv : cpl_version_t) (now : Nat) :
    (created_object_row id originator name type container cv now).originator = some originator
    ∧ (created_object_row id originator name type container cv now).name = some name
    ∧ (created_object_row id originator name type container cv now).type = some type
    ∧ container_of_columns
        (created_object_row id originator name type container cv now).container_id_hi
        (created_object_row id originator name type container cv now).container_id_lo
      = container
    ∧ ((created_object_row id originator name type container cv now).container_ver).getD
        CPL_VERSION_NONE = if container = CPL_NONE then CPL_VERSION_NONE else cv := by
  unfold created_object_row
  by_cases hc : container = CPL_NONE
  · simp [hc, container_of_columns]
  · rcases container with ⟨hi, lo⟩
    simp [hc, container_of_columns]

/-- `get_object_info` right after a successful `create_object`: a statement error, or the
record of the created object. -/
theorem get_object_info_after_create (odbc : cpl_odbc_t) (id : cpl_id_t)
    (originator name type : String) (container : cpl_id_t) (cv : cpl_version_t)
    (session : cpl_session_t) (hint : cpl_version_t)
    (hobj : (cpl_odbc_create_object odbc id originator name type container cv session).1
      = CPL_OK) :
    (cpl_odbc_get_object_info
        (cpl_odbc_create_object odbc id originator name type container cv session).2 id
        hint).1 = CPL_E_STATEMENT_ERROR
    ∨ ∃ info,
      (cpl_odbc_get_object_info
        (cpl_odbc_create_object odbc id originator name type container cv session).2 id
        hint).1 = CPL_OK
      ∧ (cpl_odbc_get_object_info
        (cpl_odbc_create_object odbc id originator name type container cv session).2 id
        hint).2.1 = some info
      ∧ info.id = id
      ∧ (if hint = CPL_VERSION_NONE then
          ∃ m, sql_max ((cpl_odbc_create_object odbc id originator name type container cv
            session).2.db.versions_of id) = some m ∧ info.version = c_int m
        else info.version = hint)
      ∧ info.originator = some originator ∧ info.name = some name ∧ info.type = some type
      ∧ info.container_id = container
      ∧ info.container_version
          = c_int (if container = CPL_NONE then CPL_VERSION_NONE else cv) := by
  have hc := create_object_ok odbc id originator name type container cv session hobj
  obtain ⟨hno, hnv, hl1, hl2, hl3, hadv⟩ := hc
  have hdb := hadv.1
  dsimp only at hdb
  have hrow := created_object_row_columns id originator name type container cv odbc.now
  have hx := sql_get_object_info_last
    (cpl_odbc_create_object odbc id originator name type container cv session).2.db
    odbc.db.objects (created_object_row id originator name type container cv odbc.now)
    odbc.db.versions ⟨id, 0, session, odbc.now⟩ id (by rw [hdb]) (by rw [hdb])
    (created_object_row_named id originator name type container cv odbc.now).2 rfl rfl
    ((has_object_false_iff _ _).mp hno) ((has_version_false_iff _ _ _).mp hnv)
  rcases get_object_info_spec _ id hint _ _ _ _ _ _ _ _ _ [] hx with h | ⟨_, hm, _⟩ | h
  · exact Or.inl h
  · exfalso
    rw [versions_of_append odbc.db _ ⟨id, 0, session, odbc.now⟩ id (by rw [hdb]),
      if_pos rfl, sql_max_append] at hm
    exact Option.noConfusion hm
  · right
    obtain ⟨info, h1, h2, h3, h4, _, h6, h7, h8, h9, h10⟩ := h
    refine ⟨info, h1, h2, h3, h4, ?_, ?_, ?_, ?_, ?_⟩
    · rw [h6, hrow.1]; exact string_column_of_short _ (by omega)
    · rw [h7, hrow.2.1]; exact string_column_of_short _ (by omega)
    · rw [h8, hrow.2.2.1]; exact string_column_of_short _ (by omega)
    · rw [h9]; exact hrow.2.2.2.1
    · rw [h10, hrow.2.2.2.2]

theorem SQLFetch_cases (odbc : cpl_odbc_t) (stmt : SQLHSTMT) :
    Advances odbc (SQLFetch odbc stmt).2.2
    ∧ ((SQLFetch odbc stmt).1 = SQLRETURN.SQL_ERROR
      ∨ (stmt.pending = [] ∧ (SQLFetch odbc stmt).1 = SQLRETURN.SQL_NO_DATA)
      ∨ ∃ row rest, stmt.pending = row :: rest
          ∧ (SQLFetch odbc stmt).1 = SQLRETURN.SQL_SUCCESS
          ∧ (SQLFetch odbc stmt).2.1 = { stmt with pending := rest, current := row }) := by
  unfold SQLFetch
  have h := Advances.driver_next odbc
  rcases hx : CPL.driver_next odbc with ⟨f, o⟩
  rw [hx] at h
  cases f with
  | some d => exact ⟨h, Or.inl rfl⟩
  | none =>
    dsimp only
    rcases hp : stmt.pending with _ | ⟨row, rest⟩
    · exact ⟨h, Or.inr (Or.inl ⟨rfl, rfl⟩)⟩
    · exact ⟨h, Or.inr (Or.inr ⟨row, rest, rfl, rfl, rfl⟩)⟩

/-- The fetch loop of `get_object_ancestry` either jumps to `err_close` or has passed
every pending row through the filter, in order. -/
theorem get_object_ancestry_fetch_spec (H : cpl_h) (flags : Int) (pending : List (List Cell))
    (current : List Cell) (odbc : cpl_odbc_t) (found : Bool)
    (entries : List get_object_ancestry_entry) :
    Advances odbc (cpl_odbc_get_object_ancestry.fetch H flags pending current odbc found
      entries).2.2
    ∧ ((cpl_odbc_get_object_ancestry.fetch H flags pending current odbc found entries).1 = none
      ∨ (cpl_odbc_get_object_ancestry.fetch H flags pending current odbc found entries).1
        = some (found || !pending.isEmpty,
            pending.foldl (fun acc row => cpl_odbc_get_object_ancestry.keep H flags row acc)
              entries)) := by
  induction pending generalizing current odbc found entries with
  | nil =>
    unfold cpl_odbc_get_object_ancestry.fetch
    have h := SQLFetch_cases odbc ⟨[], current, true⟩
    rcases hF : SQLFetch odbc ⟨[], current, true⟩ with ⟨ret, st, o⟩
    rw [hF] at h
    dsimp only at h ⊢
    rcases h.2 with h2 | ⟨_, h2⟩ | ⟨row, rest, h2, _⟩
    · subst h2
      exact ⟨h.1, Or.inl (by simp [SQL_SUCCEEDED])⟩
    · subst h2
      exact ⟨h.1, Or.inr (by simp [SQL_SUCCEEDED])⟩
    · exact absurd h2 (by simp)
  | cons row rest ih =>
    unfold cpl_odbc_get_object_ancestry.fetch
    have h := SQLFetch_cases odbc ⟨row :: rest, current, true⟩
    rcases hF : SQLFetch odbc ⟨row :: rest, current, true⟩ with ⟨ret, st, o⟩
    rw [hF] at h
    dsimp only at h ⊢
    rcases h.2 with h2 | ⟨h2, _⟩ | ⟨row2, rest2, _, h2, _⟩
    · subst h2
      exact ⟨h.1, Or.inl (by simp [SQL_SUCCEEDED])⟩
    · exact absurd h2 (by simp)
    · subst h2
      simp only [SQL_SUCCEEDED, Bool.not_true, Bool.false_eq_true, if_false]
      have hi := ih row o true (cpl_odbc_get_object_ancestry.keep H flags row entries)
      refine ⟨h.1.trans hi.1, ?_⟩
      rcases hi.2 with h3 | h3
      · exact Or.inl h3
      · right
        rw [h3]
        simp

/-- The fetch loop of `get_properties` either jumps to `err_close` or has passed every
pending row through the null check, in order. -/
theorem get_properties_fetch_spec (pending : List (List Cell))
    (current : List Cell) (odbc : cpl_odbc_t) (found : Bool)
    (entries : List get_properties_entry) :
    Advances odbc (cpl_odbc_get_properties.fetch pending current odbc found entries).2.2
    ∧ ((cpl_odbc_get_properties.fetch pending current odbc found entries).1 = none
      ∨ (cpl_odbc_get_properties.fetch pending current odbc found entries).1
        = some (found || !pending.isEmpty,
            pending.foldl (fun acc row => cpl_odbc_get_properties.keep row acc) entries)) := by
  induction pending generalizing current odbc found entries with
  | nil =>
    unfold cpl_odbc_get_properties.fetch
    have h := SQLFetch_cases odbc ⟨[], current, true⟩
    rcases hF : SQLFetch odbc ⟨[], current, true⟩ with ⟨ret, st, o⟩
    rw [hF] at h
    dsimp only at h ⊢
    rcases h.2 with h2 | ⟨_, h2⟩ | ⟨row, rest, h2, _⟩
    · subst h2
      exact ⟨h.1, Or.inl (by simp [SQL_SUCCEEDED])⟩
    · subst h2
      exact ⟨h.1, Or.inr (by simp [SQL_SUCCEEDED])⟩
    · exact absurd h2 (by simp)
  | cons row rest ih =>
    unfold cpl_odbc_get_properties.fetch
    have h := SQLFetch_cases odbc ⟨row :: rest, current, true⟩
    rcases hF : SQLFetch odbc ⟨row :: rest, current, true⟩ with ⟨ret, st, o⟩
    rw [hF] at h
    dsimp only at h ⊢
    rcases h.2 with h2 | ⟨h2, _⟩ | ⟨row2, rest2, _, h2, _⟩
    · subst h2
      exact ⟨h.1, Or.inl (by simp [SQL_SUCCEEDED])⟩
    · exact absurd h2 (by simp)
    · subst h2
      simp only [SQL_SUCCEEDED, Bool.not_true, Bool.false_eq_true, if_false]
      have hi := ih row o true (cpl_odbc_get_properties.keep row entries)
      refine ⟨h.1.trans hi.1, ?_⟩
      rcases hi.2 with h3 | h3
      · exact Or.inl h3
      · right
        rw [h3]
        simp

/-- What `get_object_ancestry` does with supported flags on a database whose query has
the given rows: a statement error; not found for no row, a given version and an object
without versions; no data for an empty buffer; otherwise the iteration over the buffer. -/
theorem get_object_ancestry_spec (H : cpl_h) (odbc : cpl_odbc_t) (id : cpl_id_t)
    (version : cpl_version_t) (direction flags : Int)
    (iterator : Option cpl_ancestry_iterator_t) (rows : List (List Cell))
    (hflags : Int.land flags (Int.lnot (CPL_ODBC_A_SUPPORTED_FLAGS H)) = 0)
    (hx : odbc.db.execute odbc.now
        (cpl_odbc_get_object_ancestry.statement H version direction)
        (cpl_odbc_get_object_ancestry.params id version) = Except.ok (odbc.db, rows)) :
    ((cpl_odbc_get_object_ancestry H odbc id version direction flags iterator).1
        = CPL_E_STATEMENT_ERROR
      ∧ (cpl_odbc_get_object_ancestry H odbc id version direction flags iterator).2.1 = [])
    ∨ (rows = [] ∧ version ≠ CPL_VERSION_NONE ∧ sql_max (odbc.db.versions_of id) = none
      ∧ (cpl_odbc_get_object_ancestry H odbc id version direction flags iterator).1
        = CPL_E_NOT_FOUND
      ∧ (cpl_odbc_get_object_ancestry H odbc id version direction flags iterator).2.1 = [])
    ∨ ((rows ≠ [] ∨ version = CPL_VERSION_NONE ∨ sql_max (odbc.db.versions_of id) ≠ none)
      ∧ ancestry_buffer H flags rows = []
      ∧ (cpl_odbc_get_object_ancestry H odbc id version direction flags iterator).1
        = CPL_S_NO_DATA
      ∧ (cpl_odbc_get_object_ancestry H odbc id version direction flags iterator).2.1 = [])
    ∨ (ancestry_buffer H flags rows ≠ []
      ∧ ∃ o6, Advances odbc o6
        ∧ cpl_odbc_get_object_ancestry H odbc id version direction flags iterator
          = match iterator with
            | none => (CPL_OK, [], o6)
            | some it =>
              iterate it
                (cpl_odbc_get_object_ancestry.calls id (ancestry_buffer H flags rows)) o6) := by
  generalize hR : cpl_odbc_get_object_ancestry H odbc id version direction flags iterator = R
  unfold cpl_odbc_get_object_ancestry at hR
  rw [if_neg (by simpa using hflags)] at hR
  dsimp only at hR
  have hl := Advances.lock odbc Mutex.get_object_ancestry_lock
  rcases SQL_EXECUTE_EXT_cases (cpl_odbc_get_object_ancestry.statement H version direction)
      (cpl_odbc_get_object_ancestry.params id version) 3
      (mutex_lock odbc Mutex.get_object_ancestry_lock)
    with ⟨h1, _⟩ | ⟨db, rows2, hx2, h1, h2⟩
  · rcases hE : SQL_EXECUTE_EXT (cpl_odbc_get_object_ancestry.statement H version direction)
      (cpl_odbc_get_object_ancestry.params id version) 3
      (mutex_lock odbc Mutex.get_object_ancestry_lock) with ⟨a, k, o2⟩
    rw [hE] at hR h1
    dsimp only at h1
    subst h1
    dsimp only at hR
    subst hR
    exact Or.inl ⟨rfl, rfl⟩
  · rcases hE : SQL_EXECUTE_EXT (cpl_odbc_get_object_ancestry.statement H version direction)
      (cpl_odbc_get_object_ancestry.params id version) 3
      (mutex_lock odbc Mutex.get_object_ancestry_lock) with ⟨a, k, o2⟩
    rw [hE] at hR h1 h2
    dsimp only at h1 h2
    subst h1
    dsimp only at hR
    simp only [mutex_lock_db, mutex_lock_now, hx, Except.ok.injEq, Prod.mk.injEq] at hx2
    obtain ⟨hdb, hrows⟩ := hx2
    subst hdb hrows
    have hadv2 : Advances odbc o2 := hl.trans ⟨h2.1, h2.2.1, h2.2.2.1, h2.2.2.2⟩
    have hf := get_object_ancestry_fetch_spec H flags rows [] o2 false []
    rcases hF : cpl_odbc_get_object_ancestry.fetch H flags rows [] o2 false []
      with ⟨res, st3, o3⟩
    rw [hF] at hR hf
    dsimp only at hf
    rcases hf.2 with h3 | h3
    · subst h3
      dsimp only at hR
      subst hR
      exact Or.inl ⟨rfl, rfl⟩
    · subst h3
      dsimp only at hR
      have hc := Advances.closeCursor o3 st3
      rcases hC : SQLCloseCursor o3 st3 with ⟨ret, st4, o4⟩
      rw [hC] at hR hc
      dsimp only at hR hc
      by_cases hs : SQL_SUCCEEDED ret = true
      · simp only [hs, Bool.not_true, Bool.false_eq_true, if_false, Bool.false_or] at hR
        have hadv5 : Advances odbc (mutex_unlock o4 Mutex.get_object_ancestry_lock) :=
          ((hadv2.trans hf.1).trans hc).trans (Advances.unlock _ _)
        have hV : ∃ V : cpl_return_t × cpl_odbc_t,
            (if (!!rows.isEmpty) = true ∧ version ≠ CPL_VERSION_NONE then
              ((cpl_odbc_get_version (mutex_unlock o4 Mutex.get_object_ancestry_lock) id).1,
                (cpl_odbc_get_version (mutex_unlock o4 Mutex.get_object_ancestry_lock)
                  id).2.2)
            else (CPL_OK, mutex_unlock o4 Mutex.get_object_ancestry_lock)) = V
            ∧ Advances odbc V.2
            ∧ (V.1 = CPL_E_STATEMENT_ERROR
              ∨ (rows = [] ∧ version ≠ CPL_VERSION_NONE
                ∧ sql_max (odbc.db.versions_of id) = none ∧ V.1 = CPL_E_NOT_FOUND)
              ∨ ((rows ≠ [] ∨ version = CPL_VERSION_NONE
                  ∨ sql_max (odbc.db.versions_of id) ≠ none) ∧ V.1 = CPL_OK)) := by
          refine ⟨_, rfl, ?_⟩
          by_cases hcond : (!!rows.isEmpty) = true ∧ version ≠ CPL_VERSION_NONE
          · rw [if_pos hcond]
            have hrows : rows = [] := by
              have := hcond.1
              simpa using this
            have hg := get_version_spec (mutex_unlock o4 Mutex.get_object_ancestry_lock) id
            rw [hadv5.1] at hg
            refine ⟨hadv5.trans hg.1, ?_⟩
            rcases hg.2 with h4 | h4
            · exact Or.inl h4
            · cases hm : sql_max (odbc.db.versions_of id) with
              | none =>
                rw [hm] at h4
                exact Or.inr (Or.inl ⟨hrows, hcond.2, rfl, h4.1⟩)
              | some m =>
                rw [hm] at h4
                exact Or.inr (Or.inr ⟨Or.inr (Or.inr (by simp)), h4.1⟩)
          · rw [if_neg hcond]
            refine ⟨hadv5, Or.inr (Or.inr ⟨?_, rfl⟩)⟩
            by_cases hr : rows = []
            · right; left
              by_contra hv
              exact hcond ⟨by simp [hr], hv⟩
            · exact Or.inl hr
        obtain ⟨V, hVeq, hVadv, hVcases⟩ := hV
        rw [hVeq] at hR
        obtain ⟨r, o6⟩ := V
        dsimp only at hR hVadv hVcases
        rcases hVcases with h4 | ⟨hrows, hv, hm, h4⟩ | ⟨hdisj, h4⟩
        · subst h4
          simp only [CPL_IS_SUCCESS, CPL_IS_OK, Bool.not_false, if_true] at hR
          subst hR
          exact Or.inl ⟨rfl, rfl⟩
        · subst h4
          simp only [CPL_IS_SUCCESS, CPL_IS_OK, Bool.not_false, if_true] at hR
          subst hR
          exact Or.inr (Or.inl ⟨hrows, hv, hm, rfl, rfl⟩)
        · subst h4
          simp only [CPL_IS_SUCCESS, CPL_IS_OK, Bool.not_true, Bool.false_eq_true,
            if_false] at hR
          rw [show List.foldl (fun acc row => cpl_odbc_get_object_ancestry.keep H flags row acc)
            [] rows = ancestry_buffer H flags rows from rfl] at hR
          by_cases hb : ancestry_buffer H flags rows = []
          · rw [hb] at hR
            simp only [List.isEmpty_nil, if_true] at hR
            subst hR
            exact Or.inr (Or.inr (Or.inl ⟨hdisj, hb, rfl, rfl⟩))
          · have hne : (ancestry_buffer H flags rows).isEmpty = false := by
              cases hbb : ancestry_buffer H flags rows with
              | nil => exact absurd hbb hb
              | cons _ _ => rfl
            rw [hne] at hR
            simp only [Bool.false_eq_true, if_false] at hR
            exact Or.inr (Or.inr (Or.inr ⟨hb, o6, hVadv, hR.symm⟩))
      · simp only [hs, Bool.not_false, if_true] at hR
        subst hR
        exact Or.inl ⟨rfl, rfl⟩

theorem int_zero_land (x : Int) : Int.land 0 x = 0 := by
  show Int.land (Int.ofNat 0) x = 0
  cases x with
  | ofNat n => simp [Int.land]
  | negSucc n => simp [Int.land, Nat.ldiff, Nat.bitwise_zero_left]

theorem int_ne_zero_of_testBit (x : Int) (i : Nat) (h : x.testBit i = true) : x ≠ 0 := by
  intro h0
  rw [h0] at h
  simp [Int.testBit] at h

/-- C9: when `flags` has a bit that is neither in `NO_DATA_DEPENDENCIES` nor in
`NO_CONTROL_DEPENDENCIES`, `get_object_ancestry` returns NotImplemented, the iterator is
not called, and the backend is exactly as before: no mutex was locked, no statement was
executed, no driver call was made. -/
theorem C9_unsupported_flag_not_implemented (H : cpl_h) (odbc : cpl_odbc_t) (id : cpl_id_t)
    (version : cpl_version_t) (direction flags : Int)
    (iterator : Option cpl_ancestry_iterator_t) (i : Nat)
    (hbit : flags.testBit i = true)
    (hdata : H.CPL_A_NO_DATA_DEPENDENCIES.testBit i = false)
    (hcontrol : H.CPL_A_NO_CONTROL_DEPENDENCIES.testBit i = false) :
    cpl_odbc_get_object_ancestry H odbc id version direction flags iterator
      = (CPL_E_NOT_IMPLEMENTED, [], odbc) := by
  unfold cpl_odbc_get_object_ancestry
  rw [if_pos]
  apply int_ne_zero_of_testBit _ i
  rw [Int.testBit_land, Int.testBit_lnot]
  unfold CPL_ODBC_A_SUPPORTED_FLAGS
  rw [Int.testBit_lor, hbit, hdata, hcontrol]
  rfl

/-- C9 at a concrete input: flag bit 3 with the sample header, on a backend whose driver
would fail the next call. -/
theorem C9_witness :
    cpl_odbc_get_object_ancestry sample_header
        { connected Store.empty 0 with script := [some (diag "08S01")] } ⟨0, 1⟩ 5 0 8 none
      = (CPL_E_NOT_IMPLEMENTED, [],
          { connected Store.empty 0 with script := [some (diag "08S01")] }) :=
  C9_unsupported_flag_not_implemented sample_header _ ⟨0, 1⟩ 5 0 8 none 3 (by decide)
    (by decide) (by decide)

theorem iterate_calls_subset {α : Type}
    (it : α → cpl_odbc_t → cpl_return_t × cpl_odbc_t) (l : List α) (o : cpl_odbc_t) :
    ∀ c ∈ (iterate it l o).2.1, c ∈ l := by
  induction l generalizing o with
  | nil => intro c hc; simp [iterate] at hc
  | cons e es ih =>
    intro c hc
    unfold iterate at hc
    rcases hi : it e o with ⟨r, o1⟩
    rw [hi] at hc
    dsimp only at hc
    split at hc
    · simp only [List.mem_singleton] at hc
      subst hc
      exact List.mem_cons_self _ _
    · simp only [List.mem_cons] at hc
      rcases hc with rfl | hc
      · exact List.mem_cons_self _ _
      · exact List.mem_cons_of_mem _ (ih o1 c hc)

theorem iterate_calls_all {α : Type}
    (it : α → cpl_odbc_t → cpl_return_t × cpl_odbc_t) (l : List α) (o : cpl_odbc_t)
    (hok : ∀ c o, CPL_IS_OK (it c o).1 = true) :
    (iterate it l o).2.1 = l := by
  induction l generalizing o with
  | nil => rfl
  | cons e es ih =>
    unfold iterate
    have h := hok e o
    rcases hi : it e o with ⟨r, o1⟩
    rw [hi] at h
    dsimp only at h ⊢
    rw [h]
    simp only [Bool.not_true, Bool.false_eq_true, if_false]
    rw [ih o1]

/-- Every row of the buffer has passed the two category filters. -/
theorem ancestry_buffer_filtered (H : cpl_h) (flags : Int) (rows : List (List Cell)) :
    ∀ e ∈ ancestry_buffer H flags rows,
      (Int.land flags H.CPL_A_NO_DATA_DEPENDENCIES ≠ 0 →
        H.CPL_GET_DEPENDENCY_CATEGORY (c_int e.type) ≠ H.CPL_DEPENDENCY_CATEGORY_DATA)
      ∧ (Int.land flags H.CPL_A_NO_CONTROL_DEPENDENCIES ≠ 0 →
        H.CPL_GET_DEPENDENCY_CATEGORY (c_int e.type) ≠ H.CPL_DEPENDENCY_CATEGORY_CONTROL) := by
  unfold ancestry_buffer
  have key : ∀ (rows : List (List Cell)) (acc : List get_object_ancestry_entry),
      (∀ e ∈ acc,
        (Int.land flags H.CPL_A_NO_DATA_DEPENDENCIES ≠ 0 →
          H.CPL_GET_DEPENDENCY_CATEGORY (c_int e.type) ≠ H.CPL_DEPENDENCY_CATEGORY_DATA)
        ∧ (Int.land flags H.CPL_A_NO_CONTROL_DEPENDENCIES ≠ 0 →
          H.CPL_GET_DEPENDENCY_CATEGORY (c_int e.type)
            ≠ H.CPL_DEPENDENCY_CATEGORY_CONTROL)) →
      ∀ e ∈ rows.foldl (fun acc row => cpl_odbc_get_object_ancestry.keep H flags row acc) acc,
        (Int.land flags H.CPL_A_NO_DATA_DEPENDENCIES ≠ 0 →
          H.CPL_GET_DEPENDENCY_CATEGORY (c_int e.type) ≠ H.CPL_DEPENDENCY_CATEGORY_DATA)
        ∧ (Int.land flags H.CPL_A_NO_CONTROL_DEPENDENCIES ≠ 0 →
          H.CPL_GET_DEPENDENCY_CATEGORY (c_int e.type)
            ≠ H.CPL_DEPENDENCY_CATEGORY_CONTROL) := by
    intro rows
    induction rows with
    | nil => intro acc hacc; exact hacc
    | cons row rest ih =>
      intro acc hacc
      rw [List.foldl_cons]
      apply ih
      intro e he
      unfold cpl_odbc_get_object_ancestry.keep at he
      dsimp only at he
      split at he
      · exact hacc e he
      · split at he
        · exact hacc e he
        · split at he
          · exact hacc e he
          · rename_i hd hc
            rcases List.mem_append.mp he with he | he
            · exact hacc e he
            · simp only [List.mem_singleton] at he
              subst he
              dsimp only
              constructor
              · intro hf hcat
                exact hd ⟨hcat, hf⟩
              · intro hf hcat
                exact hc ⟨hcat, hf⟩
  exact key rows [] (by simp)

theorem ancestry_execute (H : cpl_h) (db : Store) (now : Nat) (id : cpl_id_t)
    (version : cpl_version_t) (direction : Int) :
    db.execute now (cpl_odbc_get_object_ancestry.statement H version direction)
      (cpl_odbc_get_object_ancestry.params id version)
      = Except.ok (db, ancestry_rows H db id version direction) := by
  unfold cpl_odbc_get_object_ancestry.statement cpl_odbc_get_object_ancestry.params
    ancestry_rows
  by_cases hd : direction = H.CPL_D_ANCESTORS <;> by_cases hv : version = CPL_VERSION_NONE
  · simp [hd, hv, Store.execute, sql_get_object_ancestors]
  · simp [hd, hv, Store.execute, sql_get_object_ancestors_with_ver]
  · simp [hd, hv, Store.execute, sql_get_object_descendants]
  · simp [hd, hv, Store.execute, sql_get_object_descendants_with_ver]

/-- C8: whatever the database, id, version, direction and iterator: when `flags` contains
`NO_DATA_DEPENDENCIES` no call of the iterator has a type of category data, and when it
contains `NO_CONTROL_DEPENDENCIES` no call has a type of category control. -/
theorem C8_flag_filters_sound (H : cpl_h) (odbc : cpl_odbc_t) (id : cpl_id_t)
    (version : cpl_version_t) (direction flags : Int)
    (iterator : Option cpl_ancestry_iterator_t) :
    (Int.land flags H.CPL_A_NO_DATA_DEPENDENCIES ≠ 0 →
      ∀ c ∈ (cpl_odbc_get_object_ancestry H odbc id version direction flags iterator).2.1,
        H.CPL_GET_DEPENDENCY_CATEGORY c.type ≠ H.CPL_DEPENDENCY_CATEGORY_DATA)
    ∧ (Int.land flags H.CPL_A_NO_CONTROL_DEPENDENCIES ≠ 0 →
      ∀ c ∈ (cpl_odbc_get_object_ancestry H odbc id version direction flags iterator).2.1,
        H.CPL_GET_DEPENDENCY_CATEGORY c.type ≠ H.CPL_DEPENDENCY_CATEGORY_CONTROL) := by
  have hcalls : ∀ c ∈ (cpl_odbc_get_object_ancestry H odbc id version direction flags
      iterator).2.1,
      ∃ e ∈ ancestry_buffer H flags (ancestry_rows H odbc.db id version direction),
        c.type = c_int e.type := by
    by_cases hflags : Int.land flags (Int.lnot (CPL_ODBC_A_SUPPORTED_FLAGS H)) = 0
    · rcases get_object_ancestry_spec H odbc id version direction flags iterator _ hflags
        (ancestry_execute H odbc.db odbc.now id version direction)
        with ⟨_, h⟩ | ⟨_, _, _, _, h⟩ | ⟨_, _, _, h⟩ | ⟨_, o6, _, h⟩
      · rw [h]; intro c hc; exact absurd hc (List.not_mem_nil _)
      · rw [h]; intro c hc; exact absurd hc (List.not_mem_nil _)
      · rw [h]; intro c hc; exact absurd hc (List.not_mem_nil _)
      · rw [h]
        cases iterator with
        | none => intro c hc; exact absurd hc (List.not_mem_nil _)
        | some it =>
          intro c hc
          have hmem := iterate_calls_subset it _ o6 c hc
          unfold cpl_odbc_get_object_ancestry.calls at hmem
          rw [List.mem_map] at hmem
          obtain ⟨e, he, rfl⟩ := hmem
          exact ⟨e, he, rfl⟩
    · unfold cpl_odbc_get_object_ancestry
      rw [if_pos hflags]
      intro c hc
      exact absurd hc (List.not_mem_nil _)
  constructor
  · intro hf c hc
    obtain ⟨e, he, hty⟩ := hcalls c hc
    rw [hty]
    exact (ancestry_buffer_filtered H flags _ e he).1 hf
  · intro hf c hc
    obtain ⟨e, he, hty⟩ := hcalls c hc
    rw [hty]
    exact (ancestry_buffer_filtered H flags _ e he).2 hf

/-- C8 at a concrete input: with `NO_DATA_DEPENDENCIES` only the control edge of two edges
is delivered. -/
theorem C8_witness :
    (cpl_odbc_get_object_ancestry sample_header two_edges ⟨0, 1⟩ CPL_VERSION_NONE 0 2
        (some accept_all)).2.1 = [⟨⟨0, 1⟩, 0, ⟨0, 2⟩, 0, 512⟩]
    ∧ ∀ c ∈ (cpl_odbc_get_object_ancestry sample_header two_edges ⟨0, 1⟩ CPL_VERSION_NONE
        0 2 (some accept_all)).2.1,
        sample_header.CPL_GET_DEPENDENCY_CATEGORY c.type
          ≠ sample_header.CPL_DEPENDENCY_CATEGORY_DATA :=
  ⟨by decide!,
    (C8_flag_filters_sound sample_header two_edges ⟨0, 1⟩ CPL_VERSION_NONE 0 2
      (some accept_all)).1 (by decide)⟩

/-- A successful `add_ancestry_edge` appended the edge to the ancestry table. -/
theorem add_ancestry_edge_ok (odbc : cpl_odbc_t) (from_id : cpl_id_t) (from_ver : cpl_version_t)
    (to_id : cpl_id_t) (to_ver : cpl_version_t) (type : Int)
    (h : (cpl_odbc_add_ancestry_edge odbc from_id from_ver to_id to_ver type).1 = CPL_OK) :
    (cpl_odbc_add_ancestry_edge odbc from_id from_ver to_id to_ver type).2.db.ancestry
      = odbc.db.ancestry ++ [⟨from_id, from_ver, to_id, to_ver, some type⟩] := by
  generalize hR : cpl_odbc_add_ancestry_edge odbc from_id from_ver to_id to_ver type = R at h
  unfold cpl_odbc_add_ancestry_edge at hR
  dsimp only at hR
  rcases SQL_EXECUTE_EXT_cases Stmt.add_ancestry_edge_stmt
      [Param.integer from_id.hi, Param.integer from_id.lo, Param.integer from_ver,
        Param.integer to_id.hi, Param.integer to_id.lo, Param.integer to_ver,
        Param.integer type] 3 (mutex_lock odbc Mutex.add_ancestry_edge_lock)
    with ⟨h1, _⟩ | ⟨db, rows, hx, h1, h2⟩
  · rcases hE : SQL_EXECUTE_EXT Stmt.add_ancestry_edge_stmt
      [Param.integer from_id.hi, Param.integer from_id.lo, Param.integer from_ver,
        Param.integer to_id.hi, Param.integer to_id.lo, Param.integer to_ver,
        Param.integer type] 3 (mutex_lock odbc Mutex.add_ancestry_edge_lock) with ⟨a, k, o2⟩
    rw [hE] at hR h1
    dsimp only at h1
    subst h1
    dsimp only at hR
    subst hR
    exact cpl_return_t.noConfusion h
  · rcases hE : SQL_EXECUTE_EXT Stmt.add_ancestry_edge_stmt
      [Param.integer from_id.hi, Param.integer from_id.lo, Param.integer from_ver,
        Param.integer to_id.hi, Param.integer to_id.lo, Param.integer to_ver,
        Param.integer type] 3 (mutex_lock odbc Mutex.add_ancestry_edge_lock) with ⟨a, k, o2⟩
    rw [hE] at hR h1 h2
    dsimp only at h1 h2
    subst h1
    dsimp only at hR
    subst hR
    rw [execute_add_ancestry_edge] at hx
    split at hx
    · simp only [mutex_lock_db, Except.ok.injEq, Prod.mk.injEq] at hx
      rw [mutex_unlock_db, h2.1, ← hx.1]
    · exact Except.noConfusion hx

theorem ancestry_buffer_append (H : cpl_h) (flags : Int) (rows : List (List Cell))
    (row : List Cell) :
    ancestry_buffer H flags (rows ++ [row])
      = cpl_odbc_get_object_ancestry.keep H flags row (ancestry_buffer H flags rows) := by
  unfold ancestry_buffer
  rw [List.foldl_append]
  rfl

/-- The call of the iterator for an edge just added, in the chosen direction. -/
theorem edge_is_delivered (H : cpl_h) (odbc : cpl_odbc_t)
    (it : cpl_ancestry_iterator_t) (id : cpl_id_t) (direction : Int)
    (old : List (List Cell)) (row : List Cell) (e : get_object_ancestry_entry)
    (hit : ∀ c o, CPL_IS_OK (it c o).1 = true)
    (hrows : ancestry_rows H odbc.db id CPL_VERSION_NONE direction = old ++ [row])
    (hkeep : ∀ entries, cpl_odbc_get_object_ancestry.keep H 0 row entries = entries ++ [e])
    (hne : (cpl_odbc_get_object_ancestry H odbc id CPL_VERSION_NONE direction 0
      (some it)).1 ≠ CPL_E_STATEMENT_ERROR) :
    (⟨id, c_int e.query_version, e.id, c_int e.version, c_int e.type⟩ : ancestry_call)
      ∈ (cpl_odbc_get_object_ancestry H odbc id CPL_VERSION_NONE direction 0 (some it)).2.1 := by
  have hbuf : ancestry_buffer H 0 (ancestry_rows H odbc.db id CPL_VERSION_NONE direction)
      = ancestry_buffer H 0 old ++ [e] := by
    rw [hrows, ancestry_buffer_append, hkeep]
  rcases get_object_ancestry_spec H odbc id CPL_VERSION_NONE direction 0 (some it) _
    (int_zero_land _) (ancestry_execute H odbc.db odbc.now id CPL_VERSION_NONE direction)
    with ⟨h, _⟩ | ⟨_, h, _⟩ | ⟨_, h, _⟩ | ⟨_, o6, _, h⟩
  · exact absurd h hne
  · exact absurd rfl h
  · rw [hbuf] at h
    exact absurd h (by simp)
  · rw [h]
    dsimp only
    rw [iterate_calls_all it _ o6 hit, hbuf]
    unfold cpl_odbc_get_object_ancestry.calls
    simp

theorem keep_ancestor_cells (H : cpl_h) (e : AncestryRow) (ty : Int) (hty : e.type = some ty)
    (entries : List get_object_ancestry_entry) :
    cpl_odbc_get_object_ancestry.keep H 0 e.ancestor_cells entries
      = entries ++ [⟨⟨(e.to_id.hi : Int).toNat, (e.to_id.lo : Int).toNat⟩, e.to_version,
          e.from_version, ty⟩] := by
  unfold cpl_odbc_get_object_ancestry.keep AncestryRow.ancestor_cells
  simp [hty, Cell.ofInt?, Cell.indicator, Cell.as_llong, int_zero_land]

theorem keep_descendant_cells (H : cpl_h) (e : AncestryRow) (ty : Int)
    (hty : e.type = some ty) (entries : List get_object_ancestry_entry) :
    cpl_odbc_get_object_ancestry.keep H 0 e.descendant_cells entries
      = entries ++ [⟨⟨(e.from_id.hi : Int).toNat, (e.from_id.lo : Int).toNat⟩, e.from_version,
          e.to_version, ty⟩] := by
  unfold cpl_odbc_get_object_ancestry.keep AncestryRow.descendant_cells
  simp [hty, Cell.ofInt?, Cell.indicator, Cell.as_llong, int_zero_land]

/-- C6, as stated, fails: after `add_ancestry_edge (from = (0,1), to = (0,2), type = 256)`
between the versions 0 of two existing objects, `get_object_ancestry ((0,2), direction =
ancestors, flags = 0)` returns no data and never calls the iterator. -/
theorem C6_counterexample :
    (cpl_odbc_add_ancestry_edge two_objects ⟨0, 1⟩ 0 ⟨0, 2⟩ 0 256).1 = CPL_OK
    ∧ (cpl_odbc_get_object_ancestry sample_header one_edge ⟨0, 2⟩ CPL_VERSION_NONE
        sample_header.CPL_D_ANCESTORS 0 (some accept_all)).1 = CPL_S_NO_DATA
    ∧ (cpl_odbc_get_object_ancestry sample_header one_edge ⟨0, 2⟩ CPL_VERSION_NONE
        sample_header.CPL_D_ANCESTORS 0 (some accept_all)).2.1 = [] := by
  decide!

/-- C6 (amended): after a successful `add_ancestry_edge (from = a, to = b, type = T)` (with
32-bit versions and type), `get_object_ancestry (a, direction = ancestors, flags = 0)`, the
query on the from node of the edge, calls an iterator that accepts every row with the row
(a, from version, b, to version, T), unless the driver fails the query with a statement
error; the same edge is delivered to `get_object_ancestry (b, ...)` in the other
direction, as the row (b, to version, a, from version, T). -/
theorem C6_edge_reported_from_its_source (H : cpl_h) (odbc : cpl_odbc_t) (a : cpl_id_t)
    (fv : cpl_version_t) (b : cpl_id_t) (tv : cpl_version_t) (T : Int)
    (it : cpl_ancestry_iterator_t) (descendants : Int)
    (hfv : -2147483648 ≤ fv ∧ fv < 2147483648) (htv : -2147483648 ≤ tv ∧ tv < 2147483648)
    (hT : -2147483648 ≤ T ∧ T < 2147483648)
    (hadd : (cpl_odbc_add_ancestry_edge odbc a fv b tv T).1 = CPL_OK)
    (hit : ∀ c o, CPL_IS_OK (it c o).1 = true)
    (hne : (cpl_odbc_get_object_ancestry H (cpl_odbc_add_ancestry_edge odbc a fv b tv T).2 a
      CPL_VERSION_NONE H.CPL_D_ANCESTORS 0 (some it)).1 ≠ CPL_E_STATEMENT_ERROR) :
    (⟨a, fv, b, tv, T⟩ : ancestry_call)
      ∈ (cpl_odbc_get_object_ancestry H (cpl_odbc_add_ancestry_edge odbc a fv b tv T).2 a
          CPL_VERSION_NONE H.CPL_D_ANCESTORS 0 (some it)).2.1
    ∧ (descendants ≠ H.CPL_D_ANCESTORS →
        (cpl_odbc_get_object_ancestry H (cpl_odbc_add_ancestry_edge odbc a fv b tv T).2 b
          CPL_VERSION_NONE descendants 0 (some it)).1 ≠ CPL_E_STATEMENT_ERROR →
        (⟨b, tv, a, fv, T⟩ : ancestry_call)
          ∈ (cpl_odbc_get_object_ancestry H (cpl_odbc_add_ancestry_edge odbc a fv b tv T).2 b
              CPL_VERSION_NONE descendants 0 (some it)).2.1) := by
  have hdb := add_ancestry_edge_ok odbc a fv b tv T hadd
  constructor
  · have hrows : ancestry_rows H (cpl_odbc_add_ancestry_edge odbc a fv b tv T).2.db a
        CPL_VERSION_NONE H.CPL_D_ANCESTORS
        = (odbc.db.ancestry.filter (fun e => decide (e.from_id = a)
            && (decide (CPL_VERSION_NONE = CPL_VERSION_NONE)
              || decide (e.from_version = CPL_VERSION_NONE)))).map AncestryRow.ancestor_cells
          ++ [AncestryRow.ancestor_cells ⟨a, fv, b, tv, some T⟩] := by
      unfold ancestry_rows
      rw [if_pos rfl, hdb, List.filter_append, List.map_append]
      simp [List.filter_cons]
    have h := edge_is_delivered H _ it a H.CPL_D_ANCESTORS _ _ ⟨b, tv, fv, T⟩ hit hrows
      (fun entries => by
        rw [keep_ancestor_cells H ⟨a, fv, b, tv, some T⟩ T rfl entries]
        simp) hne
    simpa [c_int_of_range _ hfv.1 hfv.2, c_int_of_range _ htv.1 htv.2,
      c_int_of_range _ hT.1 hT.2] using h
  · intro hd hne2
    have hrows : ancestry_rows H (cpl_odbc_add_ancestry_edge odbc a fv b tv T).2.db b
        CPL_VERSION_NONE descendants
        = (odbc.db.ancestry.filter (fun e => decide (e.to_id = b)
            && (decide (CPL_VERSION_NONE = CPL_VERSION_NONE)
              || decide (e.to_version = CPL_VERSION_NONE)))).map AncestryRow.descendant_cells
          ++ [AncestryRow.descendant_cells ⟨a, fv, b, tv, some T⟩] := by
      unfold ancestry_rows
      rw [if_neg hd, hdb, List.filter_append, List.map_append]
      simp [List.filter_cons]
    have h := edge_is_delivered H _ it b descendants _ _ ⟨a, fv, tv, T⟩ hit hrows
      (fun entries => by
        rw [keep_descendant_cells H ⟨a, fv, b, tv, some T⟩ T rfl entries]
        simp) hne2
    simpa [c_int_of_range _ hfv.1 hfv.2, c_int_of_range _ htv.1 htv.2,
      c_int_of_range _ hT.1 hT.2] using h

/-- C6 (amended) at a concrete input: the edge from version 0 of (0,1) to version 0 of
(0,2), of type 256, is delivered to the query on (0,1). -/
theorem C6_witness :
    (cpl_odbc_add_ancestry_edge two_objects ⟨0, 1⟩ 0 ⟨0, 2⟩ 0 256).1 = CPL_OK
    ∧ (⟨⟨0, 1⟩, 0, ⟨0, 2⟩, 0, 256⟩ : ancestry_call)
      ∈ (cpl_odbc_get_object_ancestry sample_header
          (cpl_odbc_add_ancestry_edge two_objects ⟨0, 1⟩ 0 ⟨0, 2⟩ 0 256).2
          ⟨0, 1⟩ CPL_VERSION_NONE sample_header.CPL_D_ANCESTORS 0 (some accept_all)).2.1 :=
  ⟨by decide!,
    (C6_edge_reported_from_its_source sample_header two_objects ⟨0, 1⟩ 0
      ⟨0, 2⟩ 0 256 accept_all 1 (by decide) (by decide) (by decide) (by decide!)
      (fun _ _ => rfl) (by decide!)).1⟩

theorem properties_execute (db : Store) (now : Nat) (id : cpl_id_t)
    (version : cpl_version_t) (key : Option String) :
    db.execute now (cpl_odbc_get_properties.statement version key)
      (cpl_odbc_get_properties.params id version key)
      = Except.ok (db, property_rows db id version key) := by
  unfold cpl_odbc_get_properties.statement cpl_odbc_get_properties.params property_rows
  cases key <;> by_cases hv : version = CPL_VERSION_NONE
  · simp [hv, Store.execute, sql_get_properties]
  · simp [hv, Store.execute, sql_get_properties_with_ver]
  · simp [hv, Store.execute, sql_get_properties_with_key]
  · simp [hv, Store.execute, sql_get_properties_with_key_ver]

/-- What `get_properties` does on a database whose query has the given rows: a statement
error; not found for no row, a given version and an object without versions; no data for
an empty buffer; otherwise the iteration over the buffer. -/
theorem get_properties_spec (odbc : cpl_odbc_t) (id : cpl_id_t)
    (version : cpl_version_t) (key : Option String)
    (iterator : Option cpl_property_iterator_t) (rows : List (List Cell))
    (hx : odbc.db.execute odbc.now (cpl_odbc_get_properties.statement version key)
        (cpl_odbc_get_properties.params id version key) = Except.ok (odbc.db, rows)) :
    ((cpl_odbc_get_properties odbc id version key iterator).1 = CPL_E_STATEMENT_ERROR
      ∧ (cpl_odbc_get_properties odbc id version key iterator).2.1 = [])
    ∨ (rows = [] ∧ version ≠ CPL_VERSION_NONE ∧ sql_max (odbc.db.versions_of id) = none
      ∧ (cpl_odbc_get_properties odbc id version key iterator).1 = CPL_E_NOT_FOUND
      ∧ (cpl_odbc_get_properties odbc id version key iterator).2.1 = [])
    ∨ ((rows ≠ [] ∨ version = CPL_VERSION_NONE ∨ sql_max (odbc.db.versions_of id) ≠ none)
      ∧ properties_buffer rows = []
      ∧ (cpl_odbc_get_properties odbc id version key iterator).1 = CPL_S_NO_DATA
      ∧ (cpl_odbc_get_properties odbc id version key iterator).2.1 = [])
    ∨ (properties_buffer rows ≠ []
      ∧ ∃ o6, Advances odbc o6
        ∧ cpl_odbc_get_properties odbc id version key iterator
          = match iterator with
            | none => (CPL_OK, [], o6)
            | some it =>
              iterate it (cpl_odbc_get_properties.calls id (properties_buffer rows)) o6) := by
  generalize hR : cpl_odbc_get_properties odbc id version key iterator = R
  unfold cpl_odbc_get_properties at hR
  dsimp only at hR
  have hl := Advances.lock odbc Mutex.get_properties_lock
  rcases SQL_EXECUTE_EXT_cases (cpl_odbc_get_properties.statement version key)
      (cpl_odbc_get_properties.params id version key) 3
      (mutex_lock odbc Mutex.get_properties_lock)
    with ⟨h1, _⟩ | ⟨db, rows2, hx2, h1, h2⟩
  · rcases hE : SQL_EXECUTE_EXT (cpl_odbc_get_properties.statement version key)
      (cpl_odbc_get_properties.params id version key) 3
      (mutex_lock odbc Mutex.get_properties_lock) with ⟨a, k, o2⟩
    rw [hE] at hR h1
    dsimp only at h1
    subst h1
    dsimp only at hR
    subst hR
    exact Or.inl ⟨rfl, rfl⟩
  · rcases hE : SQL_EXECUTE_EXT (cpl_odbc_get_properties.statement version key)
      (cpl_odbc_get_properties.params id version key) 3
      (mutex_lock odbc Mutex.get_properties_lock) with ⟨a, k, o2⟩
    rw [hE] at hR h1 h2
    dsimp only at h1 h2
    subst h1
    dsimp only at hR
    simp only [mutex_lock_db, mutex_lock_now, hx, Except.ok.injEq, Prod.mk.injEq] at hx2
    obtain ⟨hdb, hrows⟩ := hx2
    subst hdb hrows
    have hadv2 : Advances odbc o2 := hl.trans ⟨h2.1, h2.2.1, h2.2.2.1, h2.2.2.2⟩
    have hf := get_properties_fetch_spec rows [] o2 false []
    rcases hF : cpl_odbc_get_properties.fetch rows [] o2 false []
      with ⟨res, st3, o3⟩
    rw [hF] at hR hf
    dsimp only at hf
    rcases hf.2 with h3 | h3
    · subst h3
      dsimp only at hR
      subst hR
      exact Or.inl ⟨rfl, rfl⟩
    · subst h3
      dsimp only at hR
      have hc := Advances.closeCursor o3 st3
      rcases hC : SQLCloseCursor o3 st3 with ⟨ret, st4, o4⟩
      rw [hC] at hR hc
      dsimp only at hR hc
      by_cases hs : SQL_SUCCEEDED ret = true
      · simp only [hs, Bool.not_true, Bool.false_eq_true, if_false, Bool.false_or] at hR
        have hadv5 : Advances odbc (mutex_unlock o4 Mutex.get_properties_lock) :=
          ((hadv2.trans hf.1).trans hc).trans (Advances.unlock _ _)
        have hV : ∃ V : cpl_return_t × cpl_odbc_t,
            (if (!!rows.isEmpty) = true ∧ version ≠ CPL_VERSION_NONE then
              ((cpl_odbc_get_version (mutex_unlock o4 Mutex.get_properties_lock) id).1,
                (cpl_odbc_get_version (mutex_unlock o4 Mutex.get_properties_lock)
                  id).2.2)
            else (CPL_OK, mutex_unlock o4 Mutex.get_properties_lock)) = V
            ∧ Advances odbc V.2
            ∧ (V.1 = CPL_E_STATEMENT_ERROR
              ∨ (rows = [] ∧ version ≠ CPL_VERSION_NONE
                ∧ sql_max (odbc.db.versions_of id) = none ∧ V.1 = CPL_E_NOT_FOUND)
              ∨ ((rows ≠ [] ∨ version = CPL_VERSION_NONE
                  ∨ sql_max (odbc.db.versions_of id) ≠ none) ∧ V.1 = CPL_OK)) := by
          refine ⟨_, rfl, ?_⟩
          by_cases hcond : (!!rows.isEmpty) = true ∧ version ≠ CPL_VERSION_NONE
          · rw [if_pos hcond]
            have hrows : rows = [] := by
              have := hcond.1
              simpa using this
            have hg := get_version_spec (mutex_unlock o4 Mutex.get_properties_lock) id
            rw [hadv5.1] at hg
            refine ⟨hadv5.trans hg.1, ?_⟩
            rcases hg.2 with h4 | h4
            · exact Or.inl h4
            · cases hm : sql_max (odbc.db.versions_of id) with
              | none =>
                rw [hm] at h4
                exact Or.inr (Or.inl ⟨hrows, hcond.2, rfl, h4.1⟩)
              | some m =>
                rw [hm] at h4
                exact Or.inr (Or.inr ⟨Or.inr (Or.inr (by simp)), h4.1⟩)
          · rw [if_neg hcond]
            refine ⟨hadv5, Or.inr (Or.inr ⟨?_, rfl⟩)⟩
            by_cases hr : rows = []
            · right; left
              by_contra hv
              exact hcond ⟨by simp [hr], hv⟩
            · exact Or.inl hr
        obtain ⟨V, hVeq, hVadv, hVcases⟩ := hV
        rw [hVeq] at hR
        obtain ⟨r, o6⟩ := V
        dsimp only at hR hVadv hVcases
        rcases hVcases with h4 | ⟨hrows, hv, hm, h4⟩ | ⟨hdisj, h4⟩
        · subst h4
          simp only [CPL_IS_SUCCESS, CPL_IS_OK, Bool.not_false, if_true] at hR
          subst hR
          exact Or.inl ⟨rfl, rfl⟩
        · subst h4
          simp only [CPL_IS_SUCCESS, CPL_IS_OK, Bool.not_false, if_true] at hR
          subst hR
          exact Or.inr (Or.inl ⟨hrows, hv, hm, rfl, rfl⟩)
        · subst h4
          simp only [CPL_IS_SUCCESS, CPL_IS_OK, Bool.not_true, Bool.false_eq_true,
            if_false] at hR
          rw [show List.foldl (fun acc row => cpl_odbc_get_properties.keep row acc)
            [] rows = properties_buffer rows from rfl] at hR
          by_cases hb : properties_buffer rows = []
          · rw [hb] at hR
            simp only [List.isEmpty_nil, if_true] at hR
            subst hR
            exact Or.inr (Or.inr (Or.inl ⟨hdisj, hb, rfl, rfl⟩))
          · have hne : (properties_buffer rows).isEmpty = false := by
              cases hbb : properties_buffer rows with
              | nil => exact absurd hbb hb
              | cons _ _ => rfl
            rw [hne] at hR
            simp only [Bool.false_eq_true, if_false] at hR
            exact Or.inr (Or.inr (Or.inr ⟨hb, o6, hVadv, hR.symm⟩))
      · simp only [hs, Bool.not_false, if_true] at hR
        subst hR
        exact Or.inl ⟨rfl, rfl⟩

theorem sql_max_eq_none (xs : List Int) : sql_max xs = none ↔ xs = [] := by
  cases xs with
  | nil => simp [sql_max]
  | cons x xs =>
    simp only [sql_max, reduceCtorEq, iff_false]
    cases sql_max xs <;> simp

theorem truncate_as_string_of_short (s : String) (b : Nat) (h : s.length ≤ b - 1) :
    ((Cell.str s).truncate b).as_string = s := by
  simp only [Cell.truncate, Cell.as_string]
  apply String.ext
  show List.take (b - 1) s.data = s.data
  exact List.take_of_length_le h

/-- A successful `add_property` appended the row to the property table. -/
theorem add_property_ok (odbc : cpl_odbc_t) (id : cpl_id_t) (version : cpl_version_t)
    (key value : Option String)
    (h : (cpl_odbc_add_property odbc id version key value).1 = CPL_OK) :
    (cpl_odbc_add_property odbc id version key value).2.db.properties
      = odbc.db.properties ++ [⟨id, version, key, value⟩]
    ∧ fits (Param.varchar 255 key) = true ∧ fits (Param.varchar 4095 value) = true := by
  generalize hR : cpl_odbc_add_property odbc id version key value = R at h
  unfold cpl_odbc_add_property at hR
  dsimp only at hR
  rcases SQL_EXECUTE_EXT_cases Stmt.add_property_stmt
      [Param.integer id.hi, Param.integer id.lo, Param.integer version,
        Param.varchar 255 key, Param.varchar 4095 value] 3
      (mutex_lock odbc Mutex.add_property_lock)
    with ⟨h1, _⟩ | ⟨db, rows, hx, h1, h2⟩
  · rcases hE : SQL_EXECUTE_EXT Stmt.add_property_stmt
      [Param.integer id.hi, Param.integer id.lo, Param.integer version,
        Param.varchar 255 key, Param.varchar 4095 value] 3
      (mutex_lock odbc Mutex.add_property_lock) with ⟨a, k, o2⟩
    rw [hE] at hR h1
    dsimp only at h1
    subst h1
    dsimp only at hR
    subst hR
    exact cpl_return_t.noConfusion h
  · rcases hE : SQL_EXECUTE_EXT Stmt.add_property_stmt
      [Param.integer id.hi, Param.integer id.lo, Param.integer version,
        Param.varchar 255 key, Param.varchar 4095 value] 3
      (mutex_lock odbc Mutex.add_property_lock) with ⟨a, k, o2⟩
    rw [hE] at hR h1 h2
    dsimp only at h1 h2
    subst h1
    dsimp only at hR
    subst hR
    rw [execute_add_property] at hx
    split at hx
    · rename_i hfit
      split at hx
      · simp only [mutex_lock_db, Except.ok.injEq, Prod.mk.injEq] at hx
        exact ⟨by rw [mutex_unlock_db, h2.1, ← hx.1], hfit⟩
      · exact Except.noConfusion hx
    · exact Except.noConfusion hx

theorem properties_buffer_append (rows : List (List Cell)) (row : List Cell) :
    properties_buffer (rows ++ [row])
      = cpl_odbc_get_properties.keep row (properties_buffer rows) := by
  unfold properties_buffer
  rw [List.foldl_append]
  rfl

theorem property_rows_eq (db : Store) (id : cpl_id_t) (version : cpl_version_t)
    (key : Option String) :
    property_rows db id version key
      = (db.properties_matching id version key).map PropertyRow.cells := rfl

/-- What the fetch loop of `get_properties` keeps of a row with a key and a value. -/
theorem keep_property_cells (r : PropertyRow) (n v : String) (hn : r.name = some n)
    (hv : r.value = some v) (entries : List get_properties_entry) :
    cpl_odbc_get_properties.keep r.cells entries
      = entries ++ [⟨r.id, r.version, ((Cell.str n).truncate 256).as_string,
          ((Cell.str v).truncate 4096).as_string⟩] := by
  unfold cpl_odbc_get_properties.keep PropertyRow.cells
  simp [hn, hv, Cell.ofStr?, Cell.indicator, Cell.as_llong]

theorem keep_well_formed (r : PropertyRow) (h : r.well_formed)
    (entries : List get_properties_entry) :
    cpl_odbc_get_properties.keep r.cells entries
      = entries ++ [⟨r.id, r.version, r.name.getD "", r.value.getD ""⟩] := by
  obtain ⟨⟨n, hn, hnl⟩, ⟨v, hv, hvl⟩, _⟩ := h
  rw [keep_property_cells r n v hn hv, truncate_as_string_of_short n 256 (by omega),
    truncate_as_string_of_short v 4096 (by omega), hn, hv]
  rfl

theorem properties_buffer_well_formed (rs : List PropertyRow)
    (h : ∀ r ∈ rs, r.well_formed) :
    properties_buffer (rs.map PropertyRow.cells)
      = rs.map (fun r => ⟨r.id, r.version, r.name.getD "", r.value.getD ""⟩) := by
  induction rs using List.reverseRecOn with
  | nil => rfl
  | append_singleton rs r ih =>
    rw [List.map_append, List.map_singleton, properties_buffer_append,
      ih (fun x hx => h x (List.mem_append_left _ hx)),
      keep_well_formed r (h r (List.mem_append_right _ (List.mem_singleton_self r)))]
    simp

theorem iterate_ok_all {α : Type}
    (it : α → cpl_odbc_t → cpl_return_t × cpl_odbc_t) (l : List α) (o : cpl_odbc_t)
    (hok : ∀ c o, CPL_IS_OK (it c o).1 = true) :
    (iterate it l o).1 = CPL_OK := by
  induction l generalizing o with
  | nil => rfl
  | cons e es ih =>
    unfold iterate
    have h := hok e o
    rcases hi : it e o with ⟨r, o1⟩
    rw [hi] at h
    dsimp only at h ⊢
    rw [h]
    simp only [Bool.not_true, Bool.false_eq_true, if_false]
    exact ih o1

theorem mem_properties_matching (db : Store) (id : cpl_id_t) (version : cpl_version_t)
    (key : Option String) (r : PropertyRow) (h : r ∈ db.properties_matching id version key) :
    r ∈ db.properties ∧ r.id = id := by
  unfold Store.properties_matching at h
  rw [List.mem_filter] at h
  refine ⟨h.1, ?_⟩
  have h2 := h.2
  simp only [Bool.and_eq_true, decide_eq_true_eq] at h2
  exact h2.1.1

/-- The fetch loop either jumps to `err_close` or has passed every pending row through its
body, in order. -/
theorem fetch_loop_spec {β : Type} (body : List Cell → β → β) (pending : List (List Cell))
    (current : List Cell) (odbc : cpl_odbc_t) (acc : β) :
    Advances odbc (fetch_loop body pending current odbc acc).2.2
    ∧ ((fetch_loop body pending current odbc acc).1 = none
      ∨ (fetch_loop body pending current odbc acc).1
        = some (pending.foldl (fun a row => body row a) acc)) := by
  induction pending generalizing current odbc acc with
  | nil =>
    unfold fetch_loop
    have h := SQLFetch_cases odbc ⟨[], current, true⟩
    rcases hF : SQLFetch odbc ⟨[], current, true⟩ with ⟨ret, st, o⟩
    rw [hF] at h
    dsimp only at h ⊢
    rcases h.2 with h2 | ⟨_, h2⟩ | ⟨row, rest, h2, _⟩
    · subst h2
      exact ⟨h.1, Or.inl (by simp [SQL_SUCCEEDED])⟩
    · subst h2
      exact ⟨h.1, Or.inr (by simp [SQL_SUCCEEDED])⟩
    · exact absurd h2 (by simp)
  | cons row rest ih =>
    unfold fetch_loop
    have h := SQLFetch_cases odbc ⟨row :: rest, current, true⟩
    rcases hF : SQLFetch odbc ⟨row :: rest, current, true⟩ with ⟨ret, st, o⟩
    rw [hF] at h
    dsimp only at h ⊢
    rcases h.2 with h2 | ⟨h2, _⟩ | ⟨row2, rest2, _, h2, _⟩
    · subst h2
      exact ⟨h.1, Or.inl (by simp [SQL_SUCCEEDED])⟩
    · exact absurd h2 (by simp)
    · subst h2
      simp only [SQL_SUCCEEDED, Bool.not_true, Bool.false_eq_true, if_false]
      have hi := ih row o (body row acc)
      exact ⟨h.1.trans hi.1, hi.2⟩

theorem lookup_by_property_execute (db : Store) (now : Nat) (key value : Option String) :
    db.execute now Stmt.lookup_by_property_stmt
      [Param.varchar 255 key, Param.varchar 4095 value]
      = Except.ok (db, (db.properties_with key value).map
          (fun r => [Cell.int r.id.hi, Cell.int r.id.lo, Cell.int r.version])) := by
  simp [Store.execute, sql_lookup_by_property, Store.properties_with]

theorem lookup_by_property_buffer (rs : List PropertyRow)
    (entries : List lookup_by_property_entry) :
    (rs.map (fun r => [Cell.int r.id.hi, Cell.int r.id.lo, Cell.int r.version])).foldl
      (fun a row => cpl_odbc_lookup_by_property.keep row a) entries
      = entries ++ rs.map (fun r => ⟨r.id, r.version⟩) := by
  induction rs generalizing entries with
  | nil => simp
  | cons r rs ih =>
    rw [List.map_cons, List.foldl_cons, ih]
    simp [cpl_odbc_lookup_by_property.keep, Cell.as_llong]

/-- What `lookup_by_property` does: a statement error; not found when no stored row has
the name and the value; otherwise the iteration over the matching rows. -/
theorem lookup_by_property_spec (odbc : cpl_odbc_t) (key value : Option String)
    (iterator : Option cpl_property_iterator_t) :
    ((cpl_odbc_lookup_by_property odbc key value iterator).1 = CPL_E_STATEMENT_ERROR
      ∧ (cpl_odbc_lookup_by_property odbc key value iterator).2.1 = [])
    ∨ (odbc.db.properties_with key value = []
      ∧ (cpl_odbc_lookup_by_property odbc key value iterator).1 = CPL_E_NOT_FOUND
      ∧ (cpl_odbc_lookup_by_property odbc key value iterator).2.1 = [])
    ∨ (odbc.db.properties_with key value ≠ []
      ∧ ∃ o5, Advances odbc o5
        ∧ cpl_odbc_lookup_by_property odbc key value iterator
          = match iterator with
            | none => (CPL_OK, [], o5)
            | some it =>
              iterate it (cpl_odbc_lookup_by_property.calls key value
                ((odbc.db.properties_with key value).map (fun r => ⟨r.id, r.version⟩)))
                o5) := by
  generalize hR : cpl_odbc_lookup_by_property odbc key value iterator = R
  unfold cpl_odbc_lookup_by_property at hR
  dsimp only at hR
  have hl := Advances.lock odbc Mutex.lookup_by_property_lock
  rcases SQL_EXECUTE_EXT_cases Stmt.lookup_by_property_stmt
      [Param.varchar 255 key, Param.varchar 4095 value] 3
      (mutex_lock odbc Mutex.lookup_by_property_lock)
    with ⟨h1, _⟩ | ⟨db, rows2, hx2, h1, h2⟩
  · rcases hE : SQL_EXECUTE_EXT Stmt.lookup_by_property_stmt
      [Param.varchar 255 key, Param.varchar 4095 value] 3
      (mutex_lock odbc Mutex.lookup_by_property_lock) with ⟨a, k, o2⟩
    rw [hE] at hR h1
    dsimp only at h1
    subst h1
    dsimp only at hR
    subst hR
    exact Or.inl ⟨rfl, rfl⟩
  · rcases hE : SQL_EXECUTE_EXT Stmt.lookup_by_property_stmt
      [Param.varchar 255 key, Param.varchar 4095 value] 3
      (mutex_lock odbc Mutex.lookup_by_property_lock) with ⟨a, k, o2⟩
    rw [hE] at hR h1 h2
    dsimp only at h1 h2
    subst h1
    dsimp only at hR
    simp only [mutex_lock_db, mutex_lock_now, lookup_by_property_execute, Except.ok.injEq,
      Prod.mk.injEq] at hx2
    obtain ⟨hdb, hrows⟩ := hx2
    subst hdb hrows
    have hadv2 : Advances odbc o2 := hl.trans ⟨h2.1, h2.2.1, h2.2.2.1, h2.2.2.2⟩
    have hf := fetch_loop_spec cpl_odbc_lookup_by_property.keep
      ((odbc.db.properties_with key value).map
        (fun r => [Cell.int r.id.hi, Cell.int r.id.lo, Cell.int r.version])) [] o2 []
    rcases hF : fetch_loop cpl_odbc_lookup_by_property.keep
      ((odbc.db.properties_with key value).map
        (fun r => [Cell.int r.id.hi, Cell.int r.id.lo, Cell.int r.version])) [] o2 []
      with ⟨res, st3, o3⟩
    rw [hF] at hR hf
    dsimp only at hf
    rcases hf.2 with h3 | h3
    · subst h3
      dsimp only at hR
      subst hR
      exact Or.inl ⟨rfl, rfl⟩
    · subst h3
      rw [lookup_by_property_buffer, List.nil_append] at hR
      dsimp only at hR
      have hc := Advances.closeCursor o3 st3
      rcases hC : SQLCloseCursor o3 st3 with ⟨ret, st4, o4⟩
      rw [hC] at hR hc
      dsimp only at hR hc
      by_cases hs : SQL_SUCCEEDED ret = true
      · simp only [hs, Bool.not_true, Bool.false_eq_true, if_false] at hR
        have hadv5 : Advances odbc (mutex_unlock o4 Mutex.lookup_by_property_lock) :=
          ((hadv2.trans hf.1).trans hc).trans (Advances.unlock _ _)
        by_cases hb : odbc.db.properties_with key value = []
        · rw [hb] at hR
          simp only [List.map_nil, List.isEmpty_nil, if_true] at hR
          subst hR
          exact Or.inr (Or.inl ⟨hb, rfl, rfl⟩)
        · have hne : ((odbc.db.properties_with key value).map
              (fun r => (⟨r.id, r.version⟩ : lookup_by_property_entry))).isEmpty = false := by
            cases hbb : odbc.db.properties_with key value with
            | nil => exact absurd hbb hb
            | cons _ _ => rfl
          rw [hne] at hR
          simp only [Bool.false_eq_true, if_false] at hR
          exact Or.inr (Or.inr ⟨hb, _, hadv5, hR.symm⟩)
      · simp only [hs, Bool.not_false, if_true] at hR
        subst hR
        exact Or.inl ⟨rfl, rfl⟩

theorem sql_eq_some (c : Option String) (k : String) :
    sql_eq c (some k) = decide (c = some k) := by
  cases c with
  | none => simp [sql_eq]
  | some a =>
    simp only [sql_eq, Option.some.injEq]
    by_cases h : a = k <;> simp [h]

theorem properties_with_eq (db : Store) (k val : String) :
    db.properties_with (some k) (some val)
      = db.properties.filter (fun r => decide (r.name = some k) && decide (r.value = some val)) := by
  unfold Store.properties_with
  simp only [sql_eq_some]

theorem iterate_stops {α : Type} (it : α → cpl_odbc_t → cpl_return_t × cpl_odbc_t)
    (rows : List α) (o : cpl_odbc_t) : IteratorStops it rows o (iterate it rows o) := by
  induction rows generalizing o with
  | nil =>
    refine ⟨fun _ => ⟨rfl, rfl⟩, ?_⟩
    intro pre c post h
    exact absurd h (by simp)
  | cons x xs ih =>
    unfold iterate
    rcases hi : it x o with ⟨r, o1⟩
    dsimp only
    obtain ⟨ih1, ih2⟩ := ih o1
    constructor
    · intro hall
      have h0 := hall [] x xs rfl
      simp only [after_calls, hi] at h0
      rw [h0]
      simp only [Bool.not_true, Bool.false_eq_true, if_false]
      have := ih1 (fun pre c post h => by
        have h2 := hall (x :: pre) c post (by rw [h]; rfl)
        simpa only [after_calls, hi] using h2)
      exact ⟨this.1, by rw [this.2]⟩
    · intro pre c post h hpre hc
      cases pre with
      | nil =>
        simp only [List.nil_append, List.cons.injEq] at h
        obtain ⟨hx, _⟩ := h
        subst hx
        simp only [after_calls, hi] at hc ⊢
        rw [hc]
        simp
      | cons p pre2 =>
        simp only [List.cons_append, List.cons.injEq] at h
        obtain ⟨hx, hxs⟩ := h
        subst hx
        have h0 := hpre [] x pre2 rfl
        simp only [after_calls, hi] at h0
        rw [h0]
        simp only [Bool.not_true, Bool.false_eq_true, if_false]
        have := ih2 pre2 c post hxs (fun p2 c2 q2 h2 => by
          have h3 := hpre (x :: p2) c2 q2 (by rw [h2]; rfl)
          simpa only [after_calls, hi] using h3)
          (by simpa only [after_calls, hi] using hc)
        simp only [after_calls, hi]
        exact ⟨this.1, by rw [this.2]; rfl⟩

theorem for_each_stops {α β : Type}
    (body : α → cpl_odbc_t → cpl_return_t × Option β × cpl_odbc_t)
    (rows : List α) (o : cpl_odbc_t) : LoopStops body rows o (for_each body rows o) := by
  induction rows generalizing o with
  | nil =>
    refine ⟨fun _ => ⟨rfl, rfl⟩, ?_⟩
    intro pre c post h
    exact absurd h (by simp)
  | cons x xs ih =>
    unfold for_each
    rcases hi : body x o with ⟨r, call, o1⟩
    dsimp only
    obtain ⟨ih1, ih2⟩ := ih o1
    constructor
    · intro hall
      have h0 := hall [] x xs rfl
      simp only [after_each, hi] at h0
      rw [h0]
      simp only [Bool.not_true, Bool.false_eq_true, if_false]
      have := ih1 (fun pre c post h => by
        have h2 := hall (x :: pre) c post (by rw [h]; rfl)
        simpa only [after_each, hi] using h2)
      exact ⟨this.1, by simp only [calls_of_each, hi]; rw [this.2]⟩
    · intro pre c post h hpre hc
      cases pre with
      | nil =>
        simp only [List.nil_append, List.cons.injEq] at h
        obtain ⟨hx, _⟩ := h
        subst hx
        simp only [after_each, hi] at hc ⊢
        rw [hc]
        simp [calls_of_each]
      | cons p pre2 =>
        simp only [List.cons_append, List.cons.injEq] at h
        obtain ⟨hx, hxs⟩ := h
        subst hx
        have h0 := hpre [] x pre2 rfl
        simp only [after_each, hi] at h0
        rw [h0]
        simp only [Bool.not_true, Bool.false_eq_true, if_false]
        have := ih2 pre2 c post hxs (fun p2 c2 q2 h2 => by
          have h3 := hpre (x :: p2) c2 q2 (by rw [h2]; rfl)
          simpa only [after_each, hi] using h3)
          (by simpa only [after_each, hi] using hc)
        simp only [after_each, calls_of_each, hi]
        exact ⟨this.1, by rw [this.2, List.append_assoc]⟩

theorem lookup_object_ext_fold (odbc : cpl_odbc_t) (rs : List ObjectRow)
    (entries : List cpl_id_timestamp_t) :
    (rs.map (fun r => [Cell.int r.id.hi, Cell.int r.id.lo, Cell.ts r.creation_time])).foldl
      (fun a row => cpl_odbc_lookup_object_ext.keep odbc row a) entries
      = entries ++ rs.map
          (fun r => ⟨r.id, cpl_sql_timestamp_to_unix_time odbc r.creation_time⟩) := by
  induction rs generalizing entries with
  | nil => simp
  | cons r rs ih =>
    rw [List.map_cons, List.foldl_cons, ih]
    simp [cpl_odbc_lookup_object_ext.keep, Cell.as_llong, Cell.as_timestamp]

/-- What `lookup_object_ext` does: a statement error; not found when no object has the
three fields; otherwise the iteration over the buffered rows. -/
theorem lookup_object_ext_spec (odbc : cpl_odbc_t) (originator name type : Option String)
    (flags : Int) (iterator : Option cpl_id_timestamp_iterator_t) :
    ((cpl_odbc_lookup_object_ext odbc originator name type flags iterator).1
        = CPL_E_STATEMENT_ERROR
      ∧ (cpl_odbc_lookup_object_ext odbc originator name type flags iterator).2.1 = [])
    ∨ (lookup_object_ext_buffer odbc originator name type = []
      ∧ (cpl_odbc_lookup_object_ext odbc originator name type flags iterator).1
        = CPL_E_NOT_FOUND
      ∧ (cpl_odbc_lookup_object_ext odbc originator name type flags iterator).2.1 = [])
    ∨ (lookup_object_ext_buffer odbc originator name type ≠ []
      ∧ ∃ o5, Advances odbc o5
        ∧ cpl_odbc_lookup_object_ext odbc originator name type flags iterator
          = match iterator with
            | none => (CPL_OK, [], o5)
            | some it => iterate it (lookup_object_ext_buffer odbc originator name type) o5) := by
  generalize hR : cpl_odbc_lookup_object_ext odbc originator name type flags iterator = R
  unfold cpl_odbc_lookup_object_ext at hR
  dsimp only at hR
  have hl := Advances.lock odbc Mutex.lookup_object_ext_lock
  rcases SQL_EXECUTE_EXT_cases Stmt.lookup_object_ext_stmt
      [Param.varchar 255 originator, Param.varchar 255 name, Param.varchar 100 type] 3
      (mutex_lock odbc Mutex.lookup_object_ext_lock)
    with ⟨h1, _⟩ | ⟨db, rows2, hx2, h1, h2⟩
  · rcases hE : SQL_EXECUTE_EXT Stmt.lookup_object_ext_stmt
      [Param.varchar 255 originator, Param.varchar 255 name, Param.varchar 100 type] 3
      (mutex_lock odbc Mutex.lookup_object_ext_lock) with ⟨a, k, o2⟩
    rw [hE] at hR h1
    dsimp only at h1
    subst h1
    dsimp only at hR
    subst hR
    exact Or.inl ⟨rfl, rfl⟩
  · rcases hE : SQL_EXECUTE_EXT Stmt.lookup_object_ext_stmt
      [Param.varchar 255 originator, Param.varchar 255 name, Param.varchar 100 type] 3
      (mutex_lock odbc Mutex.lookup_object_ext_lock) with ⟨a, k, o2⟩
    rw [hE] at hR h1 h2
    dsimp only at h1 h2
    subst h1
    dsimp only at hR
    simp only [mutex_lock_db, mutex_lock_now, Store.execute, sql_lookup_object_ext,
      Except.ok.injEq, Prod.mk.injEq] at hx2
    obtain ⟨hdb, hrows⟩ := hx2
    subst hdb hrows
    have hadv2 : Advances odbc o2 := hl.trans ⟨h2.1, h2.2.1, h2.2.2.1, h2.2.2.2⟩
    have hf := fetch_loop_spec (cpl_odbc_lookup_object_ext.keep odbc)
      ((odbc.db.objects_named originator name type).map
        (fun r => [Cell.int r.id.hi, Cell.int r.id.lo, Cell.ts r.creation_time])) [] o2 []
    rcases hF : fetch_loop (cpl_odbc_lookup_object_ext.keep odbc)
      ((odbc.db.objects_named originator name type).map
        (fun r => [Cell.int r.id.hi, Cell.int r.id.lo, Cell.ts r.creation_time])) [] o2 []
      with ⟨res, st3, o3⟩
    rw [hF] at hR hf
    dsimp only at hf
    rcases hf.2 with h3 | h3
    · subst h3
      dsimp only at hR
      subst hR
      exact Or.inl ⟨rfl, rfl⟩
    · subst h3
      rw [lookup_object_ext_fold, List.nil_append] at hR
      rw [show (odbc.db.objects_named originator name type).map
          (fun r => (⟨r.id, cpl_sql_timestamp_to_unix_time odbc r.creation_time⟩ :
            cpl_id_timestamp_t))
        = lookup_object_ext_buffer odbc originator name type from rfl] at hR
      dsimp only at hR
      have hc := Advances.closeCursor o3 st3
      rcases hC : SQLCloseCursor o3 st3 with ⟨ret, st4, o4⟩
      rw [hC] at hR hc
      dsimp only at hR hc
      by_cases hs : SQL_SUCCEEDED ret = true
      · simp only [hs, Bool.not_true, Bool.false_eq_true, if_false] at hR
        have hadv5 : Advances odbc (mutex_unlock o4 Mutex.lookup_object_ext_lock) :=
          ((hadv2.trans hf.1).trans hc).trans (Advances.unlock _ _)
        by_cases hb : lookup_object_ext_buffer odbc originator name type = []
        · rw [hb] at hR
          simp only [List.isEmpty_nil, if_true] at hR
          subst hR
          exact Or.inr (Or.inl ⟨hb, rfl, rfl⟩)
        · have hne : (lookup_object_ext_buffer odbc originator name type).isEmpty = false := by
            cases hbb : lookup_object_ext_buffer odbc originator name type with
            | nil => exact absurd hbb hb
            | cons _ _ => rfl
          rw [hne] at hR
          simp only [Bool.false_eq_true, if_false] at hR
          exact Or.inr (Or.inr ⟨hb, _, hadv5, hR.symm⟩)
      · simp only [hs, Bool.not_false, if_true] at hR
        subst hR
        exact Or.inl ⟨rfl, rfl⟩

theorem get_all_objects_execute (H : cpl_h) (db : Store) (now : Nat) (flags : Int) :
    db.execute now
      (if Int.land flags H.CPL_I_NO_CREATION_SESSION ≠ 0 then Stmt.get_all_objects_stmt
        else Stmt.get_all_objects_with_session_stmt) []
      = Except.ok (db, get_all_objects_rows H db flags) := by
  unfold get_all_objects_rows
  by_cases h : Int.land flags H.CPL_I_NO_CREATION_SESSION ≠ 0
  · simp only [h, if_true, Store.execute, sql_get_all_objects, ne_eq, not_false_eq_true]
  · simp only [h, if_false, Store.execute, sql_get_all_objects_with_session]

/-- What `get_all_objects` does: a statement error; no data for an empty buffer; otherwise
the loop over the buffered rows. -/
theorem get_all_objects_spec (H : cpl_h) (odbc : cpl_odbc_t) (flags : Int)
    (iterator : Option cpl_object_info_iterator_t) (entry : cplxx_object_info_t) :
    ((cpl_odbc_get_all_objects H odbc flags iterator entry).1 = CPL_E_STATEMENT_ERROR
      ∧ (cpl_odbc_get_all_objects H odbc flags iterator entry).2.1 = [])
    ∨ (get_all_objects_buffer H odbc flags entry = []
      ∧ (cpl_odbc_get_all_objects H odbc flags iterator entry).1 = CPL_S_NO_DATA
      ∧ (cpl_odbc_get_all_objects H odbc flags iterator entry).2.1 = [])
    ∨ (get_all_objects_buffer H odbc flags entry ≠ []
      ∧ ∃ o5, Advances odbc o5
        ∧ cpl_odbc_get_all_objects H odbc flags iterator entry
          = match iterator with
            | none => (CPL_OK, [], o5)
            | some it =>
              for_each (cpl_odbc_get_all_objects.call H flags it)
                (get_all_objects_buffer H odbc flags entry) o5) := by
  generalize hR : cpl_odbc_get_all_objects H odbc flags iterator entry = R
  unfold cpl_odbc_get_all_objects at hR
  dsimp only at hR
  have hl := Advances.lock odbc Mutex.get_all_objects_lock
  have hx0 := get_all_objects_execute H odbc.db odbc.now flags
  generalize hs0 : (if Int.land flags H.CPL_I_NO_CREATION_SESSION ≠ 0
    then Stmt.get_all_objects_stmt else Stmt.get_all_objects_with_session_stmt) = s
    at hR hx0
  rcases SQL_EXECUTE_EXT_cases s [] 3 (mutex_lock odbc Mutex.get_all_objects_lock)
    with ⟨h1, _⟩ | ⟨db, rows2, hx2, h1, h2⟩
  · rcases hE : SQL_EXECUTE_EXT s [] 3 (mutex_lock odbc Mutex.get_all_objects_lock)
      with ⟨a, k, o2⟩
    rw [hE] at hR h1
    dsimp only at h1
    subst h1
    dsimp only at hR
    subst hR
    exact Or.inl ⟨rfl, rfl⟩
  · rcases hE : SQL_EXECUTE_EXT s [] 3 (mutex_lock odbc Mutex.get_all_objects_lock)
      with ⟨a, k, o2⟩
    rw [hE] at hR h1 h2
    dsimp only at h1 h2
    subst h1
    dsimp only at hR
    rw [mutex_lock_db, mutex_lock_now, hx0] at hx2
    simp only [Except.ok.injEq, Prod.mk.injEq] at hx2
    obtain ⟨hdb, hrows⟩ := hx2
    subst hdb hrows
    have hadv2 : Advances odbc o2 := hl.trans ⟨h2.1, h2.2.1, h2.2.2.1, h2.2.2.2⟩
    have hf := fetch_loop_spec (cpl_odbc_get_all_objects.keep H odbc flags)
      (get_all_objects_rows H odbc.db flags) [] o2
      ({ entry with
          creation_session :=
            if Int.land flags H.CPL_I_NO_CREATION_SESSION = 0 then entry.creation_session
            else CPL_NONE
          version := CPL_VERSION_NONE }, [])
    rcases hF : fetch_loop (cpl_odbc_get_all_objects.keep H odbc flags)
      (get_all_objects_rows H odbc.db flags) [] o2
      ({ entry with
          creation_session :=
            if Int.land flags H.CPL_I_NO_CREATION_SESSION = 0 then entry.creation_session
            else CPL_NONE
          version := CPL_VERSION_NONE }, [])
      with ⟨res, st3, o3⟩
    rw [hF] at hR hf
    dsimp only at hf
    rcases hf.2 with h3 | h3
    · subst h3
      dsimp only at hR
      subst hR
      exact Or.inl ⟨rfl, rfl⟩
    · subst h3
      dsimp only at hR
      rw [show ((get_all_objects_rows H odbc.db flags).foldl
          (fun a row => cpl_odbc_get_all_objects.keep H odbc flags row a)
          ({ entry with
              creation_session :=
                if Int.land flags H.CPL_I_NO_CREATION_SESSION = 0 then entry.creation_session
                else CPL_NONE
              version := CPL_VERSION_NONE }, [])).2
        = get_all_objects_buffer H odbc flags entry from rfl] at hR
      have hc := Advances.closeCursor o3 st3
      rcases hC : SQLCloseCursor o3 st3 with ⟨ret, st4, o4⟩
      rw [hC] at hR hc
      dsimp only at hR hc
      by_cases hs : SQL_SUCCEEDED ret = true
      · simp only [hs, Bool.not_true, Bool.false_eq_true, if_false] at hR
        have hadv5 : Advances odbc (mutex_unlock o4 Mutex.get_all_objects_lock) :=
          ((hadv2.trans hf.1).trans hc).trans (Advances.unlock _ _)
        by_cases hb : get_all_objects_buffer H odbc flags entry = []
        · rw [hb] at hR
          simp only [List.isEmpty_nil, if_true] at hR
          subst hR
          exact Or.inr (Or.inl ⟨hb, rfl, rfl⟩)
        · have hne : (get_all_objects_buffer H odbc flags entry).isEmpty = false := by
            cases hbb : get_all_objects_buffer H odbc flags entry with
            | nil => exact absurd hbb hb
            | cons _ _ => rfl
          rw [hne] at hR
          simp only [Bool.false_eq_true, if_false] at hR
          exact Or.inr (Or.inr ⟨hb, _, hadv5, hR.symm⟩)
      · simp only [hs, Bool.not_false, if_true] at hR
        subst hR
        exact Or.inl ⟨rfl, rfl⟩

/-- C13, as stated, fails for `get_all_objects`: on the store that holds the object (0,1)
without a version, with `CPL_I_NO_CREATION_SESSION` as only flag and an iterator that
returns OK on every row, one row is buffered, the iterator is never called, and the
operation returns not found. -/
theorem C13_counterexample :
    get_all_objects_buffer sample_header orphan_object 1 sample_entry ≠ []
    ∧ (∀ e o, (accept_all_objects e o).1 = CPL_OK)
    ∧ (cpl_odbc_get_all_objects sample_header orphan_object 1 (some accept_all_objects)
        sample_entry).1 = CPL_E_NOT_FOUND
    ∧ (cpl_odbc_get_all_objects sample_header orphan_object 1 (some accept_all_objects)
        sample_entry).2.1 = [] :=
  ⟨by decide!, fun _ _ => rfl, by decide!, by decide!⟩

/-- C14: for every data source name that contains a semicolon, an opening brace or a
closing brace, `cpl_create_odbc_backend_dsn` returns InvalidArgument, sets the output
handle to null and passes no connection string to the driver; for every other name it
returns what `cpl_create_odbc_backend` returns for the connection string `DSN=<dsn>;` (with
the output handle set to null beforehand). -/
theorem C14_dsn_rejected_or_delegated (dm : driver_manager) (dsn : String) (db_type : Int)
    (out : Option cpl_db_backend_t) :
    ((';' ∈ dsn.data ∨ Char.ofNat 123 ∈ dsn.data ∨ Char.ofNat 125 ∈ dsn.data) →
      cpl_create_odbc_backend_dsn dm dsn db_type out = (CPL_E_INVALID_ARGUMENT, none, []))
    ∧ (¬ (';' ∈ dsn.data ∨ Char.ofNat 123 ∈ dsn.data ∨ Char.ofNat 125 ∈ dsn.data) →
      cpl_create_odbc_backend_dsn dm dsn db_type out
        = cpl_create_odbc_backend dm ("DSN=" ++ dsn ++ ";") db_type none) := by
  have hc : ∀ c : Char, dsn.data.contains c = true ↔ c ∈ dsn.data := fun c => by simp
  unfold cpl_create_odbc_backend_dsn
  simp only [hc]
  exact ⟨fun h => if_pos h, fun h => if_neg h⟩

/-- C14 at concrete inputs: the name `a;b` is rejected without a connection attempt, and
the name `cpl` leads to one connection attempt with the string `DSN=cpl;`. -/
theorem C14_witness :
    cpl_create_odbc_backend_dsn sample_driver_manager "a;b" 0 none
      = (CPL_E_INVALID_ARGUMENT, none, [])
    ∧ (cpl_create_odbc_backend_dsn sample_driver_manager "cpl" 0 none).1 = CPL_OK
    ∧ (cpl_create_odbc_backend_dsn sample_driver_manager "cpl" 0 none).2.2 = ["DSN=cpl;"] :=
  ⟨(C14_dsn_rejected_or_delegated sample_driver_manager "a;b" 0 none).1 (by decide),
    by decide, by decide⟩

/-- C15: `should_reconnect_due_to_odbc_error` is true if and only if the diagnostic chain
has exactly one record and the SQLSTATE of that record is 08S01; it is false for the empty
chain, for a chain of two or more records whatever their states, and for a single record
with any other state. -/
theorem C15_should_reconnect_iff (errors : List cpl_odbc_error_record_t) :
    (should_reconnect_due_to_odbc_error errors = true
      ↔ ∃ r, errors = [r] ∧ r.state = "08S01")
    ∧ should_reconnect_due_to_odbc_error [] = false
    ∧ (2 ≤ errors.length → should_reconnect_due_to_odbc_error errors = false)
    ∧ (∀ r, r.state ≠ "08S01" → should_reconnect_due_to_odbc_error [r] = false) := by
  refine ⟨?_, rfl, ?_, ?_⟩
  · cases errors with
    | nil => simp [should_reconnect_due_to_odbc_error]
    | cons r rest =>
      cases rest with
      | nil => simp [should_reconnect_due_to_odbc_error]
      | cons r2 rest2 => simp [should_reconnect_due_to_odbc_error]
  · intro h
    cases errors with
    | nil => rfl
    | cons r rest =>
      cases rest with
      | nil => simp at h
      | cons r2 rest2 => simp [should_reconnect_due_to_odbc_error]
  · intro r h
    simp [should_reconnect_due_to_odbc_error, h]

/-- C18 fails on the code for a session without a MAC address: `create_session` with a null
`mac_address` succeeds and stores the session, and `get_session_info` of that session
returns not found; with a MAC address it returns Ok and the record holds the arguments. -/
theorem C18_get_session_info_null_mac :
    (cpl_odbc_create_session (connected Store.empty 0) ⟨0, 1⟩ none "u" 7 "p" "c").1 = CPL_OK
    ∧ (∃ r ∈ (one_session none).db.sessions, r.id = ⟨0, 1⟩)
    ∧ (cpl_odbc_get_session_info (one_session none) ⟨0, 1⟩).1 = CPL_E_NOT_FOUND
    ∧ (cpl_odbc_get_session_info (one_session (some "00:11")) ⟨0, 1⟩).1 = CPL_OK
    ∧ (cpl_odbc_get_session_info (one_session (some "00:11")) ⟨0, 1⟩).2.1
        = some ⟨⟨0, 1⟩, some "00:11", some "u", 7, some "p", some "c", 0⟩ := by
  decide

/-- C19, as stated, fails for a cell that holds the empty string: a row is available and
the cell is not NULL, yet the string primitive returns not found, or the null outcome when
null handling is requested. -/
theorem C19_counterexample :
    (cpl_sql_fetch_single_dynamically_allocated_string (connected Store.empty 0)
      ⟨[[Cell.str ""]], [], true⟩ 1 true true false 4095).1 = CPL_E_NOT_FOUND
    ∧ (cpl_sql_fetch_single_dynamically_allocated_string (connected Store.empty 0)
      ⟨[[Cell.str ""]], [], true⟩ 1 true true true 4095).1 = CPL_E_DB_NULL := by
  decide

theorem indicator_nonpos_iff (c : Cell) :
    c.indicator ≤ 0 ↔ c = Cell.null ∨ c = Cell.str "" := by
  cases c with
  | null => simp [Cell.indicator]
  | int v => simp [Cell.indicator]
  | ts t => simp [Cell.indicator]
  | str s =>
    simp only [Cell.indicator, reduceCtorEq, Cell.str.injEq, false_or]
    constructor
    · intro h
      have hl : s.data.length = 0 := by
        have : s.length = s.data.length := rfl
        omega
      exact String.ext (List.eq_nil_of_length_eq_zero hl)
    · intro h
      subst h
      decide

/-- C19 (amended): each of the three fetch primitives, unless a driver call fails
(statement error), has three outcomes: not found when a fetch is requested and no row is
left; for a cell without data, that is a NULL cell or a string of length zero, the null
outcome if null handling is requested and not found otherwise; and OK with the converted
cell for any other cell. -/
theorem C19_fetch_outcomes (odbc : cpl_odbc_t) (stmt : SQLHSTMT) (col : Nat)
    (fetch close hn : Bool) (ml : Nat) :
    ((cpl_sql_fetch_single_llong odbc stmt col fetch close hn).1 = CPL_E_STATEMENT_ERROR
      ∨ Fetched Cell.as_llong stmt col fetch close hn
          (cpl_sql_fetch_single_llong odbc stmt col fetch close hn))
    ∧ ((cpl_sql_fetch_single_timestamp_as_unix_time odbc stmt col fetch close hn).1
        = CPL_E_STATEMENT_ERROR
      ∨ Fetched (fun c => cpl_sql_timestamp_to_unix_time odbc (c.truncate 16).as_timestamp)
          stmt col fetch close hn
          (cpl_sql_fetch_single_timestamp_as_unix_time odbc stmt col fetch close hn))
    ∧ ((cpl_sql_fetch_single_dynamically_allocated_string odbc stmt col fetch close hn ml).1
        = CPL_E_STATEMENT_ERROR
      ∨ Fetched (fun c => some (c.truncate (ml + 1)).as_string) stmt col fetch close hn
          (cpl_sql_fetch_single_dynamically_allocated_string odbc stmt col fetch close hn ml))
    ∧ (∀ c : Cell, c.indicator ≤ 0 ↔ c = Cell.null ∨ c = Cell.str "") :=
  ⟨(fetch_single_llong_spec odbc stmt col fetch close hn).2,
    (fetch_single_timestamp_spec odbc stmt col fetch close hn).2,
    (fetch_single_string_spec odbc stmt col fetch close hn ml).2,
    indicator_nonpos_iff⟩

theorem driver_next_of_nil (o : cpl_odbc_t) (h : o.script = []) : driver_next o = (none, o) := by
  unfold driver_next
  rw [h]

theorem driver_next_script_nil (o : cpl_odbc_t) (h : o.script = []) :
    (driver_next o).2.script = [] := by
  rw [driver_next_of_nil o h]
  exact h

theorem closeCursor_script_nil (o : cpl_odbc_t) (st : SQLHSTMT) (h : o.script = []) :
    (SQLCloseCursor o st).2.2.script = [] ∧ (SQLCloseCursor o st).2.1.cursor_open = false := by
  unfold SQLCloseCursor
  rw [driver_next_of_nil o h]
  exact ⟨h, rfl⟩

/-- C20, as stated, fails for the null outcome: on a row whose cell is NULL, with
`handle_nulls`, the number primitive returns `CPL_E_DB_NULL` and the cursor is still
open. -/
theorem C20_counterexample :
    (cpl_sql_fetch_single_llong (connected Store.empty 0) ⟨[[Cell.null]], [], true⟩ 1 true
      true true).1 = CPL_E_DB_NULL
    ∧ (cpl_sql_fetch_single_llong (connected Store.empty 0) ⟨[[Cell.null]], [], true⟩ 1 true
      true true).2.2.1.cursor_open = true := by
  decide

/-! ## Reconnect and retry -/

theorem driver_next_with_trace (o : cpl_odbc_t) (t : List Event) :
    driver_next (o.with_trace t) = ((driver_next o).1, (driver_next o).2.with_trace t) := by
  rcases o with ⟨db, now, script, trace, mk, lt⟩
  cases script <;> rfl

theorem SQLFetch_with_trace (o : cpl_odbc_t) (t : List Event) (st : SQLHSTMT) :
    SQLFetch (o.with_trace t) st
      = ((SQLFetch o st).1, (SQLFetch o st).2.1, (SQLFetch o st).2.2.with_trace t) := by
  unfold SQLFetch
  rw [driver_next_with_trace]
  rcases driver_next o with ⟨f, o1⟩
  cases f with
  | some d => rfl
  | none =>
    dsimp only
    cases st.pending <;> rfl

theorem SQLGetData_with_trace (o : cpl_odbc_t) (t : List Event) (st : SQLHSTMT)
    (col bl : Nat) :
    SQLGetData (o.with_trace t) st col bl
      = ((SQLGetData o st col bl).1, (SQLGetData o st col bl).2.1,
          (SQLGetData o st col bl).2.2.1, (SQLGetData o st col bl).2.2.2.with_trace t) := by
  unfold SQLGetData
  rw [driver_next_with_trace]
  rcases driver_next o with ⟨f, o1⟩
  cases f with
  | some d => rfl
  | none =>
    dsimp only
    cases st.current.get? (col - 1) <;> rfl

theorem SQLCloseCursor_with_trace (o : cpl_odbc_t) (t : List Event) (st : SQLHSTMT) :
    SQLCloseCursor (o.with_trace t) st
      = ((SQLCloseCursor o st).1, (SQLCloseCursor o st).2.1,
          (SQLCloseCursor o st).2.2.with_trace t) := by
  unfold SQLCloseCursor
  rw [driver_next_with_trace]
  rcases driver_next o with ⟨f, o1⟩
  cases f <;> rfl

theorem fetch_err_with_trace (o : cpl_odbc_t) (t : List Event) (st : SQLHSTMT) :
    cpl_sql_fetch_single_value.err (o.with_trace t) st
      = ((cpl_sql_fetch_single_value.err o st).1, (cpl_sql_fetch_single_value.err o st).2.1,
          (cpl_sql_fetch_single_value.err o st).2.2.1,
          (cpl_sql_fetch_single_value.err o st).2.2.2.with_trace t) := by
  unfold cpl_sql_fetch_single_value.err
  rw [SQLCloseCursor_with_trace]

theorem fetch_err_nf_with_trace (o : cpl_odbc_t) (t : List Event) (st : SQLHSTMT) :
    cpl_sql_fetch_single_value.err_nf (o.with_trace t) st
      = ((cpl_sql_fetch_single_value.err_nf o st).1,
          (cpl_sql_fetch_single_value.err_nf o st).2.1,
          (cpl_sql_fetch_single_value.err_nf o st).2.2.1,
          (cpl_sql_fetch_single_value.err_nf o st).2.2.2.with_trace t) := by
  unfold cpl_sql_fetch_single_value.err_nf
  rw [SQLCloseCursor_with_trace]

theorem fetch_err_null_with_trace (o : cpl_odbc_t) (t : List Event) (st : SQLHSTMT)
    (hn : Bool) :
    cpl_sql_fetch_single_value.err_null (o.with_trace t) st hn
      = ((cpl_sql_fetch_single_value.err_null o st hn).1,
          (cpl_sql_fetch_single_value.err_null o st hn).2.1,
          (cpl_sql_fetch_single_value.err_null o st hn).2.2.1,
          (cpl_sql_fetch_single_value.err_null o st hn).2.2.2.with_trace t) := by
  unfold cpl_sql_fetch_single_value.err_null
  rw [SQLCloseCursor_with_trace]
  cases hn <;> rfl

theorem fetch_get_data_with_trace (o : cpl_odbc_t) (t : List Event) (st : SQLHSTMT)
    (bl col : Nat) (close hn : Bool) :
    cpl_sql_fetch_single_value.get_data (o.with_trace t) st bl col close hn
      = ((cpl_sql_fetch_single_value.get_data o st bl col close hn).1,
          (cpl_sql_fetch_single_value.get_data o st bl col close hn).2.1,
          (cpl_sql_fetch_single_value.get_data o st bl col close hn).2.2.1,
          (cpl_sql_fetch_single_value.get_data o st bl col close hn).2.2.2.with_trace t) := by
  unfold cpl_sql_fetch_single_value.get_data
  simp only [SQLGetData_with_trace, SQLCloseCursor_with_trace, fetch_err_with_trace,
    fetch_err_null_with_trace]
  repeat' split
  all_goals rfl

theorem fetch_single_value_with_trace (o : cpl_odbc_t) (t : List Event) (st : SQLHSTMT)
    (bl col : Nat) (fetch close hn : Bool) :
    cpl_sql_fetch_single_value (o.with_trace t) st bl col fetch close hn
      = ((cpl_sql_fetch_single_value o st bl col fetch close hn).1,
          (cpl_sql_fetch_single_value o st bl col fetch close hn).2.1,
          (cpl_sql_fetch_single_value o st bl col fetch close hn).2.2.1,
          (cpl_sql_fetch_single_value o st bl col fetch close hn).2.2.2.with_trace t) := by
  unfold cpl_sql_fetch_single_value
  simp only [SQLFetch_with_trace, fetch_err_with_trace, fetch_err_nf_with_trace,
    fetch_get_data_with_trace]
  repeat' split
  all_goals rfl

theorem with_trace_with_trace (o : cpl_odbc_t) (t u : List Event) :
    (o.with_trace t).with_trace u = o.with_trace u := rfl

theorem with_trace_trace (o : cpl_odbc_t) (t : List Event) : (o.with_trace t).trace = t := rfl

theorem with_trace_self (o : cpl_odbc_t) : o.with_trace o.trace = o := rfl

theorem with_trace_db (o : cpl_odbc_t) (t : List Event) : (o.with_trace t).db = o.db := rfl

theorem with_trace_script (o : cpl_odbc_t) (t : List Event) :
    (o.with_trace t).script = o.script := rfl

theorem log_with_trace (o : cpl_odbc_t) (t : List Event) (e : Event) :
    log (o.with_trace t) e = (log o e).with_trace (t ++ [e]) := rfl

theorem mutex_lock_with_trace (o : cpl_odbc_t) (t : List Event) (m : Mutex) :
    mutex_lock (o.with_trace t) m = (mutex_lock o m).with_trace (t ++ [Event.lock m]) := rfl

theorem mutex_unlock_with_trace (o : cpl_odbc_t) (t : List Event) (m : Mutex) :
    mutex_unlock (o.with_trace t) m
      = (mutex_unlock o m).with_trace (t ++ [Event.unlock m]) := rfl

theorem SQLExecute_with_trace (o : cpl_odbc_t) (t : List Event) (s : Stmt) (ps : List Param) :
    SQLExecute (o.with_trace t) s ps
      = ((SQLExecute o s ps).1, (SQLExecute o s ps).2.with_trace (t ++ [Event.execute s])) := by
  unfold SQLExecute
  rw [log_with_trace, driver_next_with_trace]
  rcases driver_next (log o (Event.execute s)) with ⟨f, o1⟩
  cases f with
  | some d => rfl
  | none =>
    dsimp only
    have : (o1.with_trace (t ++ [Event.execute s])).db = o1.db := rfl
    have hn : (o1.with_trace (t ++ [Event.execute s])).now = o1.now := rfl
    rw [this, hn]
    cases o1.db.execute o1.now s ps with
    | error d => rfl
    | ok v => rfl

theorem reconnect_with_trace (o : cpl_odbc_t) (t : List Event) :
    cpl_odbc_reconnect (o.with_trace t)
      = ((cpl_odbc_reconnect o).1,
          (cpl_odbc_reconnect o).2.with_trace (t ++ [Event.reconnect])) := by
  unfold cpl_odbc_reconnect
  rw [log_with_trace, driver_next_with_trace]
  rcases driver_next (log o Event.reconnect) with ⟨f, o1⟩
  cases f <;> rfl

theorem reconnects_append (t u : List Event) :
    reconnects (t ++ u) = reconnects t + reconnects u := by
  unfold reconnects; exact List.count_append _ _ _

theorem reconnects_lock (m : Mutex) : reconnects [Event.lock m] = 0 := by
  unfold reconnects; simp

theorem reconnects_unlock (m : Mutex) : reconnects [Event.unlock m] = 0 := by
  unfold reconnects; simp

theorem reconnects_execute (s : Stmt) : reconnects [Event.execute s] = 0 := by
  unfold reconnects; simp

theorem reconnects_reconnect : reconnects [Event.reconnect] = 1 := by
  unfold reconnects; simp

theorem reconnects_nil : reconnects [] = 0 := rfl

theorem reconnects_retry_events (s : Stmt) (n : Nat) : reconnects (retry_events s n) = n := by
  induction n with
  | zero => rfl
  | succ n ih =>
    have : retry_events s (n + 1)
        = [Event.execute s] ++ ([Event.reconnect] ++ retry_events s n) := rfl
    rw [this, reconnects_append, reconnects_append, reconnects_execute,
      reconnects_reconnect, ih]
    omega

theorem should_reconnect_link_failure :
    should_reconnect_due_to_odbc_error (fetch_odbc_error link_failure) = true := by decide

/-- The database itself never reports a transient link failure. -/
theorem execute_error_not_transient (db : Store) (now : Nat) (s : Stmt) (ps : List Param)
    (d : List cpl_odbc_error_record_t) (h : db.execute now s ps = Except.error d) :
    should_reconnect_due_to_odbc_error d = false := by
  have key : d = diag "22001" ∨ d = diag "23000" ∨ d = diag "07002" := by
    unfold Store.execute at h
    cases s <;> dsimp only at h <;>
      simp only [sql_create_session_insert, sql_create_object_insert,
        sql_create_object_insert_container, sql_create_object_insert_version,
        sql_create_version, sql_lookup_object, sql_lookup_object_ext, sql_get_version,
        sql_add_ancestry_edge, sql_has_immediate_ancestor,
        sql_has_immediate_ancestor_with_ver, sql_add_property, sql_get_all_objects,
        sql_get_all_objects_with_session, sql_get_object_info, sql_get_session_info,
        sql_get_version_info, sql_get_object_ancestors, sql_get_object_ancestors_with_ver,
        sql_get_object_descendants, sql_get_object_descendants_with_ver,
        sql_get_properties, sql_get_properties_with_ver, sql_get_properties_with_key,
        sql_get_properties_with_key_ver, sql_lookup_by_property, sql_insert_object,
        sql_insert_version] at h <;>
      repeat' split at h
    all_goals first
      | (injection h with h; subst h; simp)
      | cases h
  rcases key with h | h | h <;> subst h <;> decide

theorem SQLExecute_trace (o : cpl_odbc_t) (s : Stmt) (ps : List Param) :
    (SQLExecute o s ps).2.trace = o.trace ++ [Event.execute s] := by
  have h := SQLExecute_with_trace o o.trace s ps
  rw [with_trace_self] at h
  exact congrArg (fun R => R.2.trace) h

theorem reconnect_trace (o : cpl_odbc_t) :
    (cpl_odbc_reconnect o).2.trace = o.trace ++ [Event.reconnect] := by
  have h := reconnect_with_trace o o.trace
  rw [with_trace_self] at h
  exact congrArg (fun R => R.2.trace) h

/-- The retrying execute does not look at the event log: with another log it gives the
same handle, the same remaining budget and the same backend, and appends the same events;
the reconnects among them are the retries it used up. -/
theorem SQL_EXECUTE_EXT_oblivious (s : Stmt) (ps : List Param) (k : Nat) (o : cpl_odbc_t) :
    ∃ ev, reconnects ev + (SQL_EXECUTE_EXT s ps k o).2.1 = k ∧
      ∀ t, SQL_EXECUTE_EXT s ps k (o.with_trace t)
        = ((SQL_EXECUTE_EXT s ps k o).1, (SQL_EXECUTE_EXT s ps k o).2.1,
            (SQL_EXECUTE_EXT s ps k o).2.2.with_trace (t ++ ev)) := by
  induction k generalizing o with
  | zero =>
    unfold SQL_EXECUTE_EXT
    simp only [SQLExecute_with_trace]
    rcases SQLExecute o s ps with ⟨res, o1⟩
    cases res with
    | ok st => exact ⟨[Event.execute s], by simp [reconnects_execute], fun t => rfl⟩
    | error d =>
      dsimp only
      split
      · exact ⟨[Event.execute s], by simp [reconnects_execute], fun t => rfl⟩
      · exact ⟨[Event.execute s], by simp [reconnects_execute], fun t => rfl⟩
  | succ k ih =>
    unfold SQL_EXECUTE_EXT
    simp only [SQLExecute_with_trace]
    rcases SQLExecute o s ps with ⟨res, o1⟩
    cases res with
    | ok st => exact ⟨[Event.execute s], by simp [reconnects_execute], fun t => rfl⟩
    | error d =>
      dsimp only
      split
      · simp only [reconnect_with_trace]
        rcases cpl_odbc_reconnect o1 with ⟨r, o2⟩
        dsimp only
        split
        · obtain ⟨ev, hc, hev⟩ := ih o2
          refine ⟨[Event.execute s] ++ ([Event.reconnect] ++ ev), ?_, fun t => ?_⟩
          · rw [reconnects_append, reconnects_append, reconnects_execute,
              reconnects_reconnect]
            omega
          · rw [hev]; simp only [List.append_assoc]
        · refine ⟨[Event.execute s] ++ [Event.reconnect], ?_, fun t => ?_⟩
          · rw [reconnects_append, reconnects_execute, reconnects_reconnect]
            show 0 + 1 + k = k + 1
            omega
          · simp only [List.append_assoc]
      · exact ⟨[Event.execute s], by simp [reconnects_execute], fun t => rfl⟩

theorem trace_since_append (o : cpl_odbc_t) (S : cpl_odbc_t) (ev : List Event) :
    trace_since o (S.with_trace (o.trace ++ ev)) = ev := by
  unfold trace_since
  rw [with_trace_trace, List.drop_left]

/-- The retrying execute with another event log, in terms of what it appended. -/
theorem SQL_EXECUTE_EXT_with_trace (s : Stmt) (ps : List Param) (k : Nat) (o : cpl_odbc_t)
    (t : List Event) :
    SQL_EXECUTE_EXT s ps k (o.with_trace t)
      = ((SQL_EXECUTE_EXT s ps k o).1, (SQL_EXECUTE_EXT s ps k o).2.1,
          (SQL_EXECUTE_EXT s ps k o).2.2.with_trace
            (t ++ trace_since o (SQL_EXECUTE_EXT s ps k o).2.2)) := by
  obtain ⟨ev, _, hev⟩ := SQL_EXECUTE_EXT_oblivious s ps k o
  have h0 := hev o.trace
  rw [with_trace_self] at h0
  have h1 : trace_since o (SQL_EXECUTE_EXT s ps k o).2.2 = ev := by
    rw [h0]; exact trace_since_append o _ ev
  rw [h1]; exact hev t

theorem SQL_EXECUTE_EXT_trace (s : Stmt) (ps : List Param) (k : Nat) (o : cpl_odbc_t) :
    (SQL_EXECUTE_EXT s ps k o).2.2.trace
      = o.trace ++ trace_since o (SQL_EXECUTE_EXT s ps k o).2.2 := by
  have h := SQL_EXECUTE_EXT_with_trace s ps k o o.trace
  rw [with_trace_self] at h
  exact congrArg (fun R => R.2.2.trace) h

/-- The reconnects of one retrying execute are the retries it used up. -/
theorem SQL_EXECUTE_EXT_reconnects (s : Stmt) (ps : List Param) (k : Nat) (o : cpl_odbc_t) :
    reconnects (trace_since o (SQL_EXECUTE_EXT s ps k o).2.2)
      + (SQL_EXECUTE_EXT s ps k o).2.1 = k := by
  obtain ⟨ev, hc, hev⟩ := SQL_EXECUTE_EXT_oblivious s ps k o
  have h0 := hev o.trace
  rw [with_trace_self] at h0
  have h1 : trace_since o (SQL_EXECUTE_EXT s ps k o).2.2 = ev := by
    rw [h0]; exact trace_since_append o _ ev
  rw [h1]; exact hc

open cpl_return_t SQLRETURN

theorem fetch_single_llong_with_trace (o : cpl_odbc_t) (t : List Event) (st : SQLHSTMT)
    (col : Nat) (fetch close hn : Bool) :
    cpl_sql_fetch_single_llong (o.with_trace t) st col fetch close hn
      = ((cpl_sql_fetch_single_llong o st col fetch close hn).1,
          (cpl_sql_fetch_single_llong o st col fetch close hn).2.1,
          (cpl_sql_fetch_single_llong o st col fetch close hn).2.2.1,
          (cpl_sql_fetch_single_llong o st col fetch close hn).2.2.2.with_trace t) := by
  unfold cpl_sql_fetch_single_llong
  simp only [fetch_single_value_with_trace]
  split <;> rfl

theorem fetch_single_timestamp_with_trace (o : cpl_odbc_t) (t : List Event) (st : SQLHSTMT)
    (col : Nat) (fetch close hn : Bool) :
    cpl_sql_fetch_single_timestamp_as_unix_time (o.with_trace t) st col fetch close hn
      = ((cpl_sql_fetch_single_timestamp_as_unix_time o st col fetch close hn).1,
          (cpl_sql_fetch_single_timestamp_as_unix_time o st col fetch close hn).2.1,
          (cpl_sql_fetch_single_timestamp_as_unix_time o st col fetch close hn).2.2.1,
          (cpl_sql_fetch_single_timestamp_as_unix_time o st col fetch close hn).2.2.2.with_trace
            t) := by
  unfold cpl_sql_fetch_single_timestamp_as_unix_time
  simp only [fetch_single_value_with_trace]
  split <;> rfl

theorem fetch_single_string_with_trace (o : cpl_odbc_t) (t : List Event) (st : SQLHSTMT)
    (col : Nat) (fetch close hn : Bool) (max_length : Nat) :
    cpl_sql_fetch_single_dynamically_allocated_string (o.with_trace t) st col fetch close hn
        max_length
      = ((cpl_sql_fetch_single_dynamically_allocated_string o st col fetch close hn
            max_length).1,
          (cpl_sql_fetch_single_dynamically_allocated_string o st col fetch close hn
            max_length).2.1,
          (cpl_sql_fetch_single_dynamically_allocated_string o st col fetch close hn
            max_length).2.2.1,
          (cpl_sql_fetch_single_dynamically_allocated_string o st col fetch close hn
            max_length).2.2.2.with_trace t) := by
  unfold cpl_sql_fetch_single_dynamically_allocated_string
  simp only [fetch_single_value_with_trace]
  split <;> rfl

theorem fetch_loop_with_trace {β : Type} (body : List Cell → β → β)
    (pending : List (List Cell)) (current : List Cell) (o : cpl_odbc_t) (t : List Event)
    (acc : β) :
    fetch_loop body pending current (o.with_trace t) acc
      = ((fetch_loop body pending current o acc).1,
          (fetch_loop body pending current o acc).2.1,
          (fetch_loop body pending current o acc).2.2.with_trace t) := by
  induction pending generalizing current o acc with
  | nil =>
    unfold fetch_loop
    simp only [SQLFetch_with_trace]
    repeat' split
    all_goals rfl
  | cons row rest ih =>
    unfold fetch_loop
    simp only [SQLFetch_with_trace]
    repeat' split
    all_goals first | rfl | exact ih _ _ _

theorem ancestry_fetch_with_trace (H : cpl_h) (flags : Int)
    (pending : List (List Cell)) (current : List Cell) (o : cpl_odbc_t) (t : List Event)
    (found : Bool) (entries : List get_object_ancestry_entry) :
    cpl_odbc_get_object_ancestry.fetch H flags pending current (o.with_trace t) found entries
      = ((cpl_odbc_get_object_ancestry.fetch H flags pending current o found entries).1,
          (cpl_odbc_get_object_ancestry.fetch H flags pending current o found entries).2.1,
          (cpl_odbc_get_object_ancestry.fetch H flags pending current o found
            entries).2.2.with_trace t) := by
  induction pending generalizing current o found entries with
  | nil =>
    unfold cpl_odbc_get_object_ancestry.fetch
    simp only [SQLFetch_with_trace]
    repeat' split
    all_goals rfl
  | cons row rest ih =>
    unfold cpl_odbc_get_object_ancestry.fetch
    simp only [SQLFetch_with_trace]
    repeat' split
    all_goals first | rfl | exact ih _ _ _ _

theorem properties_fetch_with_trace
    (pending : List (List Cell)) (current : List Cell) (o : cpl_odbc_t) (t : List Event)
    (found : Bool) (entries : List get_properties_entry) :
    cpl_odbc_get_properties.fetch pending current (o.with_trace t) found entries
      = ((cpl_odbc_get_properties.fetch pending current o found entries).1,
          (cpl_odbc_get_properties.fetch pending current o found entries).2.1,
          (cpl_odbc_get_properties.fetch pending current o found entries).2.2.with_trace
            t) := by
  induction pending generalizing current o found entries with
  | nil =>
    unfold cpl_odbc_get_properties.fetch
    simp only [SQLFetch_with_trace]
    repeat' split
    all_goals rfl
  | cons row rest ih =>
    unfold cpl_odbc_get_properties.fetch
    simp only [SQLFetch_with_trace]
    repeat' split
    all_goals first | rfl | exact ih _ _ _ _

theorem iterate_with_trace {α : Type} (it : α → cpl_odbc_t → cpl_return_t × cpl_odbc_t)
    (hit : TraceBlind it) (calls : List α) (o : cpl_odbc_t) (t : List Event) :
    iterate it calls (o.with_trace t)
      = ((iterate it calls o).1, (iterate it calls o).2.1,
          (iterate it calls o).2.2.with_trace t) := by
  induction calls generalizing o with
  | nil => rfl
  | cons c cs ih =>
    unfold iterate
    simp only [hit c o t]
    split
    · rfl
    · rw [ih]

theorem SQLExecute_inject_cons (o : cpl_odbc_t) (d : List cpl_odbc_error_record_t)
    (ds : List (List cpl_odbc_error_record_t)) (s : Stmt) (ps : List Param) :
    SQLExecute (o.inject (d :: ds)) s ps
      = (Except.error d,
          { o with script := none :: (injected ds ++ o.script)
                   trace := o.trace ++ [Event.execute s] }) := rfl

theorem reconnect_after_inject (o : cpl_odbc_t) (ds : List (List cpl_odbc_error_record_t))
    (t : List Event) :
    cpl_odbc_reconnect { o with script := none :: (injected ds ++ o.script), trace := t }
      = (CPL_OK, (o.with_trace (t ++ [Event.reconnect])).inject ds) := rfl

/-- The retrying execute on injected link failures: each of them uses up one retry and
logs the failed execute and the reconnect; then the execute goes on as without them. -/
theorem SQL_EXECUTE_EXT_inject (s : Stmt) (ps : List Param)
    (ds : List (List cpl_odbc_error_record_t))
    (hds : ∀ d ∈ ds, should_reconnect_due_to_odbc_error (fetch_odbc_error d) = true)
    (k : Nat) (o : cpl_odbc_t) :
    SQL_EXECUTE_EXT s ps (k + ds.length) (o.inject ds)
      = SQL_EXECUTE_EXT s ps k (o.with_trace (o.trace ++ retry_events s ds.length)) := by
  induction ds generalizing o with
  | nil =>
    show SQL_EXECUTE_EXT s ps k (o.inject []) = SQL_EXECUTE_EXT s ps k (o.with_trace (o.trace ++ []))
    rw [List.append_nil]; rfl
  | cons d ds ih =>
    have hd := hds d (List.mem_cons_self _ _)
    have hds2 : ∀ e ∈ ds, should_reconnect_due_to_odbc_error (fetch_odbc_error e) = true :=
      fun e he => hds e (List.mem_cons_of_mem _ he)
    have hlen : k + (d :: ds).length = (k + ds.length) + 1 := by simp; omega
    rw [hlen]
    conv_lhs => unfold SQL_EXECUTE_EXT
    rw [SQLExecute_inject_cons]
    dsimp only
    rw [if_pos hd, reconnect_after_inject]
    have hok : CPL_IS_OK CPL_OK = true := rfl
    dsimp only
    rw [if_pos hok, ih hds2]
    have : retry_events s (d :: ds).length
        = [Event.execute s] ++ ([Event.reconnect] ++ retry_events s ds.length) := rfl
    rw [this]
    simp only [with_trace_with_trace, with_trace_trace, List.append_assoc]

theorem driver_next_mem (o : cpl_odbc_t) (d : List cpl_odbc_error_record_t)
    (h : (driver_next o).1 = some d) : some d ∈ o.script := by
  unfold driver_next at h
  split at h
  · cases h
  · rename_i x rest hx
    rw [hx]
    have : x = some d := h
    rw [this]
    exact List.mem_cons_self _ _

theorem driver_next_script (o : cpl_odbc_t) : (driver_next o).2.script = o.script.tail := by
  unfold driver_next
  split
  · rename_i hx; rw [hx]; rfl
  · rename_i x rest hx; rw [hx]; rfl

theorem SQLExecute_script (o : cpl_odbc_t) (s : Stmt) (ps : List Param) :
    (SQLExecute o s ps).2.script = o.script.tail := by
  have h := driver_next_script (log o (Event.execute s))
  rw [log_script] at h
  rcases SQLExecute_cases o s ps with ⟨d, _, hx⟩ | ⟨d, _, _, hx⟩ | ⟨db, rows, _, _, hx⟩
  · rw [hx]; exact h
  · rw [hx]; exact h
  · rw [hx]; exact h

theorem NoTransient.tail {script : List (Option (List cpl_odbc_error_record_t))}
    (h : NoTransient script) : NoTransient script.tail :=
  fun d hd => h d (List.mem_of_mem_tail hd)

/-- Without a transient link failure in the driver script, a failed execute does not call
for a reconnect. -/
theorem SQLExecute_error_not_transient (o : cpl_odbc_t) (s : Stmt) (ps : List Param)
    (hs : NoTransient o.script) (d : List cpl_odbc_error_record_t)
    (h : (SQLExecute o s ps).1 = Except.error d) :
    should_reconnect_due_to_odbc_error (fetch_odbc_error d) = false := by
  rcases SQLExecute_cases o s ps with ⟨e, he, hx⟩ | ⟨e, _, hdb, hx⟩ | ⟨db, rows, _, _, hx⟩
  · rw [hx] at h
    have : e = d := by injection h
    subst this
    have hm := driver_next_mem _ _ he
    rw [log_script] at hm
    exact hs e hm
  · rw [hx] at h
    have : e = d := by injection h
    subst this
    exact execute_error_not_transient _ _ _ _ _ hdb
  · rw [hx] at h
    cases h

/-- Without a transient link failure in sight the retrying execute is one `SQLExecute` and
its budget stays as it is. -/
theorem SQL_EXECUTE_EXT_once (s : Stmt) (ps : List Param) (k : Nat) (o : cpl_odbc_t)
    (hs : NoTransient o.script) :
    SQL_EXECUTE_EXT s ps k o
      = ((SQLExecute o s ps).1.toOption, k, (SQLExecute o s ps).2) := by
  have hnt := SQLExecute_error_not_transient o s ps hs
  cases k with
  | zero =>
    unfold SQL_EXECUTE_EXT
    rcases hE : SQLExecute o s ps with ⟨res, o1⟩
    rw [hE] at hnt
    cases res with
    | ok st => rfl
    | error d =>
      dsimp only
      rw [if_neg (by rw [hnt d rfl]; simp)]
      rfl
  | succ k =>
    unfold SQL_EXECUTE_EXT
    rcases hE : SQLExecute o s ps with ⟨res, o1⟩
    rw [hE] at hnt
    cases res with
    | ok st => rfl
    | error d =>
      dsimp only
      rw [if_neg (by rw [hnt d rfl]; simp)]
      rfl

theorem SQL_EXECUTE_EXT_budget_irrelevant (s : Stmt) (ps : List Param) (k : Nat)
    (o : cpl_odbc_t) (hs : NoTransient o.script) :
    SQL_EXECUTE_EXT s ps k o
      = ((SQL_EXECUTE_EXT s ps 3 o).1, k, (SQL_EXECUTE_EXT s ps 3 o).2.2) := by
  rw [SQL_EXECUTE_EXT_once s ps k o hs, SQL_EXECUTE_EXT_once s ps 3 o hs]

/-- The retrying execute of an operation on a backend with up to three injected link
failures, in terms of the same execute without them. -/
theorem SQL_EXECUTE_EXT_injected (s : Stmt) (ps : List Param)
    (ds : List (List cpl_odbc_error_record_t))
    (hds : ∀ d ∈ ds, should_reconnect_due_to_odbc_error (fetch_odbc_error d) = true)
    (hn : ds.length ≤ 3) (o : cpl_odbc_t) (hs : NoTransient o.script) :
    SQL_EXECUTE_EXT s ps 3 (o.inject ds)
      = ((SQL_EXECUTE_EXT s ps 3 o).1, 3 - ds.length,
          (SQL_EXECUTE_EXT s ps 3 o).2.2.with_trace
            (o.trace ++ retry_events s ds.length
              ++ trace_since o (SQL_EXECUTE_EXT s ps 3 o).2.2)) := by
  have h3 : 3 = (3 - ds.length) + ds.length := by omega
  conv_lhs => rw [h3]
  rw [SQL_EXECUTE_EXT_inject s ps ds hds, SQL_EXECUTE_EXT_with_trace,
    SQL_EXECUTE_EXT_budget_irrelevant s ps (3 - ds.length) o hs]

/-- The retrying execute gives up on a driver script on which `gives_up` holds. -/
theorem SQL_EXECUTE_EXT_gives_up (s : Stmt) (ps : List Param) (k : Nat) (o : cpl_odbc_t)
    (h : gives_up k o.script = true) : (SQL_EXECUTE_EXT s ps k o).1 = none := by
  induction k generalizing o with
  | zero =>
    rcases o with ⟨db, now, script, trace, mk, lt⟩
    match script, h with
    | some d :: rest, _ =>
      unfold SQL_EXECUTE_EXT
      have : SQLExecute ⟨db, now, some d :: rest, trace, mk, lt⟩ s ps
          = (Except.error d, ⟨db, now, rest, trace ++ [Event.execute s], mk, lt⟩) := rfl
      rw [this]
      dsimp only
      split <;> rfl
  | succ k ih =>
    rcases o with ⟨db, now, script, trace, mk, lt⟩
    match script, h with
    | some d :: rest, h =>
      unfold SQL_EXECUTE_EXT
      have hx : SQLExecute ⟨db, now, some d :: rest, trace, mk, lt⟩ s ps
          = (Except.error d, ⟨db, now, rest, trace ++ [Event.execute s], mk, lt⟩) := rfl
      rw [hx]
      dsimp only
      split
      · rename_i hd
        match rest, h with
        | some e :: rest2, _ => rfl
        | none :: rest2, h =>
          have hr : cpl_odbc_reconnect ⟨db, now, none :: rest2, trace ++ [Event.execute s],
              mk, lt⟩
              = (CPL_OK, ⟨db, now, rest2, trace ++ [Event.execute s] ++ [Event.reconnect],
                  mk, lt⟩) := rfl
          rw [hr]
          have hok : CPL_IS_OK CPL_OK = true := rfl
          dsimp only
          rw [if_pos hok]
          apply ih
          unfold gives_up at h
          rw [if_pos hd] at h
          exact h
        | [], h =>
          unfold gives_up at h
          rw [if_pos hd] at h
          cases h
      · rfl

open cpl_return_t SQLRETURN

theorem AfterExecute.own {α : Type} {op : cpl_odbc_t → cpl_return_t × α × cpl_odbc_t}
    {s : Stmt} {ps : List Param} {m : Mutex} {bound : α → Nat}
    (h : AfterExecute op s ps m bound) (o : cpl_odbc_t) (t : List Event) :
    ∃ (c : cpl_return_t) (out : α) (S : cpl_odbc_t) (ev : List Event),
      op (o.with_trace t) = (c, out, S.with_trace (t ++ (Event.lock m ::
        (trace_since (mutex_lock o m) (SQL_EXECUTE_EXT s ps 3 (mutex_lock o m)).2.2 ++ ev)))) ∧
      op o = (c, out, S.with_trace (o.trace ++ (Event.lock m ::
        (trace_since (mutex_lock o m) (SQL_EXECUTE_EXT s ps 3 (mutex_lock o m)).2.2 ++ ev)))) ∧
      reconnects ev ≤ bound out ∧
      ((SQL_EXECUTE_EXT s ps 3 (mutex_lock o m)).1 = none → c = CPL_E_STATEMENT_ERROR) := by
  have ha : SQL_EXECUTE_EXT s ps 3 (mutex_lock (o.with_driver o.script t) m)
      = ((SQL_EXECUTE_EXT s ps 3 (mutex_lock o m)).1,
          (SQL_EXECUTE_EXT s ps 3 (mutex_lock o m)).2.1,
          (SQL_EXECUTE_EXT s ps 3 (mutex_lock o m)).2.2.with_trace
            (t ++ [Event.lock m] ++ trace_since (mutex_lock o m)
              (SQL_EXECUTE_EXT s ps 3 (mutex_lock o m)).2.2)) := by
    have : mutex_lock (o.with_driver o.script t) m
        = (mutex_lock o m).with_trace (t ++ [Event.lock m]) := rfl
    rw [this, SQL_EXECUTE_EXT_with_trace]
  have hb : SQL_EXECUTE_EXT s ps 3 (mutex_lock o m)
      = ((SQL_EXECUTE_EXT s ps 3 (mutex_lock o m)).1,
          (SQL_EXECUTE_EXT s ps 3 (mutex_lock o m)).2.1,
          (SQL_EXECUTE_EXT s ps 3 (mutex_lock o m)).2.2.with_trace
            (o.trace ++ [Event.lock m] ++ trace_since (mutex_lock o m)
              (SQL_EXECUTE_EXT s ps 3 (mutex_lock o m)).2.2)) := by
    have ht := SQL_EXECUTE_EXT_trace s ps 3 (mutex_lock o m)
    have hl : (mutex_lock o m).trace = o.trace ++ [Event.lock m] := rfl
    rw [hl] at ht
    rw [← ht, with_trace_self]
  unfold AfterExecute at h
  obtain ⟨c, out, S, ev, h1, h2, h3, h4⟩ := h o o.script t _ _ _ _ _ _ ha hb
  refine ⟨c, out, S, ev, ?_, ?_, h3, h4⟩
  · have : o.with_trace t = o.with_driver o.script t := rfl
    rw [this, h1]; simp only [List.append_assoc, List.cons_append, List.nil_append]
  · rw [h2]; simp only [List.append_assoc, List.cons_append, List.nil_append]

theorem AfterExecute.oblivious {α : Type} {op : cpl_odbc_t → cpl_return_t × α × cpl_odbc_t}
    {s : Stmt} {ps : List Param} {m : Mutex} {bound : α → Nat}
    (h : AfterExecute op s ps m bound) : Oblivious op := by
  intro o t
  obtain ⟨c, out, S, ev, h1, h2, _, _⟩ := h.own o t
  rw [h1, h2]
  dsimp only
  rw [trace_since_append]
  rfl

theorem AfterExecute.bounded {α : Type} {op : cpl_odbc_t → cpl_return_t × α × cpl_odbc_t}
    {s : Stmt} {ps : List Param} {m : Mutex} {bound : α → Nat}
    (h : AfterExecute op s ps m bound) : BoundedRetries op (fun out => 3 + bound out) := by
  intro o
  obtain ⟨c, out, S, ev, _, h2, h3, _⟩ := h.own o o.trace
  have hm := SQL_EXECUTE_EXT_reconnects s ps 3 (mutex_lock o m)
  rw [h2]
  dsimp only
  rw [trace_since_append]
  refine ⟨?_, rfl⟩
  have : Event.lock m :: (trace_since (mutex_lock o m)
      (SQL_EXECUTE_EXT s ps 3 (mutex_lock o m)).2.2 ++ ev)
      = [Event.lock m] ++ (trace_since (mutex_lock o m)
      (SQL_EXECUTE_EXT s ps 3 (mutex_lock o m)).2.2 ++ ev) := rfl
  rw [this, reconnects_append, reconnects_append, reconnects_lock]
  omega

theorem AfterExecute.surfaces {α : Type} {op : cpl_odbc_t → cpl_return_t × α × cpl_odbc_t}
    {s : Stmt} {ps : List Param} {m : Mutex} {bound : α → Nat}
    (h : AfterExecute op s ps m bound) : SurfacesFailure op := by
  intro o hg
  obtain ⟨c, out, S, ev, _, h2, _, h4⟩ := h.own o o.trace
  rw [h2]
  exact h4 (SQL_EXECUTE_EXT_gives_up s ps 3 (mutex_lock o m) hg)

theorem RetriedFrom.of_traces (S : cpl_odbc_t) (P' P : List Event) (n : Nat)
    (h : reconnects P' = reconnects P + n) :
    RetriedFrom n (S.with_trace P') (S.with_trace P) := ⟨rfl, h⟩

theorem RetriedFrom.eq {n : Nat} {a b : cpl_odbc_t} (h : RetriedFrom n a b) :
    a = b.with_trace a.trace := by
  have h1 : a = (a.with_trace []).with_trace a.trace := rfl
  rw [h1, h.1]
  rfl

theorem AfterExecute.recovers {α : Type} {op : cpl_odbc_t → cpl_return_t × α × cpl_odbc_t}
    {s : Stmt} {ps : List Param} {m : Mutex} {bound : α → Nat}
    (h : AfterExecute op s ps m bound) : Recovers op := by
  intro o ds hn hds hs
  have ha : SQL_EXECUTE_EXT s ps 3
      (mutex_lock (o.with_driver (injected ds ++ o.script) o.trace) m)
      = ((SQL_EXECUTE_EXT s ps 3 (mutex_lock o m)).1, 3 - ds.length,
          (SQL_EXECUTE_EXT s ps 3 (mutex_lock o m)).2.2.with_trace
            ((mutex_lock o m).trace ++ retry_events s ds.length
              ++ trace_since (mutex_lock o m)
                (SQL_EXECUTE_EXT s ps 3 (mutex_lock o m)).2.2)) := by
    have : mutex_lock (o.with_driver (injected ds ++ o.script) o.trace) m
        = (mutex_lock o m).inject ds := rfl
    rw [this]
    exact SQL_EXECUTE_EXT_injected s ps ds hds hn (mutex_lock o m) hs
  have hb : SQL_EXECUTE_EXT s ps 3 (mutex_lock o m)
      = ((SQL_EXECUTE_EXT s ps 3 (mutex_lock o m)).1,
          (SQL_EXECUTE_EXT s ps 3 (mutex_lock o m)).2.1,
          (SQL_EXECUTE_EXT s ps 3 (mutex_lock o m)).2.2.with_trace
            ((mutex_lock o m).trace ++ trace_since (mutex_lock o m)
              (SQL_EXECUTE_EXT s ps 3 (mutex_lock o m)).2.2)) := by
    rw [← SQL_EXECUTE_EXT_trace, with_trace_self]
  unfold AfterExecute at h
  obtain ⟨c, out, S, ev, h1, h2, _, _⟩ := h o _ o.trace _ _ _ _ _ _ ha hb
  have hi : o.inject ds = o.with_driver (injected ds ++ o.script) o.trace := rfl
  rw [hi, h1, h2]
  refine ⟨rfl, rfl, RetriedFrom.of_traces _ _ _ _ ?_⟩
  simp only [reconnects_append, reconnects_retry_events]
  omega

open cpl_return_t SQLRETURN

theorem get_version_after_execute (id : cpl_id_t) :
    AfterExecute (fun o => cpl_odbc_get_version o id) Stmt.get_version_stmt
      [Param.integer id.hi, Param.integer id.lo] Mutex.get_version_lock (fun _ => 0) := by
  intro b sa ta0 r ka kb o2 ta tb ha hb
  dsimp only
  unfold cpl_odbc_get_version
  dsimp only
  rw [ha, hb]
  cases r with
  | none =>
    exact ⟨_, _, _, [Event.unlock _], rfl, rfl, le_of_eq (reconnects_unlock _), fun _ => rfl⟩
  | some st =>
    dsimp only
    simp only [fetch_single_llong_with_trace, mutex_unlock_with_trace]
    repeat' split
    all_goals
      exact ⟨_, _, _, [Event.unlock _], rfl, rfl, le_of_eq (reconnects_unlock _),
        fun h => nomatch h⟩

theorem create_session_after_execute (session : cpl_session_t) (mac_address : Option String)
    (user : String) (pid : Int) (program cmdline : String) :
    AfterExecute
      (fun o => no_output (cpl_odbc_create_session o session mac_address user pid program
        cmdline))
      Stmt.create_session_insert_stmt
      [Param.integer session.hi, Param.integer session.lo, Param.varchar 18 mac_address,
        Param.varchar 255 (some user), Param.integer pid, Param.varchar 4095 (some program),
        Param.varchar 4095 (some cmdline)]
      Mutex.create_session_lock (fun _ => 0) := by
  intro b sa ta0 r ka kb o2 ta tb ha hb
  dsimp only
  unfold cpl_odbc_create_session no_output
  dsimp only
  rw [ha, hb]
  cases r with
  | none =>
    exact ⟨_, _, _, [Event.unlock _], rfl, rfl, le_of_eq (reconnects_unlock _), fun _ => rfl⟩
  | some st =>
    exact ⟨_, _, _, [Event.unlock _], rfl, rfl, le_of_eq (reconnects_unlock _),
      fun h => nomatch h⟩

theorem add_ancestry_edge_after_execute (from_id : cpl_id_t)
    (from_ver : cpl_version_t) (to_id : cpl_id_t) (to_ver : cpl_version_t) (type : Int) :
    AfterExecute
      (fun o => no_output (cpl_odbc_add_ancestry_edge o from_id from_ver to_id to_ver type))
      Stmt.add_ancestry_edge_stmt
      [Param.integer from_id.hi, Param.integer from_id.lo, Param.integer from_ver,
        Param.integer to_id.hi, Param.integer to_id.lo, Param.integer to_ver,
        Param.integer type]
      Mutex.add_ancestry_edge_lock (fun _ => 0) := by
  intro b sa ta0 r ka kb o2 ta tb ha hb
  dsimp only
  unfold cpl_odbc_add_ancestry_edge no_output
  dsimp only
  rw [ha, hb]
  cases r with
  | none =>
    exact ⟨_, _, _, [Event.unlock _], rfl, rfl, le_of_eq (reconnects_unlock _), fun _ => rfl⟩
  | some st =>
    exact ⟨_, _, _, [Event.unlock _], rfl, rfl, le_of_eq (reconnects_unlock _),
      fun h => nomatch h⟩

theorem add_property_after_execute (id : cpl_id_t) (version : cpl_version_t)
    (key value : Option String) :
    AfterExecute (fun o => no_output (cpl_odbc_add_property o id version key value))
      Stmt.add_property_stmt
      [Param.integer id.hi, Param.integer id.lo, Param.integer version,
        Param.varchar 255 key, Param.varchar 4095 value]
      Mutex.add_property_lock (fun _ => 0) := by
  intro b sa ta0 r ka kb o2 ta tb ha hb
  dsimp only
  unfold cpl_odbc_add_property no_output
  dsimp only
  rw [ha, hb]
  cases r with
  | none =>
    exact ⟨_, _, _, [Event.unlock _], rfl, rfl, le_of_eq (reconnects_unlock _), fun _ => rfl⟩
  | some st =>
    exact ⟨_, _, _, [Event.unlock _], rfl, rfl, le_of_eq (reconnects_unlock _),
      fun h => nomatch h⟩

theorem lookup_object_after_execute (originator name type : Option String) :
    AfterExecute (fun o => cpl_odbc_lookup_object o originator name type)
      Stmt.lookup_object_stmt
      [Param.varchar 255 originator, Param.varchar 255 name, Param.varchar 100 type]
      Mutex.lookup_object_lock (fun _ => 0) := by
  intro b sa ta0 r ka kb o2 ta tb ha hb
  dsimp only
  unfold cpl_odbc_lookup_object
  dsimp only
  rw [ha, hb]
  cases r with
  | none =>
    exact ⟨_, _, _, [Event.unlock _], rfl, rfl, le_of_eq (reconnects_unlock _), fun _ => rfl⟩
  | some st =>
    dsimp only
    simp only [fetch_single_llong_with_trace, mutex_unlock_with_trace]
    repeat' split
    all_goals
      exact ⟨_, _, _, [Event.unlock _], rfl, rfl, le_of_eq (reconnects_unlock _),
        fun h => nomatch h⟩

theorem has_immediate_ancestor_after_execute (object_id : cpl_id_t)
    (version_hint : cpl_version_t) (query_object_id : cpl_id_t)
    (query_object_max_version : cpl_version_t) :
    AfterExecute
      (fun o => cpl_odbc_has_immediate_ancestor o object_id version_hint query_object_id
        query_object_max_version)
      (if version_hint = CPL_VERSION_NONE then Stmt.has_immediate_ancestor_stmt
        else Stmt.has_immediate_ancestor_with_ver_stmt)
      ([Param.integer query_object_id.hi, Param.integer query_object_id.lo,
          Param.integer query_object_max_version, Param.integer object_id.hi,
          Param.integer object_id.lo] ++
        (if version_hint ≠ CPL_VERSION_NONE then [Param.integer version_hint] else []))
      Mutex.has_immediate_ancestor_lock (fun _ => 0) := by
  intro b sa ta0 r ka kb o2 ta tb ha hb
  dsimp only
  unfold cpl_odbc_has_immediate_ancestor
  dsimp only
  rw [ha, hb]
  cases r with
  | none =>
    exact ⟨_, _, _, [Event.unlock _], rfl, rfl, le_of_eq (reconnects_unlock _), fun _ => rfl⟩
  | some st =>
    dsimp only
    simp only [fetch_single_llong_with_trace, mutex_unlock_with_trace]
    repeat' split
    all_goals
      exact ⟨_, _, _, [Event.unlock _], rfl, rfl, le_of_eq (reconnects_unlock _),
        fun h => nomatch h⟩

theorem SameAfter.after_some {α : Type} {bound : α → Nat} {ta tb : List Event}
    {Xa Xb : cpl_return_t × α × cpl_odbc_t} (st : SQLHSTMT)
    (h : SameAfter bound ta tb Xa Xb) :
    ∃ (c : cpl_return_t) (out : α) (S : cpl_odbc_t) (ev : List Event),
      Xa = (c, out, S.with_trace (ta ++ ev)) ∧ Xb = (c, out, S.with_trace (tb ++ ev)) ∧
        reconnects ev ≤ bound out ∧ (some st = none → c = CPL_E_STATEMENT_ERROR) := by
  obtain ⟨c, out, S, ev, h1, h2, h3⟩ := h
  exact ⟨c, out, S, ev, h1, h2, h3, fun h => nomatch h⟩

/-- One column read with `CPL_SQL_SIMPLE_FETCH_EXT` in two runs that differ only in the
event log. -/
theorem simple_fetch_same {α β : Type}
    (fetch_single : cpl_odbc_t → SQLHSTMT → Nat → Bool → Bool → Bool →
      cpl_return_t × α × SQLHSTMT × cpl_odbc_t)
    (hfs : ∀ (o : cpl_odbc_t) (t : List Event) st c f cl hn,
      fetch_single (o.with_trace t) st c f cl hn
      = ((fetch_single o st c f cl hn).1, (fetch_single o st c f cl hn).2.1,
          (fetch_single o st c f cl hn).2.2.1,
          (fetch_single o st c f cl hn).2.2.2.with_trace t))
    (bound : β → Nat) (ta tb : List Event) (o : cpl_odbc_t) (st : SQLHSTMT) (col : Nat)
    (hn : Bool) (err_r : cpl_return_t → cpl_odbc_t → cpl_return_t × β × cpl_odbc_t)
    (next : cpl_return_t → α → SQLHSTMT → cpl_odbc_t → cpl_return_t × β × cpl_odbc_t)
    (herr : ∀ (r : cpl_return_t) (o : cpl_odbc_t),
      SameAfter bound ta tb (err_r r (o.with_trace ta)) (err_r r (o.with_trace tb)))
    (hnext : ∀ (r : cpl_return_t) (a : α) (st : SQLHSTMT) (o : cpl_odbc_t),
      SameAfter bound ta tb (next r a st (o.with_trace ta))
        (next r a st (o.with_trace tb))) :
    SameAfter bound ta tb
      (CPL_SQL_SIMPLE_FETCH_EXT fetch_single (o.with_trace ta) st col hn err_r next)
      (CPL_SQL_SIMPLE_FETCH_EXT fetch_single (o.with_trace tb) st col hn err_r next) := by
  unfold CPL_SQL_SIMPLE_FETCH_EXT
  rw [hfs, hfs]
  dsimp only
  split
  · exact herr _ _
  · exact hnext _ _ _ _

theorem get_version_info_after_execute (id : cpl_id_t) (version : cpl_version_t) :
    AfterExecute (fun o => cpl_odbc_get_version_info o id version)
      Stmt.get_version_info_stmt
      [Param.integer id.hi, Param.integer id.lo, Param.integer version]
      Mutex.get_version_info_lock (fun _ => 0) := by
  intro b sa ta0 r ka kb o2 ta tb ha hb
  dsimp only
  unfold cpl_odbc_get_version_info
  dsimp only
  rw [ha, hb]
  cases r with
  | none =>
    exact ⟨_, _, _, [Event.unlock _], rfl, rfl, le_of_eq (reconnects_unlock _), fun _ => rfl⟩
  | some st =>
    dsimp only
    apply SameAfter.after_some
    have herr : ∀ (r : cpl_return_t) (o : cpl_odbc_t),
        SameAfter (fun _ : Option cpl_version_info_t => 0) ta tb
          (r, none, mutex_unlock (o.with_trace ta) Mutex.get_version_info_lock)
          (r, none, mutex_unlock (o.with_trace tb) Mutex.get_version_info_lock) :=
      fun r o => ⟨_, _, _, [Event.unlock _], rfl, rfl, le_of_eq (reconnects_unlock _)⟩
    refine simple_fetch_same cpl_sql_fetch_single_llong
      (fun o t st c f cl hn => fetch_single_llong_with_trace o t st c f cl hn)
      _ _ _ _ _ _ _ _ _ herr (fun _ _ st o => ?_)
    refine simple_fetch_same cpl_sql_fetch_single_llong
      (fun o t st c f cl hn => fetch_single_llong_with_trace o t st c f cl hn)
      _ _ _ _ _ _ _ _ _ herr (fun _ _ st o => ?_)
    refine simple_fetch_same cpl_sql_fetch_single_timestamp_as_unix_time
      (fun o t st c f cl hn => fetch_single_timestamp_with_trace o t st c f cl hn)
      _ _ _ _ _ _ _ _ _ herr (fun _ _ st o => ?_)
    simp only [SQLCloseCursor_with_trace, mutex_unlock_with_trace]
    split <;> exact ⟨_, _, _, [Event.unlock _], rfl, rfl, le_of_eq (reconnects_unlock _)⟩

theorem get_session_info_after_execute (id : cpl_session_t) :
    AfterExecute (fun o => cpl_odbc_get_session_info o id)
      Stmt.get_session_info_stmt [Param.integer id.hi, Param.integer id.lo]
      Mutex.get_session_info_lock (fun _ => 0) := by
  intro b sa ta0 r ka kb o2 ta tb ha hb
  dsimp only
  unfold cpl_odbc_get_session_info
  dsimp only
  rw [ha, hb]
  cases r with
  | none =>
    exact ⟨_, _, _, [Event.unlock _], rfl, rfl, le_of_eq (reconnects_unlock _), fun _ => rfl⟩
  | some st =>
    dsimp only
    apply SameAfter.after_some
    have herr : ∀ (r : cpl_return_t) (o : cpl_odbc_t),
        SameAfter (fun _ : Option cpl_session_info_t => 0) ta tb
          (r, none, mutex_unlock (o.with_trace ta) Mutex.get_session_info_lock)
          (r, none, mutex_unlock (o.with_trace tb) Mutex.get_session_info_lock) :=
      fun r o => ⟨_, _, _, [Event.unlock _], rfl, rfl, le_of_eq (reconnects_unlock _)⟩
    refine simple_fetch_same
      (fun o st c f cl hn => cpl_sql_fetch_single_dynamically_allocated_string o st c f cl
        hn 4095)
      (fun o t st c f cl hn => fetch_single_string_with_trace o t st c f cl hn 4095)
      _ _ _ _ _ _ _ _ _ herr (fun _ _ st o => ?_)
    refine simple_fetch_same
      (fun o st c f cl hn => cpl_sql_fetch_single_dynamically_allocated_string o st c f cl
        hn 4095)
      (fun o t st c f cl hn => fetch_single_string_with_trace o t st c f cl hn 4095)
      _ _ _ _ _ _ _ _ _ herr (fun _ _ st o => ?_)
    refine simple_fetch_same cpl_sql_fetch_single_llong
      (fun o t st c f cl hn => fetch_single_llong_with_trace o t st c f cl hn)
      _ _ _ _ _ _ _ _ _ herr (fun _ _ st o => ?_)
    refine simple_fetch_same
      (fun o st c f cl hn => cpl_sql_fetch_single_dynamically_allocated_string o st c f cl
        hn 4095)
      (fun o t st c f cl hn => fetch_single_string_with_trace o t st c f cl hn 4095)
      _ _ _ _ _ _ _ _ _ herr (fun _ _ st o => ?_)
    refine simple_fetch_same
      (fun o st c f cl hn => cpl_sql_fetch_single_dynamically_allocated_string o st c f cl
        hn 4095)
      (fun o t st c f cl hn => fetch_single_string_with_trace o t st c f cl hn 4095)
      _ _ _ _ _ _ _ _ _ herr (fun _ _ st o => ?_)
    refine simple_fetch_same cpl_sql_fetch_single_timestamp_as_unix_time
      (fun o t st c f cl hn => fetch_single_timestamp_with_trace o t st c f cl hn)
      _ _ _ _ _ _ _ _ _ herr (fun _ _ st o => ?_)
    simp only [SQLCloseCursor_with_trace, mutex_unlock_with_trace]
    split <;> exact ⟨_, _, _, [Event.unlock _], rfl, rfl, le_of_eq (reconnects_unlock _)⟩

theorem get_object_info_read_after_execute (id : cpl_id_t) (version : cpl_version_t) :
    AfterExecute (fun o => cpl_odbc_get_object_info.read o id version)
      Stmt.get_object_info_stmt [Param.integer id.hi, Param.integer id.lo]
      Mutex.get_object_info_lock (fun _ => 0) := by
  intro b sa ta0 r ka kb o2 ta tb ha hb
  dsimp only
  unfold cpl_odbc_get_object_info.read
  dsimp only
  rw [ha, hb]
  cases r with
  | none =>
    exact ⟨_, _, _, [Event.unlock _], rfl, rfl, le_of_eq (reconnects_unlock _), fun _ => rfl⟩
  | some st =>
    dsimp only
    apply SameAfter.after_some
    have herr : ∀ (r : cpl_return_t) (o : cpl_odbc_t),
        SameAfter (fun _ : Option cpl_object_info_t => 0) ta tb
          (r, none, mutex_unlock (o.with_trace ta) Mutex.get_object_info_lock)
          (r, none, mutex_unlock (o.with_trace tb) Mutex.get_object_info_lock) :=
      fun r o => ⟨_, _, _, [Event.unlock _], rfl, rfl, le_of_eq (reconnects_unlock _)⟩
    refine simple_fetch_same cpl_sql_fetch_single_llong
      (fun o t st c f cl hn => fetch_single_llong_with_trace o t st c f cl hn)
      _ _ _ _ _ _ _ _ _ herr (fun _ _ st o => ?_)
    refine simple_fetch_same cpl_sql_fetch_single_llong
      (fun o t st c f cl hn => fetch_single_llong_with_trace o t st c f cl hn)
      _ _ _ _ _ _ _ _ _ herr (fun _ _ st o => ?_)
    refine simple_fetch_same cpl_sql_fetch_single_timestamp_as_unix_time
      (fun o t st c f cl hn => fetch_single_timestamp_with_trace o t st c f cl hn)
      _ _ _ _ _ _ _ _ _ herr (fun _ _ st o => ?_)
    refine simple_fetch_same
      (fun o st c f cl hn => cpl_sql_fetch_single_dynamically_allocated_string o st c f cl
        hn 4095)
      (fun o t st c f cl hn => fetch_single_string_with_trace o t st c f cl hn 4095)
      _ _ _ _ _ _ _ _ _ herr (fun _ _ st o => ?_)
    refine simple_fetch_same
      (fun o st c f cl hn => cpl_sql_fetch_single_dynamically_allocated_string o st c f cl
        hn 4095)
      (fun o t st c f cl hn => fetch_single_string_with_trace o t st c f cl hn 4095)
      _ _ _ _ _ _ _ _ _ herr (fun _ _ st o => ?_)
    refine simple_fetch_same
      (fun o st c f cl hn => cpl_sql_fetch_single_dynamically_allocated_string o st c f cl
        hn 4095)
      (fun o t st c f cl hn => fetch_single_string_with_trace o t st c f cl hn 4095)
      _ _ _ _ _ _ _ _ _ herr (fun _ _ st o => ?_)
    refine simple_fetch_same cpl_sql_fetch_single_llong
      (fun o t st c f cl hn => fetch_single_llong_with_trace o t st c f cl hn)
      _ _ _ _ _ _ _ _ _ herr (fun _ _ st o => ?_)
    refine simple_fetch_same cpl_sql_fetch_single_llong
      (fun o t st c f cl hn => fetch_single_llong_with_trace o t st c f cl hn)
      _ _ _ _ _ _ _ _ _ herr (fun _ _ st o => ?_)
    refine simple_fetch_same cpl_sql_fetch_single_llong
      (fun o t st c f cl hn => fetch_single_llong_with_trace o t st c f cl hn)
      _ _ _ _ _ _ _ _ _ herr (fun _ _ st o => ?_)
    simp only [SQLCloseCursor_with_trace, mutex_unlock_with_trace]
    split <;> exact ⟨_, _, _, [Event.unlock _], rfl, rfl, le_of_eq (reconnects_unlock _)⟩

open cpl_return_t SQLRETURN

theorem reconnects_unlock_le (m : Mutex) (n : Nat) : reconnects [Event.unlock m] ≤ n := by
  rw [reconnects_unlock]; exact Nat.zero_le _

theorem get_version_with_trace (o : cpl_odbc_t) (t : List Event) (id : cpl_id_t) :
    cpl_odbc_get_version (o.with_trace t) id
      = ((cpl_odbc_get_version o id).1, (cpl_odbc_get_version o id).2.1,
          (cpl_odbc_get_version o id).2.2.with_trace
            (t ++ trace_since o (cpl_odbc_get_version o id).2.2)) :=
  (get_version_after_execute id).oblivious o t

theorem get_version_reconnects_le (o : cpl_odbc_t) (id : cpl_id_t) :
    reconnects (trace_since o (cpl_odbc_get_version o id).2.2) ≤ 3 :=
  ((get_version_after_execute id).bounded o).1

theorem get_version_trace (o : cpl_odbc_t) (id : cpl_id_t) :
    (cpl_odbc_get_version o id).2.2.trace
      = o.trace ++ trace_since o (cpl_odbc_get_version o id).2.2 :=
  ((get_version_after_execute id).bounded o).2

theorem reconnects_unlock_get_version_le (m : Mutex) (o : cpl_odbc_t) (id : cpl_id_t) :
    reconnects ([Event.unlock m] ++ trace_since o (cpl_odbc_get_version o id).2.2) ≤ 3 := by
  rw [reconnects_append, reconnects_unlock, Nat.zero_add]
  exact get_version_reconnects_le o id

theorem lookup_by_property_after_execute (key value : Option String)
    (iterator : Option cpl_property_iterator_t)
    (hit : ∀ it, iterator = some it → TraceBlind it) :
    AfterExecute (fun o => cpl_odbc_lookup_by_property o key value iterator)
      Stmt.lookup_by_property_stmt [Param.varchar 255 key, Param.varchar 4095 value]
      Mutex.lookup_by_property_lock (fun _ => 0) := by
  intro b sa ta0 r ka kb o2 ta tb ha hb
  dsimp only
  unfold cpl_odbc_lookup_by_property
  dsimp only
  rw [ha, hb]
  cases r with
  | none =>
    exact ⟨_, _, _, [Event.unlock _], rfl, rfl, le_of_eq (reconnects_unlock _), fun _ => rfl⟩
  | some st =>
    dsimp only
    apply SameAfter.after_some
    rcases hL : fetch_loop cpl_odbc_lookup_by_property.keep st.pending st.current o2 []
      with ⟨_ | entries, st3, o3⟩
    · simp only [fetch_loop_with_trace, hL, SQLCloseCursor_with_trace,
        mutex_unlock_with_trace]
      exact ⟨_, _, _, [Event.unlock _], rfl, rfl, reconnects_unlock_le _ _⟩
    · simp only [fetch_loop_with_trace, hL, SQLCloseCursor_with_trace,
        mutex_unlock_with_trace]
      split
      · exact ⟨_, _, _, [Event.unlock _], rfl, rfl, reconnects_unlock_le _ _⟩
      · split
        · exact ⟨_, _, _, [Event.unlock _], rfl, rfl, reconnects_unlock_le _ _⟩
        · cases iterator with
          | none => exact ⟨_, _, _, [Event.unlock _], rfl, rfl, reconnects_unlock_le _ _⟩
          | some it =>
            dsimp only
            simp only [iterate_with_trace it (hit it rfl)]
            exact ⟨_, _, _, [Event.unlock _], rfl, rfl, reconnects_unlock_le _ _⟩

theorem lookup_object_ext_after_execute (originator name type : Option String) (flags : Int)
    (iterator : Option cpl_id_timestamp_iterator_t)
    (hit : ∀ it, iterator = some it → TraceBlind it) :
    AfterExecute (fun o => cpl_odbc_lookup_object_ext o originator name type flags iterator)
      Stmt.lookup_object_ext_stmt
      [Param.varchar 255 originator, Param.varchar 255 name, Param.varchar 100 type]
      Mutex.lookup_object_ext_lock (fun _ => 0) := by
  intro b sa ta0 r ka kb o2 ta tb ha hb
  dsimp only
  unfold cpl_odbc_lookup_object_ext
  dsimp only
  rw [ha, hb]
  have hk : cpl_odbc_lookup_object_ext.keep (b.with_driver sa ta0)
      = cpl_odbc_lookup_object_ext.keep b := rfl
  rw [hk]
  cases r with
  | none =>
    exact ⟨_, _, _, [Event.unlock _], rfl, rfl, le_of_eq (reconnects_unlock _), fun _ => rfl⟩
  | some st =>
    dsimp only
    apply SameAfter.after_some
    rcases hL : fetch_loop (cpl_odbc_lookup_object_ext.keep b) st.pending st.current o2 []
      with ⟨_ | entries, st3, o3⟩
    · simp only [fetch_loop_with_trace, hL, SQLCloseCursor_with_trace,
        mutex_unlock_with_trace]
      exact ⟨_, _, _, [Event.unlock _], rfl, rfl, reconnects_unlock_le _ _⟩
    · simp only [fetch_loop_with_trace, hL, SQLCloseCursor_with_trace,
        mutex_unlock_with_trace]
      split
      · exact ⟨_, _, _, [Event.unlock _], rfl, rfl, reconnects_unlock_le _ _⟩
      · split
        · exact ⟨_, _, _, [Event.unlock _], rfl, rfl, reconnects_unlock_le _ _⟩
        · cases iterator with
          | none => exact ⟨_, _, _, [Event.unlock _], rfl, rfl, reconnects_unlock_le _ _⟩
          | some it =>
            dsimp only
            simp only [iterate_with_trace it (hit it rfl)]
            exact ⟨_, _, _, [Event.unlock _], rfl, rfl, reconnects_unlock_le _ _⟩

theorem get_properties_after_execute (id : cpl_id_t) (version : cpl_version_t)
    (key : Option String) (iterator : Option cpl_property_iterator_t)
    (hit : ∀ it, iterator = some it → TraceBlind it) :
    AfterExecute (fun o => cpl_odbc_get_properties o id version key iterator)
      (cpl_odbc_get_properties.statement version key)
      (cpl_odbc_get_properties.params id version key)
      Mutex.get_properties_lock (fun _ => 3) := by
  intro b sa ta0 r ka kb o2 ta tb ha hb
  dsimp only
  unfold cpl_odbc_get_properties
  dsimp only
  rw [ha, hb]
  cases r with
  | none =>
    exact ⟨_, _, _, [Event.unlock _], rfl, rfl, reconnects_unlock_le _ _, fun _ => rfl⟩
  | some st =>
    dsimp only
    apply SameAfter.after_some
    rcases hL : cpl_odbc_get_properties.fetch st.pending st.current o2 false []
      with ⟨_ | ⟨found, entries⟩, st3, o3⟩
    · simp only [properties_fetch_with_trace, hL, SQLCloseCursor_with_trace,
        mutex_unlock_with_trace]
      exact ⟨_, _, _, [Event.unlock _], rfl, rfl, reconnects_unlock_le _ _⟩
    · simp only [properties_fetch_with_trace, hL, SQLCloseCursor_with_trace,
        mutex_unlock_with_trace]
      split
      · exact ⟨_, _, _, [Event.unlock _], rfl, rfl, reconnects_unlock_le _ _⟩
      · split
        · simp only [get_version_with_trace, List.append_assoc]
          split
          · exact ⟨_, _, _, _, rfl, rfl, reconnects_unlock_get_version_le _ _ _⟩
          · split
            · exact ⟨_, _, _, _, rfl, rfl, reconnects_unlock_get_version_le _ _ _⟩
            · cases iterator with
              | none =>
                exact ⟨_, _, _, _, rfl, rfl, reconnects_unlock_get_version_le _ _ _⟩
              | some it =>
                dsimp only
                simp only [iterate_with_trace it (hit it rfl)]
                exact ⟨_, _, _, _, rfl, rfl, reconnects_unlock_get_version_le _ _ _⟩
        · dsimp only
          split
          · exact ⟨_, _, _, [Event.unlock _], rfl, rfl, reconnects_unlock_le _ _⟩
          · split
            · exact ⟨_, _, _, [Event.unlock _], rfl, rfl, reconnects_unlock_le _ _⟩
            · cases iterator with
              | none =>
                exact ⟨_, _, _, [Event.unlock _], rfl, rfl, reconnects_unlock_le _ _⟩
              | some it =>
                dsimp only
                simp only [iterate_with_trace it (hit it rfl)]
                exact ⟨_, _, _, [Event.unlock _], rfl, rfl, reconnects_unlock_le _ _⟩

open cpl_return_t SQLRETURN

theorem get_object_ancestry_after_execute (H : cpl_h) (id : cpl_id_t)
    (version : cpl_version_t) (direction flags : Int)
    (iterator : Option cpl_ancestry_iterator_t)
    (hflags : Int.land flags (Int.lnot (CPL_ODBC_A_SUPPORTED_FLAGS H)) = 0)
    (hit : ∀ it, iterator = some it → TraceBlind it) :
    AfterExecute
      (fun o => cpl_odbc_get_object_ancestry H o id version direction flags iterator)
      (cpl_odbc_get_object_ancestry.statement H version direction)
      (cpl_odbc_get_object_ancestry.params id version)
      Mutex.get_object_ancestry_lock (fun _ => 3) := by
  intro b sa ta0 r ka kb o2 ta tb ha hb
  dsimp only
  unfold cpl_odbc_get_object_ancestry
  rw [if_neg (not_not.mpr hflags), if_neg (not_not.mpr hflags)]
  dsimp only
  rw [ha, hb]
  cases r with
  | none =>
    exact ⟨_, _, _, [Event.unlock _], rfl, rfl, reconnects_unlock_le _ _, fun _ => rfl⟩
  | some st =>
    dsimp only
    apply SameAfter.after_some
    rcases hL : cpl_odbc_get_object_ancestry.fetch H flags st.pending st.current o2 false []
      with ⟨_ | ⟨found, entries⟩, st3, o3⟩
    · simp only [ancestry_fetch_with_trace, hL, SQLCloseCursor_with_trace,
        mutex_unlock_with_trace]
      exact ⟨_, _, _, [Event.unlock _], rfl, rfl, reconnects_unlock_le _ _⟩
    · simp only [ancestry_fetch_with_trace, hL, SQLCloseCursor_with_trace,
        mutex_unlock_with_trace]
      split
      · exact ⟨_, _, _, [Event.unlock _], rfl, rfl, reconnects_unlock_le _ _⟩
      · split
        · simp only [get_version_with_trace, List.append_assoc]
          split
          · exact ⟨_, _, _, _, rfl, rfl, reconnects_unlock_get_version_le _ _ _⟩
          · split
            · exact ⟨_, _, _, _, rfl, rfl, reconnects_unlock_get_version_le _ _ _⟩
            · cases iterator with
              | none =>
                exact ⟨_, _, _, _, rfl, rfl, reconnects_unlock_get_version_le _ _ _⟩
              | some it =>
                dsimp only
                simp only [iterate_with_trace it (hit it rfl)]
                exact ⟨_, _, _, _, rfl, rfl, reconnects_unlock_get_version_le _ _ _⟩
        · dsimp only
          split
          · exact ⟨_, _, _, [Event.unlock _], rfl, rfl, reconnects_unlock_le _ _⟩
          · split
            · exact ⟨_, _, _, [Event.unlock _], rfl, rfl, reconnects_unlock_le _ _⟩
            · cases iterator with
              | none =>
                exact ⟨_, _, _, [Event.unlock _], rfl, rfl, reconnects_unlock_le _ _⟩
              | some it =>
                dsimp only
                simp only [iterate_with_trace it (hit it rfl)]
                exact ⟨_, _, _, [Event.unlock _], rfl, rfl, reconnects_unlock_le _ _⟩

theorem trace_since_self (o : cpl_odbc_t) : trace_since o o = [] := by
  unfold trace_since; exact List.drop_length _

theorem Oblivious.trace {α : Type} {op : cpl_odbc_t → cpl_return_t × α × cpl_odbc_t}
    (h : Oblivious op) (o : cpl_odbc_t) :
    (op o).2.2.trace = o.trace ++ trace_since o (op o).2.2 := by
  have h1 := h o o.trace
  rw [with_trace_self] at h1
  exact congrArg (fun R => R.2.2.trace) h1

theorem trace_since_trans (a b c : cpl_odbc_t)
    (hab : b.trace = a.trace ++ trace_since a b) (hbc : c.trace = b.trace ++ trace_since b c) :
    trace_since a c = trace_since a b ++ trace_since b c := by
  have h : c.trace = a.trace ++ (trace_since a b ++ trace_since b c) := by
    rw [hbc, hab, List.append_assoc]
  conv_lhs => unfold trace_since
  rw [h, List.drop_left]

/-- The body of the loop of `cpl_odbc_get_all_objects` does not look at the event log, and
logs at most the three reconnects of its call of `cpl_odbc_get_version`. -/
theorem get_all_objects_call_oblivious (H : cpl_h) (flags : Int)
    (it : cpl_object_info_iterator_t) (hit : TraceBlind it) (i : cplxx_object_info_t) :
    Oblivious (cpl_odbc_get_all_objects.call H flags it i)
      ∧ ∀ o, reconnects (trace_since o (cpl_odbc_get_all_objects.call H flags it i o).2.2)
          ≤ 3 := by
  have key : ∀ (o : cpl_odbc_t) (t : List Event), ∃ (ev : List Event),
      reconnects ev ≤ 3 ∧
      cpl_odbc_get_all_objects.call H flags it i (o.with_trace t)
        = ((cpl_odbc_get_all_objects.call H flags it i o).1,
            (cpl_odbc_get_all_objects.call H flags it i o).2.1,
            (cpl_odbc_get_all_objects.call H flags it i o).2.2.with_trace (t ++ ev))
      ∧ (cpl_odbc_get_all_objects.call H flags it i o).2.2.trace = o.trace ++ ev := by
    intro o t
    unfold cpl_odbc_get_all_objects.call
    by_cases hf : Int.land flags H.CPL_I_NO_VERSION = 0
    · simp only [if_pos hf, get_version_with_trace]
      refine ⟨trace_since o (cpl_odbc_get_version o i.id).2.2,
        get_version_reconnects_le o i.id, ?_, ?_⟩
      · split
        · rfl
        · simp only [hit _ _ _]
      · split
        · exact get_version_trace o i.id
        · have h1 := hit
            { id := i.id
              version := (cpl_odbc_get_version o i.id).2.1.getD CPL_VERSION_NONE
              creation_session := i.creation_session
              creation_time := i.creation_time
              originator := some (strncpy i.originator 4096)
              name := some (strncpy i.name 4096)
              type := some (strncpy i.type 256)
              container_id := i.container_id
              container_version := i.container_version }
            (cpl_odbc_get_version o i.id).2.2 (cpl_odbc_get_version o i.id).2.2.trace
          rw [with_trace_self] at h1
          have h2 := congrArg (fun R => R.2.trace) h1
          dsimp only at h2 ⊢
          rw [h2, with_trace_trace]
          exact get_version_trace o i.id
    · simp only [if_neg hf]
      refine ⟨[], Nat.zero_le _, ?_, ?_⟩
      · simp only [hit _ _ _, List.append_nil]
        split <;> rfl
      · rw [List.append_nil]
        split
        · rfl
        · have h1 := hit
            { id := i.id
              version := CPL_VERSION_NONE
              creation_session := i.creation_session
              creation_time := i.creation_time
              originator := some (strncpy i.originator 4096)
              name := some (strncpy i.name 4096)
              type := some (strncpy i.type 256)
              container_id := i.container_id
              container_version := i.container_version }
            o o.trace
          rw [with_trace_self] at h1
          have h2 := congrArg (fun R => R.2.trace) h1
          dsimp only at h2 ⊢
          rw [h2, with_trace_trace]
  constructor
  · intro o t
    obtain ⟨ev, _, h1, h2⟩ := key o t
    have : trace_since o (cpl_odbc_get_all_objects.call H flags it i o).2.2 = ev := by
      unfold trace_since; rw [h2, List.drop_left]
    rw [this]; exact h1
  · intro o
    obtain ⟨ev, h0, _, h2⟩ := key o o.trace
    have : trace_since o (cpl_odbc_get_all_objects.call H flags it i o).2.2 = ev := by
      unfold trace_since; rw [h2, List.drop_left]
    rw [this]; exact h0

/-- A loop over the buffer whose body does not look at the event log does not either, and
logs at most `n` reconnects for each call of the iterator and for the body that ended the
loop. -/
theorem for_each_oblivious {α β : Type}
    (body : α → cpl_odbc_t → cpl_return_t × Option β × cpl_odbc_t) (n : Nat)
    (hb : ∀ x, Oblivious (body x))
    (hn : ∀ x o, reconnects (trace_since o (body x o).2.2) ≤ n)
    (hcall : ∀ x o, CPL_IS_OK (body x o).1 = true → (body x o).2.1 ≠ none)
    (xs : List α) (o : cpl_odbc_t) :
    (∀ t, for_each body xs (o.with_trace t)
      = ((for_each body xs o).1, (for_each body xs o).2.1,
          (for_each body xs o).2.2.with_trace (t ++ trace_since o (for_each body xs o).2.2)))
    ∧ (for_each body xs o).2.2.trace = o.trace ++ trace_since o (for_each body xs o).2.2
    ∧ reconnects (trace_since o (for_each body xs o).2.2)
        ≤ n * ((for_each body xs o).2.1.length + 1) := by
  induction xs generalizing o with
  | nil =>
    unfold for_each
    dsimp only
    rw [trace_since_self]
    refine ⟨fun t => by rw [List.append_nil], by rw [List.append_nil], Nat.zero_le _⟩
  | cons x xs ih =>
    have hx := hb x o
    have hxt := (hb x).trace o
    have hxn := hn x o
    have hxc := hcall x o
    unfold for_each
    simp only [hx]
    rcases hB : body x o with ⟨r, call, o1⟩
    rw [hB] at hxt hxn hxc
    dsimp only at hxt hxn hxc ⊢
    by_cases hr : CPL_IS_OK r = true
    · obtain ⟨ih1, ih2, ih3⟩ := ih o1
      have hts := trace_since_trans o o1 (for_each body xs o1).2.2 hxt ih2
      simp only [hr, Bool.not_true, Bool.false_eq_true, if_false, ih1]
      rw [hts]
      refine ⟨fun t => by rw [List.append_assoc], ?_, ?_⟩
      · rw [ih2, hxt, List.append_assoc]
      · rw [reconnects_append]
        cases call with
        | none => exact absurd rfl (hxc hr)
        | some c =>
          have : (Option.toList (some c) ++ (for_each body xs o1).2.1).length
              = (for_each body xs o1).2.1.length + 1 := by
            simp
          rw [this, Nat.mul_add n _ 1, Nat.mul_one]
          omega
    · simp only [hr, Bool.not_false, if_true]
      refine ⟨fun _ => trivial, hxt, ?_⟩
      calc reconnects (trace_since o o1) ≤ n := hxn
        _ ≤ n * (call.toList.length + 1) := Nat.le_mul_of_pos_right _ (Nat.succ_pos _)

open cpl_return_t SQLRETURN

theorem get_all_objects_call_some (H : cpl_h) (flags : Int)
    (it : cpl_object_info_iterator_t) (i : cplxx_object_info_t) (o : cpl_odbc_t)
    (h : CPL_IS_OK (cpl_odbc_get_all_objects.call H flags it i o).1 = true) :
    (cpl_odbc_get_all_objects.call H flags it i o).2.1 ≠ none := by
  unfold cpl_odbc_get_all_objects.call at h ⊢
  generalize (if Int.land flags H.CPL_I_NO_VERSION = 0 then
      match cpl_odbc_get_version o i.id with
      | (r, version, o) => (r, version.getD CPL_VERSION_NONE, o)
    else (CPL_OK, CPL_VERSION_NONE, o)) = X at h ⊢
  rcases X with ⟨r, v, o1⟩
  dsimp only at h ⊢
  by_cases hr : CPL_IS_OK r = true
  · simp [hr]
  · simp [hr] at h

theorem get_all_objects_after_execute (H : cpl_h) (flags : Int)
    (iterator : Option cpl_object_info_iterator_t) (entry : cplxx_object_info_t)
    (hit : ∀ it, iterator = some it → TraceBlind it) :
    AfterExecute (fun o => cpl_odbc_get_all_objects H o flags iterator entry)
      (if Int.land flags H.CPL_I_NO_CREATION_SESSION ≠ 0 then Stmt.get_all_objects_stmt
        else Stmt.get_all_objects_with_session_stmt)
      [] Mutex.get_all_objects_lock (fun out => 3 * (out.length + 1)) := by
  intro b sa ta0 r ka kb o2 ta tb ha hb
  dsimp only
  unfold cpl_odbc_get_all_objects
  dsimp only
  rw [ha, hb]
  have hk : cpl_odbc_get_all_objects.keep H (b.with_driver sa ta0) flags
      = cpl_odbc_get_all_objects.keep H b flags := rfl
  rw [hk]
  cases r with
  | none =>
    exact ⟨_, _, _, [Event.unlock _], rfl, rfl, reconnects_unlock_le _ _, fun _ => rfl⟩
  | some st =>
    dsimp only
    apply SameAfter.after_some
    generalize ({ entry with
        creation_session :=
          if Int.land flags H.CPL_I_NO_CREATION_SESSION = 0 then entry.creation_session
          else CPL_NONE
        version := CPL_VERSION_NONE } : cplxx_object_info_t) = entry1
    rcases hL : fetch_loop (cpl_odbc_get_all_objects.keep H b flags) st.pending st.current o2
      (entry1, []) with ⟨_ | ⟨last, entries⟩, st3, o3⟩
    · simp only [fetch_loop_with_trace, hL, SQLCloseCursor_with_trace,
        mutex_unlock_with_trace]
      exact ⟨_, _, _, [Event.unlock _], rfl, rfl, reconnects_unlock_le _ _⟩
    · simp only [fetch_loop_with_trace, hL, SQLCloseCursor_with_trace,
        mutex_unlock_with_trace]
      split
      · exact ⟨_, _, _, [Event.unlock _], rfl, rfl, reconnects_unlock_le _ _⟩
      · split
        · exact ⟨_, _, _, [Event.unlock _], rfl, rfl, reconnects_unlock_le _ _⟩
        · cases iterator with
          | none => exact ⟨_, _, _, [Event.unlock _], rfl, rfl, reconnects_unlock_le _ _⟩
          | some it =>
            dsimp only
            have hfe := for_each_oblivious (cpl_odbc_get_all_objects.call H flags it) 3
              (fun x => (get_all_objects_call_oblivious H flags it (hit it rfl) x).1)
              (fun x => (get_all_objects_call_oblivious H flags it (hit it rfl) x).2)
              (fun x o => get_all_objects_call_some H flags it x o) entries
              (mutex_unlock (SQLCloseCursor o3 st3).2.2 Mutex.get_all_objects_lock)
            rw [hfe.1, hfe.1]
            simp only [List.append_assoc]
            exact ⟨_, _, _, _, rfl, rfl, by
              rw [reconnects_append, reconnects_unlock, Nat.zero_add]
              exact hfe.2.2⟩

theorem AfterExecute.retries_within {α : Type}
    {op : cpl_odbc_t → cpl_return_t × α × cpl_odbc_t}
    {s : Stmt} {ps : List Param} {m : Mutex} {bound : α → Nat}
    (h : AfterExecute op s ps m bound) : RetriesWithin op (fun out => 3 + bound out) := by
  intro o
  obtain ⟨h1, h2⟩ := h.bounded o
  refine ⟨?_, h.surfaces o⟩
  rw [h2, reconnects_append]
  exact Nat.add_le_add_left h1 _

theorem create_object_retries_within (id : cpl_id_t) (originator name type : String)
    (container : cpl_id_t) (container_version : cpl_version_t) (session : cpl_session_t) :
    RetriesWithin
      (fun o => no_output (cpl_odbc_create_object o id originator name type container
        container_version session))
      (fun _ => 3) := by
  intro o
  dsimp only
  unfold cpl_odbc_create_object no_output
  dsimp only
  generalize (if container = CPL_NONE then Stmt.create_object_insert_stmt
    else Stmt.create_object_insert_container_stmt) = s1
  generalize ([Param.integer id.hi, Param.integer id.lo, Param.varchar 255 (some originator),
      Param.varchar 255 (some name), Param.varchar 100 (some type)] ++
    (if container ≠ CPL_NONE then
      [Param.integer container.hi, Param.integer container.lo,
        Param.integer container_version]
     else [])) = ps1
  have ht1 := SQL_EXECUTE_EXT_trace s1 ps1 3 (mutex_lock o Mutex.create_object_lock)
  have hc1 := SQL_EXECUTE_EXT_reconnects s1 ps1 3 (mutex_lock o Mutex.create_object_lock)
  have hg1 := SQL_EXECUTE_EXT_gives_up s1 ps1 3 (mutex_lock o Mutex.create_object_lock)
  have hl : (mutex_lock o Mutex.create_object_lock).trace
      = o.trace ++ [Event.lock Mutex.create_object_lock] := rfl
  have hls : (mutex_lock o Mutex.create_object_lock).script = o.script := rfl
  rw [hl] at ht1
  rw [hls] at hg1
  rcases hM : SQL_EXECUTE_EXT s1 ps1 3 (mutex_lock o Mutex.create_object_lock)
    with ⟨r1, k1, o2⟩
  rw [hM] at ht1 hc1 hg1
  dsimp only at ht1 hc1 hg1
  cases r1 with
  | none =>
    dsimp only
    refine ⟨?_, fun _ => rfl⟩
    have : (mutex_unlock o2 Mutex.create_object_lock).trace
        = o2.trace ++ [Event.unlock Mutex.create_object_lock] := rfl
    rw [this, ht1]
    simp only [reconnects_append, reconnects_lock, reconnects_unlock]
    omega
  | some st =>
    dsimp only
    have ht2 := SQL_EXECUTE_EXT_trace Stmt.create_object_insert_version_stmt
      [Param.integer id.hi, Param.integer id.lo, Param.integer session.hi,
        Param.integer session.lo] k1 o2
    have hc2 := SQL_EXECUTE_EXT_reconnects Stmt.create_object_insert_version_stmt
      [Param.integer id.hi, Param.integer id.lo, Param.integer session.hi,
        Param.integer session.lo] k1 o2
    rcases hM2 : SQL_EXECUTE_EXT Stmt.create_object_insert_version_stmt
      [Param.integer id.hi, Param.integer id.lo, Param.integer session.hi,
        Param.integer session.lo] k1 o2 with ⟨r2, k2, o3⟩
    rw [hM2] at ht2 hc2
    dsimp only at ht2 hc2
    have hu : (mutex_unlock o3 Mutex.create_object_lock).trace
        = o3.trace ++ [Event.unlock Mutex.create_object_lock] := rfl
    have hcount : reconnects (mutex_unlock o3 Mutex.create_object_lock).trace
        ≤ reconnects o.trace + 3 := by
      rw [hu, ht2, ht1]
      simp only [reconnects_append, reconnects_lock, reconnects_unlock]
      omega
    refine ⟨?_, fun hg => ?_⟩
    · cases r2 <;> exact hcount
    · have := hg1 hg
      cases this

theorem create_object_recovers (id : cpl_id_t) (originator name type : String)
    (container : cpl_id_t) (container_version : cpl_version_t) (session : cpl_session_t) :
    Recovers
      (fun o => no_output (cpl_odbc_create_object o id originator name type container
        container_version session)) := by
  intro o ds hn hds hs
  dsimp only
  unfold cpl_odbc_create_object no_output
  dsimp only
  generalize (if container = CPL_NONE then Stmt.create_object_insert_stmt
    else Stmt.create_object_insert_container_stmt) = s1
  generalize ([Param.integer id.hi, Param.integer id.lo, Param.varchar 255 (some originator),
      Param.varchar 255 (some name), Param.varchar 100 (some type)] ++
    (if container ≠ CPL_NONE then
      [Param.integer container.hi, Param.integer container.lo,
        Param.integer container_version]
     else [])) = ps1
  have hl : mutex_lock (o.inject ds) Mutex.create_object_lock
      = (mutex_lock o Mutex.create_object_lock).inject ds := rfl
  have hs0 : NoTransient (mutex_lock o Mutex.create_object_lock).script := hs
  rw [hl, SQL_EXECUTE_EXT_injected s1 ps1 ds hds hn _ hs0]
  have ht1 := SQL_EXECUTE_EXT_trace s1 ps1 3 (mutex_lock o Mutex.create_object_lock)
  have hscr := SQLExecute_script (mutex_lock o Mutex.create_object_lock) s1 ps1
  have honce := SQL_EXECUTE_EXT_once s1 ps1 3 (mutex_lock o Mutex.create_object_lock) hs0
  rcases hM : SQL_EXECUTE_EXT s1 ps1 3 (mutex_lock o Mutex.create_object_lock)
    with ⟨r1, k1, o2⟩
  rw [hM] at ht1 honce
  dsimp only at ht1 ⊢
  have hk1 : k1 = 3 := congrArg (fun R => R.2.1) honce
  have ho2 : o2 = (SQLExecute (mutex_lock o Mutex.create_object_lock) s1 ps1).2 :=
    congrArg (fun R => R.2.2) honce
  have hs2 : NoTransient o2.script := by
    rw [ho2, hscr]; exact hs0.tail
  subst hk1
  cases r1 with
  | none =>
    dsimp only
    refine ⟨rfl, rfl, rfl, ?_⟩
    have e1 : (mutex_unlock (o2.with_trace ((mutex_lock o Mutex.create_object_lock).trace
          ++ retry_events s1 ds.length
          ++ trace_since (mutex_lock o Mutex.create_object_lock) o2))
        Mutex.create_object_lock).trace
        = (mutex_lock o Mutex.create_object_lock).trace ++ retry_events s1 ds.length
          ++ trace_since (mutex_lock o Mutex.create_object_lock) o2
          ++ [Event.unlock Mutex.create_object_lock] := rfl
    have e2 : (mutex_unlock o2 Mutex.create_object_lock).trace
        = o2.trace ++ [Event.unlock Mutex.create_object_lock] := rfl
    rw [e1, e2, ht1]
    simp only [reconnects_append, reconnects_retry_events]
    omega
  | some st =>
    dsimp only
    rw [SQL_EXECUTE_EXT_with_trace,
      SQL_EXECUTE_EXT_budget_irrelevant _ _ (3 - ds.length) o2 hs2]
    have ht2 := SQL_EXECUTE_EXT_trace Stmt.create_object_insert_version_stmt
      [Param.integer id.hi, Param.integer id.lo, Param.integer session.hi,
        Param.integer session.lo] 3 o2
    rcases hM2 : SQL_EXECUTE_EXT Stmt.create_object_insert_version_stmt
      [Param.integer id.hi, Param.integer id.lo, Param.integer session.hi,
        Param.integer session.lo] 3 o2 with ⟨r2, k2, o3⟩
    rw [hM2] at ht2
    dsimp only at ht2 ⊢
    have e1 : (mutex_unlock (o3.with_trace ((mutex_lock o Mutex.create_object_lock).trace
          ++ retry_events s1 ds.length
          ++ trace_since (mutex_lock o Mutex.create_object_lock) o2
          ++ trace_since o2 o3))
        Mutex.create_object_lock).trace
        = (mutex_lock o Mutex.create_object_lock).trace ++ retry_events s1 ds.length
          ++ trace_since (mutex_lock o Mutex.create_object_lock) o2
          ++ trace_since o2 o3
          ++ [Event.unlock Mutex.create_object_lock] := rfl
    have e2 : (mutex_unlock o3 Mutex.create_object_lock).trace
        = o3.trace ++ [Event.unlock Mutex.create_object_lock] := rfl
    have hcount : reconnects (mutex_unlock (o3.with_trace
          ((mutex_lock o Mutex.create_object_lock).trace
          ++ retry_events s1 ds.length
          ++ trace_since (mutex_lock o Mutex.create_object_lock) o2
          ++ trace_since o2 o3))
        Mutex.create_object_lock).trace
        = reconnects (mutex_unlock o3 Mutex.create_object_lock).trace + ds.length := by
      rw [e1, e2, ht2, ht1]
      simp only [reconnects_append, reconnects_retry_events]
      omega
    cases r2 with
    | none => exact ⟨rfl, rfl, rfl, hcount⟩
    | some st2 => exact ⟨rfl, rfl, rfl, hcount⟩

open cpl_return_t SQLRETURN

theorem get_object_info_read_with_trace (o : cpl_odbc_t) (t : List Event) (id : cpl_id_t)
    (version : cpl_version_t) :
    cpl_odbc_get_object_info.read (o.with_trace t) id version
      = ((cpl_odbc_get_object_info.read o id version).1,
          (cpl_odbc_get_object_info.read o id version).2.1,
          (cpl_odbc_get_object_info.read o id version).2.2.with_trace
            (t ++ trace_since o (cpl_odbc_get_object_info.read o id version).2.2)) :=
  (get_object_info_read_after_execute id version).oblivious o t

theorem get_object_info_recovers (id : cpl_id_t) (version_hint : cpl_version_t) :
    Recovers (fun o => cpl_odbc_get_object_info o id version_hint) := by
  by_cases hv : version_hint = CPL_VERSION_NONE
  · intro o ds hn hds hs
    obtain ⟨g1, g2, g3⟩ := (get_version_after_execute id).recovers o ds hn hds hs
    dsimp only at g1 g2 g3 ⊢
    unfold cpl_odbc_get_object_info
    rw [if_pos hv, if_pos hv]
    have ge := g3.eq
    rcases hG : cpl_odbc_get_version o id with ⟨r, v, o1⟩
    rcases hG' : cpl_odbc_get_version (o.inject ds) id with ⟨r', v', o1'⟩
    rw [hG, hG'] at g1 g2 g3 ge
    dsimp only at g1 g2 g3 ge ⊢
    subst g1 g2
    split
    · exact ⟨rfl, rfl, g3⟩
    · rw [ge, get_object_info_read_with_trace]
      have htr := (get_object_info_read_after_execute id (v'.getD 0)).oblivious.trace o1
      refine ⟨rfl, rfl, rfl, ?_⟩
      dsimp only at htr ⊢
      rw [with_trace_trace, htr, reconnects_append, reconnects_append, g3.2]
      omega
  · intro o ds hn hds hs
    have h := (get_object_info_read_after_execute id version_hint).recovers o ds hn hds hs
    dsimp only at h ⊢
    unfold cpl_odbc_get_object_info
    rw [if_neg hv, if_neg hv]
    exact h

theorem get_object_info_retries_within (id : cpl_id_t) (version_hint : cpl_version_t) :
    RetriesWithin (fun o => cpl_odbc_get_object_info o id version_hint)
      (fun _ => if version_hint = CPL_VERSION_NONE then 6 else 3) := by
  by_cases hv : version_hint = CPL_VERSION_NONE
  · intro o
    obtain ⟨g1, g2⟩ := (get_version_after_execute id).retries_within o
    dsimp only at g1 g2 ⊢
    unfold cpl_odbc_get_object_info
    rw [if_pos hv, if_pos hv]
    rcases hG : cpl_odbc_get_version o id with ⟨r, v, o1⟩
    rw [hG] at g1 g2
    dsimp only at g1 g2 ⊢
    split
    · refine ⟨?_, g2⟩
      show reconnects o1.trace ≤ reconnects o.trace + 6
      omega
    · rename_i hr
      obtain ⟨r1, _⟩ := (get_object_info_read_after_execute id (v.getD 0)).retries_within o1
      dsimp only at r1
      refine ⟨by omega, fun hg => ?_⟩
      have := g2 hg
      subst this
      exact absurd rfl hr
  · intro o
    have h := (get_object_info_read_after_execute id version_hint).retries_within o
    dsimp only at h ⊢
    unfold cpl_odbc_get_object_info
    simp only [if_neg hv]
    exact h

theorem gives_up_injected (ds : List (List cpl_odbc_error_record_t))
    (hds : ∀ d ∈ ds, should_reconnect_due_to_odbc_error (fetch_odbc_error d) = true)
    (k : Nat) (rest : List (Option (List cpl_odbc_error_record_t))) :
    gives_up (k + ds.length) (injected ds ++ rest) = gives_up k rest := by
  induction ds with
  | nil => rfl
  | cons d ds ih =>
    have hd := hds d (List.mem_cons_self _ _)
    have hds2 : ∀ e ∈ ds, should_reconnect_due_to_odbc_error (fetch_odbc_error e) = true :=
      fun e he => hds e (List.mem_cons_of_mem _ he)
    have hlen : k + (d :: ds).length = (k + ds.length) + 1 := by simp; omega
    have hscr : injected (d :: ds) ++ rest = some d :: none :: (injected ds ++ rest) := rfl
    rw [hlen, hscr]
    conv_lhs => unfold gives_up
    rw [if_pos hd]
    exact ih hds2

theorem gives_up_of_failure (k : Nat) (d : List cpl_odbc_error_record_t)
    (rest : List (Option (List cpl_odbc_error_record_t)))
    (h : k = 0 ∨ should_reconnect_due_to_odbc_error (fetch_odbc_error d) = false
      ∨ ∃ e rest2, rest = some e :: rest2) :
    gives_up k (some d :: rest) = true := by
  cases k with
  | zero => rfl
  | succ k =>
    unfold gives_up
    split
    · rename_i hd
      rcases h with h | h | ⟨e, rest2, h⟩
      · cases h
      · rw [hd] at h; cases h
      · subst h; rfl
    · rfl

/-- When the driver lets the execute through, the retrying execute is one `SQLExecute`
and its budget stays as it is. -/
theorem SQL_EXECUTE_EXT_head_none (s : Stmt) (ps : List Param) (k : Nat) (x : cpl_odbc_t)
    (rest : List (Option (List cpl_odbc_error_record_t))) (hscr : x.script = none :: rest) :
    SQL_EXECUTE_EXT s ps k x = ((SQLExecute x s ps).1.toOption, k, (SQLExecute x s ps).2)
      ∧ (SQLExecute x s ps).2.script = rest := by
  have hx := SQLExecute_script x s ps
  rw [hscr] at hx
  have hnt : ∀ d, (SQLExecute x s ps).1 = Except.error d →
      should_reconnect_due_to_odbc_error (fetch_odbc_error d) = false := by
    intro d hd
    rcases SQLExecute_cases x s ps with ⟨e, he, _⟩ | ⟨e, _, hdb, hx2⟩ | ⟨db, rows, _, _, hx2⟩
    · have hm : (driver_next (log x (Event.execute s))).1 = none := by
        unfold driver_next
        rw [log_script, hscr]
      rw [hm] at he
      cases he
    · rw [hx2] at hd
      have : e = d := by injection hd
      subst this
      exact execute_error_not_transient _ _ _ _ _ hdb
    · rw [hx2] at hd
      cases hd
  refine ⟨?_, hx⟩
  cases k with
  | zero =>
    unfold SQL_EXECUTE_EXT
    rcases hE : SQLExecute x s ps with ⟨res, o1⟩
    rw [hE] at hnt
    cases res with
    | ok st => rfl
    | error d =>
      dsimp only
      rw [if_neg (by rw [hnt d rfl]; simp)]
      rfl
  | succ k =>
    unfold SQL_EXECUTE_EXT
    rcases hE : SQLExecute x s ps with ⟨res, o1⟩
    rw [hE] at hnt
    cases res with
    | ok st => rfl
    | error d =>
      dsimp only
      rw [if_neg (by rw [hnt d rfl]; simp)]
      rfl

/-- The two inserts of `cpl_odbc_create_object` draw on one budget: when the first insert
went through after some retries, the second gives up as soon as the rest is used up. -/
theorem create_object_shared_budget (o : cpl_odbc_t) (id : cpl_id_t)
    (originator name type : String) (container : cpl_id_t)
    (container_version : cpl_version_t) (session : cpl_session_t)
    (ds : List (List cpl_odbc_error_record_t))
    (rest : List (Option (List cpl_odbc_error_record_t)))
    (hds : ∀ d ∈ ds, should_reconnect_due_to_odbc_error (fetch_odbc_error d) = true)
    (hn : ds.length ≤ 3) (hs : o.script = injected ds ++ none :: rest)
    (hg : gives_up (3 - ds.length) rest = true) :
    (cpl_odbc_create_object o id originator name type container container_version
      session).1 = CPL_E_STATEMENT_ERROR := by
  unfold cpl_odbc_create_object
  dsimp only
  generalize (if container = CPL_NONE then Stmt.create_object_insert_stmt
    else Stmt.create_object_insert_container_stmt) = s1
  generalize ([Param.integer id.hi, Param.integer id.lo, Param.varchar 255 (some originator),
      Param.varchar 255 (some name), Param.varchar 100 (some type)] ++
    (if container ≠ CPL_NONE then
      [Param.integer container.hi, Param.integer container.lo,
        Param.integer container_version]
     else [])) = ps1
  have ho : mutex_lock o Mutex.create_object_lock
      = ({ mutex_lock o Mutex.create_object_lock with script := none :: rest }
          : cpl_odbc_t).inject ds := by
    rcases o with ⟨db, now, script, trace, mk, lt⟩
    dsimp only at hs
    subst hs
    rfl
  have h3 : 3 = (3 - ds.length) + ds.length := by omega
  rw [ho]
  conv_lhs => rw [h3]
  rw [SQL_EXECUTE_EXT_inject s1 ps1 ds hds]
  obtain ⟨hM, hx⟩ := SQL_EXECUTE_EXT_head_none s1 ps1 (3 - ds.length)
    ((({ mutex_lock o Mutex.create_object_lock with script := none :: rest }
      : cpl_odbc_t)).with_trace
      (({ mutex_lock o Mutex.create_object_lock with script := none :: rest }
      : cpl_odbc_t).trace ++ retry_events s1 ds.length)) rest rfl
  rw [hM]
  generalize (({ mutex_lock o Mutex.create_object_lock with script := none :: rest }
      : cpl_odbc_t)).with_trace
      (({ mutex_lock o Mutex.create_object_lock with script := none :: rest }
      : cpl_odbc_t).trace ++ retry_events s1 ds.length) = x at hx ⊢
  generalize 3 - ds.length = k at hg ⊢
  rcases hE : SQLExecute x s1 ps1 with ⟨res, o1⟩
  rw [hE] at hx
  dsimp only at hx
  cases res with
  | error d => rfl
  | ok st =>
    dsimp only [Except.toOption]
    have hx' : o1.script = rest := hx
    have hg2 := SQL_EXECUTE_EXT_gives_up Stmt.create_object_insert_version_stmt
      [Param.integer id.hi, Param.integer id.lo, Param.integer session.hi,
        Param.integer session.lo] k o1 (by rw [hx']; exact hg)
    rcases hM2 : SQL_EXECUTE_EXT Stmt.create_object_insert_version_stmt
      [Param.integer id.hi, Param.integer id.lo, Param.integer session.hi,
        Param.integer session.lo] k o1 with ⟨r2, k2, o3⟩
    rw [hM2] at hg2
    dsimp only at hg2
    subst hg2
    rfl

open cpl_return_t SQLRETURN

/-- C16 fails as stated: one call of `cpl_odbc_get_object_info` without a version hint
makes four reconnect attempts (three for the execute of the `cpl_odbc_get_version` it
calls, one for its own execute) and returns `CPL_OK`. -/
theorem C16_counterexample :
    (cpl_odbc_get_object_info flapping_link ⟨0, 1⟩ CPL_VERSION_NONE).1 = CPL_OK
      ∧ reconnects (cpl_odbc_get_object_info flapping_link ⟨0, 1⟩
          CPL_VERSION_NONE).2.2.trace = 4 := by
  refine ⟨by decide!, by decide!⟩

/-- C16, amended: each budget is three.  Every retrying execute makes as many reconnect
attempts as it uses up of its budget, and never more; it gives up (the jump to the error
label) when the driver fails the execute with a diagnostic chain that is not a sole 08S01
record, when a reconnect fails, and when the execute fails with a sole 08S01 record after
the budget is used up.  One call of an operation whose executes all draw on its own budget
(`create_object` with its two inserts among them) makes at most three reconnect attempts;
`get_object_info` without a version hint, `get_object_ancestry` and `get_properties` call
`cpl_odbc_get_version`, which has a budget of its own, and make at most six;
`get_all_objects` calls it before each call of the iterator and makes at most three for
itself and three for each of these calls.  Each of these operations returns
`CPL_E_STATEMENT_ERROR` when its first retrying execute gives up, and `create_object` also
when its second insert gives up on what the first left of the budget.  The iterators are
taken not to touch the event log, and `get_object_ancestry` to be called with supported
flags. -/
theorem C16_retry_budget :
    (∀ (s : Stmt) (ps : List Param) (k : Nat) (o : cpl_odbc_t),
      (SQL_EXECUTE_EXT s ps k o).2.1 ≤ k
      ∧ reconnects (SQL_EXECUTE_EXT s ps k o).2.2.trace + (SQL_EXECUTE_EXT s ps k o).2.1
          = reconnects o.trace + k
      ∧ (gives_up k o.script = true → (SQL_EXECUTE_EXT s ps k o).1 = none))
    ∧ (∀ (ds : List (List cpl_odbc_error_record_t)) (d : List cpl_odbc_error_record_t)
        (rest : List (Option (List cpl_odbc_error_record_t))),
        (∀ e ∈ ds, should_reconnect_due_to_odbc_error (fetch_odbc_error e) = true) →
        ds.length ≤ 3 →
        (ds.length = 3 ∨ should_reconnect_due_to_odbc_error (fetch_odbc_error d) = false
          ∨ ∃ e rest2, rest = some e :: rest2) →
        gives_up 3 (injected ds ++ some d :: rest) = true)
    ∧ (∀ session mac_address user pid program cmdline,
        RetriesWithin
          (fun o => no_output (cpl_odbc_create_session o session mac_address user pid
            program cmdline))
          (fun _ => 3))
    ∧ (∀ id originator name type container container_version session,
        RetriesWithin
          (fun o => no_output (cpl_odbc_create_object o id originator name type container
            container_version session))
          (fun _ => 3)
        ∧ ∀ (o : cpl_odbc_t) (ds : List (List cpl_odbc_error_record_t))
            (rest : List (Option (List cpl_odbc_error_record_t))),
            (∀ d ∈ ds, should_reconnect_due_to_odbc_error (fetch_odbc_error d) = true) →
            ds.length ≤ 3 → o.script = injected ds ++ none :: rest →
            gives_up (3 - ds.length) rest = true →
            (cpl_odbc_create_object o id originator name type container container_version
              session).1 = CPL_E_STATEMENT_ERROR)
    ∧ (∀ originator name type,
        RetriesWithin (fun o => cpl_odbc_lookup_object o originator name type) (fun _ => 3))
    ∧ (∀ originator name type flags iterator,
        (∀ it, iterator = some it → TraceBlind it) →
        RetriesWithin
          (fun o => cpl_odbc_lookup_object_ext o originator name type flags iterator)
          (fun _ => 3))
    ∧ (∀ id, RetriesWithin (fun o => cpl_odbc_get_version o id) (fun _ => 3))
    ∧ (∀ from_id from_ver to_id to_ver type,
        RetriesWithin
          (fun o => no_output (cpl_odbc_add_ancestry_edge o from_id from_ver to_id to_ver
            type))
          (fun _ => 3))
    ∧ (∀ object_id version_hint query_object_id query_object_max_version,
        RetriesWithin
          (fun o => cpl_odbc_has_immediate_ancestor o object_id version_hint
            query_object_id query_object_max_version)
          (fun _ => 3))
    ∧ (∀ id version key value,
        RetriesWithin (fun o => no_output (cpl_odbc_add_property o id version key value))
          (fun _ => 3))
    ∧ (∀ id, RetriesWithin (fun o => cpl_odbc_get_session_info o id) (fun _ => 3))
    ∧ (∀ H flags iterator entry,
        (∀ it, iterator = some it → TraceBlind it) →
        RetriesWithin (fun o => cpl_odbc_get_all_objects H o flags iterator entry)
          (fun calls => 3 + 3 * (calls.length + 1)))
    ∧ (∀ id version_hint,
        RetriesWithin (fun o => cpl_odbc_get_object_info o id version_hint)
          (fun _ => if version_hint = CPL_VERSION_NONE then 6 else 3))
    ∧ (∀ id version,
        RetriesWithin (fun o => cpl_odbc_get_version_info o id version) (fun _ => 3))
    ∧ (∀ H id version direction flags iterator,
        Int.land flags (Int.lnot (CPL_ODBC_A_SUPPORTED_FLAGS H)) = 0 →
        (∀ it, iterator = some it → TraceBlind it) →
        RetriesWithin
          (fun o => cpl_odbc_get_object_ancestry H o id version direction flags iterator)
          (fun _ => 6))
    ∧ (∀ id version key iterator,
        (∀ it, iterator = some it → TraceBlind it) →
        RetriesWithin (fun o => cpl_odbc_get_properties o id version key iterator)
          (fun _ => 6))
    ∧ (∀ key value iterator,
        (∀ it, iterator = some it → TraceBlind it) →
        RetriesWithin (fun o => cpl_odbc_lookup_by_property o key value iterator)
          (fun _ => 3)) := by
  refine ⟨fun s ps k o => ?_, fun ds d rest hds hn h => ?_, ?_, ?_, ?_, ?_, ?_, ?_, ?_, ?_, ?_,
    ?_, ?_, ?_, ?_, ?_, ?_⟩
  · have h1 := SQL_EXECUTE_EXT_reconnects s ps k o
    have h2 := SQL_EXECUTE_EXT_trace s ps k o
    refine ⟨by omega, ?_, SQL_EXECUTE_EXT_gives_up s ps k o⟩
    rw [h2, reconnects_append]
    omega
  · have h3 : 3 = (3 - ds.length) + ds.length := by omega
    rw [h3, gives_up_injected ds hds]
    apply gives_up_of_failure
    rcases h with h | h | h
    · left; omega
    · right; left; exact h
    · right; right; exact h
  · exact fun session mac_address user pid program cmdline =>
      (create_session_after_execute session mac_address user pid program
        cmdline).retries_within
  · exact fun id originator name type container container_version session =>
      ⟨create_object_retries_within id originator name type container container_version
        session,
       fun o ds rest hds hn hs hg =>
        create_object_shared_budget o id originator name type container container_version
          session ds rest hds hn hs hg⟩
  · exact fun originator name type =>
      (lookup_object_after_execute originator name type).retries_within
  · exact fun originator name type flags iterator hit =>
      (lookup_object_ext_after_execute originator name type flags iterator
        hit).retries_within
  · exact fun id => (get_version_after_execute id).retries_within
  · exact fun from_id from_ver to_id to_ver type =>
      (add_ancestry_edge_after_execute from_id from_ver to_id to_ver type).retries_within
  · exact fun object_id version_hint query_object_id query_object_max_version =>
      (has_immediate_ancestor_after_execute object_id version_hint query_object_id
        query_object_max_version).retries_within
  · exact fun id version key value =>
      (add_property_after_execute id version key value).retries_within
  · exact fun id => (get_session_info_after_execute id).retries_within
  · exact fun H flags iterator entry hit =>
      (get_all_objects_after_execute H flags iterator entry hit).retries_within
  · exact fun id version_hint => get_object_info_retries_within id version_hint
  · exact fun id version => (get_version_info_after_execute id version).retries_within
  · exact fun H id version direction flags iterator hflags hit =>
      (get_object_ancestry_after_execute H id version direction flags iterator hflags
        hit).retries_within
  · exact fun id version key iterator hit =>
      (get_properties_after_execute id version key iterator hit).retries_within
  · exact fun key value iterator hit =>
      (lookup_by_property_after_execute key value iterator hit).retries_within

/-- C16 at a concrete input: the first insert of `cpl_odbc_create_object` goes through
after two retries, and the second gives up at its second link failure, the budget of three
being used up. -/
theorem C16_witness :
    (cpl_odbc_create_object
        ((connected Store.empty 0).with_driver
          (injected [link_failure, link_failure]
            ++ none :: [some link_failure, none, some link_failure]) [])
        ⟨0, 1⟩ "o" "n" "t" CPL_NONE 0 ⟨0, 9⟩).1 = CPL_E_STATEMENT_ERROR :=
  (C16_retry_budget.2.2.2.1 ⟨0, 1⟩ "o" "n" "t" CPL_NONE 0 ⟨0, 9⟩).2
    ((connected Store.empty 0).with_driver
      (injected [link_failure, link_failure]
        ++ none :: [some link_failure, none, some link_failure]) [])
    [link_failure, link_failure] [some link_failure, none, some link_failure]
    (by decide) (by decide) rfl (by decide)

open cpl_return_t SQLRETURN

/-- C17 fails as stated.  `cpl_odbc_create_version` executes without the retry: one
injected link failure turns its `CPL_OK` into `CPL_E_STATEMENT_ERROR`.  The budget is three
for injected and other link failures together: `cpl_odbc_create_session` recovers from one
link failure of the driver, and no longer with three more injected.  And
`cpl_odbc_get_object_ancestry` with an unsupported flag executes nothing, so that it does
not retry. -/
theorem C17_counterexample :
    ((cpl_odbc_create_version one_object ⟨0, 1⟩ 1 ⟨0, 9⟩).1 = CPL_OK
      ∧ (cpl_odbc_create_version (one_object.inject [link_failure])
          ⟨0, 1⟩ 1 ⟨0, 9⟩).1 = CPL_E_STATEMENT_ERROR)
    ∧ ((cpl_odbc_create_session ((connected Store.empty 0).inject [link_failure])
          ⟨0, 1⟩ none "u" 7 "p" "c").1 = CPL_OK
      ∧ (cpl_odbc_create_session
          (((connected Store.empty 0).inject [link_failure]).inject
            [link_failure, link_failure, link_failure])
          ⟨0, 1⟩ none "u" 7 "p" "c").1 = CPL_E_STATEMENT_ERROR)
    ∧ reconnects (cpl_odbc_get_object_ancestry sample_header
          ((connected Store.empty 0).inject [link_failure]) ⟨0, 1⟩ 5 0 8 none).2.2.trace
        = 0 := by
  refine ⟨⟨by decide, by decide⟩, ⟨by decide, by decide⟩, by decide!⟩

/-- C17, amended: every backend operation other than `cpl_odbc_create_version` recovers
from up to three injected link failures.  If the next `n ≤ 3` executes fail with a sole
08S01 record, each reconnect succeeds and the driver reports no other transient link
failure, then the operation returns the same code and the same output and leaves the same
backend (the same store) as without the injected failures, up to the event log, in which
there are `n` more reconnects.  The iterators are taken not to touch the event log, and
`get_object_ancestry` to be called with supported flags (otherwise it executes nothing). -/
theorem C17_reconnect_idempotence :
    (∀ session mac_address user pid program cmdline,
        Recovers
          (fun o => no_output (cpl_odbc_create_session o session mac_address user pid
            program cmdline)))
    ∧ (∀ id originator name type container container_version session,
        Recovers
          (fun o => no_output (cpl_odbc_create_object o id originator name type container
            container_version session)))
    ∧ (∀ originator name type,
        Recovers (fun o => cpl_odbc_lookup_object o originator name type))
    ∧ (∀ originator name type flags iterator,
        (∀ it, iterator = some it → TraceBlind it) →
        Recovers (fun o => cpl_odbc_lookup_object_ext o originator name type flags iterator))
    ∧ (∀ id, Recovers (fun o => cpl_odbc_get_version o id))
    ∧ (∀ from_id from_ver to_id to_ver type,
        Recovers
          (fun o => no_output (cpl_odbc_add_ancestry_edge o from_id from_ver to_id to_ver
            type)))
    ∧ (∀ object_id version_hint query_object_id query_object_max_version,
        Recovers
          (fun o => cpl_odbc_has_immediate_ancestor o object_id version_hint
            query_object_id query_object_max_version))
    ∧ (∀ id version key value,
        Recovers (fun o => no_output (cpl_odbc_add_property o id version key value)))
    ∧ (∀ id, Recovers (fun o => cpl_odbc_get_session_info o id))
    ∧ (∀ H flags iterator entry,
        (∀ it, iterator = some it → TraceBlind it) →
        Recovers (fun o => cpl_odbc_get_all_objects H o flags iterator entry))
    ∧ (∀ id version_hint, Recovers (fun o => cpl_odbc_get_object_info o id version_hint))
    ∧ (∀ id version, Recovers (fun o => cpl_odbc_get_version_info o id version))
    ∧ (∀ H id version direction flags iterator,
        Int.land flags (Int.lnot (CPL_ODBC_A_SUPPORTED_FLAGS H)) = 0 →
        (∀ it, iterator = some it → TraceBlind it) →
        Recovers
          (fun o => cpl_odbc_get_object_ancestry H o id version direction flags iterator))
    ∧ (∀ id version key iterator,
        (∀ it, iterator = some it → TraceBlind it) →
        Recovers (fun o => cpl_odbc_get_properties o id version key iterator))
    ∧ (∀ key value iterator,
        (∀ it, iterator = some it → TraceBlind it) →
        Recovers (fun o => cpl_odbc_lookup_by_property o key value iterator)) := by
  refine ⟨?_, ?_, ?_, ?_, ?_, ?_, ?_, ?_, ?_, ?_, ?_, ?_, ?_, ?_, ?_⟩
  · exact fun session mac_address user pid program cmdline =>
      (create_session_after_execute session mac_address user pid program cmdline).recovers
  · exact fun id originator name type container container_version session =>
      create_object_recovers id originator name type container container_version session
  · exact fun originator name type =>
      (lookup_object_after_execute originator name type).recovers
  · exact fun originator name type flags iterator hit =>
      (lookup_object_ext_after_execute originator name type flags iterator hit).recovers
  · exact fun id => (get_version_after_execute id).recovers
  · exact fun from_id from_ver to_id to_ver type =>
      (add_ancestry_edge_after_execute from_id from_ver to_id to_ver type).recovers
  · exact fun object_id version_hint query_object_id query_object_max_version =>
      (has_immediate_ancestor_after_execute object_id version_hint query_object_id
        query_object_max_version).recovers
  · exact fun id version key value =>
      (add_property_after_execute id version key value).recovers
  · exact fun id => (get_session_info_after_execute id).recovers
  · exact fun H flags iterator entry hit =>
      (get_all_objects_after_execute H flags iterator entry hit).recovers
  · exact fun id version_hint => get_object_info_recovers id version_hint
  · exact fun id version => (get_version_info_after_execute id version).recovers
  · exact fun H id version direction flags iterator hflags hit =>
      (get_object_ancestry_after_execute H id version direction flags iterator hflags
        hit).recovers
  · exact fun id version key iterator hit =>
      (get_properties_after_execute id version key iterator hit).recovers
  · exact fun key value iterator hit =>
      (lookup_by_property_after_execute key value iterator hit).recovers


open cpl_return_t SQLRETURN

/-- C17 at a concrete input: `cpl_odbc_get_version` of the one object of a backend whose
driver is otherwise faultless, with two link failures injected. -/
theorem C17_witness :
    (cpl_odbc_get_version ((flapping_link.with_driver [] []).inject
        [link_failure, link_failure]) ⟨0, 1⟩).1
      = (cpl_odbc_get_version (flapping_link.with_driver [] []) ⟨0, 1⟩).1
    ∧ (cpl_odbc_get_version ((flapping_link.with_driver [] []).inject
        [link_failure, link_failure]) ⟨0, 1⟩).2.1
      = (cpl_odbc_get_version (flapping_link.with_driver [] []) ⟨0, 1⟩).2.1
    ∧ RetriedFrom 2
        (cpl_odbc_get_version ((flapping_link.with_driver [] []).inject
          [link_failure, link_failure]) ⟨0, 1⟩).2.2
        (cpl_odbc_get_version (flapping_link.with_driver [] []) ⟨0, 1⟩).2.2 :=
  C17_reconnect_idempotence.2.2.2.2.1 ⟨0, 1⟩ (flapping_link.with_driver [] [])
    [link_failure, link_failure] (by decide) (by decide) (fun _ h => nomatch h)

/-! ## Creation and enumeration of objects -/

/-- C26 on the code: the object (0,2) was created without a container (its container
columns are NULL), yet `get_all_objects` without `CPL_I_NO_CREATION_SESSION` delivers it
with the container id (0,9) of the row before it; its container version is
`CPL_VERSION_NONE`.  With `CPL_I_NO_CREATION_SESSION` the same object is delivered with
the container id `CPL_NONE`. -/
theorem C26_stale_container_id :
    three_objects.db.objects.map
        (fun o => (o.id, o.container_id_hi, o.container_id_lo, o.container_ver))
      = [(⟨0, 9⟩, none, none, none), (⟨0, 1⟩, some 0, some 9, some 0),
          (⟨0, 2⟩, none, none, none)]
    ∧ (cpl_odbc_get_all_objects sample_header three_objects 0 (some accept_all_objects)
        sample_entry).1 = CPL_OK
    ∧ (cpl_odbc_get_all_objects sample_header three_objects 0 (some accept_all_objects)
        sample_entry).2.1.map (fun i => (i.id, i.container_id, i.container_version))
      = [(⟨0, 9⟩, CPL_NONE, CPL_VERSION_NONE), (⟨0, 1⟩, ⟨0, 9⟩, 0),
          (⟨0, 2⟩, ⟨0, 9⟩, CPL_VERSION_NONE)]
    ∧ (cpl_odbc_get_all_objects sample_header three_objects
        sample_header.CPL_I_NO_CREATION_SESSION (some accept_all_objects)
        sample_entry).2.1.map (fun i => (i.id, i.container_id, i.container_version))
      = [(⟨0, 9⟩, CPL_NONE, CPL_VERSION_NONE), (⟨0, 1⟩, ⟨0, 9⟩, 0),
          (⟨0, 2⟩, CPL_NONE, CPL_VERSION_NONE)] := by
  refine ⟨by decide!, by decide!, by decide!, by decide!⟩

open cpl_return_t SQLRETURN

/-- The insert of an object row fails on a store that has a row with the id already. -/
theorem create_object_stmt_existing (db : Store) (now : Nat) (id : cpl_id_t)
    (originator name type : String) (container : cpl_id_t) (cv : cpl_version_t)
    (h : db.has_object id = true) :
    ∃ d, db.execute now
      (if container = CPL_NONE then Stmt.create_object_insert_stmt
        else Stmt.create_object_insert_container_stmt)
      ([Param.integer id.hi, Param.integer id.lo, Param.varchar 255 (some originator),
          Param.varchar 255 (some name), Param.varchar 100 (some type)] ++
        (if container ≠ CPL_NONE then
          [Param.integer container.hi, Param.integer container.lo, Param.integer cv]
         else [])) = Except.error d := by
  by_cases hc : container = CPL_NONE
  · simp only [hc, if_true, ne_eq, not_true_eq_false, if_false, List.append_nil]
    simp only [Store.execute, sql_create_object_insert, sql_insert_object, mk_id_cast]
    rw [h]
    split <;> exact ⟨_, rfl⟩
  · simp only [hc, if_false, ne_eq, not_false_eq_true, if_true, List.cons_append,
      List.nil_append]
    simp only [Store.execute, sql_create_object_insert_container, sql_insert_object,
      mk_id_cast]
    rw [h]
    split <;> exact ⟨_, rfl⟩

/-- On a store that holds an object row for the id, `create_object` returns
`CPL_E_STATEMENT_ERROR` after its first insert and leaves the database as it was. -/
theorem create_object_existing (odbc : cpl_odbc_t) (id : cpl_id_t)
    (originator name type : String) (container : cpl_id_t) (cv : cpl_version_t)
    (session : cpl_session_t) (h : odbc.db.has_object id = true) :
    (cpl_odbc_create_object odbc id originator name type container cv session).1
        = CPL_E_STATEMENT_ERROR
      ∧ Advances odbc
        (cpl_odbc_create_object odbc id originator name type container cv session).2 := by
  obtain ⟨d, hd⟩ := create_object_stmt_existing odbc.db odbc.now id originator name type
    container cv h
  generalize hR : cpl_odbc_create_object odbc id originator name type container cv session
    = R
  unfold cpl_odbc_create_object at hR
  dsimp only at hR
  have hl := Advances.lock odbc Mutex.create_object_lock
  generalize hstmt : (if container = CPL_NONE then Stmt.create_object_insert_stmt
    else Stmt.create_object_insert_container_stmt) = stmt at hR hd
  generalize hps : [Param.integer id.hi, Param.integer id.lo,
      Param.varchar 255 (some originator), Param.varchar 255 (some name),
      Param.varchar 100 (some type)] ++
    (if container ≠ CPL_NONE then
      [Param.integer container.hi, Param.integer container.lo, Param.integer cv]
     else []) = ps at hR hd
  rcases SQL_EXECUTE_EXT_cases stmt ps 3 (mutex_lock odbc Mutex.create_object_lock)
    with ⟨h1, h2⟩ | ⟨db1, rows1, hx1, _, _⟩
  · rcases hE : SQL_EXECUTE_EXT stmt ps 3 (mutex_lock odbc Mutex.create_object_lock)
      with ⟨a, n, o2⟩
    rw [hE] at hR h1 h2
    dsimp only at h1 h2
    subst h1
    dsimp only at hR
    subst hR
    exact ⟨rfl, (hl.trans h2).trans (Advances.unlock o2 Mutex.create_object_lock)⟩
  · simp only [mutex_lock_db, mutex_lock_now] at hx1
    rw [hd] at hx1
    exact Except.noConfusion hx1

/-- The codes of `create_object`. -/
theorem create_object_codes (odbc : cpl_odbc_t) (id : cpl_id_t)
    (originator name type : String) (container : cpl_id_t) (cv : cpl_version_t)
    (session : cpl_session_t) :
    (cpl_odbc_create_object odbc id originator name type container cv session).1 = CPL_OK
      ∨ (cpl_odbc_create_object odbc id originator name type container cv session).1
        = CPL_E_STATEMENT_ERROR := by
  unfold cpl_odbc_create_object
  dsimp only
  repeat' split
  all_goals first | exact Or.inl rfl | exact Or.inr rfl

/-- C21 on the code: the second of two `create_object` calls with the id (0,1) returns
`CPL_E_STATEMENT_ERROR`, not `CPL_E_ALREADY_EXISTS`, after the first returned `CPL_OK`;
this holds with the same and with other arguments. -/
theorem C21_counterexample :
    (cpl_odbc_create_object (connected Store.empty 0)
        ⟨0, 1⟩ "o" "n" "t" CPL_NONE CPL_VERSION_NONE ⟨0, 5⟩).1 = CPL_OK
    ∧ (cpl_odbc_create_object one_object
        ⟨0, 1⟩ "o" "n" "t" CPL_NONE CPL_VERSION_NONE ⟨0, 5⟩).1 = CPL_E_STATEMENT_ERROR
    ∧ (cpl_odbc_create_object one_object
        ⟨0, 1⟩ "p" "m" "u" CPL_NONE CPL_VERSION_NONE ⟨0, 6⟩).1 = CPL_E_STATEMENT_ERROR
    ∧ ¬ ((cpl_odbc_create_object (connected Store.empty 0)
          ⟨0, 1⟩ "o" "n" "t" CPL_NONE CPL_VERSION_NONE ⟨0, 5⟩).1 = CPL_E_ALREADY_EXISTS
        ∨ (cpl_odbc_create_object one_object
          ⟨0, 1⟩ "p" "m" "u" CPL_NONE CPL_VERSION_NONE ⟨0, 6⟩).1 = CPL_E_ALREADY_EXISTS) := by
  refine ⟨by decide!, by decide!, by decide!, ?_⟩
  rw [show (cpl_odbc_create_object (connected Store.empty 0)
        ⟨0, 1⟩ "o" "n" "t" CPL_NONE CPL_VERSION_NONE ⟨0, 5⟩).1 = CPL_OK from by decide!,
    show (cpl_odbc_create_object one_object
        ⟨0, 1⟩ "p" "m" "u" CPL_NONE CPL_VERSION_NONE ⟨0, 6⟩).1 = CPL_E_STATEMENT_ERROR
      from by decide!]
  decide

/-- C21, amended: of two `create_object` calls with the same id on one backend, one after
the other and with any other arguments, when the first returns `CPL_OK` the second returns
`CPL_E_STATEMENT_ERROR` and leaves the database as the first left it; neither returns
`CPL_E_ALREADY_EXISTS`, for every behaviour of the driver. -/
theorem C21_second_create_object_fails (odbc : cpl_odbc_t) (id : cpl_id_t)
    (originator name type originator2 name2 type2 : String) (container container2 : cpl_id_t)
    (cv cv2 : cpl_version_t) (session session2 : cpl_session_t)
    (h : (cpl_odbc_create_object odbc id originator name type container cv session).1
      = CPL_OK) :
    (cpl_odbc_create_object
        (cpl_odbc_create_object odbc id originator name type container cv session).2
        id originator2 name2 type2 container2 cv2 session2).1 = CPL_E_STATEMENT_ERROR
    ∧ (cpl_odbc_create_object
        (cpl_odbc_create_object odbc id originator name type container cv session).2
        id originator2 name2 type2 container2 cv2 session2).2.db
      = (cpl_odbc_create_object odbc id originator name type container cv session).2.db
    ∧ (cpl_odbc_create_object odbc id originator name type container cv session).1
      ≠ CPL_E_ALREADY_EXISTS
    ∧ (cpl_odbc_create_object
        (cpl_odbc_create_object odbc id originator name type container cv session).2
        id originator2 name2 type2 container2 cv2 session2).1 ≠ CPL_E_ALREADY_EXISTS := by
  have hok := create_object_ok odbc id originator name type container cv session h
  have hobj : (cpl_odbc_create_object odbc id originator name type container cv
      session).2.db.has_object id = true := by
    rw [hok.2.2.2.2.2.1]
    simp only [Store.has_object, created_object_row, List.any_append, List.any_cons,
      List.any_nil, Bool.or_false, Bool.or_eq_true, decide_eq_true_eq]
    right
    split <;> rfl
  have h2 := create_object_existing _ id originator2 name2 type2 container2 cv2 session2 hobj
  refine ⟨h2.1, h2.2.1, ?_, ?_⟩
  · rw [h]; exact fun hh => cpl_return_t.noConfusion hh
  · rw [h2.1]; exact fun hh => cpl_return_t.noConfusion hh

/-- C21 at the empty store: the first call creates (0,1), the second call with the same
id fails. -/
theorem C21_witness :
    (cpl_odbc_create_object (connected Store.empty 0)
        ⟨0, 1⟩ "o" "n" "t" CPL_NONE CPL_VERSION_NONE ⟨0, 5⟩).1 = CPL_OK
    ∧ (cpl_odbc_create_object
        (cpl_odbc_create_object (connected Store.empty 0)
          ⟨0, 1⟩ "o" "n" "t" CPL_NONE CPL_VERSION_NONE ⟨0, 5⟩).2
        ⟨0, 1⟩ "p" "m" "u" ⟨0, 1⟩ 0 ⟨0, 6⟩).1 = CPL_E_STATEMENT_ERROR :=
  ⟨by decide!,
    (C21_second_create_object_fails (connected Store.empty 0) ⟨0, 1⟩ "o" "n" "t" "p" "m" "u"
      CPL_NONE ⟨0, 1⟩ CPL_VERSION_NONE 0 ⟨0, 5⟩ ⟨0, 6⟩ (by decide!)).1⟩

/-- C22 on the code: on the store that holds the object row of (0,1) and no version of it,
`create_object` with the same id returns `CPL_E_STATEMENT_ERROR` and the store still has
no version 0 of (0,1); `create_version` with version 0 is what adds it. -/
theorem C22_counterexample :
    orphan_object.db.has_object ⟨0, 1⟩ = true
    ∧ orphan_object.db.has_version ⟨0, 1⟩ 0 = false
    ∧ (cpl_odbc_create_object orphan_object
        ⟨0, 1⟩ "o" "n" "t" CPL_NONE CPL_VERSION_NONE ⟨0, 5⟩).1 = CPL_E_STATEMENT_ERROR
    ∧ (cpl_odbc_create_object orphan_object
        ⟨0, 1⟩ "o" "n" "t" CPL_NONE CPL_VERSION_NONE ⟨0, 5⟩).2.db.has_version ⟨0, 1⟩ 0
      = false
    ∧ (cpl_odbc_create_version orphan_object ⟨0, 1⟩ 0 ⟨0, 5⟩).1 = CPL_OK
    ∧ (cpl_odbc_create_version orphan_object ⟨0, 1⟩ 0 ⟨0, 5⟩).2.db.has_version ⟨0, 1⟩ 0
      = true := by
  refine ⟨by decide!, by decide!, by decide!, by decide!, by decide!, by decide!⟩

/-- C22, amended: on every store that holds an object row for the id but no version 0 of
it, `create_object` with the same id (and any other arguments, for every behaviour of the
driver) returns `CPL_E_STATEMENT_ERROR` and leaves the database as it was: the objects
table is unchanged and there is still no version 0 of the id. -/
theorem C22_orphan_stays (odbc : cpl_odbc_t) (id : cpl_id_t)
    (originator name type : String) (container : cpl_id_t) (cv : cpl_version_t)
    (session : cpl_session_t) (h : odbc.db.has_object id = true)
    (hv : odbc.db.has_version id 0 = false) :
    (cpl_odbc_create_object odbc id originator name type container cv session).1
        = CPL_E_STATEMENT_ERROR
    ∧ (cpl_odbc_create_object odbc id originator name type container cv session).2.db
        = odbc.db
    ∧ (cpl_odbc_create_object odbc id originator name type container cv session).2.db.objects
        = odbc.db.objects
    ∧ (cpl_odbc_create_object odbc id originator name type container cv
        session).2.db.has_version id 0 = false := by
  have h2 := create_object_existing odbc id originator name type container cv session h
  refine ⟨h2.1, h2.2.1, ?_, ?_⟩
  · rw [h2.2.1]
  · rw [h2.2.1]; exact hv

/-- C22 at the orphan object (0,1). -/
theorem C22_witness :
    (cpl_odbc_create_object orphan_object
        ⟨0, 1⟩ "o" "n" "t" CPL_NONE CPL_VERSION_NONE ⟨0, 5⟩).2.db = orphan_object.db :=
  (C22_orphan_stays orphan_object ⟨0, 1⟩ "o" "n" "t" CPL_NONE CPL_VERSION_NONE ⟨0, 5⟩
    (by decide!) (by decide!)).2.1

open cpl_return_t SQLRETURN

/-! ## The helpers of the RDF backend -/

theorem parse_xml_value_loop_ignored (cs : List xmlNode) (result_set : Option RDFResultSet)
    (found : Bool) (out : RDFValue)
    (h : ∀ c ∈ cs, c.name = "text" ∨ c.name = "comment") :
    cpl_rdf_parse_xml_value.loop cs result_set found out
      = some (if found then CPL_OK else CPL_E_BACKEND_INTERNAL_ERROR, result_set, out) := by
  induction cs with
  | nil => rfl
  | cons c cs ih =>
    have hc := h c (List.mem_cons_self _ _)
    have ih2 := ih (fun x hx => h x (List.mem_cons_of_mem _ hx))
    unfold cpl_rdf_parse_xml_value.loop
    rcases hc with hc | hc
    · rw [if_pos hc]; exact ih2
    · by_cases ht : c.name = "text"
      · rw [if_pos ht]; exact ih2
      · rw [if_neg ht, if_pos hc]; exact ih2

/-- C27 on the code: a `<binding>` element without a `<uri>` and without a `<literal>`
child (no children, or children named `text` and `comment` only) is accepted:
`cpl_rdf_parse_xml_value` returns `CPL_OK`, reports nothing and leaves `*out` as it was.
The claim says `CPL_E_BACKEND_INTERNAL_ERROR`. -/
theorem C27_binding_without_value_accepted (cur : xmlNode)
    (result_set : Option RDFResultSet) (out : RDFValue)
    (h : ∀ c ∈ cur.children, c.name = "text" ∨ c.name = "comment") :
    cpl_rdf_parse_xml_value cur result_set out = some (CPL_OK, result_set, out) := by
  unfold cpl_rdf_parse_xml_value
  rw [parse_xml_value_loop_ignored _ _ _ _ h]
  rfl

/-- C27 at concrete inputs: the binding without children and the binding with white space
and a comment. -/
theorem C27_witness :
    cpl_rdf_parse_xml_value empty_binding none sample_value
        = some (CPL_OK, none, sample_value)
      ∧ cpl_rdf_parse_xml_value blank_binding (some ⟨[]⟩) sample_value
        = some (CPL_OK, some ⟨[]⟩, sample_value) :=
  ⟨C27_binding_without_value_accepted empty_binding none sample_value
      (fun _ h => nomatch h),
    C27_binding_without_value_accepted blank_binding (some ⟨[]⟩) sample_value (by
      intro c hc
      simp only [blank_binding, xmlNode.children, List.mem_cons, List.mem_singleton,
        List.not_mem_nil, or_false] at hc
      rcases hc with rfl | rfl
      · left; rfl
      · right; rfl)⟩

open cpl_return_t SQLRETURN

theorem char_buffer.store_at_end (w : List Nat) (rest : char_buffer) (bytes : List Nat)
    (h : bytes.length ≤ rest.length) :
    char_buffer.store (w.map some ++ rest) w.length bytes
      = some ((w ++ bytes).map some ++ rest.drop bytes.length) := by
  unfold char_buffer.store
  rw [if_pos (by simp; omega)]
  congr 1
  have h1 : List.take w.length (List.map some w ++ rest) = List.map some w := by
    rw [List.take_append_of_le_length (by simp)]
    rw [List.take_of_length_le (by simp)]
  have h2 : List.drop (w.length + bytes.length) (List.map some w ++ rest)
      = List.drop bytes.length rest := by
    have : w.length + bytes.length = (List.map some w).length + bytes.length := by simp
    rw [this, List.drop_append]
  rw [h1, h2, List.map_append]

theorem char_buffer.to_string_written (w : List Nat) (rest : char_buffer)
    (h : ∀ b ∈ w, b ≠ 0) :
    char_buffer.to_string ((w ++ [0]).map some ++ rest) = some w := by
  induction w with
  | nil => simp [char_buffer.to_string]
  | cons b w ih =>
    have hb := h b (List.mem_cons_self _ _)
    have ih2 := ih (fun x hx => h x (List.mem_cons_of_mem _ hx))
    show char_buffer.to_string (some b :: (List.map some (w ++ [0]) ++ rest)) = _
    rw [char_buffer.to_string, if_neg hb, ih2]
    rfl

theorem hex_digit_ne_zero (d : Nat) : hex_digit d ≠ 0 := by
  unfold hex_digit
  split <;> omega

theorem sprintf_02x_byte (char_signed : Bool) (b : Nat) (hb : b ≤ 255)
    (h : char_signed = false ∨ b < 128) :
    sprintf_02x (char_to_int char_signed b) = two_hex_digits b := by
  have hc : char_to_int char_signed b = (b : Int) := by
    unfold char_to_int
    rcases h with h | h
    · simp [h]
    · rw [if_neg (by omega)]
  have hn : ((b : Int) % 4294967296).toNat = b := by omega
  unfold sprintf_02x
  rw [hc, hn]
  unfold two_hex_digits
  by_cases h16 : b < 16
  · have h0 : b / 16 = 0 := by omega
    have h1 : b % 16 = b := by omega
    simp [hex_digits, h16, h0, h1, hex_digit]
  · have h2 : b / 16 < 16 := by omega
    simp [hex_digits, h16, h2]

theorem hex_string_loop_spec (char_signed : Bool) (s : List Nat) :
    ∀ (w : List Nat) (rest : char_buffer) (p : Nat),
      w.length = 2 * p → 2 * s.length + 1 ≤ rest.length →
      (∀ b ∈ s, b ≤ 255 ∧ (char_signed = false ∨ b < 128)) →
      ∃ rest2, rest2.length + 2 * s.length = rest.length
        ∧ cpl_rdf_hex_string.loop char_signed s p (w.map some ++ rest)
          = some ((w ++ s.flatMap two_hex_digits).map some ++ rest2) := by
  induction s with
  | nil =>
    intro w rest p _ _ _
    exact ⟨rest, by simp, by simp [cpl_rdf_hex_string.loop]⟩
  | cons c s ih =>
    intro w rest p hw hr hs
    have hc := hs c (List.mem_cons_self _ _)
    have hs2 : ∀ b ∈ s, b ≤ 255 ∧ (char_signed = false ∨ b < 128) :=
      fun x hx => hs x (List.mem_cons_of_mem _ hx)
    simp only [List.length_cons] at hr
    unfold cpl_rdf_hex_string.loop
    rw [sprintf_02x_byte char_signed c hc.1 hc.2, ← hw,
      char_buffer.store_at_end w rest _ (by simp [two_hex_digits]; omega)]
    dsimp only
    have hsplit : List.map some (w ++ (two_hex_digits c ++ [0]))
        ++ List.drop (two_hex_digits c ++ [0]).length rest
        = List.map some (w ++ two_hex_digits c) ++ (some 0 :: List.drop 3 rest) := by
      simp [two_hex_digits]
    rw [hsplit]
    obtain ⟨rest2, hl, heq⟩ := ih (w ++ two_hex_digits c) (some 0 :: List.drop 3 rest) (p + 1)
      (by simp [two_hex_digits]; omega) (by simp; omega) hs2
    refine ⟨rest2, ?_, ?_⟩
    · simp only [List.length_cons, List.length_drop] at hl ⊢
      omega
    · rw [heq]
      simp

theorem two_hex_digits_flatMap_length (s : List Nat) :
    (s.flatMap two_hex_digits).length = 2 * s.length := by
  induction s with
  | nil => rfl
  | cons c s ih =>
    simp only [List.flatMap_cons, List.length_append, List.length_cons, ih]
    simp [two_hex_digits]
    omega

/-- Where `char` is unsigned, and for bytes below 0x80 where it is signed,
`cpl_rdf_hex_string` gives the two lowercase hexadecimal digits of each byte. -/
theorem hex_string_of_nonnegative_chars (char_signed : Bool) (s : List Nat)
    (hs : ∀ b ∈ s, b ≤ 255 ∧ (char_signed = false ∨ b < 128)) :
    cpl_rdf_hex_string char_signed (some s) = some (s.flatMap two_hex_digits) := by
  unfold cpl_rdf_hex_string
  dsimp only
  obtain ⟨rest2, hl, heq⟩ := hex_string_loop_spec char_signed s []
    (List.replicate (4 + s.length * 2) none) 0 rfl (by simp; omega) hs
  simp only [List.map_nil, List.nil_append] at heq
  rw [heq]
  dsimp only
  have hlen := two_hex_digits_flatMap_length s
  simp only [List.length_replicate] at hl
  rw [← hlen, char_buffer.store_at_end _ rest2 [0] (by simp; omega)]
  dsimp only
  apply char_buffer.to_string_written
  intro b hb
  simp only [List.mem_flatMap, two_hex_digits, List.mem_cons, List.mem_singleton,
    List.not_mem_nil, or_false] at hb
  obtain ⟨a, _, rfl | rfl⟩ := hb <;> exact hex_digit_ne_zero _

/-- C28 on the code, where `char` is signed: the byte 0x80 is printed as `ffffff80`, of
which the next `sprintf` leaves `ff`, so the strings 0x80 "AAA" and 0x90 "AAA" both give
"ff414141", not "80414141" and "90414141"; for the string of the one byte 0x80 the nine
characters do not fit the array of six.  Where `char` is unsigned the result is
"80414141". -/
theorem C28_hex_string_of_negative_char :
    cpl_rdf_hex_string true (some [128, 65, 65, 65])
        = some [102, 102, 52, 49, 52, 49, 52, 49]
    ∧ cpl_rdf_hex_string true (some [144, 65, 65, 65])
        = some [102, 102, 52, 49, 52, 49, 52, 49]
    ∧ two_hex_digits 128 = [56, 48]
    ∧ cpl_rdf_hex_string true (some [128]) = none
    ∧ cpl_rdf_hex_string false (some [128, 65, 65, 65])
        = some [56, 48, 52, 49, 52, 49, 52, 49] := by
  refine ⟨by decide, by decide, by decide, by decide, by decide⟩

open cpl_return_t SQLRETURN

theorem escape_switch_length (c : Nat) :
    (escape_switch c).length = 1 + (if to_escape_char c = true then 1 else 0) := by
  unfold escape_switch to_escape_char
  split_ifs <;> simp_all

theorem escape_switch_ne_zero (c : Nat) (hc : c ≠ 0) : ∀ b ∈ escape_switch c, b ≠ 0 := by
  intro b hb
  unfold escape_switch at hb
  split_ifs at hb <;> simp at hb <;> omega

theorem escape_switch_flatMap_length (s : List Nat) :
    (s.flatMap escape_switch).length = s.length + to_escape s := by
  induction s with
  | nil => rfl
  | cons c s ih =>
    simp only [List.flatMap_cons, List.length_append, List.length_cons, ih,
      escape_switch_length, to_escape, List.countP_cons]
    omega

theorem escape_switch_flatMap_of_none (s : List Nat) (h : to_escape s = 0) :
    s.flatMap escape_switch = s := by
  induction s with
  | nil => rfl
  | cons c s ih =>
    unfold to_escape at h ih
    rw [List.countP_cons] at h
    have hc : to_escape_char c = false := by
      cases hx : to_escape_char c
      · rfl
      · rw [hx] at h; simp at h
    have hsw : escape_switch c = [c] := by
      unfold to_escape_char at hc
      unfold escape_switch
      simp only [Bool.or_eq_false_iff, decide_eq_false_iff_not] at hc
      simp [hc]
    rw [List.flatMap_cons, hsw, ih (by omega)]
    rfl

theorem to_escape_append (pre post : List Nat) :
    to_escape (pre ++ post) = to_escape pre + to_escape post := by
  unfold to_escape
  exact List.countP_append _ _ _

theorem escape_loop_append (limit : Nat) (pre post : List Nat) :
    ∀ (u : Nat) (escaped : char_buffer),
      cpl_rdf_escape_string.loop limit (pre ++ post) u escaped
        = match cpl_rdf_escape_string.loop limit pre u escaped with
          | escape_loop.continues u2 e2 => cpl_rdf_escape_string.loop limit post u2 e2
          | r => r := by
  induction pre with
  | nil => intro u escaped; rfl
  | cons c pre ih =>
    intro u escaped
    simp only [List.cons_append, cpl_rdf_escape_string.loop]
    split
    · rfl
    · split
      · rfl
      · exact ih _ _

theorem escape_loop_spec (limit : Nat) (s : List Nat) :
    ∀ (w : List Nat) (rest : char_buffer),
      w.length + s.length + to_escape s ≤ limit →
      s.length + to_escape s ≤ rest.length →
      cpl_rdf_escape_string.loop limit s w.length (w.map some ++ rest)
        = escape_loop.continues (w.length + s.length + to_escape s)
            ((w ++ s.flatMap escape_switch).map some
              ++ rest.drop (s.length + to_escape s)) := by
  induction s with
  | nil =>
    intro w rest _ _
    simp [cpl_rdf_escape_string.loop, to_escape]
  | cons c s ih =>
    intro w rest hl hr
    have hlen := escape_switch_length c
    have hcount : to_escape (c :: s)
        = to_escape s + (if to_escape_char c = true then 1 else 0) := by
      unfold to_escape
      rw [List.countP_cons]
    simp only [List.length_cons] at hl hr
    unfold cpl_rdf_escape_string.loop
    rw [if_neg (by omega), char_buffer.store_at_end w rest _ (by omega)]
    dsimp only
    have h2 := ih (w ++ escape_switch c) (rest.drop (escape_switch c).length)
      (by rw [List.length_append]; omega) (by rw [List.length_drop]; omega)
    rw [List.length_append] at h2
    rw [h2]
    congr 1
    · simp only [List.length_cons]; omega
    · simp only [List.flatMap_cons, List.append_assoc, List.drop_drop, List.length_cons]
      congr 2
      omega

/-- What `cpl_rdf_escape_string` returns for a C string: the characters that the `switch`
writes for each character in turn, unless `malloc` fails. -/
theorem escape_string_spec (malloc : Nat → Bool) (s : List Nat) (hs : IsCString s) :
    cpl_rdf_escape_string malloc (some s)
      = (if to_escape s ≠ 0 ∧ malloc (s.length + to_escape s + 4) = false then
          escape_result.out_of_memory
        else escape_result.returned (s.flatMap escape_switch)) := by
  have hfull := escape_loop_spec (s.length + to_escape s) s []
    (List.replicate (s.length + to_escape s + 4) none)
    (by simp only [List.length_nil]; omega)
    (by simp only [List.length_replicate]; omega)
  simp only [List.length_nil, List.map_nil, List.nil_append, Nat.zero_add] at hfull
  unfold cpl_rdf_escape_string
  dsimp only
  by_cases h0 : to_escape s = 0
  · rw [if_pos h0, if_neg (by simp [h0]), escape_switch_flatMap_of_none s h0]
  · rw [if_neg h0]
    by_cases hm : malloc (s.length + to_escape s + 4) = false
    · simp [h0, hm]
    · simp only [Bool.not_eq_false] at hm
      rw [hfull]
      simp only [hm, Bool.not_true, Bool.false_eq_true, if_false, ne_eq, not_true_eq_false]
      have hst := char_buffer.store_at_end (s.flatMap escape_switch)
        ((List.replicate (s.length + to_escape s + 4) none).drop
          (s.length + to_escape s)) [0]
        (by simp only [List.length_drop, List.length_replicate, List.length_singleton]
            omega)
      rw [escape_switch_flatMap_length] at hst
      rw [hst]
      dsimp only
      rw [char_buffer.to_string_written]
      · simp
      · intro b hb
        rw [List.mem_flatMap] at hb
        obtain ⟨c, hc, hbc⟩ := hb
        exact escape_switch_ne_zero c (by have := hs c hc; omega) b hbc

/-- C29: for every C string `s`, `cpl_rdf_escape_string` returns, unless `malloc` fails:
it reaches neither "Race condition" branch and writes inside its buffer only.  At the top
of the iteration for each character the write index is the number of characters before it
plus the number of those that are escaped, which is less than `str_len + to_escape`, and
the characters written for it end within that bound; after the loop the index is
`str_len + to_escape`.  The result has the length of `s` plus the number of characters to
escape, and is `s` when that number is 0. -/
theorem C29_escape_string_never_aborts (malloc : Nat → Bool) (s : List Nat)
    (hs : IsCString s) :
    cpl_rdf_escape_string malloc (some s)
        = (if to_escape s ≠ 0 ∧ malloc (s.length + to_escape s + 4) = false then
            escape_result.out_of_memory
          else escape_result.returned (s.flatMap escape_switch))
    ∧ cpl_rdf_escape_string malloc (some s) ≠ escape_result.race_condition
    ∧ cpl_rdf_escape_string malloc (some s) ≠ escape_result.undefined
    ∧ (s.flatMap escape_switch).length = s.length + s.countP to_escape_char
    ∧ (s.countP to_escape_char = 0 → s.flatMap escape_switch = s)
    ∧ (∀ pre c post, s = pre ++ c :: post →
        ∃ escaped, cpl_rdf_escape_string.loop (s.length + to_escape s) pre 0
              (List.replicate (s.length + to_escape s + 4) none)
            = escape_loop.continues (pre.length + to_escape pre) escaped
          ∧ escaped.length = s.length + to_escape s + 4
          ∧ pre.length + to_escape pre < s.length + to_escape s
          ∧ pre.length + to_escape pre + (escape_switch c).length
            ≤ s.length + to_escape s)
    ∧ ∃ escaped, cpl_rdf_escape_string.loop (s.length + to_escape s) s 0
            (List.replicate (s.length + to_escape s + 4) none)
          = escape_loop.continues (s.length + to_escape s) escaped
        ∧ escaped.length = s.length + to_escape s + 4 := by
  have hloop : ∀ pre post, s = pre ++ post →
      cpl_rdf_escape_string.loop (s.length + to_escape s) pre 0
          (List.replicate (s.length + to_escape s + 4) none)
        = escape_loop.continues (pre.length + to_escape pre)
            (pre.flatMap escape_switch |>.map some
              |>.append ((List.replicate (s.length + to_escape s + 4) none).drop
                (pre.length + to_escape pre))) := by
    intro pre post hsplit
    have hlen : s.length = pre.length + post.length := by rw [hsplit, List.length_append]
    have hesc : to_escape s = to_escape pre + to_escape post := by
      rw [hsplit, to_escape_append]
    have h := escape_loop_spec (s.length + to_escape s) pre []
      (List.replicate (s.length + to_escape s + 4) none)
      (by simp only [List.length_nil]; omega)
      (by simp only [List.length_replicate]; omega)
    simp only [List.length_nil, List.map_nil, List.nil_append, Nat.zero_add] at h
    rw [h]
    rfl
  have hfull := hloop s [] (by simp)
  have hmain := escape_string_spec malloc s hs
  refine ⟨hmain, ?_, ?_, escape_switch_flatMap_length s, escape_switch_flatMap_of_none s,
    ?_, ?_⟩
  · rw [hmain]; split <;> exact fun h => escape_result.noConfusion h
  · rw [hmain]; split <;> exact fun h => escape_result.noConfusion h
  · intro pre c post hsplit
    have hlen : s.length = pre.length + (post.length + 1) := by
      rw [hsplit, List.length_append, List.length_cons]
    have hesc : to_escape s
        = to_escape pre + (to_escape post + (if to_escape_char c = true then 1 else 0)) := by
      rw [hsplit, to_escape_append]
      unfold to_escape
      rw [List.countP_cons]
    have hsw := escape_switch_length c
    refine ⟨_, hloop pre (c :: post) hsplit, ?_, by omega, by omega⟩
    have happ : ∀ (a b : char_buffer), a.append b = a ++ b := fun _ _ => rfl
    rw [happ, List.length_append, List.length_map, escape_switch_flatMap_length,
      List.length_drop, List.length_replicate]
    omega
  · refine ⟨_, hfull, ?_⟩
    have happ : ∀ (a b : char_buffer), a.append b = a ++ b := fun _ _ => rfl
    rw [happ, List.length_append, List.length_map, escape_switch_flatMap_length,
      List.length_drop, List.length_replicate]
    omega

open cpl_return_t SQLRETURN

/-- C29 at the string `a"b` with a `malloc` that succeeds. -/
theorem C29_witness :
    IsCString [97, 34, 98]
      ∧ cpl_rdf_escape_string (fun _ => true) (some [97, 34, 98])
        = escape_result.returned [97, 92, 34, 98] :=
  ⟨by unfold IsCString; decide,
    (C29_escape_string_never_aborts (fun _ => true) [97, 34, 98]
      (by unfold IsCString; decide)).1.trans (by decide)⟩

theorem unescape_escape_switch (c : Nat) (rest : List Nat) :
    cpl_rdf_unescape_string (escape_switch c ++ rest)
      = c :: cpl_rdf_unescape_string rest := by
  unfold escape_switch
  split_ifs with h1 h2 h3 h4 h5 h6
  · subst h1; simp [cpl_rdf_unescape_string]
  · subst h2; simp [cpl_rdf_unescape_string]
  · subst h3; simp [cpl_rdf_unescape_string]
  · subst h4; simp [cpl_rdf_unescape_string]
  · subst h5; simp [cpl_rdf_unescape_string]
  · rcases h6 with h | h | h <;> subst h <;> simp [cpl_rdf_unescape_string]
  · have h92 : c ≠ 92 := fun h => h6 (Or.inl h)
    show cpl_rdf_unescape_string (c :: rest) = _
    rw [cpl_rdf_unescape_string.eq_def]
    simp only [if_neg h92]

theorem unescape_escape (s : List Nat) :
    cpl_rdf_unescape_string (s.flatMap escape_switch) = s := by
  induction s with
  | nil => rfl
  | cons c s ih => rw [List.flatMap_cons, unescape_escape_switch, ih]

theorem escape_switch_token (c : Nat) : EscapeToken (escape_switch c) := by
  unfold escape_switch EscapeToken
  split_ifs with h1 h2 h3 h4 h5 h6
  · exact Or.inr ⟨_, rfl⟩
  · exact Or.inr ⟨_, rfl⟩
  · exact Or.inr ⟨_, rfl⟩
  · exact Or.inr ⟨_, rfl⟩
  · exact Or.inr ⟨_, rfl⟩
  · exact Or.inr ⟨_, rfl⟩
  · refine Or.inl ⟨c, rfl, ?_⟩
    unfold to_escape_char
    simp only [not_or] at h6
    simp [h1, h2, h3, h4, h5, h6.1, h6.2.1, h6.2.2]

theorem escape_tokens_unique (ts : List (List Nat)) :
    ∀ ts2 : List (List Nat), (∀ t ∈ ts, EscapeToken t) → (∀ t ∈ ts2, EscapeToken t) →
      ts.flatten = ts2.flatten → ts = ts2 := by
  induction ts with
  | nil =>
    intro ts2 _ h2 hj
    cases ts2 with
    | nil => rfl
    | cons t ts2 =>
      exfalso
      rcases h2 t (List.mem_cons_self _ _) with ⟨c, rfl, _⟩ | ⟨x, rfl⟩ <;> simp at hj
  | cons t ts ih =>
    intro ts2 h1 h2 hj
    have ht := h1 t (List.mem_cons_self _ _)
    have h1r : ∀ t ∈ ts, EscapeToken t := fun x hx => h1 x (List.mem_cons_of_mem _ hx)
    cases ts2 with
    | nil =>
      exfalso
      rcases ht with ⟨c, rfl, _⟩ | ⟨x, rfl⟩ <;> simp at hj
    | cons t2 ts2 =>
      have ht2 := h2 t2 (List.mem_cons_self _ _)
      have h2r : ∀ t ∈ ts2, EscapeToken t := fun x hx => h2 x (List.mem_cons_of_mem _ hx)
      simp only [List.flatten_cons] at hj
      rcases ht with ⟨c, rfl, hc⟩ | ⟨x, rfl⟩ <;> rcases ht2 with ⟨c2, rfl, hc2⟩ | ⟨x2, rfl⟩
      · simp only [List.singleton_append, List.cons.injEq] at hj
        rw [hj.1, ih ts2 h1r h2r hj.2]
      · simp only [List.singleton_append, List.cons_append, List.nil_append,
          List.cons.injEq] at hj
        rw [hj.1] at hc
        exact absurd hc (by decide)
      · simp only [List.singleton_append, List.cons_append, List.nil_append,
          List.cons.injEq] at hj
        rw [← hj.1] at hc2
        exact absurd hc2 (by decide)
      · simp only [List.cons_append, List.nil_append, List.cons.injEq, true_and] at hj
        rw [hj.1, ih ts2 h1r h2r hj.2]

theorem escape_tokens_quote (ts : List (List Nat)) :
    (∀ t ∈ ts, EscapeToken t) →
    ∀ (pre : List Nat) (q : Nat) (post : List Nat), ts.flatten = pre ++ q :: post →
      q = 34 ∨ q = 39 →
      ∃ ts1 ts2, ts = ts1 ++ [92, q] :: ts2 ∧ pre = ts1.flatten ++ [92] := by
  induction ts with
  | nil =>
    intro _ pre q post hj _
    simp at hj
  | cons t ts ih =>
    intro h pre q post hj hq
    have ht := h t (List.mem_cons_self _ _)
    have hr : ∀ t ∈ ts, EscapeToken t := fun x hx => h x (List.mem_cons_of_mem _ hx)
    simp only [List.flatten_cons] at hj
    rcases ht with ⟨c, rfl, hc⟩ | ⟨x, rfl⟩
    · cases pre with
      | nil =>
        simp only [List.singleton_append, List.nil_append, List.cons.injEq] at hj
        exfalso
        rw [hj.1] at hc
        rcases hq with rfl | rfl <;> exact absurd hc (by decide)
      | cons p pre =>
        simp only [List.singleton_append, List.cons_append, List.cons.injEq] at hj
        obtain ⟨ts1, ts2, h1, h2⟩ := ih hr pre q post hj.2 hq
        refine ⟨[c] :: ts1, ts2, by rw [h1]; rfl, ?_⟩
        rw [h2, ← hj.1]
        rfl
    · cases pre with
      | nil =>
        simp only [List.cons_append, List.nil_append, List.cons.injEq] at hj
        exfalso
        rcases hq with rfl | rfl <;> exact absurd hj.1 (by decide)
      | cons p pre =>
        cases pre with
        | nil =>
          simp only [List.cons_append, List.nil_append, List.cons.injEq] at hj
          refine ⟨[], ts, ?_, ?_⟩
          · rw [hj.2.1]; rfl
          · rw [← hj.1]; rfl
        | cons p2 pre =>
          simp only [List.cons_append, List.nil_append, List.cons.injEq] at hj
          obtain ⟨ts1, ts2, h1, h2⟩ := ih hr pre q post hj.2.2 hq
          refine ⟨[92, x] :: ts1, ts2, by rw [h1]; rfl, ?_⟩
          rw [h2, ← hj.1, ← hj.2.1]
          rfl

/-- C30: when `cpl_rdf_escape_string` returns `r` for the C string `s`, the decoder gives
`s` back from `r`, so no other C string is escaped to `r`; `r` is the concatenation of one
piece for each character of `s`, each piece a single character outside the escaped set or
a pair that begins with a backslash, and no other list of such pieces concatenates to `r`;
and every double or single quote in `r` is the second character of such a pair. -/
theorem C30_escape_string_injective (malloc : Nat → Bool) (s r : List Nat)
    (hs : IsCString s)
    (h : cpl_rdf_escape_string malloc (some s) = escape_result.returned r) :
    cpl_rdf_unescape_string r = s
    ∧ (∀ (malloc2 : Nat → Bool) (s2 : List Nat), IsCString s2 →
        cpl_rdf_escape_string malloc2 (some s2) = escape_result.returned r → s2 = s)
    ∧ (s.map escape_switch).flatten = r
    ∧ (∀ t ∈ s.map escape_switch, EscapeToken t)
    ∧ (∀ ts : List (List Nat), (∀ t ∈ ts, EscapeToken t) → ts.flatten = r →
        ts = s.map escape_switch)
    ∧ ∀ (pre : List Nat) (q : Nat) (post : List Nat), r = pre ++ q :: post →
        q = 34 ∨ q = 39 →
        ∃ ts1 ts2, s.map escape_switch = ts1 ++ [92, q] :: ts2 ∧ pre = ts1.flatten ++ [92] := by
  have hr : ∀ (m : Nat → Bool) (x : List Nat), IsCString x →
      cpl_rdf_escape_string m (some x) = escape_result.returned r →
      r = x.flatMap escape_switch := by
    intro m x hx hret
    have h1 := (escape_string_spec m x hx)
    rw [hret] at h1
    split at h1
    · exact escape_result.noConfusion h1
    · injection h1
  have hrs := hr malloc s hs h
  have hj : (s.map escape_switch).flatten = r := by
    rw [hrs, List.flatMap_def]
  have htok : ∀ t ∈ s.map escape_switch, EscapeToken t := by
    intro t ht
    rw [List.mem_map] at ht
    obtain ⟨c, _, rfl⟩ := ht
    exact escape_switch_token c
  refine ⟨by rw [hrs]; exact unescape_escape s, ?_, hj, htok, ?_, ?_⟩
  · intro m2 s2 hs2 h2
    have := hr m2 s2 hs2 h2
    rw [← unescape_escape s2, ← this, hrs, unescape_escape]
  · intro ts hts hjoin
    exact (escape_tokens_unique _ ts htok hts (hj.trans hjoin.symm)).symm
  · intro pre q post hsplit hq
    exact escape_tokens_quote _ htok pre q post (hj.trans hsplit) hq

/-- C30 at the string `a"b`. -/
theorem C30_witness :
    cpl_rdf_unescape_string [97, 92, 34, 98] = [97, 34, 98] :=
  (C30_escape_string_injective (fun _ => true) [97, 34, 98] [97, 92, 34, 98]
    (by unfold IsCString; decide) (by decide)).1

/-! ## Lock discipline and edge integrity -/

theorem held_after_append (a b : List Event) :
    ∀ h, held_after h (a ++ b) = (held_after h a).bind (fun h2 => held_after h2 b) := by
  induction a with
  | nil => intro h; rfl
  | cons e a ih =>
    intro h
    cases e with
    | lock m =>
      cases h with
      | none => simp only [List.cons_append, held_after]; exact ih _
      | some x => simp only [List.cons_append, held_after]; rfl
    | unlock m =>
      simp only [List.cons_append, held_after]
      split
      · exact ih _
      · rfl
    | execute s => simp only [List.cons_append, held_after]; exact ih _
    | reconnect => simp only [List.cons_append, held_after]; exact ih _

theorem held_after_lockless (E : List Event)
    (hE : ∀ e ∈ E, (∃ s, e = Event.execute s) ∨ e = Event.reconnect) :
    ∀ h, held_after h E = some h := by
  induction E with
  | nil => intro h; rfl
  | cons e E ih =>
    intro h
    have ih2 := ih (fun x hx => hE x (List.mem_cons_of_mem _ hx))
    rcases hE e (List.mem_cons_self _ _) with ⟨s, rfl⟩ | rfl
    · simp only [held_after]; exact ih2 h
    · simp only [held_after]; exact ih2 h

theorem Disciplined.nil : Disciplined [] := rfl

theorem Disciplined.append {a b : List Event} (ha : Disciplined a) (hb : Disciplined b) :
    Disciplined (a ++ b) := by
  unfold Disciplined at *
  rw [held_after_append, ha]
  exact hb

theorem Disciplined.locked (m : Mutex) (E : List Event)
    (hE : ∀ e ∈ E, (∃ s, e = Event.execute s) ∨ e = Event.reconnect) :
    Disciplined (Event.lock m :: (E ++ [Event.unlock m])) := by
  unfold Disciplined
  show held_after (some m) (E ++ [Event.unlock m]) = some none
  rw [held_after_append, held_after_lockless E hE]
  simp [held_after]

theorem LocksBalanced.of_same (a : cpl_odbc_t) : LocksBalanced a a :=
  ⟨[], (List.append_nil _).symm, Disciplined.nil⟩

theorem LocksBalanced.followed {a b c : cpl_odbc_t} (h1 : LocksBalanced a b)
    (h2 : LocksBalanced b c) : LocksBalanced a c := by
  obtain ⟨e1, ht1, hd1⟩ := h1
  obtain ⟨e2, ht2, hd2⟩ := h2
  exact ⟨e1 ++ e2, by rw [ht2, ht1, List.append_assoc], hd1.append hd2⟩

theorem Unlocked.locks_balanced {b U : cpl_odbc_t} {s : Stmt} {ps : List Param} {m : Mutex}
    (h : Unlocked b s ps m U) : LocksBalanced b U := by
  obtain ⟨⟨E, hE, ht⟩, _⟩ := h
  exact ⟨_, ht, Disciplined.locked m E (fun e he => (hE e he).imp (fun h => ⟨s, h⟩) id)⟩

/-- The retrying execute logs executes of its statement and reconnects only. -/
theorem SQL_EXECUTE_EXT_events (s : Stmt) (ps : List Param) (k : Nat) :
    ∀ o : cpl_odbc_t, ∃ E, (∀ e ∈ E, e = Event.execute s ∨ e = Event.reconnect)
      ∧ (SQL_EXECUTE_EXT s ps k o).2.2.trace = o.trace ++ E := by
  have hx : ∀ o : cpl_odbc_t, (SQLExecute o s ps).2.trace = o.trace ++ [Event.execute s] :=
    fun o => SQLExecute_trace o s ps
  have hr : ∀ o : cpl_odbc_t, (cpl_odbc_reconnect o).2.trace = o.trace ++ [Event.reconnect] := by
    intro o
    have h := reconnect_with_trace o o.trace
    rw [with_trace_self] at h
    have h2 := congrArg (fun R => R.2.trace) h
    simpa using h2
  induction k with
  | zero =>
    intro o
    have h1 := hx o
    unfold SQL_EXECUTE_EXT
    rcases hS : SQLExecute o s ps with ⟨res, o1⟩
    rw [hS] at h1
    dsimp only at h1
    refine ⟨[Event.execute s], fun e he => Or.inl (List.mem_singleton.mp he), ?_⟩
    cases res with
    | ok st => exact h1
    | error d =>
      dsimp only
      split <;> exact h1
  | succ k ih =>
    intro o
    have h1 := hx o
    unfold SQL_EXECUTE_EXT
    rcases hS : SQLExecute o s ps with ⟨res, o1⟩
    rw [hS] at h1
    dsimp only at h1
    cases res with
    | ok st =>
      exact ⟨[Event.execute s], fun e he => Or.inl (List.mem_singleton.mp he), h1⟩
    | error d =>
      dsimp only
      split
      · have h2 := hr o1
        rcases hC : cpl_odbc_reconnect o1 with ⟨r, o2⟩
        rw [hC] at h2
        dsimp only at h2 ⊢
        split
        · obtain ⟨E, hE, ht⟩ := ih o2
          refine ⟨Event.execute s :: Event.reconnect :: E, ?_, ?_⟩
          · intro e he
            rcases List.mem_cons.mp he with rfl | he
            · exact Or.inl rfl
            · rcases List.mem_cons.mp he with rfl | he
              · exact Or.inr rfl
              · exact hE e he
          · rw [ht, h2, h1]; simp
        · refine ⟨[Event.execute s, Event.reconnect], ?_, ?_⟩
          · intro e he
            rcases List.mem_cons.mp he with rfl | he
            · exact Or.inl rfl
            · exact Or.inr (List.mem_singleton.mp he)
          · rw [h2, h1]; simp
      · exact ⟨[Event.execute s], fun e he => Or.inl (List.mem_singleton.mp he), h1⟩

/-- What the operation's result is related to, in terms of the backend before the call. -/
theorem Finishes.unlocked {α : Type} {op : cpl_odbc_t → cpl_return_t × α × cpl_odbc_t}
    {s : Stmt} {ps : List Param} {m : Mutex}
    {tail : cpl_odbc_t → cpl_return_t × α × cpl_odbc_t → Prop}
    (h : Finishes op s ps m tail) (b : cpl_odbc_t) :
    ∃ U, Unlocked b s ps m U ∧ tail U (op b) := by
  rcases hE : SQL_EXECUTE_EXT s ps 3 (mutex_lock b m) with ⟨r, k, o2⟩
  obtain ⟨U, hdb, htr, htail⟩ := h b r k o2 o2.trace (by rw [with_trace_self]; exact hE)
  obtain ⟨E, hEv, hEt⟩ := SQL_EXECUTE_EXT_events s ps 3 (mutex_lock b m)
  rw [hE] at hEt
  dsimp only at hEt
  refine ⟨U, ⟨⟨E, hEv, ?_⟩, ?_⟩, htail⟩
  · rw [htr, hEt]
    show (b.trace ++ [Event.lock m]) ++ E ++ [Event.unlock m] = _
    simp
  · rw [hdb]
    rcases SQL_EXECUTE_EXT_cases s ps 3 (mutex_lock b m) with ⟨_, h2⟩ | ⟨db, rows, hx, _, h2⟩
    · rw [hE] at h2
      exact Or.inl h2.1
    · rw [hE] at h2
      right
      refine ⟨rows, ?_⟩
      rw [show o2.db = db from h2.1]
      exact hx

open cpl_return_t SQLRETURN

theorem fetch_single_llong_db (o : cpl_odbc_t) (st : SQLHSTMT) (c : Nat) (f cl hn : Bool) :
    (cpl_sql_fetch_single_llong o st c f cl hn).2.2.2.db = o.db :=
  (fetch_single_llong_spec o st c f cl hn).1.1

theorem fetch_single_timestamp_db (o : cpl_odbc_t) (st : SQLHSTMT) (c : Nat)
    (f cl hn : Bool) :
    (cpl_sql_fetch_single_timestamp_as_unix_time o st c f cl hn).2.2.2.db = o.db :=
  (fetch_single_timestamp_spec o st c f cl hn).1.1

theorem fetch_single_string_db (o : cpl_odbc_t) (st : SQLHSTMT) (c : Nat) (f cl hn : Bool)
    (ml : Nat) :
    (cpl_sql_fetch_single_dynamically_allocated_string o st c f cl hn ml).2.2.2.db = o.db :=
  (fetch_single_string_spec o st c f cl hn ml).1.1

theorem fetch_loop_db {β : Type} (body : List Cell → β → β) (pending : List (List Cell))
    (current : List Cell) (o : cpl_odbc_t) (acc : β) :
    (fetch_loop body pending current o acc).2.2.db = o.db :=
  (fetch_loop_spec body pending current o acc).1.1

theorem ancestry_fetch_db (H : cpl_h) (flags : Int) (pending : List (List Cell))
    (current : List Cell) (o : cpl_odbc_t) (found : Bool)
    (entries : List get_object_ancestry_entry) :
    (cpl_odbc_get_object_ancestry.fetch H flags pending current o found entries).2.2.db
      = o.db :=
  (get_object_ancestry_fetch_spec H flags pending current o found entries).1.1

theorem properties_fetch_db (pending : List (List Cell)) (current : List Cell)
    (o : cpl_odbc_t) (found : Bool) (entries : List get_properties_entry) :
    (cpl_odbc_get_properties.fetch pending current o found entries).2.2.db = o.db :=
  (get_properties_fetch_spec pending current o found entries).1.1

theorem SQLCloseCursor_db (o : cpl_odbc_t) (st : SQLHSTMT) :
    (SQLCloseCursor o st).2.2.db = o.db :=
  (Advances.closeCursor o st).1

theorem get_version_finishes (id : cpl_id_t) :
    Finishes (fun o => cpl_odbc_get_version o id) Stmt.get_version_stmt
      [Param.integer id.hi, Param.integer id.lo] Mutex.get_version_lock ReturnsWith := by
  intro b r k o2 t hb
  dsimp only
  unfold cpl_odbc_get_version ReturnsWith
  dsimp only
  rw [hb]
  cases r with
  | none => refine ⟨_, ?_, ?_, rfl⟩ <;> rfl
  | some st =>
    dsimp only
    simp only [fetch_single_llong_with_trace, mutex_unlock_with_trace]
    repeat' split
    all_goals
      refine ⟨_, ?_, ?_, rfl⟩
      · simp only [with_trace_db, mutex_unlock_db, fetch_single_llong_db]
      · rfl

theorem create_session_finishes (session : cpl_session_t) (mac_address : Option String)
    (user : String) (pid : Int) (program cmdline : String) :
    Finishes
      (fun o => no_output (cpl_odbc_create_session o session mac_address user pid program
        cmdline))
      Stmt.create_session_insert_stmt
      [Param.integer session.hi, Param.integer session.lo, Param.varchar 18 mac_address,
        Param.varchar 255 (some user), Param.integer pid, Param.varchar 4095 (some program),
        Param.varchar 4095 (some cmdline)]
      Mutex.create_session_lock ReturnsWith := by
  intro b r k o2 t hb
  dsimp only
  unfold cpl_odbc_create_session no_output ReturnsWith
  dsimp only
  rw [hb]
  cases r with
  | none => refine ⟨_, ?_, ?_, rfl⟩ <;> rfl
  | some st => refine ⟨_, ?_, ?_, rfl⟩ <;> rfl

theorem add_ancestry_edge_finishes (from_id : cpl_id_t)
    (from_ver : cpl_version_t) (to_id : cpl_id_t) (to_ver : cpl_version_t) (type : Int) :
    Finishes
      (fun o => no_output (cpl_odbc_add_ancestry_edge o from_id from_ver to_id to_ver type))
      Stmt.add_ancestry_edge_stmt
      [Param.integer from_id.hi, Param.integer from_id.lo, Param.integer from_ver,
        Param.integer to_id.hi, Param.integer to_id.lo, Param.integer to_ver,
        Param.integer type]
      Mutex.add_ancestry_edge_lock ReturnsWith := by
  intro b r k o2 t hb
  dsimp only
  unfold cpl_odbc_add_ancestry_edge no_output ReturnsWith
  dsimp only
  rw [hb]
  cases r with
  | none => refine ⟨_, ?_, ?_, rfl⟩ <;> rfl
  | some st => refine ⟨_, ?_, ?_, rfl⟩ <;> rfl

theorem add_property_finishes (id : cpl_id_t) (version : cpl_version_t)
    (key value : Option String) :
    Finishes (fun o => no_output (cpl_odbc_add_property o id version key value))
      Stmt.add_property_stmt
      [Param.integer id.hi, Param.integer id.lo, Param.integer version,
        Param.varchar 255 key, Param.varchar 4095 value]
      Mutex.add_property_lock ReturnsWith := by
  intro b r k o2 t hb
  dsimp only
  unfold cpl_odbc_add_property no_output ReturnsWith
  dsimp only
  rw [hb]
  cases r with
  | none => refine ⟨_, ?_, ?_, rfl⟩ <;> rfl
  | some st => refine ⟨_, ?_, ?_, rfl⟩ <;> rfl

theorem lookup_object_finishes (originator name type : Option String) :
    Finishes (fun o => cpl_odbc_lookup_object o originator name type)
      Stmt.lookup_object_stmt
      [Param.varchar 255 originator, Param.varchar 255 name, Param.varchar 100 type]
      Mutex.lookup_object_lock ReturnsWith := by
  intro b r k o2 t hb
  dsimp only
  unfold cpl_odbc_lookup_object ReturnsWith
  dsimp only
  rw [hb]
  cases r with
  | none => refine ⟨_, ?_, ?_, rfl⟩ <;> rfl
  | some st =>
    dsimp only
    simp only [fetch_single_llong_with_trace, mutex_unlock_with_trace]
    repeat' split
    all_goals
      refine ⟨_, ?_, ?_, rfl⟩
      · simp only [with_trace_db, mutex_unlock_db, fetch_single_llong_db]
      · rfl

theorem has_immediate_ancestor_finishes (object_id : cpl_id_t)
    (version_hint : cpl_version_t) (query_object_id : cpl_id_t)
    (query_object_max_version : cpl_version_t) :
    Finishes
      (fun o => cpl_odbc_has_immediate_ancestor o object_id version_hint query_object_id
        query_object_max_version)
      (if version_hint = CPL_VERSION_NONE then Stmt.has_immediate_ancestor_stmt
        else Stmt.has_immediate_ancestor_with_ver_stmt)
      ([Param.integer query_object_id.hi, Param.integer query_object_id.lo,
          Param.integer query_object_max_version, Param.integer object_id.hi,
          Param.integer object_id.lo] ++
        (if version_hint ≠ CPL_VERSION_NONE then [Param.integer version_hint] else []))
      Mutex.has_immediate_ancestor_lock ReturnsWith := by
  intro b r k o2 t hb
  dsimp only
  unfold cpl_odbc_has_immediate_ancestor ReturnsWith
  dsimp only
  rw [hb]
  cases r with
  | none => refine ⟨_, ?_, ?_, rfl⟩ <;> rfl
  | some st =>
    dsimp only
    simp only [fetch_single_llong_with_trace, mutex_unlock_with_trace]
    repeat' split
    all_goals
      refine ⟨_, ?_, ?_, rfl⟩
      · simp only [with_trace_db, mutex_unlock_db, fetch_single_llong_db]
      · rfl

open cpl_return_t SQLRETURN

theorem EndsWith.returns_with {α : Type} {d : Store} {t : List Event} {m : Mutex}
    {R : cpl_return_t × α × cpl_odbc_t} (h : EndsWith d (t ++ [Event.unlock m]) R) :
    ∃ U : cpl_odbc_t, U.db = d ∧ U.trace = t ++ [Event.unlock m] ∧ ReturnsWith U R :=
  ⟨R.2.2, h.1, h.2, rfl⟩

/-- One column read with `CPL_SQL_SIMPLE_FETCH_EXT` leaves the database and the event log
to what follows it. -/
theorem simple_fetch_ends {α β : Type}
    (fetch_single : cpl_odbc_t → SQLHSTMT → Nat → Bool → Bool → Bool →
      cpl_return_t × α × SQLHSTMT × cpl_odbc_t)
    (hfs : ∀ (o : cpl_odbc_t) (t : List Event) st c f cl hn,
      fetch_single (o.with_trace t) st c f cl hn
      = ((fetch_single o st c f cl hn).1, (fetch_single o st c f cl hn).2.1,
          (fetch_single o st c f cl hn).2.2.1,
          (fetch_single o st c f cl hn).2.2.2.with_trace t))
    (hdb : ∀ (o : cpl_odbc_t) st c f cl hn, (fetch_single o st c f cl hn).2.2.2.db = o.db)
    (d : Store) (t tr : List Event) (o : cpl_odbc_t) (hod : o.db = d) (st : SQLHSTMT)
    (col : Nat) (hn : Bool)
    (err_r : cpl_return_t → cpl_odbc_t → cpl_return_t × β × cpl_odbc_t)
    (next : cpl_return_t → α → SQLHSTMT → cpl_odbc_t → cpl_return_t × β × cpl_odbc_t)
    (herr : ∀ (r : cpl_return_t) (o : cpl_odbc_t), o.db = d →
      EndsWith d tr (err_r r (o.with_trace t)))
    (hnext : ∀ (r : cpl_return_t) (a : α) (st : SQLHSTMT) (o : cpl_odbc_t), o.db = d →
      EndsWith d tr (next r a st (o.with_trace t))) :
    EndsWith d tr
      (CPL_SQL_SIMPLE_FETCH_EXT fetch_single (o.with_trace t) st col hn err_r next) := by
  unfold CPL_SQL_SIMPLE_FETCH_EXT
  rw [hfs]
  dsimp only
  split
  · exact herr _ _ (by rw [hdb]; exact hod)
  · exact hnext _ _ _ _ (by rw [hdb]; exact hod)

theorem get_version_info_finishes (id : cpl_id_t) (version : cpl_version_t) :
    Finishes (fun o => cpl_odbc_get_version_info o id version)
      Stmt.get_version_info_stmt
      [Param.integer id.hi, Param.integer id.lo, Param.integer version]
      Mutex.get_version_info_lock ReturnsWith := by
  intro b r k o2 t hb
  dsimp only
  unfold cpl_odbc_get_version_info
  dsimp only
  rw [hb]
  cases r with
  | none => refine ⟨_, ?_, ?_, rfl⟩ <;> rfl
  | some st =>
    dsimp only
    apply EndsWith.returns_with
    have herr : ∀ (r : cpl_return_t) (o : cpl_odbc_t), o.db = o2.db →
        EndsWith (α := Option cpl_version_info_t) o2.db
          (t ++ [Event.unlock Mutex.get_version_info_lock])
          (r, none, mutex_unlock (o.with_trace t) Mutex.get_version_info_lock) :=
      fun r o ho => ⟨ho, rfl⟩
    refine simple_fetch_ends cpl_sql_fetch_single_llong
      (fun o t st c f cl hn => fetch_single_llong_with_trace o t st c f cl hn)
      (fun o st c f cl hn => fetch_single_llong_db o st c f cl hn)
      _ _ _ _ rfl _ _ _ _ _ herr (fun _ _ st o ho => ?_)
    refine simple_fetch_ends cpl_sql_fetch_single_llong
      (fun o t st c f cl hn => fetch_single_llong_with_trace o t st c f cl hn)
      (fun o st c f cl hn => fetch_single_llong_db o st c f cl hn)
      _ _ _ _ ho _ _ _ _ _ herr (fun _ _ st o ho => ?_)
    refine simple_fetch_ends cpl_sql_fetch_single_timestamp_as_unix_time
      (fun o t st c f cl hn => fetch_single_timestamp_with_trace o t st c f cl hn)
      (fun o st c f cl hn => fetch_single_timestamp_db o st c f cl hn)
      _ _ _ _ ho _ _ _ _ _ herr (fun _ _ st o ho => ?_)
    simp only [SQLCloseCursor_with_trace, mutex_unlock_with_trace]
    split <;> exact ⟨by simp only [with_trace_db, mutex_unlock_db, SQLCloseCursor_db, ho], rfl⟩

theorem get_session_info_finishes (id : cpl_session_t) :
    Finishes (fun o => cpl_odbc_get_session_info o id)
      Stmt.get_session_info_stmt [Param.integer id.hi, Param.integer id.lo]
      Mutex.get_session_info_lock ReturnsWith := by
  intro b r k o2 t hb
  dsimp only
  unfold cpl_odbc_get_session_info
  dsimp only
  rw [hb]
  cases r with
  | none => refine ⟨_, ?_, ?_, rfl⟩ <;> rfl
  | some st =>
    dsimp only
    apply EndsWith.returns_with
    have herr : ∀ (r : cpl_return_t) (o : cpl_odbc_t), o.db = o2.db →
        EndsWith (α := Option cpl_session_info_t) o2.db
          (t ++ [Event.unlock Mutex.get_session_info_lock])
          (r, none, mutex_unlock (o.with_trace t) Mutex.get_session_info_lock) :=
      fun r o ho => ⟨ho, rfl⟩
    refine simple_fetch_ends
      (fun o st c f cl hn => cpl_sql_fetch_single_dynamically_allocated_string o st c f cl
        hn 4095)
      (fun o t st c f cl hn => fetch_single_string_with_trace o t st c f cl hn 4095)
      (fun o st c f cl hn => fetch_single_string_db o st c f cl hn 4095)
      _ _ _ _ rfl _ _ _ _ _ herr (fun _ _ st o ho => ?_)
    refine simple_fetch_ends
      (fun o st c f cl hn => cpl_sql_fetch_single_dynamically_allocated_string o st c f cl
        hn 4095)
      (fun o t st c f cl hn => fetch_single_string_with_trace o t st c f cl hn 4095)
      (fun o st c f cl hn => fetch_single_string_db o st c f cl hn 4095)
      _ _ _ _ ho _ _ _ _ _ herr (fun _ _ st o ho => ?_)
    refine simple_fetch_ends cpl_sql_fetch_single_llong
      (fun o t st c f cl hn => fetch_single_llong_with_trace o t st c f cl hn)
      (fun o st c f cl hn => fetch_single_llong_db o st c f cl hn)
      _ _ _ _ ho _ _ _ _ _ herr (fun _ _ st o ho => ?_)
    refine simple_fetch_ends
      (fun o st c f cl hn => cpl_sql_fetch_single_dynamically_allocated_string o st c f cl
        hn 4095)
      (fun o t st c f cl hn => fetch_single_string_with_trace o t st c f cl hn 4095)
      (fun o st c f cl hn => fetch_single_string_db o st c f cl hn 4095)
      _ _ _ _ ho _ _ _ _ _ herr (fun _ _ st o ho => ?_)
    refine simple_fetch_ends
      (fun o st c f cl hn => cpl_sql_fetch_single_dynamically_allocated_string o st c f cl
        hn 4095)
      (fun o t st c f cl hn => fetch_single_string_with_trace o t st c f cl hn 4095)
      (fun o st c f cl hn => fetch_single_string_db o st c f cl hn 4095)
      _ _ _ _ ho _ _ _ _ _ herr (fun _ _ st o ho => ?_)
    refine simple_fetch_ends cpl_sql_fetch_single_timestamp_as_unix_time
      (fun o t st c f cl hn => fetch_single_timestamp_with_trace o t st c f cl hn)
      (fun o st c f cl hn => fetch_single_timestamp_db o st c f cl hn)
      _ _ _ _ ho _ _ _ _ _ herr (fun _ _ st o ho => ?_)
    simp only [SQLCloseCursor_with_trace, mutex_unlock_with_trace]
    split <;> exact ⟨by simp only [with_trace_db, mutex_unlock_db, SQLCloseCursor_db, ho], rfl⟩

theorem get_object_info_read_finishes (id : cpl_id_t) (version : cpl_version_t) :
    Finishes (fun o => cpl_odbc_get_object_info.read o id version)
      Stmt.get_object_info_stmt [Param.integer id.hi, Param.integer id.lo]
      Mutex.get_object_info_lock ReturnsWith := by
  intro b r k o2 t hb
  dsimp only
  unfold cpl_odbc_get_object_info.read
  dsimp only
  rw [hb]
  cases r with
  | none => refine ⟨_, ?_, ?_, rfl⟩ <;> rfl
  | some st =>
    dsimp only
    apply EndsWith.returns_with
    have herr : ∀ (r : cpl_return_t) (o : cpl_odbc_t), o.db = o2.db →
        EndsWith (α := Option cpl_object_info_t) o2.db
          (t ++ [Event.unlock Mutex.get_object_info_lock])
          (r, none, mutex_unlock (o.with_trace t) Mutex.get_object_info_lock) :=
      fun r o ho => ⟨ho, rfl⟩
    refine simple_fetch_ends cpl_sql_fetch_single_llong
      (fun o t st c f cl hn => fetch_single_llong_with_trace o t st c f cl hn)
      (fun o st c f cl hn => fetch_single_llong_db o st c f cl hn)
      _ _ _ _ rfl _ _ _ _ _ herr (fun _ _ st o ho => ?_)
    refine simple_fetch_ends cpl_sql_fetch_single_llong
      (fun o t st c f cl hn => fetch_single_llong_with_trace o t st c f cl hn)
      (fun o st c f cl hn => fetch_single_llong_db o st c f cl hn)
      _ _ _ _ ho _ _ _ _ _ herr (fun _ _ st o ho => ?_)
    refine simple_fetch_ends cpl_sql_fetch_single_timestamp_as_unix_time
      (fun o t st c f cl hn => fetch_single_timestamp_with_trace o t st c f cl hn)
      (fun o st c f cl hn => fetch_single_timestamp_db o st c f cl hn)
      _ _ _ _ ho _ _ _ _ _ herr (fun _ _ st o ho => ?_)
    refine simple_fetch_ends
      (fun o st c f cl hn => cpl_sql_fetch_single_dynamically_allocated_string o st c f cl
        hn 4095)
      (fun o t st c f cl hn => fetch_single_string_with_trace o t st c f cl hn 4095)
      (fun o st c f cl hn => fetch_single_string_db o st c f cl hn 4095)
      _ _ _ _ ho _ _ _ _ _ herr (fun _ _ st o ho => ?_)
    refine simple_fetch_ends
      (fun o st c f cl hn => cpl_sql_fetch_single_dynamically_allocated_string o st c f cl
        hn 4095)
      (fun o t st c f cl hn => fetch_single_string_with_trace o t st c f cl hn 4095)
      (fun o st c f cl hn => fetch_single_string_db o st c f cl hn 4095)
      _ _ _ _ ho _ _ _ _ _ herr (fun _ _ st o ho => ?_)
    refine simple_fetch_ends
      (fun o st c f cl hn => cpl_sql_fetch_single_dynamically_allocated_string o st c f cl
        hn 4095)
      (fun o t st c f cl hn => fetch_single_string_with_trace o t st c f cl hn 4095)
      (fun o st c f cl hn => fetch_single_string_db o st c f cl hn 4095)
      _ _ _ _ ho _ _ _ _ _ herr (fun _ _ st o ho => ?_)
    refine simple_fetch_ends cpl_sql_fetch_single_llong
      (fun o t st c f cl hn => fetch_single_llong_with_trace o t st c f cl hn)
      (fun o st c f cl hn => fetch_single_llong_db o st c f cl hn)
      _ _ _ _ ho _ _ _ _ _ herr (fun _ _ st o ho => ?_)
    refine simple_fetch_ends cpl_sql_fetch_single_llong
      (fun o t st c f cl hn => fetch_single_llong_with_trace o t st c f cl hn)
      (fun o st c f cl hn => fetch_single_llong_db o st c f cl hn)
      _ _ _ _ ho _ _ _ _ _ herr (fun _ _ st o ho => ?_)
    refine simple_fetch_ends cpl_sql_fetch_single_llong
      (fun o t st c f cl hn => fetch_single_llong_with_trace o t st c f cl hn)
      (fun o st c f cl hn => fetch_single_llong_db o st c f cl hn)
      _ _ _ _ ho _ _ _ _ _ herr (fun _ _ st o ho => ?_)
    simp only [SQLCloseCursor_with_trace, mutex_unlock_with_trace]
    split <;> exact ⟨by simp only [with_trace_db, mutex_unlock_db, SQLCloseCursor_db, ho], rfl⟩

open cpl_return_t SQLRETURN

theorem lookup_by_property_finishes (key value : Option String)
    (iterator : Option cpl_property_iterator_t) :
    Finishes (fun o => cpl_odbc_lookup_by_property o key value iterator)
      Stmt.lookup_by_property_stmt [Param.varchar 255 key, Param.varchar 4095 value]
      Mutex.lookup_by_property_lock (IteratesFrom iterator) := by
  intro b r k o2 t hb
  dsimp only
  unfold cpl_odbc_lookup_by_property IteratesFrom
  dsimp only
  rw [hb]
  cases r with
  | none => refine ⟨_, ?_, ?_, Or.inl ⟨by trivial, rfl⟩⟩ <;> rfl
  | some st =>
    dsimp only
    have h3 := fetch_loop_db cpl_odbc_lookup_by_property.keep st.pending st.current o2 []
    rcases hL : fetch_loop cpl_odbc_lookup_by_property.keep st.pending st.current o2 []
      with ⟨_ | entries, st3, o3⟩
    · rw [hL] at h3
      dsimp only at h3
      simp only [fetch_loop_with_trace, hL, SQLCloseCursor_with_trace,
        mutex_unlock_with_trace]
      refine ⟨_, ?_, ?_, Or.inl ⟨by trivial, rfl⟩⟩
      · simp only [with_trace_db, mutex_unlock_db, SQLCloseCursor_db, h3]
      · rfl
    · rw [hL] at h3
      dsimp only at h3
      simp only [fetch_loop_with_trace, hL, SQLCloseCursor_with_trace,
        mutex_unlock_with_trace]
      split
      · refine ⟨_, ?_, ?_, Or.inl ⟨by trivial, rfl⟩⟩
        · simp only [with_trace_db, mutex_unlock_db, SQLCloseCursor_db, h3]
        · rfl
      · split
        · refine ⟨_, ?_, ?_, Or.inl ⟨by trivial, rfl⟩⟩
          · simp only [with_trace_db, mutex_unlock_db, SQLCloseCursor_db, h3]
          · rfl
        · cases iterator with
          | none =>
            refine ⟨_, ?_, ?_, Or.inl ⟨by trivial, rfl⟩⟩
            · simp only [with_trace_db, mutex_unlock_db, SQLCloseCursor_db, h3]
            · rfl
          | some it =>
            dsimp only
            refine ⟨_, ?_, ?_, Or.inr ⟨it, _, rfl, rfl⟩⟩
            · simp only [with_trace_db, mutex_unlock_db, SQLCloseCursor_db, h3]
            · rfl

theorem lookup_object_ext_finishes (originator name type : Option String) (flags : Int)
    (iterator : Option cpl_id_timestamp_iterator_t) :
    Finishes (fun o => cpl_odbc_lookup_object_ext o originator name type flags iterator)
      Stmt.lookup_object_ext_stmt
      [Param.varchar 255 originator, Param.varchar 255 name, Param.varchar 100 type]
      Mutex.lookup_object_ext_lock (IteratesFrom iterator) := by
  intro b r k o2 t hb
  dsimp only
  unfold cpl_odbc_lookup_object_ext IteratesFrom
  dsimp only
  rw [hb]
  cases r with
  | none => refine ⟨_, ?_, ?_, Or.inl ⟨by trivial, rfl⟩⟩ <;> rfl
  | some st =>
    dsimp only
    have h3 := fetch_loop_db (cpl_odbc_lookup_object_ext.keep b) st.pending st.current o2 []
    rcases hL : fetch_loop (cpl_odbc_lookup_object_ext.keep b) st.pending st.current o2 []
      with ⟨_ | entries, st3, o3⟩
    · rw [hL] at h3
      dsimp only at h3
      simp only [fetch_loop_with_trace, hL, SQLCloseCursor_with_trace,
        mutex_unlock_with_trace]
      refine ⟨_, ?_, ?_, Or.inl ⟨by trivial, rfl⟩⟩
      · simp only [with_trace_db, mutex_unlock_db, SQLCloseCursor_db, h3]
      · rfl
    · rw [hL] at h3
      dsimp only at h3
      simp only [fetch_loop_with_trace, hL, SQLCloseCursor_with_trace,
        mutex_unlock_with_trace]
      split
      · refine ⟨_, ?_, ?_, Or.inl ⟨by trivial, rfl⟩⟩
        · simp only [with_trace_db, mutex_unlock_db, SQLCloseCursor_db, h3]
        · rfl
      · split
        · refine ⟨_, ?_, ?_, Or.inl ⟨by trivial, rfl⟩⟩
          · simp only [with_trace_db, mutex_unlock_db, SQLCloseCursor_db, h3]
          · rfl
        · cases iterator with
          | none =>
            refine ⟨_, ?_, ?_, Or.inl ⟨by trivial, rfl⟩⟩
            · simp only [with_trace_db, mutex_unlock_db, SQLCloseCursor_db, h3]
            · rfl
          | some it =>
            dsimp only
            refine ⟨_, ?_, ?_, Or.inr ⟨it, _, rfl, rfl⟩⟩
            · simp only [with_trace_db, mutex_unlock_db, SQLCloseCursor_db, h3]
            · rfl

theorem get_all_objects_finishes (H : cpl_h) (flags : Int)
    (iterator : Option cpl_object_info_iterator_t) (entry : cplxx_object_info_t) :
    Finishes (fun o => cpl_odbc_get_all_objects H o flags iterator entry)
      (if Int.land flags H.CPL_I_NO_CREATION_SESSION ≠ 0 then Stmt.get_all_objects_stmt
        else Stmt.get_all_objects_with_session_stmt)
      [] Mutex.get_all_objects_lock (LoopsFrom H flags iterator) := by
  intro b r k o2 t hb
  dsimp only
  unfold cpl_odbc_get_all_objects LoopsFrom
  dsimp only
  rw [hb]
  cases r with
  | none => refine ⟨_, ?_, ?_, Or.inl ⟨by trivial, rfl⟩⟩ <;> rfl
  | some st =>
    dsimp only
    generalize ({ entry with
        creation_session :=
          if Int.land flags H.CPL_I_NO_CREATION_SESSION = 0 then entry.creation_session
          else CPL_NONE
        version := CPL_VERSION_NONE } : cplxx_object_info_t) = entry1
    have h3 := fetch_loop_db (cpl_odbc_get_all_objects.keep H b flags) st.pending st.current
      o2 (entry1, [])
    rcases hL : fetch_loop (cpl_odbc_get_all_objects.keep H b flags) st.pending st.current o2
      (entry1, []) with ⟨_ | ⟨last, entries⟩, st3, o3⟩
    · rw [hL] at h3
      dsimp only at h3
      simp only [fetch_loop_with_trace, hL, SQLCloseCursor_with_trace,
        mutex_unlock_with_trace]
      refine ⟨_, ?_, ?_, Or.inl ⟨by trivial, rfl⟩⟩
      · simp only [with_trace_db, mutex_unlock_db, SQLCloseCursor_db, h3]
      · rfl
    · rw [hL] at h3
      dsimp only at h3
      simp only [fetch_loop_with_trace, hL, SQLCloseCursor_with_trace,
        mutex_unlock_with_trace]
      split
      · refine ⟨_, ?_, ?_, Or.inl ⟨by trivial, rfl⟩⟩
        · simp only [with_trace_db, mutex_unlock_db, SQLCloseCursor_db, h3]
        · rfl
      · split
        · refine ⟨_, ?_, ?_, Or.inl ⟨by trivial, rfl⟩⟩
          · simp only [with_trace_db, mutex_unlock_db, SQLCloseCursor_db, h3]
          · rfl
        · cases iterator with
          | none =>
            refine ⟨_, ?_, ?_, Or.inl ⟨by trivial, rfl⟩⟩
            · simp only [with_trace_db, mutex_unlock_db, SQLCloseCursor_db, h3]
            · rfl
          | some it =>
            dsimp only
            refine ⟨_, ?_, ?_, Or.inr ⟨it, _, rfl, rfl⟩⟩
            · simp only [with_trace_db, mutex_unlock_db, SQLCloseCursor_db, h3]
            · rfl

theorem get_properties_finishes (id : cpl_id_t) (version : cpl_version_t)
    (key : Option String) (iterator : Option cpl_property_iterator_t) :
    Finishes (fun o => cpl_odbc_get_properties o id version key iterator)
      (cpl_odbc_get_properties.statement version key)
      (cpl_odbc_get_properties.params id version key)
      Mutex.get_properties_lock (IteratesAfterVersion iterator id) := by
  intro b r k o2 t hb
  dsimp only
  unfold cpl_odbc_get_properties IteratesAfterVersion IteratesFrom
  dsimp only
  rw [hb]
  cases r with
  | none => refine ⟨_, ?_, ?_, Or.inl (Or.inl ⟨by trivial, rfl⟩)⟩ <;> rfl
  | some st =>
    dsimp only
    have h3 := properties_fetch_db st.pending st.current o2 false []
    rcases hL : cpl_odbc_get_properties.fetch st.pending st.current o2 false []
      with ⟨_ | ⟨found, entries⟩, st3, o3⟩
    · rw [hL] at h3
      dsimp only at h3
      simp only [properties_fetch_with_trace, hL, SQLCloseCursor_with_trace,
        mutex_unlock_with_trace]
      refine ⟨_, ?_, ?_, Or.inl (Or.inl ⟨by trivial, rfl⟩)⟩
      · simp only [with_trace_db, mutex_unlock_db, SQLCloseCursor_db, h3]
      · rfl
    · rw [hL] at h3
      dsimp only at h3
      simp only [properties_fetch_with_trace, hL, SQLCloseCursor_with_trace,
        mutex_unlock_with_trace]
      split
      · refine ⟨_, ?_, ?_, Or.inl (Or.inl ⟨by trivial, rfl⟩)⟩
        · simp only [with_trace_db, mutex_unlock_db, SQLCloseCursor_db, h3]
        · rfl
      · refine ⟨(mutex_unlock (SQLCloseCursor o3 st3).2.2
            Mutex.get_properties_lock).with_trace
          (t ++ [Event.unlock Mutex.get_properties_lock]), ?_, rfl, ?_⟩
        · simp only [with_trace_db, mutex_unlock_db, SQLCloseCursor_db, h3]
        · split
          · rcases hG : cpl_odbc_get_version ((mutex_unlock (SQLCloseCursor o3 st3).2.2
                Mutex.get_properties_lock).with_trace
              (t ++ [Event.unlock Mutex.get_properties_lock])) id with ⟨rv, v, o6⟩
            dsimp only
            split
            · exact Or.inr (Or.inl ⟨by trivial, rfl⟩)
            · split
              · exact Or.inr (Or.inl ⟨by trivial, rfl⟩)
              · cases iterator with
                | none => exact Or.inr (Or.inl ⟨by trivial, rfl⟩)
                | some it => exact Or.inr (Or.inr ⟨it, _, rfl, rfl⟩)
          · dsimp only
            split
            · exact Or.inl (Or.inl ⟨by trivial, rfl⟩)
            · split
              · exact Or.inl (Or.inl ⟨by trivial, rfl⟩)
              · cases iterator with
                | none => exact Or.inl (Or.inl ⟨by trivial, rfl⟩)
                | some it => exact Or.inl (Or.inr ⟨it, _, rfl, rfl⟩)

theorem get_object_ancestry_finishes (H : cpl_h) (id : cpl_id_t)
    (version : cpl_version_t) (direction flags : Int)
    (iterator : Option cpl_ancestry_iterator_t)
    (hflags : Int.land flags (Int.lnot (CPL_ODBC_A_SUPPORTED_FLAGS H)) = 0) :
    Finishes
      (fun o => cpl_odbc_get_object_ancestry H o id version direction flags iterator)
      (cpl_odbc_get_object_ancestry.statement H version direction)
      (cpl_odbc_get_object_ancestry.params id version)
      Mutex.get_object_ancestry_lock (IteratesAfterVersion iterator id) := by
  intro b r k o2 t hb
  dsimp only
  unfold cpl_odbc_get_object_ancestry IteratesAfterVersion IteratesFrom
  rw [if_neg (not_not.mpr hflags)]
  dsimp only
  rw [hb]
  cases r with
  | none => refine ⟨_, ?_, ?_, Or.inl (Or.inl ⟨by trivial, rfl⟩)⟩ <;> rfl
  | some st =>
    dsimp only
    have h3 := ancestry_fetch_db H flags st.pending st.current o2 false []
    rcases hL : cpl_odbc_get_object_ancestry.fetch H flags st.pending st.current o2 false []
      with ⟨_ | ⟨found, entries⟩, st3, o3⟩
    · rw [hL] at h3
      dsimp only at h3
      simp only [ancestry_fetch_with_trace, hL, SQLCloseCursor_with_trace,
        mutex_unlock_with_trace]
      refine ⟨_, ?_, ?_, Or.inl (Or.inl ⟨by trivial, rfl⟩)⟩
      · simp only [with_trace_db, mutex_unlock_db, SQLCloseCursor_db, h3]
      · rfl
    · rw [hL] at h3
      dsimp only at h3
      simp only [ancestry_fetch_with_trace, hL, SQLCloseCursor_with_trace,
        mutex_unlock_with_trace]
      split
      · refine ⟨_, ?_, ?_, Or.inl (Or.inl ⟨by trivial, rfl⟩)⟩
        · simp only [with_trace_db, mutex_unlock_db, SQLCloseCursor_db, h3]
        · rfl
      · refine ⟨(mutex_unlock (SQLCloseCursor o3 st3).2.2
            Mutex.get_object_ancestry_lock).with_trace
          (t ++ [Event.unlock Mutex.get_object_ancestry_lock]), ?_, rfl, ?_⟩
        · simp only [with_trace_db, mutex_unlock_db, SQLCloseCursor_db, h3]
        · split
          · rcases hG : cpl_odbc_get_version ((mutex_unlock (SQLCloseCursor o3 st3).2.2
                Mutex.get_object_ancestry_lock).with_trace
              (t ++ [Event.unlock Mutex.get_object_ancestry_lock])) id with ⟨rv, v, o6⟩
            dsimp only
            split
            · exact Or.inr (Or.inl ⟨by trivial, rfl⟩)
            · split
              · exact Or.inr (Or.inl ⟨by trivial, rfl⟩)
              · cases iterator with
                | none => exact Or.inr (Or.inl ⟨by trivial, rfl⟩)
                | some it => exact Or.inr (Or.inr ⟨it, _, rfl, rfl⟩)
          · dsimp only
            split
            · exact Or.inl (Or.inl ⟨by trivial, rfl⟩)
            · split
              · exact Or.inl (Or.inl ⟨by trivial, rfl⟩)
              · cases iterator with
                | none => exact Or.inl (Or.inl ⟨by trivial, rfl⟩)
                | some it => exact Or.inl (Or.inr ⟨it, _, rfl, rfl⟩)

open cpl_return_t SQLRETURN

theorem Store.Extends.itself (a : Store) : Store.Extends a a := ⟨rfl, fun _ _ h => h⟩

theorem EdgeIntegrity.extends {a b : Store} (h : Store.Extends a b) (ha : EdgeIntegrity a) :
    EdgeIntegrity b := by
  intro e he
  rw [h.1] at he
  exact ⟨h.2 _ _ (ha e he).1, h.2 _ _ (ha e he).2⟩

theorem insert_version_extends (db db2 : Store) (row : VersionRow) (rows : List (List Cell))
    (h : sql_insert_version db row = Except.ok (db2, rows)) : Store.Extends db db2 := by
  obtain ⟨_, _, hdb⟩ := sql_insert_version_ok _ _ _ _ h
  rw [hdb]
  refine ⟨rfl, fun id v hv => ?_⟩
  simp only [Store.has_version, List.any_append, Bool.or_eq_true] at hv ⊢
  exact Or.inl hv

theorem insert_object_extends (db db2 : Store) (row : ObjectRow) (ps : List Param)
    (rows : List (List Cell))
    (h : sql_insert_object db row ps = Except.ok (db2, rows)) : Store.Extends db db2 := by
  obtain ⟨_, _, _, hdb⟩ := sql_insert_object_ok _ _ _ _ _ h
  rw [hdb]
  exact ⟨rfl, fun _ _ hv => hv⟩

/-- Every statement but the insert of an edge leaves the edges alone and keeps the
versions. -/
theorem execute_extends (db db2 : Store) (now : Nat) (s : Stmt) (ps : List Param)
    (rows : List (List Cell)) (hs : s ≠ Stmt.add_ancestry_edge_stmt)
    (h : db.execute now s ps = Except.ok (db2, rows)) : Store.Extends db db2 := by
  cases s
  case add_ancestry_edge_stmt => exact absurd rfl hs
  case create_object_insert_stmt =>
    simp only [Store.execute, sql_create_object_insert] at h
    split at h
    · exact insert_object_extends _ _ _ _ _ h
    · cases h
  case create_object_insert_container_stmt =>
    simp only [Store.execute, sql_create_object_insert_container] at h
    split at h
    · exact insert_object_extends _ _ _ _ _ h
    · cases h
  case create_object_insert_version_stmt =>
    simp only [Store.execute, sql_create_object_insert_version] at h
    split at h
    · exact insert_version_extends _ _ _ _ h
    · cases h
  case create_version_stmt =>
    simp only [Store.execute, sql_create_version] at h
    split at h
    · exact insert_version_extends _ _ _ _ h
    · cases h
  case create_session_insert_stmt =>
    simp only [Store.execute, sql_create_session_insert] at h
    split at h
    · split at h
      · cases h
      · split at h
        · cases h
        · simp only [Except.ok.injEq, Prod.mk.injEq] at h
          rw [← h.1]
          exact ⟨rfl, fun _ _ hv => hv⟩
    · cases h
  case add_property_stmt =>
    simp only [Store.execute, sql_add_property] at h
    split at h
    · split at h
      · cases h
      · split at h
        · cases h
        · simp only [Except.ok.injEq, Prod.mk.injEq] at h
          rw [← h.1]
          exact ⟨rfl, fun _ _ hv => hv⟩
    · cases h
  all_goals
    simp only [Store.execute, sql_lookup_object, sql_lookup_object_ext, sql_get_version,
      sql_has_immediate_ancestor, sql_has_immediate_ancestor_with_ver, sql_get_session_info,
      sql_get_all_objects, sql_get_all_objects_with_session, sql_get_object_info,
      sql_get_version_info, sql_get_object_ancestors, sql_get_object_ancestors_with_ver,
      sql_get_object_descendants, sql_get_object_descendants_with_ver, sql_get_properties,
      sql_get_properties_with_ver, sql_get_properties_with_key,
      sql_get_properties_with_key_ver, sql_lookup_by_property] at h
    split at h
    · simp only [Except.ok.injEq, Prod.mk.injEq] at h
      rw [← h.1]
      exact Store.Extends.itself _
    · cases h

theorem EdgeIntegrity.add_edge {db : Store} (h : EdgeIntegrity db) (e : AncestryRow)
    (h1 : db.has_version e.from_id e.from_version = true)
    (h2 : db.has_version e.to_id e.to_version = true) :
    EdgeIntegrity { db with ancestry := db.ancestry ++ [e] } := by
  intro x hx
  simp only [List.mem_append, List.mem_singleton] at hx
  rcases hx with hx | rfl
  · exact h x hx
  · exact ⟨h1, h2⟩

theorem iterate_preserves {α : Type} (P : cpl_odbc_t → cpl_odbc_t → Prop)
    (hrefl : ∀ a, P a a) (htrans : ∀ a b c, P a b → P b c → P a c)
    (it : α → cpl_odbc_t → cpl_return_t × cpl_odbc_t) (hit : ∀ c x, P x (it c x).2)
    (calls : List α) : ∀ V, P V (iterate it calls V).2.2 := by
  induction calls with
  | nil => intro V; exact hrefl V
  | cons c calls ih =>
    intro V
    have h1 := hit c V
    unfold iterate
    rcases hc : it c V with ⟨r, o⟩
    rw [hc] at h1
    dsimp only at h1 ⊢
    split
    · exact h1
    · have h2 := ih o
      rcases hi : iterate it calls o with ⟨r2, cs, o2⟩
      rw [hi] at h2
      exact htrans _ _ _ h1 h2

theorem for_each_preserves {α β : Type} (P : cpl_odbc_t → cpl_odbc_t → Prop)
    (hrefl : ∀ a, P a a) (htrans : ∀ a b c, P a b → P b c → P a c)
    (body : α → cpl_odbc_t → cpl_return_t × Option β × cpl_odbc_t)
    (hbody : ∀ i x, P x (body i x).2.2) (rows : List α) :
    ∀ V, P V (for_each body rows V).2.2 := by
  induction rows with
  | nil => intro V; exact hrefl V
  | cons i rows ih =>
    intro V
    have h1 := hbody i V
    unfold for_each
    rcases hc : body i V with ⟨r, call, o⟩
    rw [hc] at h1
    dsimp only at h1 ⊢
    split
    · exact h1
    · have h2 := ih o
      rcases hi : for_each body rows o with ⟨r2, cs, o2⟩
      rw [hi] at h2
      exact htrans _ _ _ h1 h2

theorem Finishes.returns {α : Type} {op : cpl_odbc_t → cpl_return_t × α × cpl_odbc_t}
    {s : Stmt} {ps : List Param} {m : Mutex} (h : Finishes op s ps m ReturnsWith)
    (b : cpl_odbc_t) : Unlocked b s ps m (op b).2.2 := by
  obtain ⟨U, hU, ht⟩ := h.unlocked b
  unfold ReturnsWith at ht
  rw [ht]
  exact hU

theorem Unlocked.keeps_edges {b U : cpl_odbc_t} {s : Stmt} {ps : List Param} {m : Mutex}
    (h : Unlocked b s ps m U) (hs : s ≠ Stmt.add_ancestry_edge_stmt)
    (hb : EdgeIntegrity b.db) : EdgeIntegrity U.db := by
  rcases h.2 with h2 | ⟨rows, h2⟩
  · rw [h2]; exact hb
  · exact EdgeIntegrity.extends (execute_extends _ _ _ _ _ _ hs h2) hb

open cpl_return_t SQLRETURN

theorem SQL_EXECUTE_EXT_keeps_edges (s : Stmt) (ps : List Param) (k : Nat) (o : cpl_odbc_t)
    (hs : s ≠ Stmt.add_ancestry_edge_stmt) (ho : EdgeIntegrity o.db) :
    EdgeIntegrity (SQL_EXECUTE_EXT s ps k o).2.2.db := by
  rcases SQL_EXECUTE_EXT_cases s ps k o with ⟨_, h2⟩ | ⟨db, rows, hx, _, h2⟩
  · rw [h2.1]; exact ho
  · rw [h2.1]
    exact EdgeIntegrity.extends (execute_extends _ _ _ _ _ _ hs hx) ho

theorem create_object_state (odbc : cpl_odbc_t) (id : cpl_id_t)
    (originator name type : String) (container : cpl_id_t) (cv : cpl_version_t)
    (session : cpl_session_t) :
    ∃ (s1 : Stmt) (ps1 : List Param), s1 ≠ Stmt.add_ancestry_edge_stmt ∧
      ((cpl_odbc_create_object odbc id originator name type container cv session).2
          = mutex_unlock
              (SQL_EXECUTE_EXT s1 ps1 3 (mutex_lock odbc Mutex.create_object_lock)).2.2
              Mutex.create_object_lock
        ∨ (cpl_odbc_create_object odbc id originator name type container cv session).2
          = mutex_unlock
              (SQL_EXECUTE_EXT Stmt.create_object_insert_version_stmt
                [Param.integer id.hi, Param.integer id.lo, Param.integer session.hi,
                  Param.integer session.lo]
                (SQL_EXECUTE_EXT s1 ps1 3 (mutex_lock odbc Mutex.create_object_lock)).2.1
                (SQL_EXECUTE_EXT s1 ps1 3 (mutex_lock odbc Mutex.create_object_lock)).2.2).2.2
              Mutex.create_object_lock) := by
  refine ⟨if container = CPL_NONE then Stmt.create_object_insert_stmt
      else Stmt.create_object_insert_container_stmt,
    [Param.integer id.hi, Param.integer id.lo, Param.varchar 255 (some originator),
        Param.varchar 255 (some name), Param.varchar 100 (some type)] ++
      (if container ≠ CPL_NONE then
        [Param.integer container.hi, Param.integer container.lo, Param.integer cv]
       else []), ?_, ?_⟩
  rotate_left
  · unfold cpl_odbc_create_object
    dsimp only
    rcases SQL_EXECUTE_EXT _ _ 3 (mutex_lock odbc Mutex.create_object_lock)
      with ⟨_ | st, k, o2⟩
    · exact Or.inl rfl
    · dsimp only
      right
      rcases SQL_EXECUTE_EXT _ _ k o2 with ⟨_ | st2, k2, o3⟩ <;> rfl
  · split <;> decide

theorem mutex_unlock_trace (o : cpl_odbc_t) (m : Mutex) :
    (mutex_unlock o m).trace = o.trace ++ [Event.unlock m] := rfl

theorem mutex_lock_trace (o : cpl_odbc_t) (m : Mutex) :
    (mutex_lock o m).trace = o.trace ++ [Event.lock m] := rfl

theorem create_object_balanced (odbc : cpl_odbc_t) (id : cpl_id_t)
    (originator name type : String) (container : cpl_id_t) (cv : cpl_version_t)
    (session : cpl_session_t) :
    LocksBalanced odbc
      (cpl_odbc_create_object odbc id originator name type container cv session).2 := by
  obtain ⟨s1, ps1, _, h | h⟩ := create_object_state odbc id originator name type container
    cv session
  · rw [h]
    obtain ⟨E, hE, ht⟩ := SQL_EXECUTE_EXT_events s1 ps1 3
      (mutex_lock odbc Mutex.create_object_lock)
    refine ⟨Event.lock Mutex.create_object_lock :: (E ++ [Event.unlock _]), ?_,
      Disciplined.locked _ E (fun e he => (hE e he).imp (fun h => ⟨_, h⟩) (fun h => h))⟩
    rw [mutex_unlock_trace, ht, mutex_lock_trace]
    simp
  · rw [h]
    obtain ⟨E, hE, ht⟩ := SQL_EXECUTE_EXT_events s1 ps1 3
      (mutex_lock odbc Mutex.create_object_lock)
    obtain ⟨E2, hE2, ht2⟩ := SQL_EXECUTE_EXT_events Stmt.create_object_insert_version_stmt
      [Param.integer id.hi, Param.integer id.lo, Param.integer session.hi,
        Param.integer session.lo]
      (SQL_EXECUTE_EXT s1 ps1 3 (mutex_lock odbc Mutex.create_object_lock)).2.1
      (SQL_EXECUTE_EXT s1 ps1 3 (mutex_lock odbc Mutex.create_object_lock)).2.2
    refine ⟨Event.lock Mutex.create_object_lock :: ((E ++ E2) ++ [Event.unlock _]), ?_,
      Disciplined.locked _ (E ++ E2) ?_⟩
    · rw [mutex_unlock_trace, ht2, ht, mutex_lock_trace]
      simp
    · intro e he
      rcases List.mem_append.mp he with he | he
      · exact (hE e he).imp (fun h => ⟨_, h⟩) (fun h => h)
      · exact (hE2 e he).imp (fun h => ⟨_, h⟩) (fun h => h)

theorem create_object_keeps_edges (odbc : cpl_odbc_t) (id : cpl_id_t)
    (originator name type : String) (container : cpl_id_t) (cv : cpl_version_t)
    (session : cpl_session_t) (ho : EdgeIntegrity odbc.db) :
    EdgeIntegrity
      (cpl_odbc_create_object odbc id originator name type container cv session).2.db := by
  obtain ⟨s1, ps1, hs1, h | h⟩ := create_object_state odbc id originator name type container
    cv session
  · rw [h, mutex_unlock_db]
    exact SQL_EXECUTE_EXT_keeps_edges _ _ _ _ hs1 ho
  · rw [h, mutex_unlock_db]
    exact SQL_EXECUTE_EXT_keeps_edges _ _ _ _ (by decide)
      (SQL_EXECUTE_EXT_keeps_edges _ _ _ _ hs1 ho)

theorem create_version_balanced (odbc : cpl_odbc_t) (id : cpl_id_t) (v : cpl_version_t)
    (session : cpl_session_t) :
    LocksBalanced odbc (cpl_odbc_create_version odbc id v session).2 := by
  have ht := SQLExecute_trace (mutex_lock odbc Mutex.create_version_lock)
    Stmt.create_version_stmt [Param.integer id.hi, Param.integer id.lo, Param.integer v,
      Param.integer session.hi, Param.integer session.lo]
  have hfin : (cpl_odbc_create_version odbc id v session).2
      = mutex_unlock (SQLExecute (mutex_lock odbc Mutex.create_version_lock)
          Stmt.create_version_stmt [Param.integer id.hi, Param.integer id.lo,
            Param.integer v, Param.integer session.hi, Param.integer session.lo]).2
          Mutex.create_version_lock := by
    unfold cpl_odbc_create_version
    dsimp only
    rcases SQLExecute (mutex_lock odbc Mutex.create_version_lock) Stmt.create_version_stmt
      [Param.integer id.hi, Param.integer id.lo, Param.integer v, Param.integer session.hi,
        Param.integer session.lo] with ⟨_ | _, o2⟩
    · dsimp only
      repeat' split
      all_goals rfl
    · rfl
  refine ⟨Event.lock Mutex.create_version_lock
    :: ([Event.execute Stmt.create_version_stmt] ++ [Event.unlock _]), ?_,
    Disciplined.locked _ _ (fun e he => Or.inl ⟨_, List.mem_singleton.mp he⟩)⟩
  rw [hfin, mutex_unlock_trace, ht, mutex_lock_trace]
  simp

theorem create_version_keeps_edges (odbc : cpl_odbc_t) (id : cpl_id_t) (v : cpl_version_t)
    (session : cpl_session_t) (ho : EdgeIntegrity odbc.db) :
    EdgeIntegrity (cpl_odbc_create_version odbc id v session).2.db := by
  rcases create_version_spec odbc id v session with ⟨_, _, h⟩ | ⟨_, h⟩
  · rw [h.1]
    refine @EdgeIntegrity.extends odbc.db _ ⟨rfl, fun i w hv => ?_⟩ ho
    simp only [Store.has_version, List.any_append, Bool.or_eq_true] at hv ⊢
    exact Or.inl hv
  · rw [h.1]; exact ho

theorem LocksBalanced.of_returns {α : Type}
    {op : cpl_odbc_t → cpl_return_t × α × cpl_odbc_t}
    {s : Stmt} {ps : List Param} {m : Mutex} (h : Finishes op s ps m ReturnsWith)
    (b : cpl_odbc_t) : LocksBalanced b (op b).2.2 :=
  (h.returns b).locks_balanced

theorem get_version_balanced (o : cpl_odbc_t) (id : cpl_id_t) :
    LocksBalanced o (cpl_odbc_get_version o id).2.2 :=
  LocksBalanced.of_returns (get_version_finishes id) o

theorem get_version_db (o : cpl_odbc_t) (id : cpl_id_t) :
    (cpl_odbc_get_version o id).2.2.db = o.db := (get_version_spec o id).1.1

theorem get_object_info_balanced (o : cpl_odbc_t) (id : cpl_id_t)
    (version_hint : cpl_version_t) :
    LocksBalanced o (cpl_odbc_get_object_info o id version_hint).2.2 := by
  unfold cpl_odbc_get_object_info
  split
  · have h1 := get_version_balanced o id
    rcases hG : cpl_odbc_get_version o id with ⟨r, v, o1⟩
    rw [hG] at h1
    dsimp only at h1 ⊢
    split
    · exact h1
    · exact h1.followed (LocksBalanced.of_returns (get_object_info_read_finishes id _) o1)
  · exact LocksBalanced.of_returns (get_object_info_read_finishes id _) o

theorem get_object_info_keeps_edges (o : cpl_odbc_t) (id : cpl_id_t)
    (version_hint : cpl_version_t) (ho : EdgeIntegrity o.db) :
    EdgeIntegrity (cpl_odbc_get_object_info o id version_hint).2.2.db := by
  unfold cpl_odbc_get_object_info
  split
  · have h1 := get_version_db o id
    rcases hG : cpl_odbc_get_version o id with ⟨r, v, o1⟩
    rw [hG] at h1
    dsimp only at h1 ⊢
    split
    · rw [h1]; exact ho
    · exact ((get_object_info_read_finishes id _).returns o1).keeps_edges (by decide)
        (by rw [h1]; exact ho)
  · exact ((get_object_info_read_finishes id _).returns o).keeps_edges (by decide) ho

/-- An operation that iterates from the backend `V` leaves a backend that is related to
the one before the call as `V` is, when the iterator keeps the relation. -/
theorem IteratesFrom.preserves {α : Type} (P : cpl_odbc_t → cpl_odbc_t → Prop)
    (hrefl : ∀ a, P a a) (htrans : ∀ a b c, P a b → P b c → P a c)
    {iterator : Option (α → cpl_odbc_t → cpl_return_t × cpl_odbc_t)} {V : cpl_odbc_t}
    {R : cpl_return_t × List α × cpl_odbc_t} (h : IteratesFrom iterator V R)
    (hit : ∀ it, iterator = some it → ∀ c x, P x (it c x).2) (b : cpl_odbc_t)
    (hV : P b V) : P b R.2.2 := by
  rcases h with ⟨_, h⟩ | ⟨it, calls, hi, h⟩
  · rw [h]; exact hV
  · rw [h]
    exact htrans _ _ _ hV (iterate_preserves P hrefl htrans it (hit it hi) calls V)

theorem LocksBalanced.rel_trans (a b c : cpl_odbc_t) (h1 : LocksBalanced a b)
    (h2 : LocksBalanced b c) : LocksBalanced a c := h1.followed h2

open cpl_return_t SQLRETURN

theorem IteratesAfterVersion.preserves_after_version {α : Type} (P : cpl_odbc_t → cpl_odbc_t → Prop)
    (hrefl : ∀ a, P a a) (htrans : ∀ a b c, P a b → P b c → P a c)
    (hgv : ∀ x id, P x (cpl_odbc_get_version x id).2.2)
    {iterator : Option (α → cpl_odbc_t → cpl_return_t × cpl_odbc_t)} {id : cpl_id_t}
    {U : cpl_odbc_t} {R : cpl_return_t × List α × cpl_odbc_t}
    (h : IteratesAfterVersion iterator id U R)
    (hit : ∀ it, iterator = some it → ∀ c x, P x (it c x).2) (b : cpl_odbc_t)
    (hU : P b U) : P b R.2.2 := by
  rcases h with h | h
  · exact h.preserves P hrefl htrans hit b hU
  · exact h.preserves P hrefl htrans hit b (htrans _ _ _ hU (hgv U id))

theorem get_all_objects_call_preserves (P : cpl_odbc_t → cpl_odbc_t → Prop)
    (htrans : ∀ a b c, P a b → P b c → P a c)
    (hgv : ∀ x id, P x (cpl_odbc_get_version x id).2.2)
    (H : cpl_h) (flags : Int) (it : cpl_object_info_iterator_t)
    (hit : ∀ c x, P x (it c x).2) (i : cplxx_object_info_t) (x : cpl_odbc_t) :
    P x (cpl_odbc_get_all_objects.call H flags it i x).2.2 := by
  unfold cpl_odbc_get_all_objects.call
  by_cases hf : Int.land flags H.CPL_I_NO_VERSION = 0
  · rw [if_pos hf]
    have h1 := hgv x i.id
    rcases hG : cpl_odbc_get_version x i.id with ⟨r, v, o⟩
    rw [hG] at h1
    dsimp only at h1 ⊢
    split
    · exact h1
    · exact htrans _ _ _ h1 (hit _ _)
  · rw [if_neg hf]
    dsimp only
    rw [if_neg (by decide)]
    exact hit _ _

theorem LoopsFrom.preserves_loop (P : cpl_odbc_t → cpl_odbc_t → Prop)
    (hrefl : ∀ a, P a a) (htrans : ∀ a b c, P a b → P b c → P a c)
    (hgv : ∀ x id, P x (cpl_odbc_get_version x id).2.2)
    {H : cpl_h} {flags : Int} {iterator : Option cpl_object_info_iterator_t}
    {V : cpl_odbc_t} {R : cpl_return_t × List cpl_object_info_t × cpl_odbc_t}
    (h : LoopsFrom H flags iterator V R)
    (hit : ∀ it, iterator = some it → ∀ c x, P x (it c x).2) (b : cpl_odbc_t)
    (hV : P b V) : P b R.2.2 := by
  rcases h with ⟨_, h⟩ | ⟨it, buffer, hi, h⟩
  · rw [h]; exact hV
  · rw [h]
    exact htrans _ _ _ hV (for_each_preserves P hrefl htrans _
      (get_all_objects_call_preserves P htrans hgv H flags it (hit it hi)) buffer V)

theorem has_immediate_ancestor_statement_ne (version_hint : cpl_version_t) :
    (if version_hint = CPL_VERSION_NONE then Stmt.has_immediate_ancestor_stmt
      else Stmt.has_immediate_ancestor_with_ver_stmt) ≠ Stmt.add_ancestry_edge_stmt := by
  split <;> decide

theorem get_all_objects_statement_ne (H : cpl_h) (flags : Int) :
    (if Int.land flags H.CPL_I_NO_CREATION_SESSION ≠ 0 then Stmt.get_all_objects_stmt
      else Stmt.get_all_objects_with_session_stmt) ≠ Stmt.add_ancestry_edge_stmt := by
  split <;> decide

theorem get_properties_statement_ne (version : cpl_version_t) (key : Option String) :
    cpl_odbc_get_properties.statement version key ≠ Stmt.add_ancestry_edge_stmt := by
  unfold cpl_odbc_get_properties.statement
  repeat' split
  all_goals decide

theorem get_object_ancestry_statement_ne (H : cpl_h) (version : cpl_version_t)
    (direction : Int) :
    cpl_odbc_get_object_ancestry.statement H version direction
      ≠ Stmt.add_ancestry_edge_stmt := by
  unfold cpl_odbc_get_object_ancestry.statement
  repeat' split
  all_goals decide

theorem edges_rel_trans (a b c : cpl_odbc_t)
    (h1 : EdgeIntegrity a.db → EdgeIntegrity b.db)
    (h2 : EdgeIntegrity b.db → EdgeIntegrity c.db) :
    EdgeIntegrity a.db → EdgeIntegrity c.db := fun h => h2 (h1 h)

theorem get_version_keeps_edges (x : cpl_odbc_t) (id : cpl_id_t) :
    EdgeIntegrity x.db → EdgeIntegrity (cpl_odbc_get_version x id).2.2.db := by
  rw [get_version_db]; exact fun h => h

/-- A successful `add_ancestry_edge` has stored its edge, and both node references of the
edge are rows of `cpl_versions`. -/
theorem add_ancestry_edge_stores (odbc : cpl_odbc_t) (from_id : cpl_id_t)
    (from_ver : cpl_version_t) (to_id : cpl_id_t) (to_ver : cpl_version_t) (type : Int)
    (h : (cpl_odbc_add_ancestry_edge odbc from_id from_ver to_id to_ver type).1 = CPL_OK) :
    odbc.db.has_version from_id from_ver = true ∧ odbc.db.has_version to_id to_ver = true
    ∧ (cpl_odbc_add_ancestry_edge odbc from_id from_ver to_id to_ver type).2.db
      = { odbc.db with ancestry := odbc.db.ancestry
          ++ [⟨from_id, from_ver, to_id, to_ver, some type⟩] } := by
  have hx := execute_add_ancestry_edge odbc.db odbc.now from_id from_ver to_id to_ver type
  generalize hR : cpl_odbc_add_ancestry_edge odbc from_id from_ver to_id to_ver type = R
    at h
  unfold cpl_odbc_add_ancestry_edge at hR
  dsimp only at hR
  rcases SQL_EXECUTE_EXT_cases Stmt.add_ancestry_edge_stmt
      [Param.integer from_id.hi, Param.integer from_id.lo, Param.integer from_ver,
        Param.integer to_id.hi, Param.integer to_id.lo, Param.integer to_ver,
        Param.integer type] 3 (mutex_lock odbc Mutex.add_ancestry_edge_lock)
    with ⟨h1, _⟩ | ⟨db1, rows1, hx1, h1, h2⟩
  · rcases hE : SQL_EXECUTE_EXT Stmt.add_ancestry_edge_stmt
      [Param.integer from_id.hi, Param.integer from_id.lo, Param.integer from_ver,
        Param.integer to_id.hi, Param.integer to_id.lo, Param.integer to_ver,
        Param.integer type] 3 (mutex_lock odbc Mutex.add_ancestry_edge_lock)
      with ⟨a, n, o2⟩
    rw [hE] at hR h1
    dsimp only at h1
    subst h1
    dsimp only at hR
    subst hR
    exact cpl_return_t.noConfusion h
  · rcases hE : SQL_EXECUTE_EXT Stmt.add_ancestry_edge_stmt
      [Param.integer from_id.hi, Param.integer from_id.lo, Param.integer from_ver,
        Param.integer to_id.hi, Param.integer to_id.lo, Param.integer to_ver,
        Param.integer type] 3 (mutex_lock odbc Mutex.add_ancestry_edge_lock)
      with ⟨a, n, o2⟩
    rw [hE] at hR h1 h2
    dsimp only at h1 h2
    subst h1
    dsimp only at hR
    subst hR
    simp only [mutex_lock_db, mutex_lock_now] at hx1
    rw [hx] at hx1
    split at hx1
    · rename_i hrefs
      simp only [Except.ok.injEq, Prod.mk.injEq] at hx1
      refine ⟨hrefs.1, hrefs.2, ?_⟩
      rw [mutex_unlock_db, h2.1, ← hx1.1]
    · exact Except.noConfusion hx1

/-- The database after `add_ancestry_edge`: the edge is appended and both its node
references are rows of `cpl_versions`, or the database is as before. -/
theorem add_ancestry_edge_db (odbc : cpl_odbc_t) (from_id : cpl_id_t)
    (from_ver : cpl_version_t) (to_id : cpl_id_t) (to_ver : cpl_version_t) (type : Int) :
    (cpl_odbc_add_ancestry_edge odbc from_id from_ver to_id to_ver type).2.db = odbc.db
    ∨ (odbc.db.has_version from_id from_ver = true ∧ odbc.db.has_version to_id to_ver = true
      ∧ (cpl_odbc_add_ancestry_edge odbc from_id from_ver to_id to_ver type).2.db
        = { odbc.db with ancestry := odbc.db.ancestry
            ++ [⟨from_id, from_ver, to_id, to_ver, some type⟩] }) := by
  have hU := (add_ancestry_edge_finishes from_id from_ver to_id to_ver type).returns odbc
  rcases hU.2 with h | ⟨rows, h⟩
  · exact Or.inl h
  · rw [execute_add_ancestry_edge] at h
    split at h
    · rename_i hrefs
      simp only [Except.ok.injEq, Prod.mk.injEq] at h
      exact Or.inr ⟨hrefs.1, hrefs.2, h.1.symm⟩
    · exact Except.noConfusion h

theorem add_ancestry_edge_keeps_edges (odbc : cpl_odbc_t) (from_id : cpl_id_t)
    (from_ver : cpl_version_t) (to_id : cpl_id_t) (to_ver : cpl_version_t) (type : Int)
    (ho : EdgeIntegrity odbc.db) :
    EdgeIntegrity (cpl_odbc_add_ancestry_edge odbc from_id from_ver to_id to_ver type).2.db := by
  rcases add_ancestry_edge_db odbc from_id from_ver to_id to_ver type with h | ⟨h1, h2, h3⟩
  · exact h ▸ ho
  · rw [h3]
    exact ho.add_edge ⟨from_id, from_ver, to_id, to_ver, some type⟩ h1 h2

/-- An edge with a node reference that is not a row of `cpl_versions` is rejected:
`add_ancestry_edge` returns a statement error and the database is as before. -/
theorem add_ancestry_edge_rejects (odbc : cpl_odbc_t) (from_id : cpl_id_t)
    (from_ver : cpl_version_t) (to_id : cpl_id_t) (to_ver : cpl_version_t) (type : Int)
    (h : ¬ (odbc.db.has_version from_id from_ver = true
      ∧ odbc.db.has_version to_id to_ver = true)) :
    (cpl_odbc_add_ancestry_edge odbc from_id from_ver to_id to_ver type).1
      = CPL_E_STATEMENT_ERROR
    ∧ (cpl_odbc_add_ancestry_edge odbc from_id from_ver to_id to_ver type).2.db = odbc.db := by
  constructor
  · have hcodes : (cpl_odbc_add_ancestry_edge odbc from_id from_ver to_id to_ver type).1
        = CPL_E_STATEMENT_ERROR
        ∨ (cpl_odbc_add_ancestry_edge odbc from_id from_ver to_id to_ver type).1 = CPL_OK := by
      unfold cpl_odbc_add_ancestry_edge
      dsimp only
      split
      · exact Or.inl rfl
      · exact Or.inr rfl
    rcases hcodes with hc | hc
    · exact hc
    · obtain ⟨h1, h2, _⟩ := add_ancestry_edge_stores odbc from_id from_ver to_id to_ver type hc
      exact absurd ⟨h1, h2⟩ h
  · rcases add_ancestry_edge_db odbc from_id from_ver to_id to_ver type with h0 | ⟨h1, h2, _⟩
    · exact h0
    · exact absurd ⟨h1, h2⟩ h

theorem get_object_ancestry_keeps (P : cpl_odbc_t → cpl_odbc_t → Prop)
    (hrefl : ∀ a, P a a) (htrans : ∀ a b c, P a b → P b c → P a c)
    (hgv : ∀ x id, P x (cpl_odbc_get_version x id).2.2)
    (hU : ∀ b s ps m U, s ≠ Stmt.add_ancestry_edge_stmt → Unlocked b s ps m U → P b U)
    (H : cpl_h) (o : cpl_odbc_t) (id : cpl_id_t) (version : cpl_version_t)
    (direction flags : Int) (iterator : Option cpl_ancestry_iterator_t)
    (hit : ∀ it, iterator = some it → ∀ c x, P x (it c x).2) :
    P o (cpl_odbc_get_object_ancestry H o id version direction flags iterator).2.2 := by
  by_cases hflags : Int.land flags (Int.lnot (CPL_ODBC_A_SUPPORTED_FLAGS H)) = 0
  · obtain ⟨U, hUn, ht⟩ := (get_object_ancestry_finishes H id version direction flags
      iterator hflags).unlocked o
    exact ht.preserves_after_version P hrefl htrans hgv hit o
      (hU _ _ _ _ _ (get_object_ancestry_statement_ne H version direction) hUn)
  · unfold cpl_odbc_get_object_ancestry
    rw [if_pos hflags]
    exact hrefl o

/-- Every reachable store has edge integrity. -/
theorem reachable_edge_integrity (H : cpl_h) (db : Store) (h : Reachable H db) :
    EdgeIntegrity db := by
  have hE : ∀ b s ps m U, s ≠ Stmt.add_ancestry_edge_stmt → Unlocked b s ps m U →
      (EdgeIntegrity b.db → EdgeIntegrity U.db) :=
    fun b s ps m U hs hU => hU.keeps_edges hs
  induction h with
  | empty => intro e he; exact absurd he (List.not_mem_nil e)
  | create_session o session mac user pid program cmdline _ ih =>
    exact ((create_session_finishes session mac user pid program cmdline).returns
      o).keeps_edges (by decide) ih
  | create_object o id originator name type container cv session _ ih =>
    exact create_object_keeps_edges o id originator name type container cv session ih
  | lookup_object o originator name type _ ih =>
    exact ((lookup_object_finishes originator name type).returns o).keeps_edges
      (by decide) ih
  | lookup_object_ext o originator name type flags iterator hit _ ih =>
    obtain ⟨U, hU, ht⟩ := (lookup_object_ext_finishes originator name type flags
      iterator).unlocked o
    exact ht.preserves (fun a b => EdgeIntegrity a.db → EdgeIntegrity b.db)
      (fun _ h => h) edges_rel_trans hit o (hU.keeps_edges (by decide)) ih
  | create_version o id version session _ ih =>
    exact create_version_keeps_edges o id version session ih
  | get_version o id _ ih => exact get_version_keeps_edges o id ih
  | add_ancestry_edge o from_id from_ver to_id to_ver type _ ih =>
    exact add_ancestry_edge_keeps_edges o from_id from_ver to_id to_ver type ih
  | has_immediate_ancestor o object_id version_hint query_object_id max_version _ ih =>
    exact ((has_immediate_ancestor_finishes object_id version_hint query_object_id
      max_version).returns o).keeps_edges
      (has_immediate_ancestor_statement_ne version_hint) ih
  | add_property o id version key value _ ih =>
    exact ((add_property_finishes id version key value).returns o).keeps_edges
      (by decide) ih
  | get_session_info o id _ ih =>
    exact ((get_session_info_finishes id).returns o).keeps_edges (by decide) ih
  | get_all_objects o flags iterator entry hit _ ih =>
    obtain ⟨U, hU, ht⟩ := (get_all_objects_finishes H flags iterator entry).unlocked o
    exact ht.preserves_loop (fun a b => EdgeIntegrity a.db → EdgeIntegrity b.db)
      (fun _ h => h) edges_rel_trans get_version_keeps_edges hit o
      (hU.keeps_edges (get_all_objects_statement_ne H flags)) ih
  | get_object_info o id version_hint _ ih =>
    exact get_object_info_keeps_edges o id version_hint ih
  | get_version_info o id version _ ih =>
    exact ((get_version_info_finishes id version).returns o).keeps_edges (by decide) ih
  | get_object_ancestry o id version direction flags iterator hit _ ih =>
    exact get_object_ancestry_keeps (fun a b => EdgeIntegrity a.db → EdgeIntegrity b.db)
      (fun _ h => h) edges_rel_trans get_version_keeps_edges hE H o id version direction
      flags iterator hit ih
  | get_properties o id version key iterator hit _ ih =>
    obtain ⟨U, hU, ht⟩ := (get_properties_finishes id version key iterator).unlocked o
    exact ht.preserves_after_version (fun a b => EdgeIntegrity a.db → EdgeIntegrity b.db)
      (fun _ h => h) edges_rel_trans get_version_keeps_edges hit o
      (hU.keeps_edges (get_properties_statement_ne version key)) ih
  | lookup_by_property o key value iterator hit _ ih =>
    obtain ⟨U, hU, ht⟩ := (lookup_by_property_finishes key value iterator).unlocked o
    exact ht.preserves (fun a b => EdgeIntegrity a.db → EdgeIntegrity b.db)
      (fun _ h => h) edges_rel_trans hit o (hU.keeps_edges (by decide)) ih

/-- C23: every store that the backend operations make of the empty store has edge
integrity: both node references of every row of `cpl_ancestry` are rows of `cpl_versions`.
This holds for every behaviour of the driver and all arguments of the operations (the
iterators are taken not to break edge integrity).  In particular `add_ancestry_edge` keeps
edge integrity for all arguments: it returns `CPL_OK` only when both node references of the
edge are rows of `cpl_versions`, and then the edge is the new last row of the ancestry
table; an edge with a reference that is not is rejected by the insert, the operation
returns a statement error and the database is as before. -/
theorem C23_edge_integrity (H : cpl_h) :
    (∀ db, Reachable H db → EdgeIntegrity db)
    ∧ (∀ (odbc : cpl_odbc_t) (from_id : cpl_id_t) (from_ver : cpl_version_t)
        (to_id : cpl_id_t) (to_ver : cpl_version_t) (type : Int),
        EdgeIntegrity odbc.db →
        EdgeIntegrity
          (cpl_odbc_add_ancestry_edge odbc from_id from_ver to_id to_ver type).2.db)
    ∧ (∀ (odbc : cpl_odbc_t) (from_id : cpl_id_t) (from_ver : cpl_version_t)
        (to_id : cpl_id_t) (to_ver : cpl_version_t) (type : Int),
        (cpl_odbc_add_ancestry_edge odbc from_id from_ver to_id to_ver type).1 = CPL_OK →
        odbc.db.has_version from_id from_ver = true
        ∧ odbc.db.has_version to_id to_ver = true
        ∧ (cpl_odbc_add_ancestry_edge odbc from_id from_ver to_id to_ver type).2.db
          = { odbc.db with ancestry := odbc.db.ancestry
              ++ [⟨from_id, from_ver, to_id, to_ver, some type⟩] })
    ∧ (∀ (odbc : cpl_odbc_t) (from_id : cpl_id_t) (from_ver : cpl_version_t)
        (to_id : cpl_id_t) (to_ver : cpl_version_t) (type : Int),
        ¬ (odbc.db.has_version from_id from_ver = true
          ∧ odbc.db.has_version to_id to_ver = true) →
        (cpl_odbc_add_ancestry_edge odbc from_id from_ver to_id to_ver type).1
          = CPL_E_STATEMENT_ERROR
        ∧ (cpl_odbc_add_ancestry_edge odbc from_id from_ver to_id to_ver type).2.db
          = odbc.db) :=
  ⟨reachable_edge_integrity H, add_ancestry_edge_keeps_edges, add_ancestry_edge_stores,
    add_ancestry_edge_rejects⟩

/-- C23 at two objects and an edge between their versions 0: the edge is stored and the
store has edge integrity. -/
theorem C23_witness :
    two_objects_and_edge.db.ancestry = [⟨⟨0, 1⟩, 0, ⟨0, 2⟩, 0, some 1⟩]
    ∧ EdgeIntegrity two_objects_and_edge.db :=
  ⟨by decide!,
    (C23_edge_integrity sample_header).1 _
      (Reachable.add_ancestry_edge _ ⟨0, 1⟩ 0 ⟨0, 2⟩ 0 1
        (Reachable.create_object _ ⟨0, 2⟩ "o" "b" "t" CPL_NONE CPL_VERSION_NONE ⟨0, 5⟩
          (Reachable.create_object (connected Store.empty 0) ⟨0, 1⟩ "o" "a" "t" CPL_NONE
            CPL_VERSION_NONE ⟨0, 5⟩ Reachable.empty)))⟩

open cpl_return_t SQLRETURN

theorem after_calls_preserves {α : Type} (P : cpl_odbc_t → cpl_odbc_t → Prop)
    (hrefl : ∀ a, P a a) (htrans : ∀ a b c, P a b → P b c → P a c)
    (it : α → cpl_odbc_t → cpl_return_t × cpl_odbc_t) (hit : ∀ c x, P x (it c x).2)
    (pre : List α) : ∀ V, P V (after_calls it pre V) := by
  induction pre with
  | nil => intro V; exact hrefl V
  | cons c pre ih => intro V; exact htrans _ _ _ (hit c V) (ih _)

theorem after_each_preserves {α β : Type} (P : cpl_odbc_t → cpl_odbc_t → Prop)
    (hrefl : ∀ a, P a a) (htrans : ∀ a b c, P a b → P b c → P a c)
    (body : α → cpl_odbc_t → cpl_return_t × Option β × cpl_odbc_t)
    (hbody : ∀ i x, P x (body i x).2.2) (pre : List α) :
    ∀ V, P V (after_each body pre V) := by
  induction pre with
  | nil => intro V; exact hrefl V
  | cons c pre ih => intro V; exact htrans _ _ _ (hbody c V) (ih _)

theorem Disciplined.before (pre post : List Event) (h : Disciplined (pre ++ post)) :
    ∃ held, held_after none pre = some held := by
  unfold Disciplined at h
  rw [held_after_append] at h
  cases hp : held_after none pre with
  | none => rw [hp] at h; exact Option.noConfusion h
  | some held => exact ⟨held, rfl⟩

theorem IteratesUnlocked.returns_balanced {α : Type} {o : cpl_odbc_t}
    {iterator : Option (α → cpl_odbc_t → cpl_return_t × cpl_odbc_t)}
    {R : cpl_return_t × List α × cpl_odbc_t} (h : IteratesUnlocked o iterator R)
    (hit : ∀ it, iterator = some it → KeepsLocks it) : LocksBalanced o R.2.2 := by
  obtain ⟨V, hV, ht⟩ := h
  exact ht.preserves LocksBalanced LocksBalanced.of_same LocksBalanced.rel_trans
    (fun it hi => hit it hi) o hV

theorem IteratesAfterVersion.iterates_unlocked {α : Type} {o U : cpl_odbc_t} {id : cpl_id_t}
    {iterator : Option (α → cpl_odbc_t → cpl_return_t × cpl_odbc_t)}
    {R : cpl_return_t × List α × cpl_odbc_t} (h : IteratesAfterVersion iterator id U R)
    (hU : LocksBalanced o U) : IteratesUnlocked o iterator R := by
  rcases h with h | h
  · exact ⟨U, hU, h⟩
  · exact ⟨_, hU.followed (get_version_balanced U id), h⟩

theorem get_object_ancestry_unlocked (H : cpl_h) (o : cpl_odbc_t) (id : cpl_id_t)
    (version : cpl_version_t) (direction flags : Int)
    (iterator : Option cpl_ancestry_iterator_t) :
    IteratesUnlocked o iterator
      (cpl_odbc_get_object_ancestry H o id version direction flags iterator) := by
  by_cases hflags : Int.land flags (Int.lnot (CPL_ODBC_A_SUPPORTED_FLAGS H)) = 0
  · obtain ⟨U, hUn, ht⟩ := (get_object_ancestry_finishes H id version direction flags
      iterator hflags).unlocked o
    exact ht.iterates_unlocked hUn.locks_balanced
  · unfold cpl_odbc_get_object_ancestry
    rw [if_pos hflags]
    exact ⟨o, LocksBalanced.of_same o, Or.inl ⟨rfl, rfl⟩⟩

/-- The body of the loop of `get_all_objects` calls the iterator, if it does, from a
backend up to which its events keep the lock discipline. -/
theorem get_all_objects_call_unlocked (H : cpl_h) (flags : Int)
    (it : cpl_object_info_iterator_t) (i : cplxx_object_info_t) (x : cpl_odbc_t) :
    ((cpl_odbc_get_all_objects.call H flags it i x).2.1 = none
      ∧ LocksBalanced x (cpl_odbc_get_all_objects.call H flags it i x).2.2)
    ∨ ∃ e V, LocksBalanced x V
        ∧ cpl_odbc_get_all_objects.call H flags it i x = ((it e V).1, some e, (it e V).2) := by
  unfold cpl_odbc_get_all_objects.call
  by_cases hf : Int.land flags H.CPL_I_NO_VERSION = 0
  · rw [if_pos hf]
    have h1 := get_version_balanced x i.id
    rcases hG : cpl_odbc_get_version x i.id with ⟨r, v, o⟩
    rw [hG] at h1
    dsimp only at h1 ⊢
    split
    · exact Or.inl ⟨rfl, h1⟩
    · exact Or.inr ⟨_, o, h1, rfl⟩
  · rw [if_neg hf]
    dsimp only
    rw [if_neg (by decide)]
    exact Or.inr ⟨_, x, LocksBalanced.of_same x, rfl⟩

/-- C24: along every execution path of the sixteen backend operations, for every behaviour
of the driver, the events that the call adds to the log keep the lock discipline: no mutex
is taken while one is held (so never more than one is held, and the nested `get_version`
calls happen while the caller holds none), no mutex is released that is not held, and
none is held when the operation returns.  The operations with an iterator iterate from a
backend at which none is held, or return without a call of the iterator; the iterator, and
the body of the loop of `get_all_objects`, is called at backends at which none is held,
when the iterator itself keeps the discipline. -/
theorem C24_lock_discipline (H : cpl_h) (odbc : cpl_odbc_t) :
    (∀ flags iterator entry,
      LoopsUnlocked H flags odbc iterator
        (cpl_odbc_get_all_objects H odbc flags iterator entry)
      ∧ ((∀ it, iterator = some it → KeepsLocks it) →
        LocksBalanced odbc (cpl_odbc_get_all_objects H odbc flags iterator entry).2.2))
    ∧ (∀ id version_hint,
      LocksBalanced odbc (cpl_odbc_get_object_info odbc id version_hint).2.2)
    ∧ (∀ session mac_address user pid program cmdline,
      LocksBalanced odbc
        (cpl_odbc_create_session odbc session mac_address user pid program cmdline).2)
    ∧ (∀ id originator name type container container_version session,
      LocksBalanced odbc
        (cpl_odbc_create_object odbc id originator name type container container_version
          session).2)
    ∧ (∀ originator name type,
      LocksBalanced odbc (cpl_odbc_lookup_object odbc originator name type).2.2)
    ∧ (∀ originator name type flags iterator,
      IteratesUnlocked odbc iterator
        (cpl_odbc_lookup_object_ext odbc originator name type flags iterator)
      ∧ ((∀ it, iterator = some it → KeepsLocks it) →
        LocksBalanced odbc
          (cpl_odbc_lookup_object_ext odbc originator name type flags iterator).2.2))
    ∧ (∀ id version session,
      LocksBalanced odbc (cpl_odbc_create_version odbc id version session).2)
    ∧ (∀ id, LocksBalanced odbc (cpl_odbc_get_version odbc id).2.2)
    ∧ (∀ from_id from_ver to_id to_ver type,
      LocksBalanced odbc
        (cpl_odbc_add_ancestry_edge odbc from_id from_ver to_id to_ver type).2)
    ∧ (∀ object_id version_hint query_object_id query_object_max_version,
      LocksBalanced odbc
        (cpl_odbc_has_immediate_ancestor odbc object_id version_hint query_object_id
          query_object_max_version).2.2)
    ∧ (∀ id version key value,
      LocksBalanced odbc (cpl_odbc_add_property odbc id version key value).2)
    ∧ (∀ id, LocksBalanced odbc (cpl_odbc_get_session_info odbc id).2.2)
    ∧ (∀ id version, LocksBalanced odbc (cpl_odbc_get_version_info odbc id version).2.2)
    ∧ (∀ id version direction flags iterator,
      IteratesUnlocked odbc iterator
        (cpl_odbc_get_object_ancestry H odbc id version direction flags iterator)
      ∧ ((∀ it, iterator = some it → KeepsLocks it) →
        LocksBalanced odbc
          (cpl_odbc_get_object_ancestry H odbc id version direction flags iterator).2.2))
    ∧ (∀ id version key iterator,
      IteratesUnlocked odbc iterator (cpl_odbc_get_properties odbc id version key iterator)
      ∧ ((∀ it, iterator = some it → KeepsLocks it) →
        LocksBalanced odbc (cpl_odbc_get_properties odbc id version key iterator).2.2))
    ∧ (∀ key value iterator,
      IteratesUnlocked odbc iterator (cpl_odbc_lookup_by_property odbc key value iterator)
      ∧ ((∀ it, iterator = some it → KeepsLocks it) →
        LocksBalanced odbc (cpl_odbc_lookup_by_property odbc key value iterator).2.2))
    ∧ (∀ (α : Type) (it : α → cpl_odbc_t → cpl_return_t × cpl_odbc_t) (V : cpl_odbc_t)
        (pre : List α), KeepsLocks it → LocksBalanced V (after_calls it pre V))
    ∧ (∀ (flags : Int) (it : cpl_object_info_iterator_t) (V : cpl_odbc_t)
        (pre : List cplxx_object_info_t), KeepsLocks it →
        LocksBalanced V (after_each (cpl_odbc_get_all_objects.call H flags it) pre V))
    ∧ (∀ (flags : Int) (it : cpl_object_info_iterator_t) (i : cplxx_object_info_t)
        (x : cpl_odbc_t),
        ((cpl_odbc_get_all_objects.call H flags it i x).2.1 = none
          ∧ LocksBalanced x (cpl_odbc_get_all_objects.call H flags it i x).2.2)
        ∨ ∃ e V, LocksBalanced x V
            ∧ cpl_odbc_get_all_objects.call H flags it i x
              = ((it e V).1, some e, (it e V).2))
    ∧ (∀ pre post : List Event, Disciplined (pre ++ post) →
        ∃ held, held_after none pre = some held) := by
  refine ⟨?_, ?_, ?_, ?_, ?_, ?_, ?_, ?_, ?_, ?_, ?_, ?_, ?_, ?_, ?_, ?_, ?_, ?_, ?_, ?_⟩
  · intro flags iterator entry
    obtain ⟨U, hU, ht⟩ := (get_all_objects_finishes H flags iterator entry).unlocked odbc
    exact ⟨⟨U, hU.locks_balanced, ht⟩, fun hit =>
      ht.preserves_loop LocksBalanced LocksBalanced.of_same LocksBalanced.rel_trans
        get_version_balanced (fun it hi => hit it hi) odbc hU.locks_balanced⟩
  · intro id version_hint
    exact get_object_info_balanced odbc id version_hint
  · intro session mac_address user pid program cmdline
    exact LocksBalanced.of_returns
      (create_session_finishes session mac_address user pid program cmdline) odbc
  · intro id originator name type container container_version session
    exact create_object_balanced odbc id originator name type container container_version
      session
  · intro originator name type
    exact LocksBalanced.of_returns (lookup_object_finishes originator name type) odbc
  · intro originator name type flags iterator
    obtain ⟨U, hU, ht⟩ := (lookup_object_ext_finishes originator name type flags
      iterator).unlocked odbc
    have h : IteratesUnlocked odbc iterator
        (cpl_odbc_lookup_object_ext odbc originator name type flags iterator) :=
      ⟨U, hU.locks_balanced, ht⟩
    exact ⟨h, h.returns_balanced⟩
  · intro id version session
    exact create_version_balanced odbc id version session
  · intro id
    exact get_version_balanced odbc id
  · intro from_id from_ver to_id to_ver type
    exact LocksBalanced.of_returns
      (add_ancestry_edge_finishes from_id from_ver to_id to_ver type) odbc
  · intro object_id version_hint query_object_id query_object_max_version
    exact LocksBalanced.of_returns
      (has_immediate_ancestor_finishes object_id version_hint query_object_id
        query_object_max_version) odbc
  · intro id version key value
    exact LocksBalanced.of_returns (add_property_finishes id version key value) odbc
  · intro id
    exact LocksBalanced.of_returns (get_session_info_finishes id) odbc
  · intro id version
    exact LocksBalanced.of_returns (get_version_info_finishes id version) odbc
  · intro id version direction flags iterator
    have h := get_object_ancestry_unlocked H odbc id version direction flags iterator
    exact ⟨h, h.returns_balanced⟩
  · intro id version key iterator
    obtain ⟨U, hU, ht⟩ := (get_properties_finishes id version key iterator).unlocked odbc
    have h : IteratesUnlocked odbc iterator
        (cpl_odbc_get_properties odbc id version key iterator) := ht.iterates_unlocked hU.locks_balanced
    exact ⟨h, h.returns_balanced⟩
  · intro key value iterator
    obtain ⟨U, hU, ht⟩ := (lookup_by_property_finishes key value iterator).unlocked odbc
    have h : IteratesUnlocked odbc iterator
        (cpl_odbc_lookup_by_property odbc key value iterator) := ⟨U, hU.locks_balanced, ht⟩
    exact ⟨h, h.returns_balanced⟩
  · intro α it V pre hit
    exact after_calls_preserves LocksBalanced LocksBalanced.of_same LocksBalanced.rel_trans
      it hit pre V
  · intro flags it V pre hit
    exact after_each_preserves LocksBalanced LocksBalanced.of_same LocksBalanced.rel_trans _
      (get_all_objects_call_preserves LocksBalanced LocksBalanced.rel_trans
        get_version_balanced H flags it hit) pre V
  · intro flags it i x
    exact get_all_objects_call_unlocked H flags it i x
  · intro pre post h
    exact Disciplined.before pre post h

/-- C24 at the enumeration of three objects with their versions: the events of the call,
and the whole log, keep the lock discipline. -/
theorem C24_witness :
    LocksBalanced three_objects
        (cpl_odbc_get_all_objects sample_header three_objects 0 (some accept_all_objects)
          sample_entry).2.2
      ∧ held_after none
          (cpl_odbc_get_all_objects sample_header three_objects 0 (some accept_all_objects)
            sample_entry).2.2.trace = some none :=
  ⟨((C24_lock_discipline sample_header three_objects).1 0 (some accept_all_objects)
      sample_entry).2 (fun _ h c x => by
        cases h
        exact LocksBalanced.of_same x),
    by decide!⟩

open cpl_return_t SQLRETURN

/-! ## The flags of `get_all_objects` -/

theorem foldl_keep_all {ρ ε : Type} (f : ρ → ε × List ε → ε × List ε)
    (hf : ∀ row a, (f row a).2 = a.2 ++ [(f row a).1]) (S P : ε → Prop)
    (rows : List ρ) (hrows : ∀ row ∈ rows, ∀ a, S a.1 → P (f row a).1 ∧ S (f row a).1) :
    ∀ a0 : ε × List ε, S a0.1 → (∀ i ∈ a0.2, P i) →
      ∀ i ∈ (rows.foldl (fun a row => f row a) a0).2, P i := by
  induction rows with
  | nil => intro a0 _ h0 i hi; exact h0 i hi
  | cons row rows ih =>
    intro a0 hS h0
    have h1 := hrows row (List.mem_cons_self _ _) a0 hS
    refine ih (fun r hr => hrows r (List.mem_cons_of_mem _ hr)) (f row a0) h1.2 ?_
    intro i hi
    rw [hf, List.mem_append, List.mem_singleton] at hi
    rcases hi with hi | rfl
    · exact h0 i hi
    · exact h1.1

theorem get_all_objects_keep_snd (H : cpl_h) (odbc : cpl_odbc_t) (flags : Int)
    (row : List Cell) (a : cplxx_object_info_t × List cplxx_object_info_t) :
    (cpl_odbc_get_all_objects.keep H odbc flags row a).2
      = a.2 ++ [(cpl_odbc_get_all_objects.keep H odbc flags row a).1] := rfl

/-- With `CPL_I_NO_CREATION_SESSION` every buffered row has the creation session
`CPL_NONE`. -/
theorem get_all_objects_buffer_no_session (H : cpl_h) (odbc : cpl_odbc_t) (flags : Int)
    (entry : cplxx_object_info_t) (hf : Int.land flags H.CPL_I_NO_CREATION_SESSION ≠ 0) :
    ∀ i ∈ get_all_objects_buffer H odbc flags entry, i.creation_session = CPL_NONE := by
  unfold get_all_objects_buffer
  refine foldl_keep_all (cpl_odbc_get_all_objects.keep H odbc flags)
    (get_all_objects_keep_snd H odbc flags)
    (fun e => e.creation_session = CPL_NONE) (fun e => e.creation_session = CPL_NONE)
    _ ?_ _ ?_ ?_
  · intro row _ a ha
    have : (cpl_odbc_get_all_objects.keep H odbc flags row a).1.creation_session
        = a.1.creation_session := by
      unfold cpl_odbc_get_all_objects.keep
      simp [hf]
    exact ⟨this.trans ha, this.trans ha⟩
  · simp [hf]
  · intro i hi
    exact absurd hi (List.not_mem_nil i)

/-- Without `CPL_I_NO_CREATION_SESSION` every buffered row has the id of an object and the
session of a version 0 of that object. -/
theorem get_all_objects_buffer_session (H : cpl_h) (odbc : cpl_odbc_t) (flags : Int)
    (entry : cplxx_object_info_t) (hf : Int.land flags H.CPL_I_NO_CREATION_SESSION = 0) :
    ∀ i ∈ get_all_objects_buffer H odbc flags entry,
      ∃ v ∈ odbc.db.version0_of i.id, i.creation_session = v.session_id := by
  unfold get_all_objects_buffer
  refine foldl_keep_all (cpl_odbc_get_all_objects.keep H odbc flags)
    (get_all_objects_keep_snd H odbc flags)
    (fun _ => True)
    (fun i => ∃ v ∈ odbc.db.version0_of i.id, i.creation_session = v.session_id)
    _ ?_ _ trivial ?_
  · intro row hrow a _
    refine ⟨?_, trivial⟩
    unfold get_all_objects_rows at hrow
    rw [if_neg (not_not.mpr hf)] at hrow
    simp only [List.mem_flatMap, List.mem_map] at hrow
    obtain ⟨o, _, v, hv, rfl⟩ := hrow
    refine ⟨v, ?_, ?_⟩
    · have hid : (cpl_odbc_get_all_objects.keep H odbc flags
          (o.cells ++ [Cell.int v.session_id.hi, Cell.int v.session_id.lo]) a).1.id
          = o.id := by
        show (⟨((o.id.hi : Int)).toNat, ((o.id.lo : Int)).toNat⟩ : cpl_id_t) = o.id
        simp
      rw [hid]
      exact hv
    · have hs : (cpl_odbc_get_all_objects.keep H odbc flags
          (o.cells ++ [Cell.int v.session_id.hi, Cell.int v.session_id.lo]) a).1.creation_session
          = ⟨((v.session_id.hi : Int)).toNat, ((v.session_id.lo : Int)).toNat⟩ := by
        unfold cpl_odbc_get_all_objects.keep
        simp [hf, ObjectRow.cells, Cell.indicator, Cell.as_llong]
      rw [hs]
      simp
  · intro i hi
    exact absurd hi (List.not_mem_nil i)

/-- Where the infos that the loop of `get_all_objects` delivers come from: each is made of
a buffered row; its version is `CPL_VERSION_NONE` with `CPL_I_NO_VERSION`, and otherwise
what a successful `get_version` for the id of the row gave, at a backend that satisfies
every property `Q` that the first backend has and that the iterator and `get_version`
keep. -/
theorem for_each_call_delivered (H : cpl_h) (flags : Int) (it : cpl_object_info_iterator_t)
    (Q : cpl_odbc_t → Prop) (hQit : ∀ c x, Q x → Q (it c x).2)
    (hQgv : ∀ x id, Q x → Q (cpl_odbc_get_version x id).2.2)
    (rows : List cplxx_object_info_t) :
    ∀ V, Q V → ∀ e ∈ (for_each (cpl_odbc_get_all_objects.call H flags it) rows V).2.1,
      ∃ i ∈ rows, ∃ x, Q x
        ∧ ((Int.land flags H.CPL_I_NO_VERSION ≠ 0 ∧ e = i.info CPL_VERSION_NONE)
          ∨ (Int.land flags H.CPL_I_NO_VERSION = 0
            ∧ CPL_IS_OK (cpl_odbc_get_version x i.id).1 = true
            ∧ e = i.info ((cpl_odbc_get_version x i.id).2.1.getD CPL_VERSION_NONE))) := by
  induction rows with
  | nil =>
    intro V _ e he
    exact absurd he (List.not_mem_nil e)
  | cons i rows ih =>
    intro V hV e he
    have hstep : Q (cpl_odbc_get_all_objects.call H flags it i V).2.2
        ∧ ∀ e ∈ (cpl_odbc_get_all_objects.call H flags it i V).2.1.toList,
          (Int.land flags H.CPL_I_NO_VERSION ≠ 0 ∧ e = i.info CPL_VERSION_NONE)
          ∨ (Int.land flags H.CPL_I_NO_VERSION = 0
            ∧ CPL_IS_OK (cpl_odbc_get_version V i.id).1 = true
            ∧ e = i.info ((cpl_odbc_get_version V i.id).2.1.getD CPL_VERSION_NONE)) := by
      unfold cpl_odbc_get_all_objects.call
      by_cases hf : Int.land flags H.CPL_I_NO_VERSION = 0
      · rw [if_pos hf]
        have h1 := hQgv V i.id hV
        rcases hG : cpl_odbc_get_version V i.id with ⟨r, v, o⟩
        rw [hG] at h1
        dsimp only at h1 ⊢
        by_cases hr : CPL_IS_OK r = true
        · simp only [hr, Bool.not_true, Bool.false_eq_true, if_false]
          refine ⟨hQit _ _ h1, fun e he => Or.inr ⟨hf, trivial, ?_⟩⟩
          simp only [Option.toList, List.mem_singleton] at he
          rw [he]
          rfl
        · simp only [hr, Bool.not_false, if_true]
          exact ⟨h1, fun e he => absurd he (List.not_mem_nil e)⟩
      · rw [if_neg hf]
        dsimp only
        rw [if_neg (by decide)]
        refine ⟨hQit _ _ hV, fun e he => Or.inl ⟨hf, ?_⟩⟩
        simp only [Option.toList, List.mem_singleton] at he
        rw [he]
        rfl
    unfold for_each at he
    rcases hc : cpl_odbc_get_all_objects.call H flags it i V with ⟨r, call, o⟩
    rw [hc] at he hstep
    dsimp only at he hstep
    split at he
    · exact ⟨i, List.mem_cons_self _ _, V, hV, hstep.2 e he⟩
    · rcases hi : for_each (cpl_odbc_get_all_objects.call H flags it) rows o
        with ⟨r2, calls, o2⟩
      rw [hi] at he
      dsimp only at he
      rcases List.mem_append.mp he with he | he
      · exact ⟨i, List.mem_cons_self _ _, V, hV, hstep.2 e he⟩
      · have := ih o hstep.1 e (by rw [hi]; exact he)
        obtain ⟨j, hj, x, hx, h⟩ := this
        exact ⟨j, List.mem_cons_of_mem _ hj, x, hx, h⟩

/-- With `CPL_I_NO_VERSION` the loop of `get_all_objects` is the plain iteration over the
buffered rows with version `CPL_VERSION_NONE`. -/
theorem for_each_call_no_version (H : cpl_h) (flags : Int)
    (it : cpl_object_info_iterator_t) (hf : Int.land flags H.CPL_I_NO_VERSION ≠ 0)
    (rows : List cplxx_object_info_t) :
    ∀ V, for_each (cpl_odbc_get_all_objects.call H flags it) rows V
      = iterate it (rows.map (fun i => i.info CPL_VERSION_NONE)) V := by
  have hcall : ∀ i x, cpl_odbc_get_all_objects.call H flags it i x
      = ((it (i.info CPL_VERSION_NONE) x).1, some (i.info CPL_VERSION_NONE),
          (it (i.info CPL_VERSION_NONE) x).2) := by
    intro i x
    unfold cpl_odbc_get_all_objects.call
    rw [if_neg hf]
    dsimp only
    rw [if_neg (by decide)]
    rfl
  induction rows with
  | nil => intro V; rfl
  | cons i rows ih =>
    intro V
    unfold for_each iterate
    rw [hcall]
    dsimp only
    rw [List.map_cons]
    dsimp only
    split
    · rfl
    · rw [ih]
      rfl

open cpl_return_t SQLRETURN

theorem get_version_ok (x : cpl_odbc_t) (id : cpl_id_t)
    (h : CPL_IS_OK (cpl_odbc_get_version x id).1 = true) :
    ∃ m, sql_max (x.db.versions_of id) = some m
      ∧ (cpl_odbc_get_version x id).2.1 = some (c_int m) := by
  rcases (get_version_spec x id).2 with h1 | h1
  · rw [h1] at h; exact absurd h (by decide)
  · cases hm : sql_max (x.db.versions_of id) with
    | none =>
      rw [hm] at h1
      rw [h1.1] at h
      exact absurd h (by decide)
    | some m =>
      rw [hm] at h1
      exact ⟨m, rfl, h1.2⟩

/-! ## The driver that reports no failure

A backend whose failure script is empty: every driver call goes through to the database.
The operations are evaluated exactly on such a backend. -/

@[simp]
theorem after_query_script (o : cpl_odbc_t) (s : Stmt) (m : Mutex) :
    (o.after_query s m).script = o.script := rfl

@[simp]
theorem after_query_db (o : cpl_odbc_t) (s : Stmt) (m : Mutex) :
    (o.after_query s m).db = o.db := rfl

theorem Advances.after_query (o : cpl_odbc_t) (s : Stmt) (m : Mutex) :
    Advances o (o.after_query s m) := ⟨rfl, rfl, rfl, rfl⟩

/-- On a driver that reports no failure `SQLExecute` is the verdict of the database. -/
theorem SQLExecute_faultless (o : cpl_odbc_t) (s : Stmt) (ps : List Param)
    (hs : o.script = []) :
    SQLExecute o s ps =
      match o.db.execute o.now s ps with
      | Except.error d => (Except.error d, log o (Event.execute s))
      | Except.ok (db, rows) =>
        (Except.ok ⟨rows, [], true⟩, { log o (Event.execute s) with db := db }) := by
  unfold SQLExecute
  rw [driver_next_of_nil _ (by simpa using hs)]
  try rfl

/-- On a driver that reports no failure the retrying execute is one execute: it ends at
the error label when the database rejects the statement, and with the result set
otherwise. -/
theorem SQL_EXECUTE_EXT_faultless (s : Stmt) (ps : List Param) (n : Nat) (o : cpl_odbc_t)
    (hs : o.script = []) :
    SQL_EXECUTE_EXT s ps n o =
      match o.db.execute o.now s ps with
      | Except.error _ => (none, n, log o (Event.execute s))
      | Except.ok (db, rows) =>
        (some ⟨rows, [], true⟩, n, { log o (Event.execute s) with db := db }) := by
  have hnt : NoTransient o.script := by
    intro d hd
    rw [hs] at hd
    exact absurd hd (List.not_mem_nil _)
  rw [SQL_EXECUTE_EXT_once s ps n o hnt, SQLExecute_faultless o s ps hs]
  rcases o.db.execute o.now s ps with d | ⟨db, rows⟩ <;> rfl

/-- A query on a driver that reports no failure: the result set, and the backend has only
logged the execute. -/
theorem SQL_EXECUTE_EXT_query (s : Stmt) (ps : List Param) (n : Nat) (o : cpl_odbc_t)
    (rows : List (List Cell)) (hs : o.script = [])
    (hx : o.db.execute o.now s ps = Except.ok (o.db, rows)) :
    SQL_EXECUTE_EXT s ps n o = (some ⟨rows, [], true⟩, n, log o (Event.execute s)) := by
  rw [SQL_EXECUTE_EXT_faultless s ps n o hs, hx]
  try rfl

theorem SQL_EXECUTE_EXT_script_nil (s : Stmt) (ps : List Param) (n : Nat) (o : cpl_odbc_t)
    (hs : o.script = []) : (SQL_EXECUTE_EXT s ps n o).2.2.script = [] := by
  rw [SQL_EXECUTE_EXT_faultless s ps n o hs]
  rcases o.db.execute o.now s ps with d | ⟨db, rows⟩ <;> exact hs

theorem SQLFetch_faultless (o : cpl_odbc_t) (stmt : SQLHSTMT) (hs : o.script = []) :
    SQLFetch o stmt =
      match stmt.pending with
      | [] => (SQL_NO_DATA, stmt, o)
      | row :: rest => (SQL_SUCCESS, { stmt with pending := rest, current := row }, o) := by
  unfold SQLFetch
  rw [driver_next_of_nil o hs]

theorem SQLCloseCursor_faultless (o : cpl_odbc_t) (stmt : SQLHSTMT) (hs : o.script = []) :
    SQLCloseCursor o stmt
      = (if stmt.cursor_open then SQL_SUCCESS else SQL_ERROR, stmt.closed, o) := by
  unfold SQLCloseCursor
  rw [driver_next_of_nil o hs]
  try rfl

theorem SQLCloseCursor_open (o : cpl_odbc_t) (stmt : SQLHSTMT) (hs : o.script = [])
    (hopen : stmt.cursor_open = true) :
    SQLCloseCursor o stmt = (SQL_SUCCESS, stmt.closed, o) := by
  rw [SQLCloseCursor_faultless o stmt hs, hopen]
  try rfl

/-- On a driver that reports no failure a fetch primitive leaves the backend as it is, and
it does not return a statement error when the column it reads is a column of the row and
the cursor is open. -/
theorem fetch_single_value_faultless (o : cpl_odbc_t) (stmt : SQLHSTMT) (bl col : Nat)
    (fetch close hn : Bool) (hs : o.script = []) (hopen : stmt.cursor_open = true)
    (hcol : ∀ st, stmt.position fetch = some st → col - 1 < st.current.length) :
    (cpl_sql_fetch_single_value o stmt bl col fetch close hn).2.2.2 = o
    ∧ (cpl_sql_fetch_single_value o stmt bl col fetch close hn).1 ≠ CPL_E_STATEMENT_ERROR := by
  have hget : ∀ st : SQLHSTMT, st.cursor_open = true → col - 1 < st.current.length →
      (cpl_sql_fetch_single_value.get_data o st bl col close hn).2.2.2 = o
      ∧ (cpl_sql_fetch_single_value.get_data o st bl col close hn).1
        ≠ CPL_E_STATEMENT_ERROR := by
    intro st hop hlen
    unfold cpl_sql_fetch_single_value.get_data SQLGetData
    rw [driver_next_of_nil o hs]
    dsimp only
    obtain ⟨c, hc⟩ : ∃ c, st.current.get? (col - 1) = some c := by
      rcases hg : st.current.get? (col - 1) with _ | c
      · rw [List.get?_eq_none] at hg
        omega
      · exact ⟨c, rfl⟩
    rw [hc]
    dsimp only
    simp only [SQL_SUCCEEDED, reduceCtorEq, if_false, Bool.not_true, Bool.false_eq_true]
    by_cases hi : c.indicator ≤ 0
    · rw [if_pos hi]
      unfold cpl_sql_fetch_single_value.err_null
      cases hn
      · simp only [Bool.not_false, if_true]
        rw [SQLCloseCursor_faultless o st hs]
        exact ⟨rfl, by simp⟩
      · simp
    · rw [if_neg hi]
      cases close
      · simp
      · simp only [if_true]
        rw [SQLCloseCursor_open o st hs hop]
        simp [SQL_SUCCEEDED]
  unfold cpl_sql_fetch_single_value
  cases fetch with
  | false =>
    simp only [Bool.false_eq_true, if_false]
    exact hget stmt hopen (hcol stmt rfl)
  | true =>
    simp only [if_true]
    rw [SQLFetch_faultless o stmt hs]
    rcases hp : stmt.pending with _ | ⟨row, rest⟩
    · dsimp only
      simp only [if_true]
      unfold cpl_sql_fetch_single_value.err_nf
      rw [SQLCloseCursor_faultless o stmt hs]
      exact ⟨rfl, by simp⟩
    · dsimp only
      simp only [SQL_SUCCEEDED, reduceCtorEq, if_false, Bool.not_true, Bool.false_eq_true]
      exact hget _ hopen (hcol _ (by simp [SQLHSTMT.position, SQLHSTMT.next, hp]))

theorem fetch_single_llong_faultless (o : cpl_odbc_t) (stmt : SQLHSTMT) (col : Nat)
    (fetch close hn : Bool) (hs : o.script = []) (hopen : stmt.cursor_open = true)
    (hcol : ∀ st, stmt.position fetch = some st → col - 1 < st.current.length) :
    (cpl_sql_fetch_single_llong o stmt col fetch close hn).2.2.2 = o
    ∧ Fetched Cell.as_llong stmt col fetch close hn
        (cpl_sql_fetch_single_llong o stmt col fetch close hn) := by
  have hv := fetch_single_value_faultless o stmt 0 col fetch close hn hs hopen hcol
  have hspec := (fetch_single_llong_spec o stmt col fetch close hn).2
  have hcode : (cpl_sql_fetch_single_llong o stmt col fetch close hn).2.2.2 = o
      ∧ (cpl_sql_fetch_single_llong o stmt col fetch close hn).1 ≠ CPL_E_STATEMENT_ERROR := by
    unfold cpl_sql_fetch_single_llong
    rcases hx : cpl_sql_fetch_single_value o stmt 0 col fetch close hn with ⟨r, d, st, o2⟩
    rw [hx] at hv
    dsimp only at hv ⊢
    obtain ⟨h1, h2⟩ := hv
    subst h1
    cases r <;> simp [CPL_IS_OK] at h2 ⊢
  exact ⟨hcode.1, hspec.resolve_left hcode.2⟩

theorem fetch_single_timestamp_faultless (o : cpl_odbc_t) (stmt : SQLHSTMT) (col : Nat)
    (fetch close hn : Bool) (hs : o.script = []) (hopen : stmt.cursor_open = true)
    (hcol : ∀ st, stmt.position fetch = some st → col - 1 < st.current.length) :
    (cpl_sql_fetch_single_timestamp_as_unix_time o stmt col fetch close hn).2.2.2 = o
    ∧ Fetched (fun c => cpl_sql_timestamp_to_unix_time o (c.truncate 16).as_timestamp)
        stmt col fetch close hn
        (cpl_sql_fetch_single_timestamp_as_unix_time o stmt col fetch close hn) := by
  have hv := fetch_single_value_faultless o stmt 16 col fetch close hn hs hopen hcol
  have hspec := (fetch_single_timestamp_spec o stmt col fetch close hn).2
  have hcode : (cpl_sql_fetch_single_timestamp_as_unix_time o stmt col fetch close hn).2.2.2
        = o
      ∧ (cpl_sql_fetch_single_timestamp_as_unix_time o stmt col fetch close hn).1
        ≠ CPL_E_STATEMENT_ERROR := by
    unfold cpl_sql_fetch_single_timestamp_as_unix_time
    rcases hx : cpl_sql_fetch_single_value o stmt 16 col fetch close hn with ⟨r, d, st, o2⟩
    rw [hx] at hv
    dsimp only at hv ⊢
    obtain ⟨h1, h2⟩ := hv
    subst h1
    cases r <;> simp [CPL_IS_OK] at h2 ⊢
  exact ⟨hcode.1, hspec.resolve_left hcode.2⟩

theorem fetch_single_string_faultless (o : cpl_odbc_t) (stmt : SQLHSTMT) (col : Nat)
    (fetch close hn : Bool) (ml : Nat) (hs : o.script = [])
    (hopen : stmt.cursor_open = true)
    (hcol : ∀ st, stmt.position fetch = some st → col - 1 < st.current.length) :
    (cpl_sql_fetch_single_dynamically_allocated_string o stmt col fetch close hn ml).2.2.2 = o
    ∧ Fetched (fun c => some (c.truncate (ml + 1)).as_string) stmt col fetch close hn
        (cpl_sql_fetch_single_dynamically_allocated_string o stmt col fetch close hn ml) := by
  have hv := fetch_single_value_faultless o stmt (ml + 1) col fetch close hn hs hopen hcol
  have hspec := (fetch_single_string_spec o stmt col fetch close hn ml).2
  have hcode :
      (cpl_sql_fetch_single_dynamically_allocated_string o stmt col fetch close hn ml).2.2.2
        = o
      ∧ (cpl_sql_fetch_single_dynamically_allocated_string o stmt col fetch close hn ml).1
        ≠ CPL_E_STATEMENT_ERROR := by
    unfold cpl_sql_fetch_single_dynamically_allocated_string
    rcases hx : cpl_sql_fetch_single_value o stmt (ml + 1) col fetch close hn
      with ⟨r, d, st, o2⟩
    rw [hx] at hv
    dsimp only at hv ⊢
    obtain ⟨h1, h2⟩ := hv
    subst h1
    cases r <;> simp [CPL_IS_OK] at h2 ⊢
  exact ⟨hcode.1, hspec.resolve_left hcode.2⟩

/-- On a driver that reports no failure the fetch loop passes every pending row through
its body, in order, and leaves the cursor open and the backend as it is. -/
theorem fetch_loop_faultless {β : Type} (body : List Cell → β → β)
    (pending : List (List Cell)) (current : List Cell) (o : cpl_odbc_t) (acc : β)
    (hs : o.script = []) :
    ∃ cur, fetch_loop body pending current o acc
      = (some (pending.foldl (fun a row => body row a) acc), ⟨[], cur, true⟩, o) := by
  induction pending generalizing current acc with
  | nil =>
    unfold fetch_loop
    rw [SQLFetch_faultless o _ hs]
    exact ⟨current, by simp [SQL_SUCCEEDED]⟩
  | cons row rest ih =>
    unfold fetch_loop
    rw [SQLFetch_faultless o _ hs]
    simp only [SQL_SUCCEEDED, Bool.not_true, Bool.false_eq_true, if_false]
    exact ih row (body row acc)

theorem ancestry_fetch_faultless (H : cpl_h) (flags : Int) (pending : List (List Cell))
    (current : List Cell) (o : cpl_odbc_t) (found : Bool)
    (entries : List get_object_ancestry_entry) (hs : o.script = []) :
    ∃ cur, cpl_odbc_get_object_ancestry.fetch H flags pending current o found entries
      = (some (found || !pending.isEmpty,
          pending.foldl (fun acc row => cpl_odbc_get_object_ancestry.keep H flags row acc)
            entries), ⟨[], cur, true⟩, o) := by
  induction pending generalizing current found entries with
  | nil =>
    unfold cpl_odbc_get_object_ancestry.fetch
    rw [SQLFetch_faultless o _ hs]
    exact ⟨current, by simp [SQL_SUCCEEDED]⟩
  | cons row rest ih =>
    unfold cpl_odbc_get_object_ancestry.fetch
    rw [SQLFetch_faultless o _ hs]
    simp only [SQL_SUCCEEDED, Bool.not_true, Bool.false_eq_true, if_false]
    obtain ⟨cur, h⟩ := ih row true (cpl_odbc_get_object_ancestry.keep H flags row entries)
    exact ⟨cur, by rw [h]; simp⟩

theorem properties_fetch_faultless (pending : List (List Cell))
    (current : List Cell) (o : cpl_odbc_t) (found : Bool)
    (entries : List get_properties_entry) (hs : o.script = []) :
    ∃ cur, cpl_odbc_get_properties.fetch pending current o found entries
      = (some (found || !pending.isEmpty,
          pending.foldl (fun acc row => cpl_odbc_get_properties.keep row acc) entries),
          ⟨[], cur, true⟩, o) := by
  induction pending generalizing current found entries with
  | nil =>
    unfold cpl_odbc_get_properties.fetch
    rw [SQLFetch_faultless o _ hs]
    exact ⟨current, by simp [SQL_SUCCEEDED]⟩
  | cons row rest ih =>
    unfold cpl_odbc_get_properties.fetch
    rw [SQLFetch_faultless o _ hs]
    simp only [SQL_SUCCEEDED, Bool.not_true, Bool.false_eq_true, if_false]
    obtain ⟨cur, h⟩ := ih row true (cpl_odbc_get_properties.keep row entries)
    exact ⟨cur, by rw [h]; simp⟩

open cpl_return_t SQLRETURN

/-- On a driver that reports no failure `get_version` returns not found for an object
without version rows and otherwise OK with the greatest version recorded. -/
theorem get_version_faultless (o : cpl_odbc_t) (id : cpl_id_t) (hs : o.script = []) :
    cpl_odbc_get_version o id =
      match sql_max (o.db.versions_of id) with
      | none => (CPL_E_NOT_FOUND, none,
          o.after_query Stmt.get_version_stmt Mutex.get_version_lock)
      | some m => (CPL_OK, some (c_int m),
          o.after_query Stmt.get_version_stmt Mutex.get_version_lock) := by
  unfold cpl_odbc_get_version
  dsimp only
  rw [SQL_EXECUTE_EXT_query Stmt.get_version_stmt _ 3 _
    [[Cell.ofInt? (sql_max (o.db.versions_of id))]] (by simpa using hs)
    (by simp [Store.execute, sql_get_version])]
  dsimp only
  have hf := fetch_single_llong_faultless
    (log (mutex_lock o Mutex.get_version_lock) (Event.execute Stmt.get_version_stmt))
    ⟨[[Cell.ofInt? (sql_max (o.db.versions_of id))]], [], true⟩ 1 true true false
    (by simpa using hs) rfl
    (by intro st hst
        simp only [SQLHSTMT.position, SQLHSTMT.next, if_true, Option.some.injEq] at hst
        subst hst
        simp)
  rcases hF : cpl_sql_fetch_single_llong
    (log (mutex_lock o Mutex.get_version_lock) (Event.execute Stmt.get_version_stmt))
    ⟨[[Cell.ofInt? (sql_max (o.db.versions_of id))]], [], true⟩ 1 true true false
    with ⟨r, l, st, o3⟩
  rw [hF] at hf
  obtain ⟨ho, hf2⟩ := hf
  dsimp only at ho
  subst ho
  simp only [Fetched, SQLHSTMT.position, SQLHSTMT.next, if_true, List.get?_cons_zero,
    Option.some.injEq, exists_eq_left', Bool.false_eq_true, if_false, Nat.sub_self] at hf2
  rcases hm : sql_max (o.db.versions_of id) with _ | m
  · rw [hm] at hf2
    simp [Cell.ofInt?, Cell.indicator] at hf2
    subst hf2
    simp [CPL_IS_OK, cpl_odbc_t.after_query]
  · rw [hm] at hf2
    simp [Cell.ofInt?, Cell.indicator, Cell.as_llong] at hf2
    obtain ⟨h3, h4, _⟩ := hf2
    subst h3 h4
    simp [CPL_IS_OK, cpl_odbc_t.after_query]

theorem get_version_script_nil (o : cpl_odbc_t) (id : cpl_id_t) (hs : o.script = []) :
    (cpl_odbc_get_version o id).2.2.script = [] := by
  rw [get_version_faultless o id hs]
  split <;> exact hs

/-- On a driver that reports no failure `lookup_object` returns not found when no row has
the three fields, and otherwise OK with the id of the first row in decreasing order of
creation time. -/
theorem lookup_object_faultless (o : cpl_odbc_t) (originator name type : Option String)
    (hs : o.script = []) :
    match order_by_creation_time_desc (o.db.objects_named originator name type) with
    | [] => (cpl_odbc_lookup_object o originator name type).1 = CPL_E_NOT_FOUND
    | row :: _ => (cpl_odbc_lookup_object o originator name type).1 = CPL_OK
        ∧ (cpl_odbc_lookup_object o originator name type).2.1 = row.id := by
  have hno : (cpl_odbc_lookup_object o originator name type).1 ≠ CPL_E_STATEMENT_ERROR := by
    generalize hR : cpl_odbc_lookup_object o originator name type = R
    unfold cpl_odbc_lookup_object at hR
    dsimp only at hR
    rw [SQL_EXECUTE_EXT_query Stmt.lookup_object_stmt _ 3 _
      (((order_by_creation_time_desc (o.db.objects_named originator name type)).take
        1).map (fun r => [Cell.int r.id.hi, Cell.int r.id.lo])) (by simpa using hs)
      (by simp [Store.execute, sql_lookup_object])] at hR
    dsimp only at hR
    generalize order_by_creation_time_desc (o.db.objects_named originator name type) = sorted
      at hR
    have hf := fetch_single_llong_faultless
      (log (mutex_lock o Mutex.lookup_object_lock) (Event.execute Stmt.lookup_object_stmt))
      ⟨(sorted.take 1).map (fun r => [Cell.int r.id.hi, Cell.int r.id.lo]), [], true⟩
      1 true false false (by simpa using hs) rfl
      (by intro st hst
          cases sorted with
          | nil => simp [SQLHSTMT.position, SQLHSTMT.next] at hst
          | cons row rest =>
            simp only [SQLHSTMT.position, SQLHSTMT.next, if_true, List.take_succ_cons,
              List.take_zero, List.map_cons, List.map_nil, Option.some.injEq] at hst
            subst hst
            simp)
    rcases hF : cpl_sql_fetch_single_llong
      (log (mutex_lock o Mutex.lookup_object_lock) (Event.execute Stmt.lookup_object_stmt))
      ⟨(sorted.take 1).map (fun r => [Cell.int r.id.hi, Cell.int r.id.lo]), [], true⟩
      1 true false false with ⟨r, hi, st3, o3⟩
    rw [hF] at hf hR
    obtain ⟨ho, hf2⟩ := hf
    dsimp only at ho hR
    subst ho
    cases sorted with
    | nil =>
      simp [Fetched, SQLHSTMT.position, SQLHSTMT.next] at hf2
      subst hf2
      simp [CPL_IS_OK] at hR
      subst hR
      simp
    | cons row rest =>
      simp [Fetched, SQLHSTMT.position, SQLHSTMT.next, Cell.indicator, Cell.as_llong] at hf2
      obtain ⟨hr, hhi, hst⟩ := hf2
      subst hr hhi hst
      simp only [CPL_IS_OK, Bool.not_true, Bool.false_eq_true, if_false] at hR
      have hf3 := fetch_single_llong_faultless
        (log (mutex_lock o Mutex.lookup_object_lock) (Event.execute Stmt.lookup_object_stmt))
        ⟨[], [Cell.int row.id.hi, Cell.int row.id.lo], true⟩ 2 false true false
        (by simpa using hs) rfl
        (by intro st hst
            simp only [SQLHSTMT.position, Bool.false_eq_true, if_false,
              Option.some.injEq] at hst
            subst hst
            simp)
      rcases hF2 : cpl_sql_fetch_single_llong
        (log (mutex_lock o Mutex.lookup_object_lock) (Event.execute Stmt.lookup_object_stmt))
        ⟨[], [Cell.int row.id.hi, Cell.int row.id.lo], true⟩ 2 false true false
        with ⟨r2, lo, st4, o4⟩
      rw [hF2] at hf3 hR
      obtain ⟨ho4, hf4⟩ := hf3
      simp [Fetched, SQLHSTMT.position, Cell.indicator, Cell.as_llong] at hf4
      obtain ⟨hr2, _, _⟩ := hf4
      subst hr2
      simp [CPL_IS_OK] at hR
      subst hR
      simp
  exact (lookup_object_spec o originator name type).resolve_left hno

theorem create_object_script_nil (o : cpl_odbc_t) (id : cpl_id_t)
    (originator name type : String) (container : cpl_id_t) (cv : cpl_version_t)
    (session : cpl_session_t) (hs : o.script = []) :
    (cpl_odbc_create_object o id originator name type container cv session).2.script
      = [] := by
  unfold cpl_odbc_create_object
  dsimp only
  generalize (if container = CPL_NONE then Stmt.create_object_insert_stmt
    else Stmt.create_object_insert_container_stmt) = stmt
  generalize ([Param.integer id.hi, Param.integer id.lo,
      Param.varchar 255 (some originator), Param.varchar 255 (some name),
      Param.varchar 100 (some type)] ++
    (if container ≠ CPL_NONE then
      [Param.integer container.hi, Param.integer container.lo, Param.integer cv]
     else [])) = ps
  have h1 := SQL_EXECUTE_EXT_script_nil stmt ps 3 (mutex_lock o Mutex.create_object_lock)
    (by simpa using hs)
  rcases hE : SQL_EXECUTE_EXT stmt ps 3 (mutex_lock o Mutex.create_object_lock)
    with ⟨a, n, o2⟩
  rw [hE] at h1
  dsimp only at h1
  cases a with
  | none => simpa using h1
  | some st =>
    dsimp only
    have h2 := SQL_EXECUTE_EXT_script_nil Stmt.create_object_insert_version_stmt
      [Param.integer id.hi, Param.integer id.lo, Param.integer session.hi,
        Param.integer session.lo] n o2 h1
    rcases hE2 : SQL_EXECUTE_EXT Stmt.create_object_insert_version_stmt
      [Param.integer id.hi, Param.integer id.lo, Param.integer session.hi,
        Param.integer session.lo] n o2 with ⟨a2, n2, o3⟩
    rw [hE2] at h2
    dsimp only at h2
    cases a2 <;> simpa using h2

theorem create_version_script_nil (o : cpl_odbc_t) (id : cpl_id_t) (v : cpl_version_t)
    (session : cpl_session_t) (hs : o.script = []) :
    (cpl_odbc_create_version o id v session).2.script = [] := by
  rw [create_version_eq]
  unfold create_version_insert
  rw [SQLExecute_faultless _ _ _ (by simpa using hs)]
  rcases (mutex_lock o Mutex.create_version_lock).db.execute
    (mutex_lock o Mutex.create_version_lock).now Stmt.create_version_stmt
    [Param.integer id.hi, Param.integer id.lo, Param.integer v,
      Param.integer session.hi, Param.integer session.lo] with d | ⟨db, rows⟩
  · dsimp only
    split
    · split <;> simpa using hs
    · simpa using hs
  · simpa using hs

theorem create_versions_script_nil (id : cpl_id_t) (session : Nat → cpl_session_t) (k : Nat)
    (o : cpl_odbc_t) (hs : o.script = []) :
    (create_versions id session k o).2.script = [] := by
  induction k with
  | zero => exact hs
  | succ k ih =>
    simp only [create_versions]
    rcases hc : create_versions id session k o with ⟨ok, o1⟩
    rw [hc] at ih
    dsimp only at ih ⊢
    have h := create_version_script_nil o1 id ((k + 1 : Nat) : Int) (session (k + 1)) ih
    rcases hv : cpl_odbc_create_version o1 id ((k + 1 : Nat) : Int) (session (k + 1))
      with ⟨r, o2⟩
    rw [hv] at h
    exact h

theorem add_property_script_nil (o : cpl_odbc_t) (id : cpl_id_t) (version : cpl_version_t)
    (key value : Option String) (hs : o.script = []) :
    (cpl_odbc_add_property o id version key value).2.script = [] := by
  unfold cpl_odbc_add_property
  dsimp only
  have h1 := SQL_EXECUTE_EXT_script_nil Stmt.add_property_stmt
    [Param.integer id.hi, Param.integer id.lo, Param.integer version,
      Param.varchar 255 key, Param.varchar 4095 value] 3
    (mutex_lock o Mutex.add_property_lock) (by simpa using hs)
  rcases hE : SQL_EXECUTE_EXT Stmt.add_property_stmt
    [Param.integer id.hi, Param.integer id.lo, Param.integer version,
      Param.varchar 255 key, Param.varchar 4095 value] 3
    (mutex_lock o Mutex.add_property_lock) with ⟨a, n, o2⟩
  rw [hE] at h1
  dsimp only at h1
  cases a <;> simpa using h1

/-- On a driver that reports no failure `lookup_by_property` returns not found when no
stored row has the name and the value, and otherwise iterates over the matching rows from
the backend that the query leaves behind. -/
theorem lookup_by_property_faultless (o : cpl_odbc_t) (key value : Option String)
    (iterator : Option cpl_property_iterator_t) (hs : o.script = []) :
    cpl_odbc_lookup_by_property o key value iterator =
      if o.db.properties_with key value = [] then
        (CPL_E_NOT_FOUND, [],
          o.after_query Stmt.lookup_by_property_stmt Mutex.lookup_by_property_lock)
      else
        match iterator with
        | none => (CPL_OK, [],
            o.after_query Stmt.lookup_by_property_stmt Mutex.lookup_by_property_lock)
        | some it =>
          iterate it (cpl_odbc_lookup_by_property.calls key value
            ((o.db.properties_with key value).map (fun r => ⟨r.id, r.version⟩)))
            (o.after_query Stmt.lookup_by_property_stmt Mutex.lookup_by_property_lock) := by
  unfold cpl_odbc_lookup_by_property
  dsimp only
  rw [SQL_EXECUTE_EXT_query Stmt.lookup_by_property_stmt _ 3 _ _ (by simpa using hs)
    (lookup_by_property_execute _ _ key value)]
  dsimp only
  obtain ⟨cur, hF⟩ := fetch_loop_faultless cpl_odbc_lookup_by_property.keep
    ((o.db.properties_with key value).map
      (fun r => [Cell.int r.id.hi, Cell.int r.id.lo, Cell.int r.version])) []
    (log (mutex_lock o Mutex.lookup_by_property_lock)
      (Event.execute Stmt.lookup_by_property_stmt)) [] (by simpa using hs)
  simp only [mutex_lock_db] at hF ⊢
  rw [hF]
  dsimp only
  rw [SQLCloseCursor_open _ _ (by simpa using hs) rfl]
  simp only [SQL_SUCCEEDED, Bool.not_true, Bool.false_eq_true, if_false]
  rw [lookup_by_property_buffer, List.nil_append]
  cases hb : o.db.properties_with key value with
  | nil => simp [cpl_odbc_t.after_query]
  | cons r rs =>
    simp [cpl_odbc_t.after_query]
    try rfl

/-- On a driver that reports no failure `lookup_object_ext` returns not found when no object
has the three fields, and otherwise iterates over the buffered rows from the backend that
the query leaves behind. -/
theorem lookup_object_ext_faultless (o : cpl_odbc_t) (originator name type : Option String)
    (flags : Int) (iterator : Option cpl_id_timestamp_iterator_t) (hs : o.script = []) :
    cpl_odbc_lookup_object_ext o originator name type flags iterator =
      if lookup_object_ext_buffer o originator name type = [] then
        (CPL_E_NOT_FOUND, [],
          o.after_query Stmt.lookup_object_ext_stmt Mutex.lookup_object_ext_lock)
      else
        match iterator with
        | none => (CPL_OK, [],
            o.after_query Stmt.lookup_object_ext_stmt Mutex.lookup_object_ext_lock)
        | some it =>
          iterate it (lookup_object_ext_buffer o originator name type)
            (o.after_query Stmt.lookup_object_ext_stmt Mutex.lookup_object_ext_lock) := by
  unfold cpl_odbc_lookup_object_ext
  dsimp only
  rw [SQL_EXECUTE_EXT_query Stmt.lookup_object_ext_stmt _ 3 _
    ((o.db.objects_named originator name type).map
      (fun r => [Cell.int r.id.hi, Cell.int r.id.lo, Cell.ts r.creation_time]))
    (by simpa using hs) (by simp [Store.execute, sql_lookup_object_ext])]
  dsimp only
  obtain ⟨cur, hF⟩ := fetch_loop_faultless (cpl_odbc_lookup_object_ext.keep o)
    ((o.db.objects_named originator name type).map
      (fun r => [Cell.int r.id.hi, Cell.int r.id.lo, Cell.ts r.creation_time])) []
    (log (mutex_lock o Mutex.lookup_object_ext_lock)
      (Event.execute Stmt.lookup_object_ext_stmt)) [] (by simpa using hs)
  rw [hF]
  dsimp only
  rw [SQLCloseCursor_open _ _ (by simpa using hs) rfl]
  simp only [SQL_SUCCEEDED, Bool.not_true, Bool.false_eq_true, if_false]
  rw [lookup_object_ext_fold, List.nil_append]
  rw [show (o.db.objects_named originator name type).map
      (fun r => (⟨r.id, cpl_sql_timestamp_to_unix_time o r.creation_time⟩ :
        cpl_id_timestamp_t))
    = lookup_object_ext_buffer o originator name type from rfl]
  cases hb : lookup_object_ext_buffer o originator name type with
  | nil => simp [cpl_odbc_t.after_query]
  | cons r rs =>
    simp [cpl_odbc_t.after_query]
    try rfl

/-- On a driver that reports no failure `get_all_objects` returns no data for an empty
buffer, and otherwise runs its loop over the buffered rows from the backend that the query
leaves behind. -/
theorem get_all_objects_faultless (H : cpl_h) (o : cpl_odbc_t) (flags : Int)
    (iterator : Option cpl_object_info_iterator_t) (entry : cplxx_object_info_t)
    (hs : o.script = []) :
    cpl_odbc_get_all_objects H o flags iterator entry =
      if get_all_objects_buffer H o flags entry = [] then
        (CPL_S_NO_DATA, [],
          o.after_query
            (if Int.land flags H.CPL_I_NO_CREATION_SESSION ≠ 0 then Stmt.get_all_objects_stmt
              else Stmt.get_all_objects_with_session_stmt) Mutex.get_all_objects_lock)
      else
        match iterator with
        | none => (CPL_OK, [],
            o.after_query
              (if Int.land flags H.CPL_I_NO_CREATION_SESSION ≠ 0 then
                Stmt.get_all_objects_stmt
                else Stmt.get_all_objects_with_session_stmt) Mutex.get_all_objects_lock)
        | some it =>
          for_each (cpl_odbc_get_all_objects.call H flags it)
            (get_all_objects_buffer H o flags entry)
            (o.after_query
              (if Int.land flags H.CPL_I_NO_CREATION_SESSION ≠ 0 then
                Stmt.get_all_objects_stmt
                else Stmt.get_all_objects_with_session_stmt)
              Mutex.get_all_objects_lock) := by
  unfold cpl_odbc_get_all_objects
  dsimp only
  have hx0 := get_all_objects_execute H o.db o.now flags
  generalize (if Int.land flags H.CPL_I_NO_CREATION_SESSION ≠ 0
    then Stmt.get_all_objects_stmt else Stmt.get_all_objects_with_session_stmt) = s
    at hx0 ⊢
  rw [SQL_EXECUTE_EXT_query s [] 3 (mutex_lock o Mutex.get_all_objects_lock) _
    (by simpa using hs) (by simpa using hx0)]
  dsimp only
  obtain ⟨cur, hF⟩ := fetch_loop_faultless (cpl_odbc_get_all_objects.keep H o flags)
    (get_all_objects_rows H o.db flags) []
    (log (mutex_lock o Mutex.get_all_objects_lock) (Event.execute s))
    ({ entry with
        creation_session :=
          if Int.land flags H.CPL_I_NO_CREATION_SESSION = 0 then entry.creation_session
          else CPL_NONE
        version := CPL_VERSION_NONE }, []) (by simpa using hs)
  rw [hF]
  dsimp only
  rw [SQLCloseCursor_open _ _ (by simpa using hs) rfl]
  simp only [SQL_SUCCEEDED, Bool.not_true, Bool.false_eq_true, if_false]
  rw [show ((get_all_objects_rows H o.db flags).foldl
      (fun a row => cpl_odbc_get_all_objects.keep H o flags row a)
      ({ entry with
          creation_session :=
            if Int.land flags H.CPL_I_NO_CREATION_SESSION = 0 then entry.creation_session
            else CPL_NONE
          version := CPL_VERSION_NONE }, [])).2
    = get_all_objects_buffer H o flags entry from rfl]
  cases hb : get_all_objects_buffer H o flags entry with
  | nil => simp [cpl_odbc_t.after_query]
  | cons r rs =>
    simp [cpl_odbc_t.after_query]
    try rfl

open cpl_return_t SQLRETURN

/-- On a driver that reports no failure `get_properties` does the following.  When its
query has no row and a version is given it asks `get_version`: not found for an object
without versions, no data otherwise.  When the buffer is empty it returns no data.
Otherwise it iterates over the buffer from the backend that the query leaves behind. -/
theorem get_properties_faultless (o : cpl_odbc_t) (id : cpl_id_t) (version : cpl_version_t)
    (key : Option String) (iterator : Option cpl_property_iterator_t) (hs : o.script = []) :
    cpl_odbc_get_properties o id version key iterator =
      if property_rows o.db id version key = [] ∧ version ≠ CPL_VERSION_NONE then
        (if o.db.versions_of id = [] then CPL_E_NOT_FOUND else CPL_S_NO_DATA, [],
          (o.after_query (cpl_odbc_get_properties.statement version key)
            Mutex.get_properties_lock).after_query Stmt.get_version_stmt
            Mutex.get_version_lock)
      else if properties_buffer (property_rows o.db id version key) = [] then
        (CPL_S_NO_DATA, [],
          o.after_query (cpl_odbc_get_properties.statement version key)
            Mutex.get_properties_lock)
      else
        match iterator with
        | none => (CPL_OK, [],
            o.after_query (cpl_odbc_get_properties.statement version key)
              Mutex.get_properties_lock)
        | some it =>
          iterate it
            (cpl_odbc_get_properties.calls id
              (properties_buffer (property_rows o.db id version key)))
            (o.after_query (cpl_odbc_get_properties.statement version key)
              Mutex.get_properties_lock) := by
  unfold cpl_odbc_get_properties
  dsimp only
  rw [SQL_EXECUTE_EXT_query (cpl_odbc_get_properties.statement version key)
    (cpl_odbc_get_properties.params id version key) 3
    (mutex_lock o Mutex.get_properties_lock) (property_rows o.db id version key)
    (by simpa using hs) (by simpa using properties_execute o.db o.now id version key)]
  dsimp only
  obtain ⟨cur, hF⟩ := properties_fetch_faultless (property_rows o.db id version key) []
    (log (mutex_lock o Mutex.get_properties_lock)
      (Event.execute (cpl_odbc_get_properties.statement version key))) false []
    (by simpa using hs)
  rw [hF]
  dsimp only
  rw [SQLCloseCursor_open _ _ (by simpa using hs) rfl]
  simp only [SQL_SUCCEEDED, Bool.not_true, Bool.false_eq_true, if_false, Bool.false_or]
  rw [show List.foldl (fun acc row => cpl_odbc_get_properties.keep row acc) []
      (property_rows o.db id version key)
    = properties_buffer (property_rows o.db id version key) from rfl]
  rw [show mutex_unlock (log (mutex_lock o Mutex.get_properties_lock)
      (Event.execute (cpl_odbc_get_properties.statement version key)))
      Mutex.get_properties_lock
    = o.after_query (cpl_odbc_get_properties.statement version key)
        Mutex.get_properties_lock from rfl]
  by_cases hcond : property_rows o.db id version key = [] ∧ version ≠ CPL_VERSION_NONE
  · simp only [if_pos hcond]
    rw [get_version_faultless _ id (by simpa using hs)]
    simp only [after_query_db]
    rw [hcond.1]
    rcases hm : sql_max (o.db.versions_of id) with _ | m
    · rw [(sql_max_eq_none _).mp hm]
      simp [CPL_IS_SUCCESS, CPL_IS_OK, hcond.2]
    · have hne : o.db.versions_of id ≠ [] := by
        intro h
        rw [h] at hm
        exact Option.noConfusion hm
      simp [CPL_IS_SUCCESS, CPL_IS_OK, hne, properties_buffer, hcond.2]
  · simp only [if_neg hcond]
    have hc : property_rows o.db id version key ≠ [] ∨ version = CPL_VERSION_NONE := by
      by_cases hv : version = CPL_VERSION_NONE
      · exact Or.inr hv
      · exact Or.inl (fun h => hcond ⟨h, hv⟩)
    rcases hc with hc | hc
    · cases hb : properties_buffer (property_rows o.db id version key) with
      | nil => simp [hc, CPL_IS_SUCCESS, CPL_IS_OK]
      | cons r rs =>
        simp [hc, CPL_IS_SUCCESS, CPL_IS_OK]
        try rfl
    · cases hb : properties_buffer (property_rows o.db id version key) with
      | nil => simp [hc, CPL_IS_SUCCESS, CPL_IS_OK]
      | cons r rs =>
        simp [hc, CPL_IS_SUCCESS, CPL_IS_OK]
        try rfl

/-- On a driver that reports no failure `get_object_ancestry` with supported flags does
the following.  When its query has no row and a version is given it asks `get_version`:
not found for an object without versions, no data otherwise.  When the buffer is empty it
returns no data.  Otherwise it iterates over the buffer from the backend that the query
leaves behind. -/
theorem get_object_ancestry_faultless (H : cpl_h) (o : cpl_odbc_t) (id : cpl_id_t)
    (version : cpl_version_t) (direction flags : Int)
    (iterator : Option cpl_ancestry_iterator_t) (hs : o.script = [])
    (hflags : Int.land flags (Int.lnot (CPL_ODBC_A_SUPPORTED_FLAGS H)) = 0) :
    cpl_odbc_get_object_ancestry H o id version direction flags iterator =
      if ancestry_rows H o.db id version direction = [] ∧ version ≠ CPL_VERSION_NONE then
        (if o.db.versions_of id = [] then CPL_E_NOT_FOUND else CPL_S_NO_DATA, [],
          (o.after_query (cpl_odbc_get_object_ancestry.statement H version direction)
            Mutex.get_object_ancestry_lock).after_query Stmt.get_version_stmt
            Mutex.get_version_lock)
      else if ancestry_buffer H flags (ancestry_rows H o.db id version direction) = [] then
        (CPL_S_NO_DATA, [],
          o.after_query (cpl_odbc_get_object_ancestry.statement H version direction)
            Mutex.get_object_ancestry_lock)
      else
        match iterator with
        | none => (CPL_OK, [],
            o.after_query (cpl_odbc_get_object_ancestry.statement H version direction)
              Mutex.get_object_ancestry_lock)
        | some it =>
          iterate it
            (cpl_odbc_get_object_ancestry.calls id
              (ancestry_buffer H flags (ancestry_rows H o.db id version direction)))
            (o.after_query (cpl_odbc_get_object_ancestry.statement H version direction)
              Mutex.get_object_ancestry_lock) := by
  unfold cpl_odbc_get_object_ancestry
  rw [if_neg (by simpa using hflags)]
  dsimp only
  rw [SQL_EXECUTE_EXT_query (cpl_odbc_get_object_ancestry.statement H version direction)
    (cpl_odbc_get_object_ancestry.params id version) 3
    (mutex_lock o Mutex.get_object_ancestry_lock) (ancestry_rows H o.db id version direction)
    (by simpa using hs) (by simpa using ancestry_execute H o.db o.now id version direction)]
  dsimp only
  obtain ⟨cur, hF⟩ := ancestry_fetch_faultless H flags
    (ancestry_rows H o.db id version direction) []
    (log (mutex_lock o Mutex.get_object_ancestry_lock)
      (Event.execute (cpl_odbc_get_object_ancestry.statement H version direction))) false []
    (by simpa using hs)
  rw [hF]
  dsimp only
  rw [SQLCloseCursor_open _ _ (by simpa using hs) rfl]
  simp only [SQL_SUCCEEDED, Bool.not_true, Bool.false_eq_true, if_false, Bool.false_or]
  rw [show List.foldl (fun acc row => cpl_odbc_get_object_ancestry.keep H flags row acc) []
      (ancestry_rows H o.db id version direction)
    = ancestry_buffer H flags (ancestry_rows H o.db id version direction) from rfl]
  rw [show mutex_unlock (log (mutex_lock o Mutex.get_object_ancestry_lock)
      (Event.execute (cpl_odbc_get_object_ancestry.statement H version direction)))
      Mutex.get_object_ancestry_lock
    = o.after_query (cpl_odbc_get_object_ancestry.statement H version direction)
        Mutex.get_object_ancestry_lock from rfl]
  by_cases hcond : ancestry_rows H o.db id version direction = []
      ∧ version ≠ CPL_VERSION_NONE
  · simp only [if_pos hcond]
    rw [get_version_faultless _ id (by simpa using hs)]
    simp only [after_query_db]
    rw [hcond.1]
    rcases hm : sql_max (o.db.versions_of id) with _ | m
    · rw [(sql_max_eq_none _).mp hm]
      simp [CPL_IS_SUCCESS, CPL_IS_OK, hcond.2]
    · have hne : o.db.versions_of id ≠ [] := by
        intro h
        rw [h] at hm
        exact Option.noConfusion hm
      simp [CPL_IS_SUCCESS, CPL_IS_OK, hne, ancestry_buffer, hcond.2]
  · simp only [if_neg hcond]
    have hc : ancestry_rows H o.db id version direction ≠ [] ∨ version = CPL_VERSION_NONE := by
      by_cases hv : version = CPL_VERSION_NONE
      · exact Or.inr hv
      · exact Or.inl (fun h => hcond ⟨h, hv⟩)
    rcases hc with hc | hc
    · cases hb : ancestry_buffer H flags (ancestry_rows H o.db id version direction) with
      | nil => simp [hc, CPL_IS_SUCCESS, CPL_IS_OK]
      | cons r rs =>
        simp [hc, CPL_IS_SUCCESS, CPL_IS_OK]
        try rfl
    · cases hb : ancestry_buffer H flags (ancestry_rows H o.db id version direction) with
      | nil => simp [hc, CPL_IS_SUCCESS, CPL_IS_OK]
      | cons r rs =>
        simp [hc, CPL_IS_SUCCESS, CPL_IS_OK]
        try rfl

/-- The macro `CPL_SQL_SIMPLE_FETCH_EXT` on a driver that reports no failure, for a column
of the row the cursor is on (or moves to): a cell without data jumps to `err_r` with not
found unless nulls are handled; any other case continues with the code and the value, on
the same backend. -/
theorem CPL_SQL_SIMPLE_FETCH_EXT_faultless {α : Type}
    (fetch_single : cpl_odbc_t → SQLHSTMT → Nat → Bool → Bool → Bool →
      cpl_return_t × α × SQLHSTMT × cpl_odbc_t)
    (conv : Cell → α) (o : cpl_odbc_t) (stmt : SQLHSTMT) (col : Nat) (hn : Bool)
    (hspec : (fetch_single o stmt col (col == 1) false hn).2.2.2 = o
      ∧ Fetched conv stmt col (col == 1) false hn
          (fetch_single o stmt col (col == 1) false hn))
    (st : SQLHSTMT) (c : Cell) (hpos : stmt.position (col == 1) = some st)
    (hc : st.current.get? (col - 1) = some c) :
    (c.indicator ≤ 0 ∧ hn = false
        ∧ ∀ (β : Type) (err_r : cpl_return_t → cpl_odbc_t → β)
          (next : cpl_return_t → α → SQLHSTMT → cpl_odbc_t → β),
          CPL_SQL_SIMPLE_FETCH_EXT fetch_single o stmt col hn err_r next
            = err_r CPL_E_NOT_FOUND o)
    ∨ ∃ r v, ((c.indicator ≤ 0 ∧ hn = true ∧ r = CPL_E_DB_NULL)
          ∨ (0 < c.indicator ∧ r = CPL_OK ∧ v = conv c))
        ∧ ∀ (β : Type) (err_r : cpl_return_t → cpl_odbc_t → β)
          (next : cpl_return_t → α → SQLHSTMT → cpl_odbc_t → β),
          CPL_SQL_SIMPLE_FETCH_EXT fetch_single o stmt col hn err_r next
            = next r v st o := by
  unfold CPL_SQL_SIMPLE_FETCH_EXT
  rcases hx : fetch_single o stmt col (col == 1) false hn with ⟨r, v, st2, o2⟩
  rw [hx] at hspec
  dsimp only at hspec ⊢
  obtain ⟨ho, h⟩ := hspec
  subst ho
  unfold Fetched at h
  rw [hpos] at h
  dsimp only at h
  obtain ⟨c2, hc2, hcase⟩ := h
  rw [hc] at hc2
  cases hc2
  by_cases hi : c.indicator ≤ 0
  · rw [if_pos hi] at hcase
    cases hn
    · simp only [Bool.false_eq_true, if_false] at hcase
      subst hcase
      left; exact ⟨hi, rfl, fun β err_r next => by simp [CPL_IS_OK]⟩
    · simp only [if_true] at hcase
      obtain ⟨h3, h4⟩ := hcase
      subst h3 h4
      right; exact ⟨CPL_E_DB_NULL, v, Or.inl ⟨hi, rfl, rfl⟩, fun β err_r next => by simp⟩
  · rw [if_neg hi] at hcase
    obtain ⟨h3, h4, h5⟩ := hcase
    simp only [Bool.false_eq_true, if_false] at h5
    subst h3 h4 h5
    right
    exact ⟨CPL_OK, conv c, Or.inr ⟨by omega, rfl, rfl⟩,
      fun β err_r next => by simp [CPL_IS_OK]⟩

/-- The query part of `get_object_info` on a driver that reports no failure and a database
whose join has the given row: it does not return a statement error. -/
theorem get_object_info_read_faultless (odbc : cpl_odbc_t) (id : cpl_id_t)
    (version : cpl_version_t)
    (shi slo : Int) (ct : Nat) (o n t : Option String) (chi clo cver : Option Int)
    (rest : List (List Cell)) (hs : odbc.script = [])
    (hx : sql_get_object_info odbc.db [Param.integer id.hi, Param.integer id.lo]
      = Except.ok (odbc.db, [Cell.int shi, Cell.int slo, Cell.ts ct, Cell.ofStr? o,
          Cell.ofStr? n, Cell.ofStr? t, Cell.ofInt? chi, Cell.ofInt? clo, Cell.ofInt? cver]
          :: rest)) :
    (cpl_odbc_get_object_info.read odbc id version).1 ≠ CPL_E_STATEMENT_ERROR := by
  generalize hR : cpl_odbc_get_object_info.read odbc id version = R
  unfold cpl_odbc_get_object_info.read at hR
  dsimp only at hR
  rw [SQL_EXECUTE_EXT_query Stmt.get_object_info_stmt
    [Param.integer id.hi, Param.integer id.lo] 3
    (mutex_lock odbc Mutex.get_object_info_lock)
    ([Cell.int shi, Cell.int slo, Cell.ts ct, Cell.ofStr? o,
          Cell.ofStr? n, Cell.ofStr? t, Cell.ofInt? chi, Cell.ofInt? clo, Cell.ofInt? cver]
          :: rest) (by simpa using hs) (by simpa [Store.execute] using hx)] at hR
  dsimp only at hR
  generalize hrow : [Cell.int shi, Cell.int slo, Cell.ts ct, Cell.ofStr? o,
    Cell.ofStr? n, Cell.ofStr? t, Cell.ofInt? chi, Cell.ofInt? clo, Cell.ofInt? cver] = row
    at hR
  have hlen : row.length = 9 := by rw [← hrow]; rfl
  generalize ho2 : log (mutex_lock odbc Mutex.get_object_info_lock)
    (Event.execute Stmt.get_object_info_stmt) = o2 at hR
  have hs2 : o2.script = [] := by rw [← ho2]; simpa using hs
  have hfirst : ∀ st, (⟨row :: rest, [], true⟩ : SQLHSTMT).position (1 == 1) = some st →
      1 - 1 < st.current.length := by
    intro st hst
    simp only [SQLHSTMT.position, SQLHSTMT.next, beq_self_eq_true, if_true,
      Option.some.injEq] at hst
    subst hst
    simp [hlen]
  have hlater : ∀ col, col ≠ 1 → col ≤ 9 → ∀ st,
      (⟨rest, row, true⟩ : SQLHSTMT).position (col == 1) = some st →
      col - 1 < st.current.length := by
    intro col h1 h9 st hst
    have : (col == 1) = false := by simpa using h1
    simp only [SQLHSTMT.position, this, Bool.false_eq_true, if_false,
      Option.some.injEq] at hst
    subst hst
    simp only [hlen]
    omega
  -- column 1
  rcases CPL_SQL_SIMPLE_FETCH_EXT_faultless cpl_sql_fetch_single_llong
      Cell.as_llong o2 ⟨row :: rest, [], true⟩ 1 false
      (fetch_single_llong_faultless _ _ _ _ _ _ hs2 rfl hfirst) ⟨rest, row, true⟩
      (Cell.int shi) rfl (by rw [← hrow]; rfl)
    with ⟨hi, _, _⟩ | ⟨r1, v1, hf1, hA⟩
  · simp [Cell.indicator] at hi
  rw [hA] at hR; clear hA
  -- column 2
  rcases CPL_SQL_SIMPLE_FETCH_EXT_faultless cpl_sql_fetch_single_llong
      Cell.as_llong o2 ⟨rest, row, true⟩ 2 false
      (fetch_single_llong_faultless _ _ _ _ _ _ hs2 rfl (hlater 2 (by decide) (by decide)))
      ⟨rest, row, true⟩ (Cell.int slo) rfl (by rw [← hrow]; rfl)
    with ⟨hi, _, _⟩ | ⟨r2, v2, hf2, hB⟩
  · simp [Cell.indicator] at hi
  rw [hB] at hR; clear hB
  -- column 3
  rcases CPL_SQL_SIMPLE_FETCH_EXT_faultless cpl_sql_fetch_single_timestamp_as_unix_time
      (fun c => cpl_sql_timestamp_to_unix_time o2 (c.truncate 16).as_timestamp)
      o2 ⟨rest, row, true⟩ 3 false
      (fetch_single_timestamp_faultless _ _ _ _ _ _ hs2 rfl
        (hlater 3 (by decide) (by decide)))
      ⟨rest, row, true⟩ (Cell.ts ct) rfl (by rw [← hrow]; rfl)
    with ⟨hi, _, _⟩ | ⟨r3, v3, hf3, hC⟩
  · simp [Cell.indicator] at hi
  rw [hC] at hR; clear hC
  -- column 4
  rcases CPL_SQL_SIMPLE_FETCH_EXT_faultless
      (fun o st c f cl hn => cpl_sql_fetch_single_dynamically_allocated_string o st c f cl
        hn 4095)
      (fun c => some (c.truncate (4095 + 1)).as_string)
      o2 ⟨rest, row, true⟩ 4 true
      (fetch_single_string_faultless _ _ _ _ _ _ _ hs2 rfl
        (hlater 4 (by decide) (by decide)))
      ⟨rest, row, true⟩ (Cell.ofStr? o) rfl (by rw [← hrow]; rfl)
    with ⟨_, hh, _⟩ | ⟨r4, v4, hf4, hD⟩
  · cases hh
  rw [hD] at hR; clear hD
  -- column 5
  rcases CPL_SQL_SIMPLE_FETCH_EXT_faultless
      (fun o st c f cl hn => cpl_sql_fetch_single_dynamically_allocated_string o st c f cl
        hn 4095)
      (fun c => some (c.truncate (4095 + 1)).as_string)
      o2 ⟨rest, row, true⟩ 5 true
      (fetch_single_string_faultless _ _ _ _ _ _ _ hs2 rfl
        (hlater 5 (by decide) (by decide)))
      ⟨rest, row, true⟩ (Cell.ofStr? n) rfl (by rw [← hrow]; rfl)
    with ⟨_, hh, _⟩ | ⟨r5, v5, hf5, hE5⟩
  · cases hh
  rw [hE5] at hR; clear hE5
  -- column 6
  rcases CPL_SQL_SIMPLE_FETCH_EXT_faultless
      (fun o st c f cl hn => cpl_sql_fetch_single_dynamically_allocated_string o st c f cl
        hn 4095)
      (fun c => some (c.truncate (4095 + 1)).as_string)
      o2 ⟨rest, row, true⟩ 6 true
      (fetch_single_string_faultless _ _ _ _ _ _ _ hs2 rfl
        (hlater 6 (by decide) (by decide)))
      ⟨rest, row, true⟩ (Cell.ofStr? t) rfl (by rw [← hrow]; rfl)
    with ⟨_, hh, _⟩ | ⟨r6, v6, hf6, hF⟩
  · cases hh
  rw [hF] at hR; clear hF
  -- column 7
  rcases CPL_SQL_SIMPLE_FETCH_EXT_faultless cpl_sql_fetch_single_llong
      Cell.as_llong o2 ⟨rest, row, true⟩ 7 true
      (fetch_single_llong_faultless _ _ _ _ _ _ hs2 rfl (hlater 7 (by decide) (by decide)))
      ⟨rest, row, true⟩ (Cell.ofInt? chi) rfl (by rw [← hrow]; rfl)
    with ⟨_, hh, _⟩ | ⟨r7, v7, hf7, hG⟩
  · cases hh
  rw [hG] at hR; clear hG
  -- column 8
  rcases CPL_SQL_SIMPLE_FETCH_EXT_faultless cpl_sql_fetch_single_llong
      Cell.as_llong o2 ⟨rest, row, true⟩ 8 true
      (fetch_single_llong_faultless _ _ _ _ _ _ hs2 rfl (hlater 8 (by decide) (by decide)))
      ⟨rest, row, true⟩ (Cell.ofInt? clo) rfl (by rw [← hrow]; rfl)
    with ⟨_, hh, _⟩ | ⟨r8, v8, hf8, hH⟩
  · cases hh
  rw [hH] at hR; clear hH
  -- column 9
  rcases CPL_SQL_SIMPLE_FETCH_EXT_faultless cpl_sql_fetch_single_llong
      Cell.as_llong o2 ⟨rest, row, true⟩ 9 true
      (fetch_single_llong_faultless _ _ _ _ _ _ hs2 rfl (hlater 9 (by decide) (by decide)))
      ⟨rest, row, true⟩ (Cell.ofInt? cver) rfl (by rw [← hrow]; rfl)
    with ⟨_, hh, _⟩ | ⟨r9, v9, hf9, hI⟩
  · cases hh
  rw [hI] at hR; clear hI
  rw [SQLCloseCursor_open o2 _ hs2 rfl] at hR
  simp only [SQL_SUCCEEDED, Bool.not_true, Bool.false_eq_true, if_false] at hR
  subst hR
  simp

/-- On a driver that reports no failure `get_object_info` does not return a statement
error on a database whose join has a row for the object. -/
theorem get_object_info_faultless (odbc : cpl_odbc_t) (id : cpl_id_t) (hint : cpl_version_t)
    (shi slo : Int) (ct : Nat) (o n t : Option String) (chi clo cver : Option Int)
    (rest : List (List Cell)) (hs : odbc.script = [])
    (hx : sql_get_object_info odbc.db [Param.integer id.hi, Param.integer id.lo]
      = Except.ok (odbc.db, [Cell.int shi, Cell.int slo, Cell.ts ct, Cell.ofStr? o,
          Cell.ofStr? n, Cell.ofStr? t, Cell.ofInt? chi, Cell.ofInt? clo, Cell.ofInt? cver]
          :: rest)) :
    (cpl_odbc_get_object_info odbc id hint).1 ≠ CPL_E_STATEMENT_ERROR := by
  unfold cpl_odbc_get_object_info
  by_cases hh : hint = CPL_VERSION_NONE
  · rw [if_pos hh, get_version_faultless odbc id hs]
    rcases hm : sql_max (odbc.db.versions_of id) with _ | m
    · simp [CPL_IS_OK]
    · simp only [CPL_IS_OK, Bool.not_true, Bool.false_eq_true, if_false, Option.getD_some]
      exact get_object_info_read_faultless _ id (c_int m) shi slo ct o n t chi clo cver rest
        (by simpa using hs) (by simpa using hx)
  · rw [if_neg hh]
    exact get_object_info_read_faultless odbc id hint shi slo ct o n t chi clo cver rest hs hx

open cpl_return_t SQLRETURN

/-! ## Versions, lookup and object info on a driver that reports no failure -/

theorem versions_owned_empty : VersionsOwned Store.empty :=
  fun _ h => absurd h (List.not_mem_nil _)

theorem insert_version_keeps_versions_owned (db db2 : Store) (row : VersionRow)
    (rows : List (List Cell)) (h : sql_insert_version db row = Except.ok (db2, rows))
    (hown : VersionsOwned db) : VersionsOwned db2 := by
  obtain ⟨_, hobj, hdb⟩ := sql_insert_version_ok _ _ _ _ h
  rw [hdb]
  intro x hx
  simp only [List.mem_append, List.mem_singleton] at hx
  rcases hx with hx | rfl
  · exact hown x hx
  · exact hobj

theorem insert_object_keeps_versions_owned (db db2 : Store) (row : ObjectRow)
    (ps : List Param) (rows : List (List Cell))
    (h : sql_insert_object db row ps = Except.ok (db2, rows))
    (hown : VersionsOwned db) : VersionsOwned db2 := by
  obtain ⟨_, _, _, hdb⟩ := sql_insert_object_ok _ _ _ _ _ h
  rw [hdb]
  intro x hx
  have := hown x hx
  simp only [Store.has_object, List.any_append, Bool.or_eq_true] at this ⊢
  exact Or.inl this

/-- Every statement keeps the reference of the versions to their objects. -/
theorem execute_keeps_versions_owned (db db2 : Store) (now : Nat) (s : Stmt)
    (ps : List Param) (rows : List (List Cell))
    (h : db.execute now s ps = Except.ok (db2, rows)) (hown : VersionsOwned db) :
    VersionsOwned db2 := by
  cases s
  case create_object_insert_stmt =>
    simp only [Store.execute, sql_create_object_insert] at h
    split at h
    · exact insert_object_keeps_versions_owned _ _ _ _ _ h hown
    · cases h
  case create_object_insert_container_stmt =>
    simp only [Store.execute, sql_create_object_insert_container] at h
    split at h
    · exact insert_object_keeps_versions_owned _ _ _ _ _ h hown
    · cases h
  case create_object_insert_version_stmt =>
    simp only [Store.execute, sql_create_object_insert_version] at h
    split at h
    · exact insert_version_keeps_versions_owned _ _ _ _ h hown
    · cases h
  case create_version_stmt =>
    simp only [Store.execute, sql_create_version] at h
    split at h
    · exact insert_version_keeps_versions_owned _ _ _ _ h hown
    · cases h
  case create_session_insert_stmt =>
    simp only [Store.execute, sql_create_session_insert] at h
    split at h
    · split at h
      · cases h
      · split at h
        · cases h
        · simp only [Except.ok.injEq, Prod.mk.injEq] at h
          rw [← h.1]
          exact hown
    · cases h
  case add_property_stmt =>
    simp only [Store.execute, sql_add_property] at h
    split at h
    · split at h
      · cases h
      · split at h
        · cases h
        · simp only [Except.ok.injEq, Prod.mk.injEq] at h
          rw [← h.1]
          exact hown
    · cases h
  case add_ancestry_edge_stmt =>
    simp only [Store.execute, sql_add_ancestry_edge] at h
    split at h
    · split at h
      · cases h
      · simp only [Except.ok.injEq, Prod.mk.injEq] at h
        rw [← h.1]
        exact hown
    · cases h
  all_goals
    simp only [Store.execute, sql_lookup_object, sql_lookup_object_ext, sql_get_version,
      sql_has_immediate_ancestor, sql_has_immediate_ancestor_with_ver, sql_get_session_info,
      sql_get_all_objects, sql_get_all_objects_with_session, sql_get_object_info,
      sql_get_version_info, sql_get_object_ancestors, sql_get_object_ancestors_with_ver,
      sql_get_object_descendants, sql_get_object_descendants_with_ver, sql_get_properties,
      sql_get_properties_with_ver, sql_get_properties_with_key,
      sql_get_properties_with_key_ver, sql_lookup_by_property] at h
    split at h
    · simp only [Except.ok.injEq, Prod.mk.injEq] at h
      rw [← h.1]
      exact hown
    · cases h

/-- C2: on a driver that reports no failure and a store in which every Version row belongs
to an Object row (the data model; every statement keeps it), for every id and every `k`
(a `cpl_version_t`, so below 2^31): after a successful `create_object (id, ...)` followed
by `k` successful `create_version (id, i, ...)` for `i = 1 .. k`, `get_version (id)`
returns Ok with version `k` (so 0 directly after `create_object`); and for an id with no
Version rows `get_version` returns NotFound. -/
theorem C2_get_version_after_create (odbc other : cpl_odbc_t) (id : cpl_id_t)
    (originator name type : String) (container : cpl_id_t) (cv : cpl_version_t)
    (session : cpl_session_t) (sessions : Nat → cpl_session_t) (k : Nat)
    (hs : odbc.script = [])
    (hown : VersionsOwned odbc.db)
    (hk : k < 2147483648)
    (hobj : (cpl_odbc_create_object odbc id originator name type container cv session).1
      = CPL_OK)
    (hver : (create_versions id sessions k
      (cpl_odbc_create_object odbc id originator name type container cv session).2).1 = true) :
    ((cpl_odbc_get_version (create_versions id sessions k
        (cpl_odbc_create_object odbc id originator name type container cv session).2).2 id).1
        = CPL_OK
      ∧ (cpl_odbc_get_version (create_versions id sessions k
        (cpl_odbc_create_object odbc id originator name type container cv session).2).2 id).2.1
        = some (k : Int))
    ∧ (other.script = [] → (∀ row ∈ other.db.versions, row.id ≠ id) →
        (cpl_odbc_get_version other id).1 = CPL_E_NOT_FOUND) := by
  constructor
  · have hc := create_object_ok odbc id originator name type container cv session hobj
    have hdb := hc.2.2.2.2.2.1
    have hnew : ∀ row ∈ odbc.db.versions, row.id ≠ id := by
      intro row hrow hid
      have h1 := hown row hrow
      rw [hid, hc.1] at h1
      exact absurd h1 (by decide)
    have h0 : sql_max ((cpl_odbc_create_object odbc id originator name type container cv
        session).2.db.versions_of id) = some 0 := by
      rw [versions_of_append odbc.db _ ⟨id, 0, session, odbc.now⟩ id (by rw [hdb]),
        (versions_of_eq_nil odbc.db id).mpr hnew]
      simp [sql_max]
    have hmax := create_versions_max id sessions k _ 0 h0 (le_refl 0) hver
    rw [get_version_faultless _ id (create_versions_script_nil id sessions k _
      (create_object_script_nil odbc id originator name type container cv session hs)), hmax]
    dsimp only
    refine ⟨rfl, ?_⟩
    rw [max_eq_right (by omega : (0 : Int) ≤ (k : Int)),
      c_int_of_range _ (by omega) (by omega)]
  · intro hs2 hnone
    rw [get_version_faultless other id hs2, (versions_of_eq_nil other.db id).mpr hnone]
    rfl

/-- C2 at a concrete input: on the empty database the object (0,1) is created, then its
versions 1 and 2; `get_version` returns Ok with version 2. -/
theorem C2_witness :
    (cpl_odbc_get_version (create_versions ⟨0, 1⟩ (fun _ => ⟨0, 9⟩) 2
        (cpl_odbc_create_object (connected Store.empty 0) ⟨0, 1⟩ "o" "n" "t" CPL_NONE
          CPL_VERSION_NONE ⟨0, 9⟩).2).2 ⟨0, 1⟩).1 = CPL_OK
    ∧ (cpl_odbc_get_version (create_versions ⟨0, 1⟩ (fun _ => ⟨0, 9⟩) 2
        (cpl_odbc_create_object (connected Store.empty 0) ⟨0, 1⟩ "o" "n" "t" CPL_NONE
          CPL_VERSION_NONE ⟨0, 9⟩).2).2 ⟨0, 1⟩).2.1 = some ((2 : Nat) : Int) :=
  (C2_get_version_after_create (connected Store.empty 0) (connected Store.empty 0) ⟨0, 1⟩
    "o" "n" "t" CPL_NONE CPL_VERSION_NONE ⟨0, 9⟩ (fun _ => ⟨0, 9⟩) 2 rfl
    versions_owned_empty (by decide) (by decide!) (by decide!)).1

/-- C3: on a driver that reports no failure, for every store and every originator, name
and type: `lookup_object` returns NotFound when no Object row has the three fields, and
otherwise Ok with the id of a row that has them and whose creation time is maximal among
such rows; after a `create_object (id, o, n, t)` that made the only object with these
fields it returns that id. -/
theorem C3_lookup_object_latest (odbc : cpl_odbc_t) (originator name type : String)
    (hs : odbc.script = []) :
    ((∀ r ∈ odbc.db.objects, ¬ r.named originator name type) →
        (cpl_odbc_lookup_object odbc (some originator) (some name) (some type)).1
          = CPL_E_NOT_FOUND)
    ∧ ((∃ r ∈ odbc.db.objects, r.named originator name type) →
        (cpl_odbc_lookup_object odbc (some originator) (some name) (some type)).1 = CPL_OK
        ∧ ∃ r ∈ odbc.db.objects, r.named originator name type
          ∧ (cpl_odbc_lookup_object odbc (some originator) (some name) (some type)).2.1 = r.id
          ∧ ∀ r2 ∈ odbc.db.objects, r2.named originator name type →
              r2.creation_time ≤ r.creation_time)
    ∧ (∀ (id container : cpl_id_t) (cv : cpl_version_t) (session : cpl_session_t),
        (∀ r ∈ odbc.db.objects, ¬ r.named originator name type) →
        (cpl_odbc_create_object odbc id originator name type container cv session).1 = CPL_OK →
        (cpl_odbc_lookup_object
          (cpl_odbc_create_object odbc id originator name type container cv session).2
          (some originator) (some name) (some type)).1 = CPL_OK
        ∧ (cpl_odbc_lookup_object
          (cpl_odbc_create_object odbc id originator name type container cv session).2
          (some originator) (some name) (some type)).2.1 = id) := by
  refine ⟨?_, ?_, ?_⟩
  · intro hnone
    have h := lookup_object_faultless odbc (some originator) (some name) (some type) hs
    have hnil : odbc.db.objects_named (some originator) (some name) (some type) = [] := by
      rw [List.eq_nil_iff_forall_not_mem]
      intro r hr
      rw [mem_objects_named] at hr
      exact hnone r hr.1 hr.2
    rw [hnil] at h
    exact h
  · rintro ⟨r0, hr0, hn0⟩
    have h := lookup_object_faultless odbc (some originator) (some name) (some type) hs
    cases hsort : order_by_creation_time_desc
        (odbc.db.objects_named (some originator) (some name) (some type)) with
    | nil =>
      have : r0 ∈ order_by_creation_time_desc
          (odbc.db.objects_named (some originator) (some name) (some type)) := by
        rw [mem_order_by_creation_time_desc, mem_objects_named]
        exact ⟨hr0, hn0⟩
      rw [hsort] at this
      exact absurd this (List.not_mem_nil _)
    | cons row rest =>
      rw [hsort] at h
      obtain ⟨hmem, hmax⟩ := order_by_creation_time_desc_head _ row rest hsort
      rw [mem_objects_named] at hmem
      refine ⟨h.1, row, hmem.1, hmem.2, h.2, ?_⟩
      intro r2 hr2 hn2
      exact hmax r2 ((mem_objects_named _ _ _ _ r2).mpr ⟨hr2, hn2⟩)
  · intro id container cv session hnone hobj
    have hc := create_object_ok odbc id originator name type container cv session hobj
    have hdb := hc.2.2.2.2.2.1
    have hnil : odbc.db.objects_named (some originator) (some name) (some type) = [] := by
      rw [List.eq_nil_iff_forall_not_mem]
      intro r hr
      rw [mem_objects_named] at hr
      exact hnone r hr.1 hr.2
    have hrow := created_object_row_named id originator name type container cv odbc.now
    have hnamed : (cpl_odbc_create_object odbc id originator name type container cv
        session).2.db.objects_named (some originator) (some name) (some type)
        = [created_object_row id originator name type container cv odbc.now] := by
      unfold Store.objects_named at hnil ⊢
      rw [hdb]
      dsimp only
      rw [List.filter_append, hnil]
      have := hrow.1
      unfold ObjectRow.named at this
      simp [List.filter_cons, this.1, this.2.1, this.2.2, sql_eq]
    have h := lookup_object_faultless (cpl_odbc_create_object odbc id originator name type
      container cv session).2 (some originator) (some name) (some type)
      (create_object_script_nil odbc id originator name type container cv session hs)
    rw [hnamed] at h
    simp only [order_by_creation_time_desc, insert_by_creation_time_desc] at h
    exact ⟨h.1, h.2.trans hrow.2⟩

/-- C3 at a concrete input: of the two objects with the fields ("o", "n", "t"), (0,1) created
at time 5 and (0,2) created after it at time 0, `lookup_object` returns (0,1), the one
with the greatest creation time. -/
theorem C3_witness :
    (cpl_odbc_lookup_object two_named (some "o") (some "n") (some "t")).2.1 = ⟨0, 1⟩
    ∧ (cpl_odbc_lookup_object two_named (some "o") (some "n") (some "t")).1 = CPL_OK
    ∧ ∃ r ∈ two_named.db.objects, r.named "o" "n" "t"
      ∧ (cpl_odbc_lookup_object two_named (some "o") (some "n") (some "t")).2.1 = r.id
      ∧ ∀ r2 ∈ two_named.db.objects, r2.named "o" "n" "t" →
          r2.creation_time ≤ r.creation_time :=
  ⟨by decide!,
    (C3_lookup_object_latest two_named "o" "n" "t" rfl).2.1
      ⟨⟨⟨0, 2⟩, some "o", some "n", some "t", 0, none, none, none⟩, by decide!,
        ⟨rfl, rfl, rfl⟩⟩⟩

/-- `get_object_info` right after a successful `create_object`, on a driver that reports no
failure: the record of the created object. -/
theorem get_object_info_after_create_faultless (odbc : cpl_odbc_t) (id : cpl_id_t)
    (originator name type : String) (container : cpl_id_t) (cv : cpl_version_t)
    (session : cpl_session_t) (hint : cpl_version_t) (hs : odbc.script = [])
    (hobj : (cpl_odbc_create_object odbc id originator name type container cv session).1
      = CPL_OK) :
    ∃ info,
      (cpl_odbc_get_object_info
        (cpl_odbc_create_object odbc id originator name type container cv session).2 id
        hint).1 = CPL_OK
      ∧ (cpl_odbc_get_object_info
        (cpl_odbc_create_object odbc id originator name type container cv session).2 id
        hint).2.1 = some info
      ∧ info.id = id
      ∧ (if hint = CPL_VERSION_NONE then
          ∃ m, sql_max ((cpl_odbc_create_object odbc id originator name type container cv
            session).2.db.versions_of id) = some m ∧ info.version = c_int m
        else info.version = hint)
      ∧ info.originator = some originator ∧ info.name = some name ∧ info.type = some type
      ∧ info.container_id = container
      ∧ info.container_version
          = c_int (if container = CPL_NONE then CPL_VERSION_NONE else cv) := by
  rcases get_object_info_after_create odbc id originator name type container cv session
    hint hobj with h | h
  · exfalso
    have hc := create_object_ok odbc id originator name type container cv session hobj
    obtain ⟨hno, hnv, _, _, _, hadv⟩ := hc
    have hdb := hadv.1
    dsimp only at hdb
    have hx := sql_get_object_info_last
      (cpl_odbc_create_object odbc id originator name type container cv session).2.db
      odbc.db.objects (created_object_row id originator name type container cv odbc.now)
      odbc.db.versions ⟨id, 0, session, odbc.now⟩ id (by rw [hdb]) (by rw [hdb])
      (created_object_row_named id originator name type container cv odbc.now).2 rfl rfl
      ((has_object_false_iff _ _).mp hno) ((has_version_false_iff _ _ _).mp hnv)
    exact get_object_info_faultless _ id hint _ _ _ _ _ _ _ _ _ []
      (create_object_script_nil odbc id originator name type container cv session hs) hx h
  · exact h

/-- C4: on a driver that reports no failure, for every id and all strings originator, name
and type (empty strings included): after a successful `create_object (id, originator,
name, type, ...)`, `get_object_info (id, VERSION_NONE)` returns Ok with a record whose id
is `id`, whose originator, name and type are the insert arguments, and whose version is
the one that `get_version (id)` returns, with Ok, on that backend. -/
theorem C4_get_object_info_after_create (odbc : cpl_odbc_t) (id : cpl_id_t)
    (originator name type : String) (container : cpl_id_t) (cv : cpl_version_t)
    (session : cpl_session_t) (hs : odbc.script = [])
    (hobj : (cpl_odbc_create_object odbc id originator name type container cv session).1
      = CPL_OK) :
    (cpl_odbc_get_object_info
        (cpl_odbc_create_object odbc id originator name type container cv session).2 id
        CPL_VERSION_NONE).1 = CPL_OK
    ∧ ∃ info,
      (cpl_odbc_get_object_info
        (cpl_odbc_create_object odbc id originator name type container cv session).2 id
        CPL_VERSION_NONE).2.1 = some info
      ∧ info.id = id
      ∧ info.originator = some originator ∧ info.name = some name ∧ info.type = some type
      ∧ (cpl_odbc_get_version
          (cpl_odbc_create_object odbc id originator name type container cv session).2 id).1
          = CPL_OK
      ∧ (cpl_odbc_get_version
          (cpl_odbc_create_object odbc id originator name type container cv session).2 id).2.1
          = some info.version := by
  obtain ⟨info, h1, h2, h3, h4, h5, h6, h7, _⟩ :=
    get_object_info_after_create_faultless odbc id originator name type container cv session
      CPL_VERSION_NONE hs hobj
  refine ⟨h1, info, h2, h3, h5, h6, h7, ?_⟩
  rw [if_pos rfl] at h4
  obtain ⟨m, hm, hv⟩ := h4
  rw [get_version_faultless _ id
    (create_object_script_nil odbc id originator name type container cv session hs), hm]
  exact ⟨rfl, by rw [hv]⟩

/-- C4 at a concrete input: an object with empty originator, name and type. -/
theorem C4_witness :
    (cpl_odbc_get_object_info
        (cpl_odbc_create_object (connected Store.empty 0) ⟨0, 1⟩ "" "" "" CPL_NONE
          CPL_VERSION_NONE ⟨0, 9⟩).2 ⟨0, 1⟩ CPL_VERSION_NONE).1 = CPL_OK
    ∧ (cpl_odbc_get_object_info
        (cpl_odbc_create_object (connected Store.empty 0) ⟨0, 1⟩ "" "" "" CPL_NONE
          CPL_VERSION_NONE ⟨0, 9⟩).2 ⟨0, 1⟩ CPL_VERSION_NONE).2.1
      = some ⟨⟨0, 1⟩, 0, ⟨0, 9⟩, 0, some "", some "", some "", CPL_NONE, CPL_VERSION_NONE⟩ :=
  ⟨(C4_get_object_info_after_create (connected Store.empty 0) ⟨0, 1⟩ "" "" "" CPL_NONE
      CPL_VERSION_NONE ⟨0, 9⟩ rfl (by decide!)).1, by decide!⟩

/-- C5: on a driver that reports no failure, after a successful `create_object` with
container `X` and container version `v` (a `cpl_version_t`, so a 32-bit value),
`get_object_info` returns Ok with `container_id = X` and `container_version = v` when `X`
is not `NONE` (hence not `VERSION_NONE` when `v` is not), and with `container_id = NONE`
and `container_version = VERSION_NONE` when `X` is `NONE`. -/
theorem C5_get_object_info_container (odbc : cpl_odbc_t) (id : cpl_id_t)
    (originator name type : String) (container : cpl_id_t) (cv : cpl_version_t)
    (session : cpl_session_t) (hint : cpl_version_t) (hs : odbc.script = [])
    (hcv : -2147483648 ≤ cv ∧ cv < 2147483648)
    (hobj : (cpl_odbc_create_object odbc id originator name type container cv session).1
      = CPL_OK) :
    (cpl_odbc_get_object_info
        (cpl_odbc_create_object odbc id originator name type container cv session).2 id
        hint).1 = CPL_OK
    ∧ ∃ info,
      (cpl_odbc_get_object_info
        (cpl_odbc_create_object odbc id originator name type container cv session).2 id
        hint).2.1 = some info
      ∧ (container ≠ CPL_NONE →
          info.container_id = container ∧ info.container_version = cv
          ∧ (cv ≠ CPL_VERSION_NONE → info.container_version ≠ CPL_VERSION_NONE))
      ∧ (container = CPL_NONE →
          info.container_id = CPL_NONE ∧ info.container_version = CPL_VERSION_NONE) := by
  obtain ⟨info, h1, h2, _, _, _, _, _, h8, h9⟩ :=
    get_object_info_after_create_faultless odbc id originator name type container cv session
      hint hs hobj
  refine ⟨h1, info, h2, ?_, ?_⟩
  · intro hc
    rw [if_neg hc, c_int_of_range cv hcv.1 hcv.2] at h9
    exact ⟨h8, h9, fun hv => by rw [h9]; exact hv⟩
  · intro hc
    rw [if_pos hc] at h9
    exact ⟨by rw [h8, hc], by rw [h9]; rfl⟩

/-- C5 at a concrete input: the object (0,2) is created in the container (0,1), an object
of the database, at container version 0, and read back. -/
theorem C5_witness :
    (cpl_odbc_get_object_info
        (cpl_odbc_create_object one_object ⟨0, 2⟩ "o" "m" "t" ⟨0, 1⟩ 0 ⟨0, 9⟩).2 ⟨0, 2⟩
        CPL_VERSION_NONE).1 = CPL_OK
    ∧ (cpl_odbc_get_object_info
        (cpl_odbc_create_object one_object ⟨0, 2⟩ "o" "m" "t" ⟨0, 1⟩ 0 ⟨0, 9⟩).2 ⟨0, 2⟩
        CPL_VERSION_NONE).2.1.map (fun i => (i.container_id, i.container_version))
      = some (⟨0, 1⟩, 0) :=
  ⟨(C5_get_object_info_container one_object ⟨0, 2⟩ "o" "m" "t" ⟨0, 1⟩ 0 ⟨0, 9⟩
      CPL_VERSION_NONE (by decide!) (by decide) (by decide!)).1, by decide!⟩

open cpl_return_t SQLRETURN

/-! ## The enumerations on a driver that reports no failure -/

/-- C10: on a driver that reports no failure, for `get_object_ancestry` (with supported
flags) and for `get_properties`, called with a version other than `CPL_VERSION_NONE`: when
the query matches zero rows, the result is NotFound if the object has no version recorded
and NoData if it has one, and the iterator is not called; the object has no version
recorded exactly when `get_version (id)` fails, which it does with NotFound. -/
theorem C10_zero_rows_not_found_or_no_data (H : cpl_h) (odbc : cpl_odbc_t) (id : cpl_id_t)
    (version : cpl_version_t) (direction flags : Int)
    (iterator : Option cpl_ancestry_iterator_t) (key : Option String)
    (property_iterator : Option cpl_property_iterator_t)
    (hs : odbc.script = [])
    (hv : version ≠ CPL_VERSION_NONE)
    (hflags : Int.land flags (Int.lnot (CPL_ODBC_A_SUPPORTED_FLAGS H)) = 0) :
    (ancestry_rows H odbc.db id version direction = [] →
      (odbc.db.versions_of id = [] →
        (cpl_odbc_get_object_ancestry H odbc id version direction flags iterator).1
          = CPL_E_NOT_FOUND)
      ∧ (odbc.db.versions_of id ≠ [] →
        (cpl_odbc_get_object_ancestry H odbc id version direction flags iterator).1
          = CPL_S_NO_DATA)
      ∧ (cpl_odbc_get_object_ancestry H odbc id version direction flags iterator).2.1 = [])
    ∧ (property_rows odbc.db id version key = [] →
      (odbc.db.versions_of id = [] →
        (cpl_odbc_get_properties odbc id version key property_iterator).1 = CPL_E_NOT_FOUND)
      ∧ (odbc.db.versions_of id ≠ [] →
        (cpl_odbc_get_properties odbc id version key property_iterator).1 = CPL_S_NO_DATA)
      ∧ (cpl_odbc_get_properties odbc id version key property_iterator).2.1 = [])
    ∧ (odbc.db.versions_of id = [] → (cpl_odbc_get_version odbc id).1 = CPL_E_NOT_FOUND)
    ∧ (odbc.db.versions_of id ≠ [] → (cpl_odbc_get_version odbc id).1 = CPL_OK) := by
  refine ⟨?_, ?_, ?_, ?_⟩
  · intro hrows
    rw [get_object_ancestry_faultless H odbc id version direction flags iterator hs hflags,
      if_pos ⟨hrows, hv⟩]
    exact ⟨fun h => by rw [if_pos h], fun h => by rw [if_neg h], rfl⟩
  · intro hrows
    rw [get_properties_faultless odbc id version key property_iterator hs,
      if_pos ⟨hrows, hv⟩]
    exact ⟨fun h => by rw [if_pos h], fun h => by rw [if_neg h], rfl⟩
  · intro h
    rw [get_version_faultless odbc id hs, h]
    rfl
  · intro h
    rw [get_version_faultless odbc id hs]
    rcases hm : sql_max (odbc.db.versions_of id) with _ | m
    · exact absurd ((sql_max_eq_none _).mp hm) h
    · rfl

/-- C10 at a concrete input: on the empty database, `get_object_ancestry` of the unknown
object (0,7) at version 5 returns NotFound, not NoData. -/
theorem C10_witness :
    ancestry_rows sample_header Store.empty ⟨0, 7⟩ 5 sample_header.CPL_D_ANCESTORS = []
    ∧ (cpl_odbc_get_object_ancestry sample_header (connected Store.empty 0) ⟨0, 7⟩ 5
        sample_header.CPL_D_ANCESTORS 0 (some accept_all)).1 = CPL_E_NOT_FOUND :=
  ⟨by decide,
    ((C10_zero_rows_not_found_or_no_data sample_header (connected Store.empty 0) ⟨0, 7⟩ 5
      sample_header.CPL_D_ANCESTORS 0 (some accept_all) none (some accept_all_properties)
      rfl (by decide) (by decide!)).1 (by decide)).1 (by decide)⟩

/-- What the fetch loop of `get_properties` does with a stored row: it skips a row without
key or value and buffers any other row. -/
theorem keep_cells (r : PropertyRow) (entries : List get_properties_entry) :
    cpl_odbc_get_properties.keep r.cells entries
      = if r.has_key_and_value then
          entries ++ [⟨r.id, r.version, ((Cell.ofStr? r.name).truncate 256).as_string,
            ((Cell.ofStr? r.value).truncate 4096).as_string⟩]
        else entries := by
  rcases hn : r.name with _ | n
  · simp [cpl_odbc_get_properties.keep, PropertyRow.cells, PropertyRow.has_key_and_value, hn,
      Cell.ofStr?, Cell.indicator]
  · rcases hv : r.value with _ | v
    · simp [cpl_odbc_get_properties.keep, PropertyRow.cells, PropertyRow.has_key_and_value,
        hn, hv, Cell.ofStr?, Cell.indicator]
    · rw [keep_property_cells r n v hn hv]
      simp [PropertyRow.has_key_and_value, hn, hv, Cell.ofStr?]

/-- The buffer of `get_properties` holds the stored rows that have a key and a value, in
table order. -/
theorem properties_buffer_cells (rs : List PropertyRow) :
    properties_buffer (rs.map PropertyRow.cells)
      = (rs.filter PropertyRow.has_key_and_value).map
          (fun r => ⟨r.id, r.version, ((Cell.ofStr? r.name).truncate 256).as_string,
            ((Cell.ofStr? r.value).truncate 4096).as_string⟩) := by
  induction rs using List.reverseRecOn with
  | nil => rfl
  | append_singleton rs r ih =>
    rw [List.map_append, List.map_singleton, properties_buffer_append, ih, keep_cells,
      List.filter_append]
    by_cases h : r.has_key_and_value = true
    · simp [h]
    · simp [h]

/-- On a driver that reports no failure `get_properties` with an iterator that accepts
every row calls it for the matching stored rows that have a key and a value, in table
order; it returns Ok when there is one, and otherwise NotFound when no stored row matches,
a version is given and the object has no version, and NoData in any other case. -/
theorem get_properties_delivered (o : cpl_odbc_t) (id : cpl_id_t) (version : cpl_version_t)
    (key : Option String) (it : cpl_property_iterator_t)
    (hit : ∀ c o, CPL_IS_OK (it c o).1 = true) (hs : o.script = []) :
    (cpl_odbc_get_properties o id version key (some it)).2.1
      = ((o.db.properties_matching id version key).filter
          PropertyRow.has_key_and_value).map PropertyRow.delivered
    ∧ ((o.db.properties_matching id version key).filter PropertyRow.has_key_and_value ≠ [] →
        (cpl_odbc_get_properties o id version key (some it)).1 = CPL_OK)
    ∧ ((o.db.properties_matching id version key).filter PropertyRow.has_key_and_value = [] →
        (cpl_odbc_get_properties o id version key (some it)).1
          = if o.db.properties_matching id version key = [] ∧ version ≠ CPL_VERSION_NONE
                ∧ o.db.versions_of id = []
            then CPL_E_NOT_FOUND else CPL_S_NO_DATA) := by
  have hbuf := properties_buffer_cells (o.db.properties_matching id version key)
  rw [← property_rows_eq] at hbuf
  have hcalls : cpl_odbc_get_properties.calls id
      (properties_buffer (property_rows o.db id version key))
      = ((o.db.properties_matching id version key).filter
          PropertyRow.has_key_and_value).map PropertyRow.delivered := by
    rw [hbuf]
    unfold cpl_odbc_get_properties.calls
    rw [List.map_map]
    apply List.map_congr_left
    intro r hr
    have hid := (mem_properties_matching _ _ _ _ r (List.mem_filter.mp hr).1).2
    simp [PropertyRow.delivered, hid]
  rw [get_properties_faultless o id version key (some it) hs]
  by_cases hF : (o.db.properties_matching id version key).filter
      PropertyRow.has_key_and_value = []
  · have hb : properties_buffer (property_rows o.db id version key) = [] := by
      rw [hbuf, hF]; rfl
    rw [hF]
    have hrows : property_rows o.db id version key = []
        ↔ o.db.properties_matching id version key = [] := by
      rw [property_rows_eq]
      exact List.map_eq_nil_iff
    by_cases hc : property_rows o.db id version key = [] ∧ version ≠ CPL_VERSION_NONE
    · rw [if_pos hc]
      refine ⟨rfl, fun h => absurd rfl h, fun _ => ?_⟩
      by_cases hv : o.db.versions_of id = []
      · rw [if_pos hv, if_pos ⟨hrows.mp hc.1, hc.2, hv⟩]
      · rw [if_neg hv, if_neg (fun h => hv h.2.2)]
    · rw [if_neg hc, if_pos hb]
      refine ⟨rfl, fun h => absurd rfl h, fun _ => ?_⟩
      rw [if_neg (fun h => hc ⟨hrows.mpr h.1, h.2.1⟩)]
  · have hb : properties_buffer (property_rows o.db id version key) ≠ [] := by
      rw [hbuf]
      intro h
      exact hF (List.map_eq_nil_iff.mp h)
    have hr : property_rows o.db id version key ≠ [] := by
      intro h
      apply hb
      rw [h]
      rfl
    rw [if_neg (fun h => hr h.1), if_neg hb]
    dsimp only
    rw [iterate_calls_all it _ _ hit, iterate_ok_all it _ _ hit, hcalls]
    exact ⟨rfl, fun _ => rfl, fun h => absurd h hF⟩

/-- A stored row with a string key and value within the column widths and a version that is
a `cpl_version_t` has a key and a value and is delivered as it is stored. -/
theorem delivered_of_well_formed (r : PropertyRow) (h : r.well_formed) :
    r.has_key_and_value = true ∧ r.delivered = r.call := by
  obtain ⟨⟨n, hn, hnl⟩, ⟨v, hv, hvl⟩, h1, h2⟩ := h
  refine ⟨by simp [PropertyRow.has_key_and_value, hn, hv], ?_⟩
  unfold PropertyRow.delivered PropertyRow.call
  rw [hn, hv, c_int_of_range r.version h1 h2]
  simp only [Cell.ofStr?, Option.getD_some]
  rw [truncate_as_string_of_short n 256 (by omega),
    truncate_as_string_of_short v 4096 (by omega)]

/-- C11, as stated, fails for a NULL value: on the database of the object (0,7),
`add_property ((0,7), 0, "k", NULL)` returns Ok and stores the row, yet
`get_properties ((0,7), 0, "k")` returns NoData and never calls the iterator. -/
theorem C11_counterexample :
    (cpl_odbc_add_property tagged_object ⟨0, 7⟩ 0 (some "k") none).1 = CPL_OK
    ∧ (cpl_odbc_add_property tagged_object ⟨0, 7⟩ 0 (some "k") none).2.db.properties
      = [⟨⟨0, 7⟩, 0, some "k", none⟩]
    ∧ (cpl_odbc_get_properties
        (cpl_odbc_add_property tagged_object ⟨0, 7⟩ 0 (some "k") none).2 ⟨0, 7⟩ 0
        (some "k") (some accept_all_properties)).1 = CPL_S_NO_DATA
    ∧ (cpl_odbc_get_properties
        (cpl_odbc_add_property tagged_object ⟨0, 7⟩ 0 (some "k") none).2 ⟨0, 7⟩ 0
        (some "k") (some accept_all_properties)).2.1 = [] := by
  decide!

/-- C11 (amended): on a driver that reports no failure and with an iterator that accepts
every row: after a successful `add_property (id, v, k, val)` with a key and a value that
are strings (not NULL), `get_properties (id, v, k)` returns Ok and calls the iterator with
the row (id, v, k, val).  More generally the calls of the iterator are exactly the stored
property rows of `id` that match the version, when one is specified, and the key, when one
is specified, and that have a key and a value (a row with a NULL key or value is never
delivered), in table order; the operation returns Ok when there is such a row, and
otherwise NotFound when no stored row matches, a version is specified and the object has
no version, and NoData in any other case; and a row with a key and a value within the
column widths is delivered as it is stored. -/
theorem C11_get_properties_after_add (odbc : cpl_odbc_t) (id : cpl_id_t)
    (it : cpl_property_iterator_t) (hit : ∀ c o, CPL_IS_OK (it c o).1 = true)
    (hs : odbc.script = []) :
    (∀ (v : cpl_version_t) (k val : String),
      -2147483648 ≤ v → v < 2147483648 →
      (cpl_odbc_add_property odbc id v (some k) (some val)).1 = CPL_OK →
      (cpl_odbc_get_properties (cpl_odbc_add_property odbc id v (some k) (some val)).2 id v
        (some k) (some it)).1 = CPL_OK
      ∧ (⟨id, v, k, val⟩ : property_call)
        ∈ (cpl_odbc_get_properties (cpl_odbc_add_property odbc id v (some k) (some val)).2
            id v (some k) (some it)).2.1)
    ∧ (∀ (version : cpl_version_t) (key : Option String),
      (cpl_odbc_get_properties odbc id version key (some it)).2.1
        = ((odbc.db.properties_matching id version key).filter
            PropertyRow.has_key_and_value).map PropertyRow.delivered
      ∧ ((odbc.db.properties_matching id version key).filter
            PropertyRow.has_key_and_value ≠ [] →
          (cpl_odbc_get_properties odbc id version key (some it)).1 = CPL_OK)
      ∧ ((odbc.db.properties_matching id version key).filter
            PropertyRow.has_key_and_value = [] →
          (cpl_odbc_get_properties odbc id version key (some it)).1
            = if odbc.db.properties_matching id version key = []
                  ∧ version ≠ CPL_VERSION_NONE ∧ odbc.db.versions_of id = []
              then CPL_E_NOT_FOUND else CPL_S_NO_DATA))
    ∧ (∀ r : PropertyRow, r.well_formed →
        r.has_key_and_value = true ∧ r.delivered = r.call) := by
  refine ⟨?_, fun version key => get_properties_delivered odbc id version key it hit hs,
    delivered_of_well_formed⟩
  intro v k val hv1 hv2 hadd
  obtain ⟨hdb, hk, hval⟩ := add_property_ok odbc id v (some k) (some val) hadd
  simp only [fits, decide_eq_true_eq] at hk hval
  have hwf : PropertyRow.well_formed ⟨id, v, some k, some val⟩ :=
    ⟨⟨k, rfl, hk⟩, ⟨val, rfl, hval⟩, hv1, hv2⟩
  have hmem : (⟨id, v, some k, some val⟩ : PropertyRow)
      ∈ ((cpl_odbc_add_property odbc id v (some k) (some val)).2.db.properties_matching id v
          (some k)).filter PropertyRow.has_key_and_value := by
    rw [List.mem_filter]
    refine ⟨?_, (delivered_of_well_formed _ hwf).1⟩
    unfold Store.properties_matching
    rw [hdb, List.mem_filter]
    refine ⟨List.mem_append_right _ (List.mem_singleton_self _), ?_⟩
    simp [sql_eq]
  obtain ⟨hcalls, hcode, _⟩ := get_properties_delivered
    (cpl_odbc_add_property odbc id v (some k) (some val)).2 id v (some k) it hit
    (add_property_script_nil odbc id v (some k) (some val) hs)
  refine ⟨hcode (List.ne_nil_of_mem hmem), ?_⟩
  rw [hcalls, List.mem_map]
  refine ⟨_, hmem, ?_⟩
  rw [(delivered_of_well_formed _ hwf).2]
  rfl

/-- C11 at a concrete input: the property ("tag", "v1") is added to version 0 of the
object (0,7) and delivered by `get_properties`. -/
theorem C11_witness :
    (cpl_odbc_get_properties
        (cpl_odbc_add_property tagged_object ⟨0, 7⟩ 0 (some "tag") (some "v1")).2 ⟨0, 7⟩ 0
        (some "tag") (some accept_all_properties)).1 = CPL_OK
    ∧ (⟨⟨0, 7⟩, 0, "tag", "v1"⟩ : property_call)
      ∈ (cpl_odbc_get_properties
          (cpl_odbc_add_property tagged_object ⟨0, 7⟩ 0 (some "tag") (some "v1")).2 ⟨0, 7⟩ 0
          (some "tag") (some accept_all_properties)).2.1 :=
  (C11_get_properties_after_add tagged_object ⟨0, 7⟩ accept_all_properties (fun _ _ => rfl)
    (by decide!)).1 0 "tag" "v1" (by decide) (by decide) (by decide!)

/-- C12: on a driver that reports no failure, `lookup_by_property (k, val)` with an
iterator that accepts every row calls the iterator once for every stored property row with
name `k` and value `val`, in table order and with multiplicity, passing the id and the
version of that row; it returns NotFound when no such row exists and Ok otherwise. -/
theorem C12_lookup_by_property (odbc : cpl_odbc_t) (k val : String)
    (it : cpl_property_iterator_t) (hit : ∀ c o, CPL_IS_OK (it c o).1 = true)
    (hrange : ∀ r ∈ odbc.db.properties, -2147483648 ≤ r.version ∧ r.version < 2147483648)
    (hs : odbc.script = []) :
    (cpl_odbc_lookup_by_property odbc (some k) (some val) (some it)).2.1
      = (odbc.db.properties.filter
          (fun r => decide (r.name = some k) && decide (r.value = some val))).map
          (fun r => ⟨r.id, r.version, k, val⟩)
    ∧ ((∀ r ∈ odbc.db.properties, ¬ (r.name = some k ∧ r.value = some val)) →
        (cpl_odbc_lookup_by_property odbc (some k) (some val) (some it)).1 = CPL_E_NOT_FOUND)
    ∧ ((∃ r ∈ odbc.db.properties, r.name = some k ∧ r.value = some val) →
        (cpl_odbc_lookup_by_property odbc (some k) (some val) (some it)).1 = CPL_OK) := by
  have hmem : ∀ r ∈ odbc.db.properties_with (some k) (some val),
      r ∈ odbc.db.properties ∧ r.name = some k ∧ r.value = some val := by
    intro r hr
    rw [properties_with_eq, List.mem_filter] at hr
    simpa using hr
  rw [lookup_by_property_faultless odbc (some k) (some val) (some it) hs]
  by_cases hb : odbc.db.properties_with (some k) (some val) = []
  · rw [if_pos hb, ← properties_with_eq, hb]
    refine ⟨rfl, fun _ => rfl, ?_⟩
    rintro ⟨r, hr, h1, h2⟩
    have : r ∈ odbc.db.properties_with (some k) (some val) := by
      rw [properties_with_eq, List.mem_filter]
      exact ⟨hr, by simp [h1, h2]⟩
    rw [hb] at this
    exact absurd this (List.not_mem_nil r)
  · rw [if_neg hb]
    dsimp only
    rw [iterate_calls_all it _ _ hit, iterate_ok_all it _ _ hit, ← properties_with_eq]
    refine ⟨?_, ?_, fun _ => rfl⟩
    · unfold cpl_odbc_lookup_by_property.calls
      rw [List.map_map]
      apply List.map_congr_left
      intro r hr
      have h1 := hrange r (hmem r hr).1
      simp [c_int_of_range r.version h1.1 h1.2]
    · intro hall
      cases hbb : odbc.db.properties_with (some k) (some val) with
      | nil => exact absurd hbb hb
      | cons r rs =>
        have hr : r ∈ odbc.db.properties_with (some k) (some val) := by
          rw [hbb]; exact List.mem_cons_self _ _
        exact absurd (hmem r hr).2 (hall r (hmem r hr).1)

/-- C12 at a concrete input: three accepted `add_property ((0,7), 0, "tag", "v1")` calls
yield three rows ((0,7), 0). -/
theorem C12_witness :
    (cpl_odbc_lookup_by_property three_tags (some "tag") (some "v1")
        (some accept_all_properties)).2.1
      = [⟨⟨0, 7⟩, 0, "tag", "v1"⟩, ⟨⟨0, 7⟩, 0, "tag", "v1"⟩, ⟨⟨0, 7⟩, 0, "tag", "v1"⟩] :=
  (C12_lookup_by_property three_tags "tag" "v1" accept_all_properties (fun _ _ => rfl)
    (by decide!) (by decide!)).1

open cpl_return_t SQLRETURN

/-- C13 (amended): on a driver that reports no failure, each enumeration operation with an
empty buffer returns without a call of the iterator (`lookup_object_ext` and
`lookup_by_property` with NotFound, `get_all_objects` with NoData, `get_object_ancestry`
and `get_properties` with NotFound when the query had no row, a version was given and the
object has no version, and with NoData otherwise), and `get_object_ancestry` with an
unsupported flag returns NotImplemented at once.  With a buffer that is not empty,
`lookup_object_ext`, `get_object_ancestry`, `get_properties` and `lookup_by_property` call
the iterator on the buffered rows in fetch order, starting right after the query: at the
first row for which it returns a code that is not OK the operation returns exactly that
code and the iterator is not called on any later row; if it returns OK for all rows the
operation returns Ok.  `get_all_objects` does the same with the body of its loop: with
`CPL_I_NO_VERSION` the body is the call of the iterator; without it the body first looks
up the version of the row with `get_version`, a lookup that is not OK is the code of the
body and the iterator is not called on that row, and otherwise the body is the call of the
iterator on the row with that version. -/
theorem C13_enumeration_stops_at_first_failure (H : cpl_h) (odbc : cpl_odbc_t)
    (hs : odbc.script = []) :
    (∀ originator name type flags it,
      (lookup_object_ext_buffer odbc originator name type = [] →
        (cpl_odbc_lookup_object_ext odbc originator name type flags (some it)).1
          = CPL_E_NOT_FOUND
        ∧ (cpl_odbc_lookup_object_ext odbc originator name type flags (some it)).2.1 = [])
      ∧ (lookup_object_ext_buffer odbc originator name type ≠ [] →
        IteratorStops it (lookup_object_ext_buffer odbc originator name type)
          (odbc.after_query Stmt.lookup_object_ext_stmt Mutex.lookup_object_ext_lock)
          (cpl_odbc_lookup_object_ext odbc originator name type flags (some it))))
    ∧ (∀ id version direction flags it,
      (Int.land flags (Int.lnot (CPL_ODBC_A_SUPPORTED_FLAGS H)) ≠ 0 →
        cpl_odbc_get_object_ancestry H odbc id version direction flags (some it)
          = (CPL_E_NOT_IMPLEMENTED, [], odbc))
      ∧ (Int.land flags (Int.lnot (CPL_ODBC_A_SUPPORTED_FLAGS H)) = 0 →
        ancestry_buffer H flags (ancestry_rows H odbc.db id version direction) = [] →
        (cpl_odbc_get_object_ancestry H odbc id version direction flags (some it)).1
          = (if ancestry_rows H odbc.db id version direction = []
                ∧ version ≠ CPL_VERSION_NONE ∧ odbc.db.versions_of id = []
              then CPL_E_NOT_FOUND else CPL_S_NO_DATA)
        ∧ (cpl_odbc_get_object_ancestry H odbc id version direction flags (some it)).2.1
          = [])
      ∧ (Int.land flags (Int.lnot (CPL_ODBC_A_SUPPORTED_FLAGS H)) = 0 →
        ancestry_buffer H flags (ancestry_rows H odbc.db id version direction) ≠ [] →
        IteratorStops it
          (cpl_odbc_get_object_ancestry.calls id
            (ancestry_buffer H flags (ancestry_rows H odbc.db id version direction)))
          (odbc.after_query (cpl_odbc_get_object_ancestry.statement H version direction)
            Mutex.get_object_ancestry_lock)
          (cpl_odbc_get_object_ancestry H odbc id version direction flags (some it))))
    ∧ (∀ id version key it,
      (properties_buffer (property_rows odbc.db id version key) = [] →
        (cpl_odbc_get_properties odbc id version key (some it)).1
          = (if property_rows odbc.db id version key = []
                ∧ version ≠ CPL_VERSION_NONE ∧ odbc.db.versions_of id = []
              then CPL_E_NOT_FOUND else CPL_S_NO_DATA)
        ∧ (cpl_odbc_get_properties odbc id version key (some it)).2.1 = [])
      ∧ (properties_buffer (property_rows odbc.db id version key) ≠ [] →
        IteratorStops it
          (cpl_odbc_get_properties.calls id
            (properties_buffer (property_rows odbc.db id version key)))
          (odbc.after_query (cpl_odbc_get_properties.statement version key)
            Mutex.get_properties_lock)
          (cpl_odbc_get_properties odbc id version key (some it))))
    ∧ (∀ key value it,
      (odbc.db.properties_with key value = [] →
        (cpl_odbc_lookup_by_property odbc key value (some it)).1 = CPL_E_NOT_FOUND
        ∧ (cpl_odbc_lookup_by_property odbc key value (some it)).2.1 = [])
      ∧ (odbc.db.properties_with key value ≠ [] →
        IteratorStops it
          (cpl_odbc_lookup_by_property.calls key value
            ((odbc.db.properties_with key value).map (fun r => ⟨r.id, r.version⟩)))
          (odbc.after_query Stmt.lookup_by_property_stmt Mutex.lookup_by_property_lock)
          (cpl_odbc_lookup_by_property odbc key value (some it))))
    ∧ (∀ flags it entry,
      (get_all_objects_buffer H odbc flags entry = [] →
        (cpl_odbc_get_all_objects H odbc flags (some it) entry).1 = CPL_S_NO_DATA
        ∧ (cpl_odbc_get_all_objects H odbc flags (some it) entry).2.1 = [])
      ∧ (get_all_objects_buffer H odbc flags entry ≠ [] →
        LoopStops (cpl_odbc_get_all_objects.call H flags it)
          (get_all_objects_buffer H odbc flags entry)
          (odbc.after_query
            (if Int.land flags H.CPL_I_NO_CREATION_SESSION ≠ 0 then Stmt.get_all_objects_stmt
              else Stmt.get_all_objects_with_session_stmt) Mutex.get_all_objects_lock)
          (cpl_odbc_get_all_objects H odbc flags (some it) entry)))
    ∧ (∀ flags it (i : cplxx_object_info_t) (o : cpl_odbc_t),
      (Int.land flags H.CPL_I_NO_VERSION ≠ 0 →
        cpl_odbc_get_all_objects.call H flags it i o
          = ((it (i.info CPL_VERSION_NONE) o).1, some (i.info CPL_VERSION_NONE),
              (it (i.info CPL_VERSION_NONE) o).2))
      ∧ (Int.land flags H.CPL_I_NO_VERSION = 0 →
          CPL_IS_OK (cpl_odbc_get_version o i.id).1 = false →
          cpl_odbc_get_all_objects.call H flags it i o
            = ((cpl_odbc_get_version o i.id).1, none, (cpl_odbc_get_version o i.id).2.2))
      ∧ (Int.land flags H.CPL_I_NO_VERSION = 0 →
          CPL_IS_OK (cpl_odbc_get_version o i.id).1 = true →
          cpl_odbc_get_all_objects.call H flags it i o
            = ((it (i.info ((cpl_odbc_get_version o i.id).2.1.getD CPL_VERSION_NONE))
                  (cpl_odbc_get_version o i.id).2.2).1,
                some (i.info ((cpl_odbc_get_version o i.id).2.1.getD CPL_VERSION_NONE)),
                (it (i.info ((cpl_odbc_get_version o i.id).2.1.getD CPL_VERSION_NONE))
                  (cpl_odbc_get_version o i.id).2.2).2))) := by
  refine ⟨?_, ?_, ?_, ?_, ?_, ?_⟩
  · intro originator name type flags it
    rw [lookup_object_ext_faultless odbc originator name type flags (some it) hs]
    refine ⟨fun hb => ?_, fun hb => ?_⟩
    · rw [if_pos hb]; exact ⟨rfl, rfl⟩
    · rw [if_neg hb]
      exact iterate_stops it _ _
  · intro id version direction flags it
    refine ⟨fun hf => ?_, fun hf hb => ?_, fun hf hb => ?_⟩
    · unfold cpl_odbc_get_object_ancestry
      rw [if_pos hf]
    · rw [get_object_ancestry_faultless H odbc id version direction flags (some it) hs hf]
      by_cases hc : ancestry_rows H odbc.db id version direction = []
          ∧ version ≠ CPL_VERSION_NONE
      · rw [if_pos hc]
        refine ⟨?_, rfl⟩
        by_cases hv : odbc.db.versions_of id = []
        · rw [if_pos hv, if_pos ⟨hc.1, hc.2, hv⟩]
        · rw [if_neg hv, if_neg (fun h => hv h.2.2)]
      · rw [if_neg hc, if_pos hb, if_neg (fun h => hc ⟨h.1, h.2.1⟩)]
        exact ⟨rfl, rfl⟩
    · have hr : ancestry_rows H odbc.db id version direction ≠ [] := by
        intro h
        apply hb
        rw [h]
        rfl
      rw [get_object_ancestry_faultless H odbc id version direction flags (some it) hs hf,
        if_neg (fun h => hr h.1), if_neg hb]
      exact iterate_stops it _ _
  · intro id version key it
    refine ⟨fun hb => ?_, fun hb => ?_⟩
    · rw [get_properties_faultless odbc id version key (some it) hs]
      by_cases hc : property_rows odbc.db id version key = [] ∧ version ≠ CPL_VERSION_NONE
      · rw [if_pos hc]
        refine ⟨?_, rfl⟩
        by_cases hv : odbc.db.versions_of id = []
        · rw [if_pos hv, if_pos ⟨hc.1, hc.2, hv⟩]
        · rw [if_neg hv, if_neg (fun h => hv h.2.2)]
      · rw [if_neg hc, if_pos hb, if_neg (fun h => hc ⟨h.1, h.2.1⟩)]
        exact ⟨rfl, rfl⟩
    · have hr : property_rows odbc.db id version key ≠ [] := by
        intro h
        apply hb
        rw [h]
        rfl
      rw [get_properties_faultless odbc id version key (some it) hs,
        if_neg (fun h => hr h.1), if_neg hb]
      exact iterate_stops it _ _
  · intro key value it
    rw [lookup_by_property_faultless odbc key value (some it) hs]
    refine ⟨fun hb => ?_, fun hb => ?_⟩
    · rw [if_pos hb]; exact ⟨rfl, rfl⟩
    · rw [if_neg hb]
      exact iterate_stops it _ _
  · intro flags it entry
    rw [get_all_objects_faultless H odbc flags (some it) entry hs]
    refine ⟨fun hb => ?_, fun hb => ?_⟩
    · rw [if_pos hb]; exact ⟨rfl, rfl⟩
    · rw [if_neg hb]
      exact for_each_stops _ _ _
  · intro flags it i o
    refine ⟨?_, ?_, ?_⟩
    · intro hf
      unfold cpl_odbc_get_all_objects.call
      rw [if_neg hf]
      simp [CPL_IS_OK, cplxx_object_info_t.info]
    · intro hf hv
      unfold cpl_odbc_get_all_objects.call
      rw [if_pos hf]
      rcases hg : cpl_odbc_get_version o i.id with ⟨r, v, o1⟩
      rw [hg] at hv
      dsimp only at hv ⊢
      rw [hv]
      rfl
    · intro hf hv
      unfold cpl_odbc_get_all_objects.call
      rw [if_pos hf]
      rcases hg : cpl_odbc_get_version o i.id with ⟨r, v, o1⟩
      rw [hg] at hv
      dsimp only at hv ⊢
      rw [hv]
      rfl

/-- C13 at a concrete input: of the three rows with the property ("tag", "v1"), on the
objects (0,1), (0,2) and (0,1), an iterator that rejects the object (0,2) is called on the
first two; `lookup_by_property` returns the code of the second call and the third row is
not delivered. -/
theorem C13_witness :
    IteratorStops reject_second_object
        (cpl_odbc_lookup_by_property.calls (some "tag") (some "v1")
          ((tags_on_two_objects.db.properties_with (some "tag") (some "v1")).map
            (fun r => ⟨r.id, r.version⟩)))
        (tags_on_two_objects.after_query Stmt.lookup_by_property_stmt
          Mutex.lookup_by_property_lock)
        (cpl_odbc_lookup_by_property tags_on_two_objects (some "tag") (some "v1")
          (some reject_second_object))
    ∧ (tags_on_two_objects.db.properties_with (some "tag") (some "v1")).map (fun r => r.id)
      = [⟨0, 1⟩, ⟨0, 2⟩, ⟨0, 1⟩]
    ∧ (cpl_odbc_lookup_by_property tags_on_two_objects (some "tag") (some "v1")
        (some reject_second_object)).1 = CPL_E_INVALID_ARGUMENT
    ∧ (cpl_odbc_lookup_by_property tags_on_two_objects (some "tag") (some "v1")
        (some reject_second_object)).2.1
      = [⟨⟨0, 1⟩, 0, "tag", "v1"⟩, ⟨⟨0, 2⟩, 0, "tag", "v1"⟩] :=
  ⟨((C13_enumeration_stops_at_first_failure sample_header tags_on_two_objects
      (by decide!)).2.2.2.1 (some "tag") (some "v1") reject_second_object).2 (by decide!),
    by decide!, by decide!, by decide!⟩

open cpl_return_t SQLRETURN

/-! ## The cursor on the error paths of the fetch primitives -/

theorem closeCursor_closes (o : cpl_odbc_t) (st : SQLHSTMT)
    (h : (driver_next o).1 = none) :
    (SQLCloseCursor o st).2.1.cursor_open = false ∧ (SQLCloseCursor o st).2.1.pending = [] := by
  unfold SQLCloseCursor
  rcases hx : CPL.driver_next o with ⟨f, o2⟩
  rw [hx] at h
  dsimp only at h
  subst h
  exact ⟨rfl, rfl⟩

theorem position_cursor_open (stmt st : SQLHSTMT) (fetch : Bool)
    (h : stmt.position fetch = some st) : st.cursor_open = stmt.cursor_open := by
  unfold SQLHSTMT.position at h
  cases fetch with
  | false =>
    simp only [Bool.false_eq_true, if_false, Option.some.injEq] at h
    rw [h]
  | true =>
    simp only [if_true, SQLHSTMT.next] at h
    rcases hp : stmt.pending with _ | ⟨row, rest⟩
    · rw [hp] at h
      exact Option.noConfusion h
    · rw [hp] at h
      simp only [Option.some.injEq] at h
      rw [← h]

/-- The part of `cpl_sql_fetch_single_value` from `SQLGetData` on, when it returns a
statement error or not found, returns what `SQLCloseCursor` returned at the state after
`SQLGetData` or, with `close_if_ok`, at the state after the `SQLCloseCursor` of the
success path. -/
theorem fetch_get_data_closed (odbc : cpl_odbc_t) (stmt : SQLHSTMT) (bl col : Nat)
    (close hn : Bool)
    (hcode : (cpl_sql_fetch_single_value.get_data odbc stmt bl col close hn).1
        = CPL_E_STATEMENT_ERROR
      ∨ (cpl_sql_fetch_single_value.get_data odbc stmt bl col close hn).1 = CPL_E_NOT_FOUND) :
    ∃ p ∈ [(stmt, (SQLGetData odbc stmt col bl).2.2.2)]
        ++ (if close then [(SQLCloseCursor (SQLGetData odbc stmt col bl).2.2.2 stmt).2]
          else []),
      ((cpl_sql_fetch_single_value.get_data odbc stmt bl col close hn).2.2.1,
        (cpl_sql_fetch_single_value.get_data odbc stmt bl col close hn).2.2.2)
        = (SQLCloseCursor p.2 p.1).2 := by
  generalize hR : cpl_sql_fetch_single_value.get_data odbc stmt bl col close hn = R at hcode ⊢
  unfold cpl_sql_fetch_single_value.get_data at hR
  rcases hG : SQLGetData odbc stmt col bl with ⟨ret, data, cb, o⟩
  rw [hG] at hR
  dsimp only at hR ⊢
  have hnull : ∀ R2, cpl_sql_fetch_single_value.err_null o stmt hn = R2 →
      (R2.1 = CPL_E_STATEMENT_ERROR ∨ R2.1 = CPL_E_NOT_FOUND) →
      (R2.2.2.1, R2.2.2.2) = (SQLCloseCursor o stmt).2 := by
    intro R2 h2 hc2
    unfold cpl_sql_fetch_single_value.err_null at h2
    cases hn with
    | false =>
      simp only [Bool.not_false, if_true] at h2
      subst h2
      rfl
    | true =>
      simp only [Bool.not_true, Bool.false_eq_true, if_false] at h2
      subst h2
      rcases hc2 with h | h <;> exact absurd h (by simp)
  have herr : ∀ (o1 : cpl_odbc_t) (st1 : SQLHSTMT) R2,
      cpl_sql_fetch_single_value.err o1 st1 = R2 →
      (R2.2.2.1, R2.2.2.2) = (SQLCloseCursor o1 st1).2 := by
    intro o1 st1 R2 h2
    unfold cpl_sql_fetch_single_value.err at h2
    subst h2
    rfl
  by_cases h1 : ret = SQL_NO_DATA
  · rw [if_pos h1] at hR
    exact ⟨(stmt, o), by simp, hnull R hR hcode⟩
  · rw [if_neg h1] at hR
    by_cases h2 : (!SQL_SUCCEEDED ret) = true
    · rw [if_pos h2] at hR
      exact ⟨(stmt, o), by simp, herr o stmt R hR⟩
    · rw [if_neg h2] at hR
      by_cases h3 : cb ≤ 0
      · rw [if_pos h3] at hR
        exact ⟨(stmt, o), by simp, hnull R hR hcode⟩
      · rw [if_neg h3] at hR
        cases close with
        | false =>
          simp only [Bool.false_eq_true, if_false] at hR
          subst hR
          rcases hcode with h | h <;> exact absurd h (by simp)
        | true =>
          simp only [if_true] at hR
          rcases hC : SQLCloseCursor o stmt with ⟨ret2, st2, o2⟩
          rw [hC] at hR
          dsimp only at hR
          by_cases h4 : (!SQL_SUCCEEDED ret2) = true
          · rw [if_pos h4] at hR
            refine ⟨(st2, o2), ?_, herr o2 st2 R hR⟩
            simp
          · rw [if_neg h4] at hR
            subst hR
            rcases hcode with h | h <;> exact absurd h (by simp)

/-- When `cpl_sql_fetch_single_value` returns a statement error or not found, it has
called `SQLCloseCursor` last, at one of its error labels. -/
theorem fetch_single_value_closed (odbc : cpl_odbc_t) (stmt : SQLHSTMT) (bl col : Nat)
    (fetch close hn : Bool)
    (hcode : (cpl_sql_fetch_single_value odbc stmt bl col fetch close hn).1
        = CPL_E_STATEMENT_ERROR
      ∨ (cpl_sql_fetch_single_value odbc stmt bl col fetch close hn).1 = CPL_E_NOT_FOUND) :
    ClosedAtLabel odbc stmt bl col fetch close
      (cpl_sql_fetch_single_value odbc stmt bl col fetch close hn) := by
  have hfin : ∀ (R : cpl_return_t × Cell × SQLHSTMT × cpl_odbc_t),
      (∃ p ∈ cpl_sql_fetch_single_value.label_states odbc stmt bl col fetch close,
        (R.2.2.1, R.2.2.2) = (SQLCloseCursor p.2 p.1).2) →
      ClosedAtLabel odbc stmt bl col fetch close R := by
    rintro R ⟨p, hp, heq⟩
    refine ⟨p, hp, heq, fun hd => ?_⟩
    have h1 := closeCursor_closes p.2 p.1 hd
    rw [← heq] at h1
    exact h1
  apply hfin
  generalize hR : cpl_sql_fetch_single_value odbc stmt bl col fetch close hn = R at hcode ⊢
  unfold cpl_sql_fetch_single_value at hR
  unfold cpl_sql_fetch_single_value.label_states
  cases fetch with
  | false =>
    simp only [Bool.false_eq_true, if_false] at hR ⊢
    subst hR
    obtain ⟨p, hp, heq⟩ := fetch_get_data_closed odbc stmt bl col close hn hcode
    exact ⟨p, by simpa using hp, heq⟩
  | true =>
    simp only [if_true] at hR ⊢
    rcases hF : SQLFetch odbc stmt with ⟨ret, st, o⟩
    rw [hF] at hR
    dsimp only at hR ⊢
    by_cases h1 : ret = SQL_NO_DATA
    · rw [if_pos h1] at hR
      unfold cpl_sql_fetch_single_value.err_nf at hR
      subst hR
      exact ⟨(st, o), by simp, rfl⟩
    · rw [if_neg h1] at hR
      by_cases h2 : (!SQL_SUCCEEDED ret) = true
      · rw [if_pos h2] at hR
        unfold cpl_sql_fetch_single_value.err at hR
        subst hR
        exact ⟨(st, o), by simp, rfl⟩
      · rw [if_neg h2] at hR
        subst hR
        obtain ⟨p, hp, heq⟩ := fetch_get_data_closed o st bl col close hn hcode
        refine ⟨p, ?_, heq⟩
        simp only [List.mem_append, List.mem_singleton] at hp ⊢
        rcases hp with hp | hp
        · exact Or.inl (Or.inr hp)
        · exact Or.inr hp

/-- From the outcome of a fetch primitive and the fact that it closes the cursor last on
a statement error and on not found, what it does to the cursor when it does not return
OK. -/
theorem closes_cursor_of_fetched {α : Type} (conv : Cell → α) (odbc : cpl_odbc_t)
    (stmt : SQLHSTMT) (bl col : Nat) (fetch close hn : Bool)
    (R : cpl_return_t × α × SQLHSTMT × cpl_odbc_t)
    (hspec : R.1 = CPL_E_STATEMENT_ERROR ∨ Fetched conv stmt col fetch close hn R)
    (hclosed : R.1 = CPL_E_STATEMENT_ERROR ∨ R.1 = CPL_E_NOT_FOUND →
      ClosedAtLabel odbc stmt bl col fetch close R) :
    ClosesCursorOnError odbc stmt bl col fetch close hn R := by
  have hcases : R.1 = CPL_E_STATEMENT_ERROR ∨ R.1 = CPL_E_NOT_FOUND ∨ R.1 = CPL_OK
      ∨ (R.1 = CPL_E_DB_NULL ∧ hn = true ∧ stmt.position fetch = some R.2.2.1) := by
    rcases hspec with h | h
    · exact Or.inl h
    · unfold Fetched at h
      rcases hp : stmt.position fetch with _ | st
      · rw [hp] at h
        exact Or.inr (Or.inl h)
      · rw [hp] at h
        obtain ⟨c, _, hc⟩ := h
        by_cases hi : c.indicator ≤ 0
        · rw [if_pos hi] at hc
          cases hn with
          | false => exact Or.inr (Or.inl (by simpa using hc))
          | true =>
            simp only [if_true] at hc
            exact Or.inr (Or.inr (Or.inr ⟨hc.1, rfl, by rw [hc.2]⟩))
        · rw [if_neg hi] at hc
          exact Or.inr (Or.inr (Or.inl hc.1))
  refine ⟨?_, hclosed, ?_⟩
  · rcases hcases with h | h | h | h
    · exact Or.inr (Or.inl h)
    · exact Or.inr (Or.inr (Or.inl h))
    · exact Or.inl h
    · exact Or.inr (Or.inr (Or.inr h.1))
  · intro h
    rcases hcases with h2 | h2 | h2 | h2
    · rw [h2] at h; exact absurd h (by simp)
    · rw [h2] at h; exact absurd h (by simp)
    · rw [h2] at h; exact absurd h (by simp)
    · exact ⟨h2.2.1, h2.2.2, position_cursor_open stmt _ fetch h2.2.2⟩

/-- C20 (amended): for every combination of `fetch`, `close_if_ok` and `handle_nulls`,
`cpl_sql_fetch_single_value` and the three primitives built on it return OK, a statement
error, not found or the null outcome.  When they return a statement error or not found,
they have called `SQLCloseCursor` on the statement as their last driver call, at the
state reached after `SQLFetch`, after `SQLGetData` or after the `SQLCloseCursor` of the
success path, so the cursor is closed unless the driver fails that very call.  When they
return the null outcome, which happens only with `handle_nulls`, the cursor is left as it
was.  The string primitive allocates its buffer first: when `malloc` fails it returns
`CPL_E_INSUFFICIENT_RESOURCES` without a driver call, the statement as it was. -/
theorem C20_cursor_closed_on_error (odbc : cpl_odbc_t) (stmt : SQLHSTMT) (bl col : Nat)
    (fetch close hn : Bool) (ml : Nat) (malloc : Nat → Bool) :
    ClosesCursorOnError odbc stmt bl col fetch close hn
      (cpl_sql_fetch_single_value odbc stmt bl col fetch close hn)
    ∧ ClosesCursorOnError odbc stmt 0 col fetch close hn
      (cpl_sql_fetch_single_llong odbc stmt col fetch close hn)
    ∧ ClosesCursorOnError odbc stmt 16 col fetch close hn
      (cpl_sql_fetch_single_timestamp_as_unix_time odbc stmt col fetch close hn)
    ∧ (malloc (ml + 1) = true →
      ClosesCursorOnError odbc stmt (ml + 1) col fetch close hn
        (cpl_sql_fetch_single_dynamically_allocated_string.with_malloc malloc odbc stmt col
          fetch close hn ml))
    ∧ (malloc (ml + 1) = false →
      cpl_sql_fetch_single_dynamically_allocated_string.with_malloc malloc odbc stmt col
          fetch close hn ml
        = (CPL_E_INSUFFICIENT_RESOURCES, none, stmt, odbc)) := by
  have key : ∀ bl2, (cpl_sql_fetch_single_value odbc stmt bl2 col fetch close hn).1
        = CPL_E_STATEMENT_ERROR
      ∨ (cpl_sql_fetch_single_value odbc stmt bl2 col fetch close hn).1 = CPL_E_NOT_FOUND
      ∨ (cpl_sql_fetch_single_value odbc stmt bl2 col fetch close hn).1 = CPL_OK
      ∨ (cpl_sql_fetch_single_value odbc stmt bl2 col fetch close hn).1 = CPL_E_DB_NULL := by
    intro bl2
    rcases (closes_cursor_of_fetched _ odbc stmt bl2 col fetch close hn _
      (fetch_single_value_spec odbc stmt bl2 col fetch close hn).2
      (fetch_single_value_closed odbc stmt bl2 col fetch close hn)).1 with h | h | h | h
    · exact Or.inr (Or.inr (Or.inl h))
    · exact Or.inl h
    · exact Or.inr (Or.inl h)
    · exact Or.inr (Or.inr (Or.inr h))
  have hstring : ClosesCursorOnError odbc stmt (ml + 1) col fetch close hn
      (cpl_sql_fetch_single_dynamically_allocated_string odbc stmt col fetch close hn ml) := by
    refine closes_cursor_of_fetched _ odbc stmt (ml + 1) col fetch close hn _
      (fetch_single_string_spec odbc stmt col fetch close hn ml).2 ?_
    have hv := fetch_single_value_closed odbc stmt (ml + 1) col fetch close hn
    have hk := key (ml + 1)
    unfold cpl_sql_fetch_single_dynamically_allocated_string
    unfold ClosedAtLabel at hv ⊢
    rcases hx : cpl_sql_fetch_single_value odbc stmt (ml + 1) col fetch close hn
      with ⟨r, d, st, o⟩
    rw [hx] at hv hk
    dsimp only at hv hk ⊢
    rcases hk with h | h | h | h <;> subst h <;> simp [CPL_IS_OK] at hv ⊢
    · exact hv
    · exact hv
  refine ⟨?_, ?_, ?_, ?_, ?_⟩
  · exact closes_cursor_of_fetched _ odbc stmt bl col fetch close hn _
      (fetch_single_value_spec odbc stmt bl col fetch close hn).2
      (fetch_single_value_closed odbc stmt bl col fetch close hn)
  · refine closes_cursor_of_fetched _ odbc stmt 0 col fetch close hn _
      (fetch_single_llong_spec odbc stmt col fetch close hn).2 ?_
    have hv := fetch_single_value_closed odbc stmt 0 col fetch close hn
    have hk := key 0
    unfold cpl_sql_fetch_single_llong
    unfold ClosedAtLabel at hv ⊢
    rcases hx : cpl_sql_fetch_single_value odbc stmt 0 col fetch close hn with ⟨r, d, st, o⟩
    rw [hx] at hv hk
    dsimp only at hv hk ⊢
    rcases hk with h | h | h | h <;> subst h <;> simp [CPL_IS_OK] at hv ⊢
    · exact hv
    · exact hv
  · refine closes_cursor_of_fetched _ odbc stmt 16 col fetch close hn _
      (fetch_single_timestamp_spec odbc stmt col fetch close hn).2 ?_
    have hv := fetch_single_value_closed odbc stmt 16 col fetch close hn
    have hk := key 16
    unfold cpl_sql_fetch_single_timestamp_as_unix_time
    unfold ClosedAtLabel at hv ⊢
    rcases hx : cpl_sql_fetch_single_value odbc stmt 16 col fetch close hn with ⟨r, d, st, o⟩
    rw [hx] at hv hk
    dsimp only at hv hk ⊢
    rcases hk with h | h | h | h <;> subst h <;> simp [CPL_IS_OK] at hv ⊢
    · exact hv
    · exact hv
  · intro hm
    unfold cpl_sql_fetch_single_dynamically_allocated_string.with_malloc
    rw [hm]
    exact hstring
  · intro hm
    unfold cpl_sql_fetch_single_dynamically_allocated_string.with_malloc
    rw [hm]
    rfl

/-- C20 at a concrete input: the driver fails the `SQLFetch` of the number primitive, which
returns a statement error; the cursor, open before the call, is closed after it. -/
theorem C20_witness :
    ClosesCursorOnError failing_driver ⟨[[Cell.int 1]], [], true⟩ 0 1 true true false
      (cpl_sql_fetch_single_llong failing_driver ⟨[[Cell.int 1]], [], true⟩ 1 true true false)
    ∧ (cpl_sql_fetch_single_llong failing_driver ⟨[[Cell.int 1]], [], true⟩ 1 true true
        false).1 = CPL_E_STATEMENT_ERROR
    ∧ (cpl_sql_fetch_single_llong failing_driver ⟨[[Cell.int 1]], [], true⟩ 1 true true
        false).2.2.1.cursor_open = false :=
  ⟨(C20_cursor_closed_on_error failing_driver ⟨[[Cell.int 1]], [], true⟩ 0 1 true true false
      0 (fun _ => true)).2.1, by decide, by decide⟩

open cpl_return_t SQLRETURN

/-! ## What `get_all_objects` delivers under its flags -/

/-- C25: `get_all_objects` honours its flags, for every store and every behaviour of the
driver.  With `CPL_I_NO_VERSION` every delivered info has the version `CPL_VERSION_NONE`
and the operation is the lock, the executes of its statement, the unlock and the plain
iteration over the buffered rows: it makes no call of `get_version` (with an iterator that
logs nothing, the log of the call holds no lock of the `get_version` mutex and no execute
of its statement).  Without it the version of every delivered info is what a successful
`get_version` for its id returned, which is the greatest version of the object in the
store when the iterator leaves the store alone.  With `CPL_I_NO_CREATION_SESSION` every
delivered info has the creation session `CPL_NONE`, and without it the session of a
version 0 of the object.  When the query has no row the iterator is not called, and on a
driver that reports no failure the result is `CPL_S_NO_DATA`. -/
theorem C25_get_all_objects_flags (H : cpl_h) (odbc : cpl_odbc_t) (flags : Int)
    (it : cpl_object_info_iterator_t) (entry : cplxx_object_info_t) :
    (Int.land flags H.CPL_I_NO_VERSION ≠ 0 →
      (∀ e ∈ (cpl_odbc_get_all_objects H odbc flags (some it) entry).2.1,
        e.version = CPL_VERSION_NONE)
      ∧ (∃ U, Unlocked odbc
            (if Int.land flags H.CPL_I_NO_CREATION_SESSION ≠ 0 then Stmt.get_all_objects_stmt
              else Stmt.get_all_objects_with_session_stmt) [] Mutex.get_all_objects_lock U
          ∧ (((cpl_odbc_get_all_objects H odbc flags (some it) entry).2.1 = []
              ∧ (cpl_odbc_get_all_objects H odbc flags (some it) entry).2.2 = U)
            ∨ ∃ buffer : List cplxx_object_info_t,
                cpl_odbc_get_all_objects H odbc flags (some it) entry
                = iterate it (buffer.map (fun i => i.info CPL_VERSION_NONE)) U))
      ∧ ((∀ c x, (it c x).2.trace = x.trace) →
          ∀ ev ∈ trace_since odbc (cpl_odbc_get_all_objects H odbc flags (some it) entry).2.2,
            ev ≠ Event.lock Mutex.get_version_lock
            ∧ ev ≠ Event.execute Stmt.get_version_stmt))
    ∧ (Int.land flags H.CPL_I_NO_VERSION = 0 →
      (∀ e ∈ (cpl_odbc_get_all_objects H odbc flags (some it) entry).2.1,
        ∃ x, CPL_IS_OK (cpl_odbc_get_version x e.id).1 = true
          ∧ (cpl_odbc_get_version x e.id).2.1 = some e.version)
      ∧ ((∀ c x, (it c x).2.db = x.db) →
          ∀ e ∈ (cpl_odbc_get_all_objects H odbc flags (some it) entry).2.1,
            ∃ m, sql_max (odbc.db.versions_of e.id) = some m ∧ e.version = c_int m))
    ∧ (Int.land flags H.CPL_I_NO_CREATION_SESSION ≠ 0 →
      ∀ e ∈ (cpl_odbc_get_all_objects H odbc flags (some it) entry).2.1,
        e.creation_session = CPL_NONE)
    ∧ (Int.land flags H.CPL_I_NO_CREATION_SESSION = 0 →
      ∀ e ∈ (cpl_odbc_get_all_objects H odbc flags (some it) entry).2.1,
        ∃ v ∈ odbc.db.version0_of e.id, e.creation_session = v.session_id)
    ∧ (get_all_objects_rows H odbc.db flags = [] →
      (cpl_odbc_get_all_objects H odbc flags (some it) entry).2.1 = []
      ∧ (odbc.script = [] →
        (cpl_odbc_get_all_objects H odbc flags (some it) entry).1 = CPL_S_NO_DATA)) := by
  -- every delivered info is made of a buffered row
  have hdel : ∀ (Q : cpl_odbc_t → Prop), Q odbc →
      (∀ a b, Advances a b → Q a → Q b) → (∀ c x, Q x → Q (it c x).2) →
      ∀ e ∈ (cpl_odbc_get_all_objects H odbc flags (some it) entry).2.1,
        ∃ i ∈ get_all_objects_buffer H odbc flags entry, ∃ x, Q x
          ∧ ((Int.land flags H.CPL_I_NO_VERSION ≠ 0 ∧ e = i.info CPL_VERSION_NONE)
            ∨ (Int.land flags H.CPL_I_NO_VERSION = 0
              ∧ CPL_IS_OK (cpl_odbc_get_version x i.id).1 = true
              ∧ e = i.info ((cpl_odbc_get_version x i.id).2.1.getD CPL_VERSION_NONE))) := by
    intro Q hQ hadvQ hitQ e he
    rcases get_all_objects_spec H odbc flags (some it) entry
      with ⟨_, hc⟩ | ⟨_, _, hc⟩ | ⟨_, o5, hadv, h⟩
    · rw [hc] at he; exact absurd he (List.not_mem_nil e)
    · rw [hc] at he; exact absurd he (List.not_mem_nil e)
    · rw [h] at he
      exact for_each_call_delivered H flags it Q hitQ
        (fun x id hx => hadvQ _ _ (get_version_spec x id).1 hx) _ o5 (hadvQ _ _ hadv hQ) e he
  refine ⟨fun hf => ⟨?_, ?_, ?_⟩, fun hf => ⟨?_, ?_⟩, ?_, ?_, ?_⟩
  · intro e he
    obtain ⟨i, _, x, _, h | h⟩ := hdel (fun _ => True) trivial (fun _ _ _ _ => trivial)
      (fun _ _ _ => trivial) e he
    · rw [h.2]; rfl
    · exact absurd h.1 hf
  · obtain ⟨U, hU, ht⟩ := (get_all_objects_finishes H flags (some it) entry).unlocked odbc
    refine ⟨U, hU, ?_⟩
    rcases ht with ht | ⟨it2, buffer, hi, ht⟩
    · exact Or.inl ht
    · cases hi
      exact Or.inr ⟨buffer, by rw [ht, for_each_call_no_version H flags it hf]⟩
  · intro hquiet ev hev
    obtain ⟨U, hU, ht⟩ := (get_all_objects_finishes H flags (some it) entry).unlocked odbc
    have htr : (cpl_odbc_get_all_objects H odbc flags (some it) entry).2.2.trace
        = U.trace := by
      rcases ht with ht | ⟨it2, buffer, hi, ht⟩
      · rw [ht.2]
      · cases hi
        rw [ht, for_each_call_no_version H flags it hf]
        exact iterate_preserves (fun a b => b.trace = a.trace) (fun _ => rfl)
          (fun _ _ _ h1 h2 => h2.trans h1) it hquiet _ U
    obtain ⟨⟨E, hE, hUt⟩, _⟩ := hU
    unfold trace_since at hev
    rw [htr, hUt, List.drop_left] at hev
    rcases List.mem_cons.mp hev with rfl | hev
    · exact ⟨by decide, fun h => Event.noConfusion h⟩
    · rcases List.mem_append.mp hev with hev | hev
      · rcases hE ev hev with rfl | rfl
        · refine ⟨fun h => Event.noConfusion h, fun h => ?_⟩
          injection h with h
          revert h
          split <;> decide
        · exact ⟨fun h => Event.noConfusion h, fun h => Event.noConfusion h⟩
      · rw [List.mem_singleton.mp hev]
        exact ⟨fun h => Event.noConfusion h, fun h => Event.noConfusion h⟩
  · intro e he
    obtain ⟨i, _, x, _, h | h⟩ := hdel (fun _ => True) trivial (fun _ _ _ _ => trivial)
      (fun _ _ _ => trivial) e he
    · exact absurd hf h.1
    · obtain ⟨m, _, hm⟩ := get_version_ok x i.id h.2.1
      refine ⟨x, ?_, ?_⟩
      · rw [h.2.2]; exact h.2.1
      · rw [h.2.2]
        show (cpl_odbc_get_version x i.id).2.1
          = some ((cpl_odbc_get_version x i.id).2.1.getD CPL_VERSION_NONE)
        rw [hm]; rfl
  · intro hdb e he
    obtain ⟨i, _, x, hx, h | h⟩ := hdel (fun x => x.db = odbc.db) rfl
      (fun a b hab ha => hab.1.trans ha) (fun c x hx => (hdb c x).trans hx) e he
    · exact absurd hf h.1
    · obtain ⟨m, hmax, hm⟩ := get_version_ok x i.id h.2.1
      refine ⟨m, ?_, ?_⟩
      · rw [h.2.2]
        show sql_max (odbc.db.versions_of i.id) = some m
        rw [← hx]; exact hmax
      · rw [h.2.2]
        show (cpl_odbc_get_version x i.id).2.1.getD CPL_VERSION_NONE = c_int m
        rw [hm]; rfl
  · intro hf e he
    obtain ⟨i, hi, x, _, h⟩ := hdel (fun _ => True) trivial (fun _ _ _ _ => trivial)
      (fun _ _ _ => trivial) e he
    have hs := get_all_objects_buffer_no_session H odbc flags entry hf i hi
    rcases h with h | h
    · rw [h.2]; exact hs
    · rw [h.2.2]; exact hs
  · intro hf e he
    obtain ⟨i, hi, x, _, h⟩ := hdel (fun _ => True) trivial (fun _ _ _ _ => trivial)
      (fun _ _ _ => trivial) e he
    have hs := get_all_objects_buffer_session H odbc flags entry hf i hi
    rcases h with h | h
    · rw [h.2]; exact hs
    · rw [h.2.2]; exact hs
  · intro hrows
    have hbuf : get_all_objects_buffer H odbc flags entry = [] := by
      unfold get_all_objects_buffer
      rw [hrows]
      rfl
    refine ⟨?_, fun hs => ?_⟩
    · rcases get_all_objects_spec H odbc flags (some it) entry
        with ⟨_, hc⟩ | ⟨_, _, hc⟩ | ⟨hne, _⟩
      · exact hc
      · exact hc
      · exact absurd hbuf hne
    · rw [get_all_objects_faultless H odbc flags (some it) entry hs, if_pos hbuf]

/-- C25 at the enumeration of three objects with both flags: three infos are delivered,
each with the version `CPL_VERSION_NONE` and the creation session `CPL_NONE`; and on the
empty database, where the query has no row, the result is `CPL_S_NO_DATA`. -/
theorem C25_witness :
    ((cpl_odbc_get_all_objects sample_header three_objects 3 (some accept_all_objects)
        sample_entry).2.1.length = 3
      ∧ ∀ e ∈ (cpl_odbc_get_all_objects sample_header three_objects 3
          (some accept_all_objects) sample_entry).2.1,
        e.version = CPL_VERSION_NONE ∧ e.creation_session = CPL_NONE)
    ∧ (cpl_odbc_get_all_objects sample_header (connected Store.empty 0) 3
        (some accept_all_objects) sample_entry).1 = CPL_S_NO_DATA :=
  ⟨⟨by decide!, fun e he =>
    ⟨((C25_get_all_objects_flags sample_header three_objects 3 accept_all_objects
        sample_entry).1 (by decide!)).1 e he,
      (C25_get_all_objects_flags sample_header three_objects 3 accept_all_objects
        sample_entry).2.2.1 (by decide!) e he⟩⟩,
    ((C25_get_all_objects_flags sample_header (connected Store.empty 0) 3 accept_all_objects
        sample_entry).2.2.2.2 (by decide!)).2 rfl⟩

end CPL
